import Mathlib

/-!
ShnooTalk IR builder and generator: a shallow embedding of `FunctionBuilder`,
`DescriptionFinder`, the monomorphizer name mangling and memoization, and the
declaration pass and the lowering of function bodies of `ir_generator`, its
scope bookkeeping, variable access and imports, the type descriptions of type
nodes, and the driver `ir_gen`.

The development follows `src/Builder/FunctionBuilder.cpp`,
`src/Builder/DescriptionFinder.cpp`, `src/irgen.cpp`, `src/main.cpp`,
`src/Generator/TypeDescriptionFromNode.cpp`,
`src/Generator/Monomorphizer/MonomorphNameMangle.cpp`,
`src/IntermediateRepresentation/DataType.cpp` and the headers under
`src/IntermediateRepresentation/`.  Stateful C++ code is rendered with explicit
state passing: every emitting operation takes the builder state and returns the
new state next to its result.  Operations that can throw (a compile error, or
`std::map::at`) or run into undefined behaviour return an `Except Failure`.

Machine integers: `unsigned int` values are natural numbers below `2^32`,
`int` values are integers in `[-2^31, 2^31)`; the conversions between the two
are written out (`toUnsigned`, `toInt`).
-/

namespace icode

/-! ## Data model -/

/-- Enumerators of `icode::DataType`, in the order of the tables of
`DataType.cpp` (`dataTypeToString`, `getDataTypeSize`). -/
inductive DataType
  | I8 | UI8 | I16 | UI16 | I32 | UI32 | I64 | UI64
  | F32 | F64 | AUTO_INT | AUTO_FLOAT | STRUCT | VOID
  deriving DecidableEq, Repr, Inhabited

/-- Enumerators of `icode::OperandType`, in the order of `operandTypeToString`
(`PrettyPrint/Strings.cpp`). -/
inductive OperandType
  | TEMP | TEMP_PTR | BYTES | STR_DATA | VAR | GBL_VAR | PTR
  | RET_VALUE | CALLEE_RET_VAL | LITERAL | LABEL | MODULE | NONE
  deriving DecidableEq, Repr, Inhabited

/-- Enumerators of `icode::Instruction` (`Entry.hpp`), followed by `EXIT`,
which `irgen.cpp` emits and this version of the header does not list. -/
inductive Instruction
  | PASS | PASS_ADDR | PASS_PTR | CALL | RET | ADDR_ADD | ADDR_MUL | EQUAL
  | PTR_ASSIGN | READ | WRITE | CREATE_PTR | ALLOC_PTR | CAST | PTR_CAST
  | UNARY_MINUS | NOT | MUL | DIV | MOD | ADD | SUB | RSH | LSH
  | LT | LTE | GT | GTE | EQ | NEQ | BWA | BWX | BWO
  | GOTO | IF_TRUE_GOTO | IF_FALSE_GOTO | CREATE_LABEL
  | PRINT | PRINT_STR | SPACE | NEWLN | INPUT | INPUT_STR | MEMCPY | EXIT
  deriving DecidableEq, Repr, Inhabited

/-- Enumerators of `icode::TypeProperties` (`TypeDescription.hpp`). -/
inductive TypeProperties
  | IS_MUT | IS_PTR | IS_PARAM | IS_GLOBAL | IS_LOCAL | IS_STRING_LTRL
  deriving DecidableEq, Repr, Inhabited

/-- Numeric value of a `TypeProperties` enumerator (its position). -/
def TypeProperties.toNat : TypeProperties → Nat
  | .IS_MUT => 0
  | .IS_PTR => 1
  | .IS_PARAM => 2
  | .IS_GLOBAL => 3
  | .IS_LOCAL => 4
  | .IS_STRING_LTRL => 5

/-- Enumerators of `icode::DimensionType` (`TypeDescription.hpp`). -/
inductive DimensionType
  | FIXED_DIM | STRING_LTRL_DIM
  deriving DecidableEq, Repr, Inhabited

/-- Conversion of an `int` to `unsigned int` (reduction modulo `2^32`). -/
def toUnsigned (i : Int) : Nat := (i % 4294967296).toNat

/-- Conversion of an `unsigned int` to `int` (two's complement wrap-around). -/
def toInt (n : Nat) : Int :=
  if n % 4294967296 < 2147483648 then ((n % 4294967296 : Nat) : Int)
  else ((n % 4294967296 : Nat) : Int) - 4294967296

/-- The struct `icode::TypeDescription` (`TypeDescription.hpp`): `dimensions`
is a `std::vector<int>`, the three sizes and `properties` are `unsigned int`. -/
structure TypeDescription where
  dtype : DataType := .VOID
  dtypeName : String := ""
  moduleName : String := ""
  dtypeSize : Nat := 0
  offset : Nat := 0
  size : Nat := 0
  dimensions : List Int := []
  dimTypes : List DimensionType := []
  properties : Nat := 0
  deriving DecidableEq, Repr, Inhabited

/-- Modelled from the spec: `TypeDescription::setProperty`, whose body
(`TypeDescription.cpp`) is not among the sources; `properties` is the bitset
of the `TypeProperties` enumerators, so setting a property sets its bit. -/
def TypeDescription.setProperty (t : TypeDescription) (prop : TypeProperties) : TypeDescription :=
  { t with properties := t.properties ||| (1 <<< prop.toNat) }

/-- Modelled from the spec: `TypeDescription::clearProperty` (body not among
the sources): clears the bit of the property. -/
def TypeDescription.clearProperty (t : TypeDescription) (prop : TypeProperties) : TypeDescription :=
  { t with properties := if t.properties.testBit prop.toNat
                         then t.properties - (1 <<< prop.toNat) else t.properties }

/-- Modelled from the spec: `TypeDescription::checkProperty` (body not among
the sources): tests the bit of the property. -/
def TypeDescription.checkProperty (t : TypeDescription) (prop : TypeProperties) : Bool :=
  t.properties.testBit prop.toNat

/-- Modelled from the spec: `TypeDescription::isMutable` (body not among the
sources): the IS_MUT property is set. -/
def TypeDescription.isMutable (t : TypeDescription) : Bool := t.checkProperty .IS_MUT

/-- Modelled from the spec: `TypeDescription::becomeMutable` (body not among
the sources): sets IS_MUT. -/
def TypeDescription.becomeMutable (t : TypeDescription) : TypeDescription := t.setProperty .IS_MUT

/-- Modelled from the spec: `TypeDescription::isPointer` (body not among the
sources): the IS_PTR property is set. -/
def TypeDescription.isPointer (t : TypeDescription) : Bool := t.checkProperty .IS_PTR

/-- Modelled from the spec: `TypeDescription::isStruct` (body not among the
sources): the data type is STRUCT. -/
def TypeDescription.isStruct (t : TypeDescription) : Bool := decide (t.dtype = .STRUCT)

/-- Modelled from the spec: `TypeDescription::isArray` (body not among the
sources): the dimension list is non-empty (an empty list is a scalar). -/
def TypeDescription.isArray (t : TypeDescription) : Bool := decide (t.dimensions ≠ [])

/-- Modelled from the spec: the record `icode::Operand` (`Operand.hpp` is not
among the sources): a tag, a DataType and, where relevant, a name, a numeric
literal, an address literal, or an id.  Floating literals are left out. -/
structure Operand where
  operandId : Nat := 0
  dtype : DataType := .VOID
  operandType : OperandType := .NONE
  name : String := ""
  integer : Int := 0
  bytes : Nat := 0
  deriving DecidableEq, Repr, Inhabited

/-- Modelled from the spec: `Operand::isPointer` (`Operand.cpp` is not among
the sources): pointer-ness is read off the tag; the pointer tags are TEMP_PTR
(pointer-typed temporary) and PTR (named pointer). -/
def Operand.isPointer (op : Operand) : Bool :=
  decide (op.operandType = .TEMP_PTR) || decide (op.operandType = .PTR)

/-- The struct `icode::Entry` (`Entry.hpp`); a default-constructed entry has
three default operands. -/
structure Entry where
  opcode : Instruction := .PASS
  op1 : Operand := {}
  op2 : Operand := {}
  op3 : Operand := {}
  deriving DecidableEq, Repr, Inhabited

/-- The pair type `Unit` used by `FunctionBuilder.cpp`: an operand (`first`)
with its type description (`second`). -/
structure Unit where
  first : Operand := {}
  second : TypeDescription := {}
  deriving DecidableEq, Repr, Inhabited

/-- Modelled from the spec: `token::tokenType` (`token.hpp` is not among the
sources): the enumerators that `irgen.cpp` names, and `NONE` for a token that
carries none of them. -/
inductive TokenType
  | NONE | IDENTIFIER | INT_LITERAL | CHAR_LITERAL | HEX_LITERAL | BIN_LITERAL | FLOAT_LITERAL
  | EQUAL | PLUS_EQUAL | MINUS_EQUAL | DIVIDE_EQUAL | MULTIPLY_EQUAL | OR_EQUAL | AND_EQUAL
  | XOR_EQUAL | NOT | CONDN_NOT | MINUS | PLUS | MULTIPLY | DIVIDE | MOD | RIGHT_SHIFT
  | LEFT_SHIFT | BITWISE_AND | BITWISE_XOR | BITWISE_OR | CONDN_AND | CONDN_OR | LESS_THAN
  | LESS_THAN_EQUAL | GREATER_THAN | GREATER_THAN_EQUAL | CONDN_EQUAL | CONDN_NOT_EQUAL
  deriving DecidableEq, Repr, Inhabited

/-- A source token: its text (`toString()`, the member `string` in
`irgen.cpp`), its position, its token type and the unescaped text of a
literal. -/
structure Token where
  string : String := ""
  line : Nat := 0
  col : Nat := 0
  type : TokenType := .NONE
  unescapedString : String := ""
  deriving DecidableEq, Repr, Inhabited

/-- The method `Token::toString`. -/
def Token.toString (t : Token) : String := t.string

/-! ## `std::map<std::string, T>` -/

/-- A `std::map` keyed by strings: the entries, kept in increasing key order
by `assign`.  Iteration order (and so `begin()`) is the key order. -/
structure StdMap (α : Type) where
  entries : List (String × α) := []
  deriving DecidableEq, Repr, Inhabited

/-- Lookup in a sorted entry list. -/
def StdMap.findIn {α : Type} : List (String × α) → String → Option α
  | [], _ => none
  | (k, v) :: rest, key => if k = key then some v else findIn rest key

/-- The lookup `find`, as an option. -/
def StdMap.find? {α : Type} (m : StdMap α) (key : String) : Option α :=
  StdMap.findIn m.entries key

/-- The order of `std::string` keys (`operator<`): lexicographic on the
characters.  (Byte-wise comparison of UTF-8 text orders code points.) -/
def stringLess : List Char → List Char → Bool
  | _, [] => false
  | [], _ :: _ => true
  | a :: as, b :: bs =>
    if a.toNat < b.toNat then true
    else if b.toNat < a.toNat then false
    else stringLess as bs

/-- Sorted insertion, replacing the value of an existing key. -/
def StdMap.insertIn {α : Type} : List (String × α) → String → α → List (String × α)
  | [], key, v => [(key, v)]
  | (k, w) :: rest, key, v =>
    if stringLess key.data k.data then (key, v) :: (k, w) :: rest
    else if key = k then (k, v) :: rest
    else (k, w) :: insertIn rest key v

/-- The assignment `m[key] = v`. -/
def StdMap.assign {α : Type} (m : StdMap α) (key : String) (v : α) : StdMap α :=
  { entries := StdMap.insertIn m.entries key v }

/-- The element `*m.begin()`: the entry with the least key, if any. -/
def StdMap.begin? {α : Type} (m : StdMap α) : Option (String × α) := m.entries.head?

/-- The read `m[key]`: the stored value, or a default-constructed one that
is inserted first. -/
def StdMap.index {α : Type} (m : StdMap α) (key : String) (dflt : α) : α × StdMap α :=
  match m.find? key with
  | some v => (v, m)
  | none => (dflt, m.assign key dflt)

/-! ## Descriptions -/

/-- Modelled from the spec: `icode::StructDescription` (`StructDescription.hpp`
is not among the sources): the field names in declaration order, the map from
field name to the field's TypeDescription (a `std::map`, indexed by name in
`irgen.cpp` and `DescriptionFinder.cpp`), the size, the module name and the
deconstructor name. -/
structure StructDescription where
  fieldNames : List String := []
  structFields : StdMap TypeDescription := {}
  size : Nat := 0
  moduleName : String := ""
  deconstructor : String := ""
  deriving DecidableEq, Repr, Inhabited

/-- Modelled from the spec: `StructDescription::getField` (body not among the
sources): looks the field up by name. -/
def StructDescription.getField (s : StructDescription) (name : String) : Option TypeDescription :=
  s.structFields.find? name

/-- Modelled from the spec: `StructDescription::fieldExists` (body not among
the sources). -/
def StructDescription.fieldExists (s : StructDescription) (name : String) : Bool :=
  (s.structFields.find? name).isSome

/-- Modelled from the spec: `icode::FunctionDescription`
(`FunctionDescription.hpp` is not among the sources): return type, parameter
names, symbol map, entry list and module name. -/
structure FunctionDescription where
  functionReturnType : TypeDescription := {}
  parameters : List String := []
  symbols : StdMap TypeDescription := {}
  icodeTable : List Entry := []
  moduleName : String := ""
  deriving DecidableEq, Repr, Inhabited

/-- A floating literal: carried from a define to an operand, never computed
with; it stands for the bits of the `float`. -/
structure FloatValue where
  bits : Nat := 0
  deriving DecidableEq, Repr, Inhabited

/-- The struct `icode::ModuleDescription` (`ModuleDescription.hpp`). -/
structure ModuleDescription where
  name : String := ""
  uses : List String := []
  structures : StdMap StructDescription := {}
  functions : StdMap FunctionDescription := {}
  enumerations : StdMap Int := {}
  intDefines : StdMap Int := {}
  floatDefines : StdMap FloatValue := {}
  stringDefines : StdMap String := {}
  globals : StdMap TypeDescription := {}
  stringsData : StdMap String := {}
  stringsDataCharCounts : StdMap Int := {}
  deriving DecidableEq, Repr, Inhabited

/-- The type `icode::StringModulesMap`. -/
abbrev StringModulesMap := StdMap ModuleDescription

/-- Ways in which a builder operation fails to return. -/
inductive Failure
  | compileError (msg : String)
  | outOfRange
  | undefinedBehaviour
  | internalBugError
  | typeError (expected found : TypeDescription)
  deriving DecidableEq, Repr, Inhabited

/-! ## Operand builder -/

/-- Modelled from the spec: the class `OperandBuilder` (`OperandBuilder.cpp`
is not among the sources): it mints the ids of temporaries, strictly
increasing within a function. -/
structure OperandBuilder where
  idCounter : Nat := 0
  deriving DecidableEq, Repr, Inhabited

/-- Modelled from the spec: `OperandBuilder::createTempOperand` (body not
among the sources): a TEMP operand of the given DataType with a fresh id. -/
def OperandBuilder.createTempOperand (b : OperandBuilder) (dtype : DataType) :
    Operand × OperandBuilder :=
  ({ operandId := b.idCounter, dtype := dtype, operandType := .TEMP },
   { idCounter := b.idCounter + 1 })

/-- Modelled from the spec: `OperandBuilder::createPointerOperand` (body not
among the sources): a TEMP_PTR operand whose DataType is the pointee's, with
a fresh id. -/
def OperandBuilder.createPointerOperand (b : OperandBuilder) (dtype : DataType) :
    Operand × OperandBuilder :=
  ({ operandId := b.idCounter, dtype := dtype, operandType := .TEMP_PTR },
   { idCounter := b.idCounter + 1 })

/-- Modelled from the spec: `OperandBuilder::createIntLiteralOperand` (body
not among the sources): a LITERAL operand of the given DataType and value. -/
def OperandBuilder.createIntLiteralOperand (b : OperandBuilder) (dtype : DataType)
    (literal : Int) : Operand × OperandBuilder :=
  ({ dtype := dtype, operandType := .LITERAL, integer := literal }, b)

/-- Modelled from the spec: `OperandBuilder::createLiteralAddressOperand`
(body not among the sources): a BYTES operand, the immediate address offset. -/
def OperandBuilder.createLiteralAddressOperand (b : OperandBuilder) (address : Nat) :
    Operand × OperandBuilder :=
  ({ operandType := .BYTES, bytes := address }, b)

/-- Modelled from the spec: `OperandBuilder::createVarOperand` (body not
among the sources): a VAR operand with the given DataType and name. -/
def OperandBuilder.createVarOperand (b : OperandBuilder) (dtype : DataType)
    (name : String) : Operand × OperandBuilder :=
  ({ dtype := dtype, operandType := .VAR, name := name }, b)

/-- Modelled from the spec: `OperandBuilder::createModuleOperand` (body not
among the sources): a MODULE operand with the given name. -/
def OperandBuilder.createModuleOperand (b : OperandBuilder) (name : String) :
    Operand × OperandBuilder :=
  ({ operandType := .MODULE, name := name }, b)

/-! ## Function builder -/

/-- The state reached through a `FunctionBuilder`: the modules map and the
operand builder it holds by reference, and the function `workingFunction`
points to. -/
structure FunctionBuilder where
  modulesMap : StringModulesMap := {}
  opBuilder : OperandBuilder := {}
  workingFunction : FunctionDescription := {}
  deriving DecidableEq, Repr, Inhabited

namespace FunctionBuilder

/-- The entry list of the working function. -/
def entries (fb : FunctionBuilder) : List Entry := fb.workingFunction.icodeTable

/-- The method `FunctionBuilder::pushEntry`. -/
def pushEntry (fb : FunctionBuilder) (entry : Entry) : FunctionBuilder :=
  { fb with workingFunction :=
      { fb.workingFunction with icodeTable := fb.workingFunction.icodeTable ++ [entry] } }

/-- The call `opBuilder.createTempOperand(dtype)` made from the builder. -/
def createTempOperand (fb : FunctionBuilder) (dtype : DataType) : Operand × FunctionBuilder :=
  ((fb.opBuilder.createTempOperand dtype).1,
   { fb with opBuilder := (fb.opBuilder.createTempOperand dtype).2 })

/-- The call `opBuilder.createPointerOperand(dtype)` made from the builder. -/
def createPointerOperand (fb : FunctionBuilder) (dtype : DataType) : Operand × FunctionBuilder :=
  ((fb.opBuilder.createPointerOperand dtype).1,
   { fb with opBuilder := (fb.opBuilder.createPointerOperand dtype).2 })

/-- The call `opBuilder.createIntLiteralOperand(dtype, literal)`. -/
def createIntLiteralOperand (fb : FunctionBuilder) (dtype : DataType) (literal : Int) :
    Operand × FunctionBuilder :=
  ((fb.opBuilder.createIntLiteralOperand dtype literal).1,
   { fb with opBuilder := (fb.opBuilder.createIntLiteralOperand dtype literal).2 })

/-- The call `opBuilder.createLiteralAddressOperand(address)`. -/
def createLiteralAddressOperand (fb : FunctionBuilder) (address : Nat) :
    Operand × FunctionBuilder :=
  ((fb.opBuilder.createLiteralAddressOperand address).1,
   { fb with opBuilder := (fb.opBuilder.createLiteralAddressOperand address).2 })

/-- The call `opBuilder.createVarOperand(dtype, name)`. -/
def createVarOperand (fb : FunctionBuilder) (dtype : DataType) (name : String) :
    Operand × FunctionBuilder :=
  ((fb.opBuilder.createVarOperand dtype name).1,
   { fb with opBuilder := (fb.opBuilder.createVarOperand dtype name).2 })

/-- The call `opBuilder.createModuleOperand(name)`. -/
def createModuleOperand (fb : FunctionBuilder) (name : String) : Operand × FunctionBuilder :=
  ((fb.opBuilder.createModuleOperand name).1,
   { fb with opBuilder := (fb.opBuilder.createModuleOperand name).2 })

/-- The method `FunctionBuilder::getCreatePointerDestinationOperand`.  The
module is passed by value: `structures[dtypeName]` on a missing struct would
insert an empty description, whose `structFields.begin()` must not be
dereferenced. -/
def getCreatePointerDestinationOperand (fb : FunctionBuilder) (op : Operand)
    (dtypeName : String) (workingModule : ModuleDescription) :
    Except Failure Operand × FunctionBuilder :=
  if op.dtype ≠ .STRUCT then
    (.ok (fb.createPointerOperand op.dtype).1, (fb.createPointerOperand op.dtype).2)
  else
    match workingModule.structures.find? dtypeName with
    | none => (.error .undefinedBehaviour, fb)
    | some structDesc =>
      match structDesc.structFields.begin? with
      | none => (.error .undefinedBehaviour, fb)
      | some firstField =>
        (.ok (fb.createPointerOperand firstField.2.dtype).1,
         (fb.createPointerOperand firstField.2.dtype).2)

/-- The method `FunctionBuilder::createPointer`. -/
def createPointer (fb : FunctionBuilder) (op : Operand) (dtypeName : String)
    (workingModule : ModuleDescription) : Except Failure Operand × FunctionBuilder :=
  if op.isPointer && decide (op.dtype ≠ .STRUCT) then (.ok op, fb)
  else
    match fb.getCreatePointerDestinationOperand op dtypeName workingModule with
    | (.error e, fb1) => (.error e, fb1)
    | (.ok pointerOperand, fb1) =>
      (.ok pointerOperand,
       fb1.pushEntry { opcode := .CREATE_PTR, op1 := pointerOperand, op2 := op })

/-- The method `FunctionBuilder::getPointerOperand`; `modulesMap.at` throws
`std::out_of_range` on a missing module. -/
def getPointerOperand (fb : FunctionBuilder) (unit : Unit) :
    Except Failure Operand × FunctionBuilder :=
  match fb.modulesMap.find? unit.second.moduleName with
  | none => (.error .outOfRange, fb)
  | some workingModule => fb.createPointer unit.first unit.second.dtypeName workingModule

/-- The literal adjustment at the head of `operandCopy` and `compareOperator`:
a LITERAL `op2` takes the DataType of `op1`. -/
def adoptLiteralDataType (op1 op2 : Operand) : Operand :=
  if op2.operandType = .LITERAL then { op2 with dtype := op1.dtype } else op2

/-- The non-recursive branch of `operandCopy`: one entry whose opcode is
chosen from the pointer-ness of the operands. -/
def pushCopyEntry (fb : FunctionBuilder) (op1 op2 : Operand) : FunctionBuilder :=
  let opcode : Instruction :=
    if op1.isPointer && !op2.isPointer then .WRITE
    else if !op1.isPointer && op2.isPointer then .READ
    else if !op1.isPointer && !op2.isPointer then .EQUAL
    else ({} : Entry).opcode
  fb.pushEntry { opcode := opcode, op1 := op1, op2 := op2 }

/-- The method `FunctionBuilder::operandCopy`, with the depth of the C++
recursion made explicit: `fuel` bounds the nesting of recursive calls, and
`none` is returned when it is exhausted. -/
def operandCopyFuel : Nat → FunctionBuilder → Operand → Operand → Option FunctionBuilder
  | 0, _, _, _ => none
  | fuel + 1, fb, op1, op2 =>
    let op2 := adoptLiteralDataType op1 op2
    if op1.isPointer && op2.isPointer then
      let temp := fb.createTempOperand op2.dtype
      match operandCopyFuel fuel temp.2 temp.1 op2 with
      | none => none
      | some fb1 => operandCopyFuel fuel fb1 op1 temp.1
    else
      some (fb.pushCopyEntry op1 op2)

/-- The method `FunctionBuilder::operandCopy`: the C++ recursion run with
room for one nested call, which always suffices (`operandCopyFuel_eq`). -/
def operandCopy (fb : FunctionBuilder) (op1 op2 : Operand) : FunctionBuilder :=
  (operandCopyFuel 2 fb op1 op2).getD fb

/-- The method `FunctionBuilder::memCopy`; `numBytes` is an `int`. -/
def memCopy (fb : FunctionBuilder) (op1 op2 : Operand) (numBytes : Int) : FunctionBuilder :=
  let lit := fb.createIntLiteralOperand .I64 numBytes
  lit.2.pushEntry { opcode := .MEMCPY, op1 := op1, op2 := op2, op3 := lit.1 }

/-- The method `FunctionBuilder::unitCopy`; the `unsigned int` size of the
source is converted to the `int` parameter of `memCopy`. -/
def unitCopy (fb : FunctionBuilder) (dest src : Unit) : Except Failure PUnit.{1} × FunctionBuilder :=
  if dest.second.isArray || dest.second.isStruct then
    match fb.getPointerOperand dest with
    | (.error e, fb1) => (.error e, fb1)
    | (.ok destPointer, fb1) =>
      match fb1.getPointerOperand src with
      | (.error e, fb2) => (.error e, fb2)
      | (.ok srcPointer, fb2) =>
        (.ok ⟨⟩, fb2.memCopy destPointer srcPointer (toInt src.second.size))
  else
    (.ok ⟨⟩, fb.operandCopy dest.first src.first)

/-- The method `FunctionBuilder::ensureNotPointer`. -/
def ensureNotPointer (fb : FunctionBuilder) (op : Operand) : Operand × FunctionBuilder :=
  if !op.isPointer then (op, fb)
  else
    let temp := fb.createTempOperand op.dtype
    (temp.1, temp.2.operandCopy temp.1 op)

/-- The method `FunctionBuilder::pushEntryAndEnsureNoPointerWrite`. -/
def pushEntryAndEnsureNoPointerWrite (fb : FunctionBuilder) (entry : Entry) :
    Operand × FunctionBuilder :=
  if !entry.op1.isPointer then (entry.op1, fb.pushEntry entry)
  else
    let pointerOperand := entry.op1
    let temp := fb.createTempOperand pointerOperand.dtype
    let fb1 := temp.2.pushEntry { entry with op1 := temp.1 }
    (temp.1, fb1.pushEntry { opcode := .WRITE, op1 := pointerOperand, op2 := temp.1 })

/-- The method `FunctionBuilder::binaryOperator`. -/
def binaryOperator (fb : FunctionBuilder) (instruction : Instruction) (LHS RHS : Unit) :
    Unit × FunctionBuilder :=
  let dtype := LHS.second.dtype
  let op1 := fb.createTempOperand dtype
  let op2 := op1.2.ensureNotPointer LHS.first
  let op3 := op2.2.ensureNotPointer RHS.first
  let result := op3.2.pushEntryAndEnsureNoPointerWrite
    { opcode := instruction, op1 := op1.1, op2 := op2.1, op3 := op3.1 }
  ({ first := result.1, second := LHS.second }, result.2)

/-- The method `FunctionBuilder::addressAddOperator`. -/
def addressAddOperator (fb : FunctionBuilder) (op2 op3 : Operand) : Operand × FunctionBuilder :=
  let op1 := fb.createPointerOperand op2.dtype
  (op1.1, op1.2.pushEntry { opcode := .ADDR_ADD, op1 := op1.1, op2 := op2, op3 := op3 })

/-- The method `FunctionBuilder::addressMultiplyOperator`. -/
def addressMultiplyOperator (fb : FunctionBuilder) (op2 op3 : Operand) :
    Operand × FunctionBuilder :=
  let op1 := fb.createPointerOperand .VOID
  let op2n := op1.2.ensureNotPointer op2
  (op1.1, op2n.2.pushEntry { opcode := .ADDR_MUL, op1 := op1.1, op2 := op2n.1, op3 := op3 })

/-- The method `FunctionBuilder::passParameter`. -/
def passParameter (fb : FunctionBuilder) (calleeNameToken : Token)
    (callee : FunctionDescription) (formalParam actualParam : Unit) : FunctionBuilder :=
  let functionDataType := callee.functionReturnType.dtype
  let byValue :=
    !(formalParam.second.isMutable || formalParam.second.isStruct || formalParam.second.isArray)
  let op1 := if byValue then fb.ensureNotPointer actualParam.first else (actualParam.first, fb)
  let opcode : Instruction := if byValue then .PASS else .PASS_ADDR
  let op2 := op1.2.createVarOperand functionDataType calleeNameToken.toString
  let op3 := op2.2.createModuleOperand callee.moduleName
  op3.2.pushEntry { opcode := opcode, op1 := op1.1, op2 := op2.1, op3 := op3.1 }

/-- The read `modulesMap[moduleName].structures[dtypeName]` at the head of
`getStructField`: both `operator[]` insert a default-constructed value when
the key is missing; the modules map after the read is returned as well. -/
def structureAt (modulesMap : StringModulesMap) (moduleName dtypeName : String) :
    StructDescription × StringModulesMap :=
  let md := modulesMap.index moduleName {}
  match md.1.structures.find? dtypeName with
  | some structDescription => (structDescription, md.2)
  | none =>
    ({}, md.2.assign moduleName { md.1 with structures := md.1.structures.assign dtypeName {} })

/-- The method `FunctionBuilder::getStructField`; `compileErrorOnToken` leaves
through an exception. -/
def getStructField (fb : FunctionBuilder) (fieldName : Token) (unit : Unit) :
    Except Failure Unit × FunctionBuilder :=
  let sd := structureAt fb.modulesMap unit.second.moduleName unit.second.dtypeName
  let fb0 : FunctionBuilder := { fb with modulesMap := sd.2 }
  match sd.1.getField fieldName.toString with
  | none => (.error (.compileError "Undefined STRUCT field"), fb0)
  | some storedField =>
    let fieldType := if unit.second.isMutable then storedField.becomeMutable else storedField
    match fb0.getPointerOperand unit with
    | (.error e, fb1) => (.error e, fb1)
    | (.ok pointerOperand, fb1) =>
      let offsetLiteral := fb1.createLiteralAddressOperand fieldType.offset
      let fieldOperand := offsetLiteral.2.addressAddOperator pointerOperand offsetLiteral.1
      (.ok { first := { fieldOperand.1 with dtype := fieldType.dtype }, second := fieldType },
       fieldOperand.2)

/-- The update of `elementWidth` in the loop of `getIndexedElement`: unless
`dimensionCount + 1` is the number of dimensions, the width is divided by
`dimensions[dimensionCount + 1]`, converted to `unsigned int`.  Reading the
vector out of bounds and dividing by zero are undefined. -/
def nextElementWidth (dimensions : List Int) (dimensionCount elementWidth : Nat) :
    Except Failure Nat :=
  if dimensionCount + 1 ≠ dimensions.length then
    match dimensions.get? (dimensionCount + 1) with
    | none => .error .undefinedBehaviour
    | some d =>
      if toUnsigned d = 0 then .error .undefinedBehaviour
      else .ok (elementWidth / toUnsigned d)
  else .ok elementWidth

/-- The loop of `FunctionBuilder::getIndexedElement` over the indices, from
the loop state `(dimensionCount, elementWidth, elementOperand)`; it returns
the final `dimensionCount` and `elementOperand`. -/
def indexLoop (dimensions : List Int) :
    List Unit → Nat → Nat → Operand → FunctionBuilder →
      Except Failure (Nat × Operand) × FunctionBuilder
  | [], dimensionCount, _, elementOperand, fb => (.ok (dimensionCount, elementOperand), fb)
  | indexUnit :: rest, dimensionCount, elementWidth, elementOperand, fb =>
    let widthLiteral := fb.createLiteralAddressOperand elementWidth
    let subscriptOperand := widthLiteral.2.addressMultiplyOperator indexUnit.first widthLiteral.1
    match nextElementWidth dimensions dimensionCount elementWidth with
    | .error e => (.error e, subscriptOperand.2)
    | .ok newWidth =>
      let newElement := subscriptOperand.2.addressAddOperator elementOperand subscriptOperand.1
      indexLoop dimensions rest (dimensionCount + 1) newWidth newElement.1 newElement.2

/-- The method `FunctionBuilder::getIndexedElement`.  `dimensions[0]` is read
and divided by before anything is emitted; the erase at the end removes the
dimensions before the last `remainingDimensionCount` ones. -/
def getIndexedElement (fb : FunctionBuilder) (unit : Unit) (indices : List Unit) :
    Except Failure Unit × FunctionBuilder :=
  match unit.second.dimensions.head? with
  | none => (.error .undefinedBehaviour, fb)
  | some d0 =>
    if toUnsigned d0 = 0 then (.error .undefinedBehaviour, fb)
    else
      let elementWidth := unit.second.size / toUnsigned d0
      match fb.getPointerOperand unit with
      | (.error e, fb1) => (.error e, fb1)
      | (.ok elementOperand, fb1) =>
        match indexLoop unit.second.dimensions indices 0 elementWidth elementOperand fb1 with
        | (.error e, fb2) => (.error e, fb2)
        | (.ok (dimensionCount, finalOperand), fb2) =>
          let remainingDimensionCount := unit.second.dimensions.length - dimensionCount
          let elementType : TypeDescription :=
            { unit.second with
                dimensions := unit.second.dimensions.drop
                  (unit.second.dimensions.length - remainingDimensionCount) }
          (.ok { first := finalOperand, second := elementType }, fb2)

end FunctionBuilder

/-- The layout step of the field loop of `ir_generator::structure`
(`irgen.cpp`): the field is marked IS_MUT, placed at the running size of the
struct, and stored under its name; the size of the struct grows by the size
of the field, in `unsigned int` arithmetic. -/
def structureAddField (structDesc : StructDescription) (name : String)
    (field : TypeDescription) : StructDescription :=
  let var := field.setProperty .IS_MUT
  { structDesc with
      size := (structDesc.size + var.size) % 4294967296,
      structFields := structDesc.structFields.assign name { var with offset := structDesc.size } }

/-! ## Descriptions used in the statements -/

namespace FunctionBuilder

/-- The entries that `ensureNotPointer` appends for an operand: one READ into
the temporary with the given id for a pointer, none otherwise. -/
def readEntries (id : Nat) (op : Operand) : List Entry :=
  if op.isPointer then
    [{ opcode := .READ,
       op1 := { operandId := id, dtype := op.dtype, operandType := .TEMP }, op2 := op }]
  else []

/-- The operand that stands for `op` after `ensureNotPointer`: the temporary
with the given id for a pointer, the operand itself otherwise. -/
def valueOperand (id : Nat) (op : Operand) : Operand :=
  if op.isPointer then { operandId := id, dtype := op.dtype, operandType := .TEMP } else op

/-- The number of ids `ensureNotPointer` takes for an operand. -/
def idsTaken (op : Operand) : Nat := if op.isPointer then 1 else 0

/-- The product of a list of dimensions (each taken as a natural number). -/
def dimensionProduct (dims : List Int) : Nat := (dims.map Int.toNat).prod

/-- The address literal of a byte count. -/
def addressLiteral (n : Nat) : Operand := { operandType := .BYTES, bytes := n }

/-- Row-major indexing as the specification words it, from dimension `j` on:
for each index, the READ of a pointer index (if any), an ADDR_MUL of the index
by the address literal `w * d(j+1) * ... * d(n-1)`, and an ADDR_ADD of that
product to the pointer of the previous step.  `id` is the next free operand
id; the pointer reached last is returned with the entries. -/
def rowMajorEntries (w : Nat) (dims : List Int) :
    Nat → List Unit → Operand → Nat → List Entry × Operand
  | _, [], pointer, _ => ([], pointer)
  | j, indexUnit :: rest, pointer, id =>
    let product : Operand := { operandId := id, dtype := .VOID, operandType := .TEMP_PTR }
    let next : Operand :=
      { operandId := id + 1 + idsTaken indexUnit.first, dtype := pointer.dtype,
        operandType := .TEMP_PTR }
    let tail := rowMajorEntries w dims (j + 1) rest next (id + 1 + idsTaken indexUnit.first + 1)
    (readEntries (id + 1) indexUnit.first
      ++ { opcode := .ADDR_MUL, op1 := product,
           op2 := valueOperand (id + 1) indexUnit.first,
           op3 := addressLiteral (w * dimensionProduct (dims.drop (j + 1))) }
      :: { opcode := .ADDR_ADD, op1 := next, op2 := pointer, op3 := product }
      :: tail.1,
     tail.2)

/-- The test `entry.opcode == op`. -/
def hasOpcode (op : Instruction) (e : Entry) : Bool := decide (e.opcode = op)

end FunctionBuilder

/-! ## A worked example -/

/-- The description built by the field loop of `ir_generator::structure` for
`struct Pair { b: int; a: float }` in module `m`: `b` is declared first and
lies at offset 0, `a` lies at offset 4.  The field names are listed in
declaration order. -/
def examplePair : StructDescription :=
  structureAddField
    (structureAddField { fieldNames := ["b", "a"], moduleName := "m" } "b"
      { dtype := .I32, dtypeName := "int", moduleName := "m", dtypeSize := 4, size := 4 })
    "a" { dtype := .F32, dtypeName := "float", moduleName := "m", dtypeSize := 4, size := 4 }

/-- A modules map with the single module `m`, which declares `Pair`. -/
def exampleModules : StringModulesMap :=
  { entries := [("m", { name := "m", structures := { entries := [("Pair", examplePair)] } })] }

/-- A builder over `exampleModules` with an empty working function. -/
def exampleBuilder : FunctionBuilder := { modulesMap := exampleModules }

/-- The Unit of an immutable local `p` of type `Pair`, its operand typed
STRUCT. -/
def examplePairUnit : Unit :=
  { first := { dtype := .STRUCT, operandType := .VAR, name := "p" },
    second := { dtype := .STRUCT, dtypeName := "Pair", moduleName := "m", dtypeSize := 8,
                size := 8 } }

/-- The Unit of a local `a` of type `int[2][3]`. -/
def exampleArrayUnit : Unit :=
  { first := { dtype := .I32, operandType := .VAR, name := "a" },
    second := { dtype := .I32, dtypeName := "int", moduleName := "m", dtypeSize := 4,
                size := 24, dimensions := [2, 3] } }

/-- The Unit of a local of type `short[1073741824]`, an array of `2^31`
bytes. -/
def exampleHugeArrayUnit (name : String) : Unit :=
  { first := { dtype := .I16, operandType := .VAR, name := name },
    second := { dtype := .I16, dtypeName := "short", moduleName := "m", dtypeSize := 2,
                size := 2147483648, dimensions := [1073741824] } }

/-- The Unit of an integer literal used as an index. -/
def exampleIndex (n : Int) : Unit :=
  { first := { dtype := .AUTO_INT, operandType := .LITERAL, integer := n },
    second := { dtype := .AUTO_INT, dtypeName := "int", dtypeSize := 8, size := 8 } }

/-! ## Data types (`DataType.cpp`) -/

/-- The function `icode::isSignedInteger`. -/
def isSignedInteger (dtype : DataType) : Bool :=
  decide (dtype = .I8) || decide (dtype = .I16) || decide (dtype = .I32)
    || decide (dtype = .I64) || decide (dtype = .AUTO_INT)

/-- The function `icode::isUnsignedInteger`. -/
def isUnsignedInteger (dtype : DataType) : Bool :=
  decide (dtype = .UI8) || decide (dtype = .UI16) || decide (dtype = .UI32)
    || decide (dtype = .UI64)

/-- The function `icode::isInteger`. -/
def isInteger (dtype : DataType) : Bool := isSignedInteger dtype || isUnsignedInteger dtype

/-- The function `icode::isFloat`. -/
def isFloat (dtype : DataType) : Bool :=
  decide (dtype = .F32) || decide (dtype = .F64) || decide (dtype = .AUTO_FLOAT)

/-- The function `icode::dataTypeIsEqual`. -/
def dataTypeIsEqual (dtype1 dtype2 : DataType) : Bool :=
  decide (dtype1 = dtype2) || (decide (dtype1 = .AUTO_INT) && isInteger dtype2)
    || (isInteger dtype1 && decide (dtype2 = .AUTO_INT))
    || (decide (dtype1 = .AUTO_FLOAT) && isFloat dtype2)
    || (isFloat dtype1 && decide (dtype2 = .AUTO_FLOAT))

/-- The concrete data types: every DataType but the two literal placeholders
AUTO_INT and AUTO_FLOAT. -/
def isConcrete (dtype : DataType) : Bool :=
  !(decide (dtype = .AUTO_INT) || decide (dtype = .AUTO_FLOAT))

/-! ## Function descriptions -/

/-- Modelled from the spec: `FunctionDescription::isVoid` (body not among the
sources): the return DataType is VOID. -/
def FunctionDescription.isVoid (f : FunctionDescription) : Bool :=
  decide (f.functionReturnType.dtype = .VOID)

/-- Modelled from the spec: `FunctionDescription::symbolExists` (body not
among the sources): the name is a key of the symbol map. -/
def FunctionDescription.symbolExists (f : FunctionDescription) (name : String) : Bool :=
  (f.symbols.find? name).isSome

/-- Modelled from the spec: `FunctionDescription::getSymbol` (body not among
the sources): the TypeDescription stored under the name, if any. -/
def FunctionDescription.getSymbol (f : FunctionDescription) (name : String) :
    Option TypeDescription :=
  f.symbols.find? name

namespace FunctionBuilder

/-- The method `FunctionBuilder::noArgumentEntry`. -/
def noArgumentEntry (fb : FunctionBuilder) (instruction : Instruction) : FunctionBuilder :=
  fb.pushEntry { opcode := instruction }

/-- The method `FunctionBuilder::doesFunctionTerminate`. -/
def doesFunctionTerminate (fb : FunctionBuilder) : Bool :=
  match fb.workingFunction.icodeTable.getLast? with
  | none => false
  | some lastEntry => decide (lastEntry.opcode = .RET)

/-- The method `FunctionBuilder::terminateFunction`. -/
def terminateFunction (fb : FunctionBuilder) : Bool × FunctionBuilder :=
  if fb.doesFunctionTerminate then (true, fb)
  else if !fb.workingFunction.isVoid then (false, fb)
  else (true, fb.noArgumentEntry .RET)

/-- An entry list ends with RET: it is not empty and the opcode of its last
entry is RET. -/
def endsWithRet (entries : List Entry) : Prop :=
  ∃ lastEntry, entries.getLast? = some lastEntry ∧ lastEntry.opcode = .RET

end FunctionBuilder

/-! ## Unit builder -/

/-- The class `UnitBuilder`, whose source is not among the sources, taken as
a parameter: each of its methods makes a Unit, possibly taking operand ids
from the operand builder it shares with the function builder. -/
structure UnitBuilder where
  unitFromTypeDescription : OperandBuilder → TypeDescription → String → Unit × OperandBuilder
  unitFromEnum : OperandBuilder → Int → Unit × OperandBuilder
  unitFromIntLiteral : OperandBuilder → Int → Unit × OperandBuilder
  unitFromFloatLiteral : OperandBuilder → FloatValue → Unit × OperandBuilder
  unitFromStringDataKey : OperandBuilder → String → Unit × OperandBuilder

namespace FunctionBuilder

/-- The method `FunctionBuilder::createLocal`.  The TypeDescription is passed
by reference and receives IS_LOCAL; its value after the call is the third
component of the result. -/
def createLocal (unitBuilder : UnitBuilder) (fb : FunctionBuilder) (nameToken : Token)
    (typeDescription : TypeDescription) :
    Except Failure Unit × FunctionBuilder × TypeDescription :=
  if fb.workingFunction.symbolExists nameToken.toString then
    (.error (.compileError "Symbol already defined"), fb, typeDescription)
  else
    let localType := typeDescription.setProperty .IS_LOCAL
    let fb1 : FunctionBuilder :=
      { fb with workingFunction :=
          { fb.workingFunction with
              symbols := fb.workingFunction.symbols.assign nameToken.toString localType } }
    let unit := unitBuilder.unitFromTypeDescription fb1.opBuilder localType nameToken.toString
    (.ok unit.1, { fb1 with opBuilder := unit.2 }, localType)

end FunctionBuilder

/-! ## Instantiation names (`MonomorphNameMangle.cpp`) -/

/-- The function `dimensionToString`; `std::to_string` of an `int` is its
decimal representation. -/
def dimensionToString (dimensions : List Int) : String :=
  dimensions.foldl (fun result dim => result ++ toString dim) ""

/-- The function `instantiationStringFromType`; `mangleModuleName`
(`NameMangle.cpp`, not among the sources) is a parameter. -/
def instantiationStringFromType (mangleModuleName : String → String)
    (typeDescription : TypeDescription) : String :=
  let result := mangleModuleName typeDescription.moduleName ++ "_" ++ typeDescription.dtypeName
  let result :=
    if typeDescription.isArray then
      result ++ "_array" ++ dimensionToString typeDescription.dimensions
    else result
  if typeDescription.isPointer then result ++ "_ptr" else result

/-- The function `constructInstantiationSuffix`. -/
def constructInstantiationSuffix (mangleModuleName : String → String)
    (types : List TypeDescription) : String :=
  types.foldl
    (fun result type => result ++ ("_" ++ instantiationStringFromType mangleModuleName type)) ""

/-- The concatenation of a list of strings. -/
def concatStrings : List String → String
  | [] => ""
  | s :: rest => s ++ concatStrings rest

/-- The strings of a list joined with a separator between consecutive ones
(none before the first or after the last). -/
def joinWith (separator : String) : List String → String
  | [] => ""
  | [s] => s
  | s :: t :: rest => s ++ separator ++ joinWith separator (t :: rest)

/-- The function `getInstantiatedStructName`. -/
def getInstantiatedStructName (instantiationSuffix : String) (nameToken : Token) : String :=
  nameToken.toString ++ "_" ++ instantiationSuffix

/-- The function `getInstantiatedModuleName`. -/
def getInstantiatedModuleName (instantiationSuffix genericModuleName : String) : String :=
  genericModuleName ++ "_" ++ instantiationSuffix

/-! ## Description finder (`DescriptionFinder.cpp`) -/

/-- Modelled from the spec: `ModuleDescription::getGlobal` (body not among the
sources): the TypeDescription stored under the name, if any. -/
def ModuleDescription.getGlobal (m : ModuleDescription) (name : String) :
    Option TypeDescription := m.globals.find? name

/-- Modelled from the spec: `ModuleDescription::getEnum` (body not among the
sources). -/
def ModuleDescription.getEnum (m : ModuleDescription) (name : String) : Option Int :=
  m.enumerations.find? name

/-- Modelled from the spec: `ModuleDescription::getIntDefine` (body not among
the sources). -/
def ModuleDescription.getIntDefine (m : ModuleDescription) (name : String) : Option Int :=
  m.intDefines.find? name

/-- Modelled from the spec: `ModuleDescription::getFloatDefine` (body not
among the sources). -/
def ModuleDescription.getFloatDefine (m : ModuleDescription) (name : String) :
    Option FloatValue := m.floatDefines.find? name

/-- Modelled from the spec: `ModuleDescription::getStringDefine` (body not
among the sources). -/
def ModuleDescription.getStringDefine (m : ModuleDescription) (name : String) :
    Option String := m.stringDefines.find? name

/-- What a `Finder` reaches: the root module, the working module and the
working function, the operand builder of its unit builder, and the two
collaborators whose sources are not among the sources, the unit builder and
`nameMangle`, as parameters. -/
structure Finder where
  rootModule : ModuleDescription
  workingModule : ModuleDescription
  workingFunction : FunctionDescription
  opBuilder : OperandBuilder
  unitBuilder : UnitBuilder
  nameMangle : Token → String → String

namespace Finder

/-- The method `Finder::getLocal`: the Unit, if the lookup succeeds. -/
def getLocal (f : Finder) (nameToken : Token) : Option (Unit × OperandBuilder) :=
  match f.workingFunction.getSymbol nameToken.toString with
  | none => none
  | some typeDescription =>
    some (f.unitBuilder.unitFromTypeDescription f.opBuilder typeDescription nameToken.toString)

/-- The method `Finder::getGlobal`. -/
def getGlobal (f : Finder) (nameToken : Token) : Option (Unit × OperandBuilder) :=
  let mangledGlobalName := f.nameMangle nameToken f.rootModule.name
  match f.rootModule.getGlobal mangledGlobalName with
  | none => none
  | some typeDescription =>
    some (f.unitBuilder.unitFromTypeDescription f.opBuilder typeDescription mangledGlobalName)

/-- The method `Finder::getEnum`. -/
def getEnum (f : Finder) (nameToken : Token) : Option (Unit × OperandBuilder) :=
  match f.workingModule.getEnum nameToken.toString with
  | some enumDescription => some (f.unitBuilder.unitFromEnum f.opBuilder enumDescription)
  | none =>
    match f.rootModule.getEnum nameToken.toString with
    | some enumDescription => some (f.unitBuilder.unitFromEnum f.opBuilder enumDescription)
    | none => none

/-- The method `Finder::getIntDefine`. -/
def getIntDefine (f : Finder) (nameToken : Token) : Option (Unit × OperandBuilder) :=
  match f.workingModule.getIntDefine nameToken.toString with
  | some defineValue => some (f.unitBuilder.unitFromIntLiteral f.opBuilder defineValue)
  | none =>
    match f.rootModule.getIntDefine nameToken.toString with
    | some defineValue => some (f.unitBuilder.unitFromIntLiteral f.opBuilder defineValue)
    | none => none

/-- The method `Finder::getFloatDefine`. -/
def getFloatDefine (f : Finder) (nameToken : Token) : Option (Unit × OperandBuilder) :=
  match f.workingModule.getFloatDefine nameToken.toString with
  | some defineValue => some (f.unitBuilder.unitFromFloatLiteral f.opBuilder defineValue)
  | none =>
    match f.rootModule.getFloatDefine nameToken.toString with
    | some defineValue => some (f.unitBuilder.unitFromFloatLiteral f.opBuilder defineValue)
    | none => none

/-- The method `Finder::getStringDefine`. -/
def getStringDefine (f : Finder) (nameToken : Token) : Option (Unit × OperandBuilder) :=
  match f.workingModule.getStringDefine nameToken.toString with
  | some defineValue => some (f.unitBuilder.unitFromStringDataKey f.opBuilder defineValue)
  | none =>
    match f.rootModule.getStringDefine nameToken.toString with
    | some defineValue => some (f.unitBuilder.unitFromStringDataKey f.opBuilder defineValue)
    | none => none

/-- The method `Finder::getUnitFromToken`: the Unit with the operand builder
after it was made, or the compile error. -/
def getUnitFromToken (f : Finder) (nameToken : Token) : Except Failure (Unit × OperandBuilder) :=
  match f.getLocal nameToken with
  | some unit => .ok unit
  | none =>
    match f.getGlobal nameToken with
    | some unit => .ok unit
    | none =>
      match f.getEnum nameToken with
      | some unit => .ok unit
      | none =>
        match f.getIntDefine nameToken with
        | some unit => .ok unit
        | none =>
          match f.getFloatDefine nameToken with
          | some unit => .ok unit
          | none =>
            match f.getStringDefine nameToken with
            | some unit => .ok unit
            | none => .error (.compileError "Symbol does not exist")

/-- The first hit of a name in two tables, the working module's before the
root module's. -/
def workingThenRoot {α : Type} (working root : Option α) : Option α :=
  match working with
  | some v => some v
  | none => root

end Finder

/-- A unit builder for examples: every Unit is a VAR or LITERAL operand that
records what it was made from; no operand id is taken. -/
def exampleUnitBuilder : UnitBuilder :=
  { unitFromTypeDescription := fun b t name =>
      ({ first := { dtype := t.dtype, operandType := .VAR, name := name }, second := t }, b),
    unitFromEnum := fun b v =>
      ({ first := { dtype := .I32, operandType := .LITERAL, integer := v },
         second := { dtype := .I32 } }, b),
    unitFromIntLiteral := fun b v =>
      ({ first := { dtype := .AUTO_INT, operandType := .LITERAL, integer := v },
         second := { dtype := .AUTO_INT } }, b),
    unitFromFloatLiteral := fun b _ =>
      ({ first := { dtype := .AUTO_FLOAT, operandType := .LITERAL },
         second := { dtype := .AUTO_FLOAT } }, b),
    unitFromStringDataKey := fun b key =>
      ({ first := { dtype := .UI8, operandType := .STR_DATA, name := key },
         second := { dtype := .UI8 } }, b) }

/-- A finder for examples: `x` is a local of the working function, an enum of
the working module and an int define of the root module; `y` is only the int
define 5 of the root module. -/
def exampleFinder : Finder :=
  { rootModule := { name := "root", intDefines := { entries := [("x", 3), ("y", 5)] } },
    workingModule := { name := "m", enumerations := { entries := [("x", 1)] } },
    workingFunction := { symbols := { entries := [("x", { dtype := .I32 })] } },
    opBuilder := {},
    unitBuilder := exampleUnitBuilder,
    nameMangle := fun tok moduleName => "_fn_" ++ moduleName ++ "_" ++ tok.toString }

/-! ## The syntax tree -/

/-- Enumerators of `node::NodeType` (`Node/Node.hpp`), followed by the
enumerators that `irgen.cpp` and `TypeDescriptionFromNode.cpp` name and this
version of the header does not list. -/
inductive NodeType
  | PROGRAM | USE | GENERIC | FROM | BLOCK | MODULE | FUNCTION | EXTERN_FUNCTION
  | STRUCT | ENUM | DEF | VAR | CONST | IF | ELSEIF | ELSE | WHILE | DO_WHILE
  | FOR | LOOP | CAST | PTR_CAST | PTR_ARRAY_CAST | BREAK | CONTINUE | ASSIGNMENT
  | RETURN | FUNCCALL | METHODCALL | PARAM | MUT_PARAM | EXPRESSION | STR_LITERAL
  | MULTILINE_STR_LITERAL | LITERAL | IDENTIFIER | ASSIGN_OPERATOR | OPERATOR
  | UNARY_OPR | SUBSCRIPT | POINTER_STAR | EMPTY_SUBSCRIPT | STRUCT_FIELD
  | INITLIST | TERM | SIZEOF | TYPEOF | PRINT | PRINTLN | SPACE | INPUT
  | ASSIGNMENT_STR | ASSIGNMENT_INITLIST | EXIT | STRUCT_VAR | STRUCT_FUNCCALL
  | GENERIC_TYPE_PARAM
  deriving DecidableEq, Repr, Inhabited

/-- The struct `Node` (`Node/Node.hpp`): a node type, a token and the child
nodes. -/
inductive Node where
  | mk (type : NodeType) (tok : Token) (children : List Node)

/-- The member `type` of a node. -/
def Node.type : Node → NodeType
  | .mk type _ _ => type

/-- The member `tok` of a node. -/
def Node.tok : Node → Token
  | .mk _ tok _ => tok

/-- The member `children` of a node. -/
def Node.children : Node → List Node
  | .mk _ _ children => children

/-! ## The IR generator (`irgen.cpp`) -/

/-- Modelled from the spec: `ModuleDescription::symbolExists`
(`ModuleDescription.cpp` is not among the sources): duplicate-symbol detection
spans all categories of the module: imports, structs, functions, enums,
defines and globals. -/
def ModuleDescription.symbolExists (m : ModuleDescription) (name : String) : Bool :=
  decide (name ∈ m.uses) || (m.structures.find? name).isSome || (m.functions.find? name).isSome
    || (m.enumerations.find? name).isSome || (m.intDefines.find? name).isSome
    || (m.floatDefines.find? name).isSome || (m.stringDefines.find? name).isSome
    || (m.globals.find? name).isSome

/-- The state of `irgen::ir_generator` that `program` and the declaration
handlers work on: the module being compiled, `current_func_desc` (a pointer to
an element of `module.functions`, held here as the key of that element;
`none` is the null pointer), the scope bookkeeping, the map of the imported
modules with `current_ext_module` (a pointer to the module being compiled,
here `none`, or to an element of `ext_modules_map`, held as its key) and the
id counter of the builder.  Where `irgen.cpp`
writes `VariableDescription` and `functionReturnDescription`, the records are
`TypeDescription` and `functionReturnType`, the names of the same members in
the builder sources. -/
structure ir_generator where
  module : ModuleDescription := {}
  current_func_desc : Option String := none
  scope_id_counter : Nat := 0
  scope_id_stack : List Nat := []
  ext_modules_map : StringModulesMap := {}
  current_ext_module : Option String := none
  id_counter : Nat := 0
  deriving DecidableEq, Repr, Inhabited

namespace ir_generator

/-- The members of `ir_generator` that are taken as given: `var_from_node`
(it forwards to `variableDescriptionFromNode`, which is not among the
sources), the declaration handlers `from`, `enumeration` and `def`, and the
statement lowering `block`, which appends the entries of a function body. -/
structure Handlers where
  var_from_node : ir_generator → Node → Except Failure (Token × TypeDescription)
  from_ : Node → ir_generator → Except Failure ir_generator
  enumeration : Node → ir_generator → Except Failure ir_generator
  def_ : Node → ir_generator → Except Failure ir_generator
  block : Node → Bool → Operand → Operand → Operand → ir_generator →
    Except Failure ir_generator

/-- The method `ir_generator::clear_scope`. -/
def clear_scope (g : ir_generator) : ir_generator :=
  { g with scope_id_counter := 0, scope_id_stack := [0] }

/-- The object `*current_func_desc`, if the pointer refers to an element of
`module.functions`. -/
def current_function (g : ir_generator) : Option FunctionDescription :=
  g.current_func_desc.bind g.module.functions.find?

/-- The field loop of `ir_generator::structure`: each field is read with
`var_from_node`, rejected if its name is already a field or a symbol of the
module, and otherwise laid out at the running size. -/
def structureFields (h : Handlers) (g : ir_generator) :
    List Node → StructDescription → Except Failure StructDescription
  | [], struct_desc => .ok struct_desc
  | field :: rest, struct_desc =>
    match h.var_from_node g field with
    | .error e => .error e
    | .ok var =>
      if struct_desc.fieldExists var.1.string then
        .error (.compileError "Field already defined")
      else if g.module.symbolExists var.1.string then
        .error (.compileError "Symbol already defined")
      else
        structureFields h g rest
          { (structureAddField struct_desc var.1.string var.2) with moduleName := g.module.name }

/-- The method `ir_generator::structure`.  (Reading `root.children[0]` of a
node without children is undefined.) -/
def structure_ (h : Handlers) (root : Node) (g : ir_generator) : Except Failure ir_generator :=
  match root.children with
  | [] => .error .undefinedBehaviour
  | first :: _ =>
    if g.module.symbolExists first.tok.string then
      .error (.compileError "Symbol already defined")
    else
      match structureFields h g first.children { size := 0 } with
      | .error e => .error e
      | .ok struct_desc =>
        .ok { g with module :=
          { g.module with structures := g.module.structures.assign first.tok.string struct_desc } }

/-- The parameter loop of `ir_generator::fn`: it runs over `root.children[i]`
for i = 1, 2, ... until a child that is neither PARAM nor MUT_PARAM, and
reads past the end of the vector if there is none. -/
def fnParameters (h : Handlers) (g : ir_generator) :
    List Node → FunctionDescription → Except Failure FunctionDescription
  | [], _ => .error .undefinedBehaviour
  | child :: rest, func_desc =>
    if child.type = .PARAM ∨ child.type = .MUT_PARAM then
      match h.var_from_node g child with
      | .error e => .error e
      | .ok param_var =>
        let mut_ := decide (child.type = .MUT_PARAM)
        let type1 := param_var.2.setProperty .IS_PARAM
        let type2 := if mut_ then type1.setProperty .IS_MUT else type1
        let type3 :=
          if mut_ || decide (type2.dtype = .STRUCT) || decide (type2.dimensions.length ≠ 0) then
            type2.setProperty .IS_PTR
          else type2
        if g.module.symbolExists param_var.1.string then
          .error (.compileError "Symbol already defined")
        else
          fnParameters h g rest
            { func_desc with
                parameters := func_desc.parameters ++ [param_var.1.string],
                symbols := func_desc.symbols.assign param_var.1.string type3 }
    else .ok func_desc

/-- The method `ir_generator::fn`. -/
def fn (h : Handlers) (root : Node) (g : ir_generator) : Except Failure ir_generator :=
  match h.var_from_node g root with
  | .error e => .error e
  | .ok var =>
    if g.module.symbolExists var.1.string then
      .error (.compileError "Symbol already defined")
    else
      match fnParameters h g (root.children.drop 1) { functionReturnType := var.2 } with
      | .error e => .error e
      | .ok func_desc =>
        let stored : FunctionDescription := { func_desc with moduleName := g.module.name }
        .ok { g with module :=
          { g.module with functions := g.module.functions.assign var.1.string stored } }

/-- The method `ir_generator::global_var`. -/
def global_var (h : Handlers) (root : Node) (g : ir_generator) : Except Failure ir_generator :=
  match h.var_from_node g root with
  | .error e => .error e
  | .ok var =>
    if g.module.symbolExists var.1.string then
      .error (.compileError "Symbol already defined")
    else
      let stored := var.2.setProperty .IS_MUT
      .ok { g with module :=
        { g.module with globals := g.module.globals.assign var.1.string stored } }

/-- The method `ir_generator::current_function_terminates`.  (Dereferencing a
null or dangling `current_func_desc` is undefined.) -/
def current_function_terminates (g : ir_generator) : Except Failure Bool :=
  match g.current_function with
  | none => .error .undefinedBehaviour
  | some func_desc =>
    if func_desc.icodeTable.length < 1 then .ok false
    else
      match func_desc.icodeTable.getLast? with
      | none => .ok false
      | some lastEntry => .ok (decide (lastEntry.opcode = .RET))

/-- The call `builder.noArgumentEntry(instruction)` on the function that
`builder.setFunctionDescription(current_func_desc)` selected: the entry is
appended to `*current_func_desc`. -/
def noArgumentEntry (g : ir_generator) (instruction : Instruction) : Except Failure ir_generator :=
  match g.current_func_desc with
  | none => .error .undefinedBehaviour
  | some func_name =>
    match g.module.functions.find? func_name with
    | none => .error .undefinedBehaviour
    | some func_desc =>
      let builder : FunctionBuilder := { workingFunction := func_desc }
      let appended := (builder.noArgumentEntry instruction).workingFunction
      .ok { g with module :=
        { g.module with functions := g.module.functions.assign func_name appended } }

/-- The operand `icode::createLabelOperand("", 0)`. -/
def emptyLabel : Operand := { operandType := .LABEL, name := "", operandId := 0 }

/-- One round of the first loop of `ir_generator::program`: the declaration
of one child of the PROGRAM node. -/
def programDeclaration (h : Handlers) (child : Node) (g : ir_generator) :
    Except Failure ir_generator :=
  match child.type with
  | .USE => .ok g
  | .FROM => h.from_ child g
  | .STRUCT => structure_ h child g
  | .FUNCTION => fn h child g
  | .ENUM => h.enumeration child g
  | .DEF => h.def_ child g
  | .VAR => global_var h child g
  | _ => .error .internalBugError

/-- The state in which `program` calls `block` for the function `func_name`:
`current_func_desc = &module.functions[func_name]` (an absent element is
default-constructed), then `clear_scope()`. -/
def enterFunction (g : ir_generator) (func_name : String) : ir_generator :=
  clear_scope
    { g with
        module := { g.module with functions := (g.module.functions.index func_name {}).2 },
        current_func_desc := some func_name }

/-- The check after `block` in the second loop of `ir_generator::program`:
a function that does not end with RET is an error unless its return dtype is
VOID, in which case a RET is appended. -/
def lastInstructionMustBeReturn (g : ir_generator) : Except Failure ir_generator :=
  match g.current_function_terminates with
  | .error e => .error e
  | .ok true => .ok g
  | .ok false =>
    match g.current_function with
    | none => .error .undefinedBehaviour
    | some func_desc =>
      if func_desc.functionReturnType.dtype ≠ .VOID then
        .error (.compileError "Missing RETURN for this FUNCTION")
      else g.noArgumentEntry .RET

/-- One round of the second loop of `ir_generator::program`: the body of a
FUNCTION child is lowered into its description by `block`, then the last
instruction is checked. -/
def programFunctionBlock (h : Handlers) (child : Node) (g : ir_generator) :
    Except Failure ir_generator :=
  if child.type = .FUNCTION then
    match child.children.head?, child.children.getLast? with
    | some first, some body =>
      match h.block body false emptyLabel emptyLabel emptyLabel
          (g.enterFunction first.tok.string) with
      | .error e => .error e
      | .ok g1 => g1.lastInstructionMustBeReturn
    | _, _ => .error .undefinedBehaviour
  else .ok g

/-- A loop `for (node::Node child : children)` over a handler. -/
def forEachChild (f : Node → ir_generator → Except Failure ir_generator) :
    List Node → ir_generator → Except Failure ir_generator
  | [], g => .ok g
  | child :: rest, g =>
    match f child g with
    | .error e => .error e
    | .ok g1 => forEachChild f rest g1

/-- The method `ir_generator::program`: the declarations of all children,
then the bodies of the FUNCTION children. -/
def program (h : Handlers) (root : Node) (g : ir_generator) : Except Failure ir_generator :=
  match forEachChild (programDeclaration h) root.children g.clear_scope with
  | .error e => .error e
  | .ok g1 => forEachChild (programFunctionBlock h) root.children g1

/-- The frame of `block`: it works on `*current_func_desc` only.  It leaves
the pointer itself and every other element of `module.functions` as they
are.  (In `irgen.cpp`, `module.functions` is assigned in `fn` only, and
`current_func_desc` in `program` only.) -/
def BlockFrame (h : Handlers) : Prop :=
  ∀ (body : Node) (loop : Bool) (l1 l2 l3 : Operand) (g g1 : ir_generator),
    h.block body loop l1 l2 l3 g = .ok g1 →
      g1.current_func_desc = g.current_func_desc ∧
      ∀ name, g.current_func_desc ≠ some name →
        g1.module.functions.find? name = g.module.functions.find? name

/-- The sum of the sizes of the declared fields. -/
def fieldSizes (vars : List (Token × TypeDescription)) : Nat :=
  (vars.map (fun var => var.2.size)).sum

/-- The description that the field loop stores for a declared field placed
at `offset`: the declared type with IS_MUT set and that offset. -/
def storedField (var : Token × TypeDescription) (offset : Nat) : TypeDescription :=
  { (var.2.setProperty .IS_MUT) with offset := offset }

/-- A reading of declarations for the examples: the name is the token of the
first child, the type is named by the next IDENTIFIER child (`int`, or
`wide` for the array type `int[536870912]` of 2^31 bytes), and is VOID when
there is none. -/
def exampleVarFromNode (_ : ir_generator) (root : Node) :
    Except Failure (Token × TypeDescription) :=
  match root.children with
  | [] => .error .undefinedBehaviour
  | nameNode :: rest =>
    match rest.find? (fun child => decide (child.type = .IDENTIFIER)) with
    | none => .ok (nameNode.tok, { dtype := .VOID, dtypeName := "void" })
    | some typeNode =>
      if typeNode.tok.string = "int" then
        .ok (nameNode.tok, { dtype := .I32, dtypeName := "int", dtypeSize := 4, size := 4 })
      else if typeNode.tok.string = "wide" then
        .ok (nameNode.tok,
          { dtype := .I32, dtypeName := "int", dtypeSize := 4, size := 2147483648,
            dimensions := [536870912], dimTypes := [.FIXED_DIM] })
      else .error (.compileError "Symbol does not exist")

/-- A lowering of bodies for the examples: every statement becomes one entry
of the current function, RET for a RETURN statement and NEWLN otherwise. -/
def exampleBlock (body : Node) (_ : Bool) (_ _ _ : Operand) (g : ir_generator) :
    Except Failure ir_generator :=
  forEachChild
    (fun stmt g1 => g1.noArgumentEntry (if stmt.type = .RETURN then .RET else .NEWLN))
    body.children g

/-- The handlers of the examples. -/
def exampleHandlers : Handlers :=
  { var_from_node := exampleVarFromNode,
    from_ := fun _ g => .ok g,
    enumeration := fun _ g => .ok g,
    def_ := fun _ g => .ok g,
    block := exampleBlock }

/-- A declaration node `name: typeName`. -/
def exampleDeclaration (type : NodeType) (name typeName : String) : Node :=
  .mk type {} [.mk .IDENTIFIER { string := name } [], .mk .IDENTIFIER { string := typeName } []]

/-- The node of `struct Pair { b: int; a: int }`. -/
def examplePairNode : Node :=
  .mk .STRUCT {}
    [.mk .IDENTIFIER { string := "Pair" }
      [exampleDeclaration .VAR "b" "int", exampleDeclaration .VAR "a" "int"]]

/-- The node of `struct Wide { a: int[536870912]; b: int[536870912];
c: int[536870912] }`: three fields of 2^31 bytes each. -/
def exampleWideNode : Node :=
  .mk .STRUCT {}
    [.mk .IDENTIFIER { string := "Wide" }
      [exampleDeclaration .VAR "a" "wide", exampleDeclaration .VAR "b" "wide",
        exampleDeclaration .VAR "c" "wide"]]

/-- A FUNCTION node `fn name() -> typeName` (no return type for the empty
string) with the given statements as its body. -/
def exampleFunctionNode (name typeName : String) (statements : List Node) : Node :=
  .mk .FUNCTION {}
    ([.mk .IDENTIFIER { string := name } []]
      ++ (if typeName = "" then [] else [.mk .IDENTIFIER { string := typeName } []])
      ++ [.mk .BLOCK {} statements])

/-- The program `fn f() { println() }  fn g() -> int { println(); return }`:
the VOID function `f` omits its return. -/
def exampleProgram : Node :=
  .mk .PROGRAM {}
    [exampleFunctionNode "f" "" [.mk .PRINTLN {} []],
     exampleFunctionNode "g" "int" [.mk .PRINTLN {} [], .mk .RETURN {} []]]

/-- The program `fn f() { }  fn g() -> int { println() }`: the function `g`
returns an int and its body does not end with a return. -/
def exampleProgramMissingReturn : Node :=
  .mk .PROGRAM {}
    [exampleFunctionNode "f" "" [],
     exampleFunctionNode "g" "int" [.mk .PRINTLN {} []]]

end ir_generator

/-! ## The remaining emitting operations of `FunctionBuilder` -/

/-- The function `icode::dataTypeToString` (`DataType.cpp`). -/
def dataTypeToString : DataType → String
  | .I8 => "byte" | .UI8 => "ubyte" | .I16 => "short" | .UI16 => "ushort"
  | .I32 => "int" | .UI32 => "uint" | .I64 => "long" | .UI64 => "ulong"
  | .F32 => "float" | .F64 => "double" | .AUTO_INT => "autoInt"
  | .AUTO_FLOAT => "autoFloat" | .STRUCT => "struct" | .VOID => "void"

/-- The function `icode::getDataTypeSize` (`DataType.cpp`). -/
def getDataTypeSize : DataType → Int
  | .I8 => 1 | .UI8 => 1 | .I16 => 2 | .UI16 => 2 | .I32 => 4 | .UI32 => 4
  | .I64 => 8 | .UI64 => 8 | .F32 => 4 | .F64 => 8 | .AUTO_INT => 8
  | .AUTO_FLOAT => 8 | .STRUCT => 0 | .VOID => 0

/-- Modelled from the spec: `typeDescriptionFromDataType`
(`TypeDescriptionUtil.cpp` is not among the sources): the scalar type of a
DataType, named and sized as `DataType.cpp` says. -/
def typeDescriptionFromDataType (dtype : DataType) : TypeDescription :=
  { dtype := dtype, dtypeName := dataTypeToString dtype,
    dtypeSize := (getDataTypeSize dtype).toNat, size := (getDataTypeSize dtype).toNat }

/-- Modelled from the spec: `OperandBuilder::createCalleeRetValOperand` (body
not among the sources): a CALLEE_RET_VAL operand of the given DataType. -/
def OperandBuilder.createCalleeRetValOperand (b : OperandBuilder) (dtype : DataType) :
    Operand × OperandBuilder :=
  ({ dtype := dtype, operandType := .CALLEE_RET_VAL }, b)

namespace FunctionBuilder

/-- The operand builder call `createCalleeRetValOperand` on the builder state. -/
def createCalleeRetValOperand (fb : FunctionBuilder) (dtype : DataType) :
    Operand × FunctionBuilder :=
  let r := fb.opBuilder.createCalleeRetValOperand dtype
  (r.1, { fb with opBuilder := r.2 })

/-- The method `FunctionBuilder::unaryOperator`. -/
def unaryOperator (fb : FunctionBuilder) (instruction : Instruction) (unaryOperatorTerm : Unit) :
    Unit × FunctionBuilder :=
  let dtype := unaryOperatorTerm.second.dtype
  let op1 := fb.createTempOperand dtype
  let op2 := op1.2.ensureNotPointer unaryOperatorTerm.first
  let result := op2.2.pushEntryAndEnsureNoPointerWrite
    { opcode := instruction, op1 := op1.1, op2 := op2.1 }
  ({ first := result.1, second := unaryOperatorTerm.second }, result.2)

/-- The method `FunctionBuilder::castOperator`. -/
def castOperator (fb : FunctionBuilder) (unitToCast : Unit) (destinationDataType : DataType) :
    Unit × FunctionBuilder :=
  let op1 := fb.createTempOperand destinationDataType
  let op2 := op1.2.ensureNotPointer unitToCast.first
  let result := op2.2.pushEntryAndEnsureNoPointerWrite
    { opcode := .CAST, op1 := op1.1, op2 := op2.1 }
  ({ first := result.1, second := typeDescriptionFromDataType destinationDataType }, result.2)

/-- The method `FunctionBuilder::compareOperator`. -/
def compareOperator (fb : FunctionBuilder) (instruction : Instruction) (LHS RHS : Unit) :
    FunctionBuilder :=
  let op1 := LHS.first
  let op2 := adoptLiteralDataType op1 RHS.first
  let entryOp1 := fb.ensureNotPointer op1
  let entryOp2 := entryOp1.2.ensureNotPointer op2
  entryOp2.2.pushEntry { opcode := instruction, op1 := entryOp1.1, op2 := entryOp2.1 }

/-- The method `FunctionBuilder::insertLabel`. -/
def insertLabel (fb : FunctionBuilder) (op : Operand) : FunctionBuilder :=
  fb.pushEntry { opcode := .CREATE_LABEL, op1 := op }

/-- The method `FunctionBuilder::createBranch`. -/
def createBranch (fb : FunctionBuilder) (instruction : Instruction) (op : Operand) :
    FunctionBuilder :=
  fb.pushEntry { opcode := instruction, op1 := op }

/-- The method `FunctionBuilder::createPrint`. -/
def createPrint (fb : FunctionBuilder) (unit : Unit) : FunctionBuilder :=
  let printInstruction : Instruction := if unit.second.isArray then .PRINT_STR else .PRINT
  let op1 :=
    if printInstruction = .PRINT then fb.ensureNotPointer unit.first else (unit.first, fb)
  op1.2.pushEntry { opcode := printInstruction, op1 := op1.1 }

/-- The method `FunctionBuilder::createInput`.  `INT`, the DataType of the
size literal, is the earlier name of the generic integer type, AUTO_INT in
`DataType.cpp`. -/
def createInput (fb : FunctionBuilder) (unit : Unit) : FunctionBuilder :=
  let inputInstruction : Instruction := if unit.second.isArray then .INPUT_STR else .INPUT
  let size : Int := if unit.second.isArray then unit.second.dimensions.headD 0 else 0
  let op2 := fb.createIntLiteralOperand .AUTO_INT size
  op2.2.pushEntry { opcode := inputInstruction, op1 := unit.first, op2 := op2.1 }

/-- The method `FunctionBuilder::callFunction`. -/
def callFunction (fb : FunctionBuilder) (calleeNameToken : Token)
    (callee : FunctionDescription) : Unit × FunctionBuilder :=
  let functionDataType := callee.functionReturnType.dtype
  let op1 := fb.createCalleeRetValOperand functionDataType
  let op2 := op1.2.createVarOperand functionDataType calleeNameToken.toString
  let op3 := op2.2.createModuleOperand callee.moduleName
  ({ first := op1.1, second := callee.functionReturnType },
   op3.2.pushEntry { opcode := .CALL, op1 := op1.1, op2 := op2.1, op3 := op3.1 })

end FunctionBuilder

/-! ## Generic instantiation (`TypeDescriptionFromNode.cpp`) -/

/-- The state of `generator::GeneratorContext` that
`generateIRUsingMonomorphizer` and `typeDescriptionFromNode` work on: the
modules map, the stack of module names of the console (`pushModule` /
`popModule`), and of the builder `ctx.ir` the root module, the working module
and the stack of saved working modules (pointers to elements of the modules
map, held here as their keys). -/
structure GeneratorContext where
  modulesMap : StringModulesMap := {}
  consoleModules : List String := []
  rootModule : String := ""
  workingModule : String := ""
  moduleDescriptionStack : List String := []
  deriving DecidableEq, Repr, Inhabited

/-- Modelled from the spec: `GeneratorContext::moduleExists` (the class is
not among the sources): the module is already compiled when its name is a key
of the modules map. -/
def GeneratorContext.moduleExists (ctx : GeneratorContext) (name : String) : Bool :=
  (ctx.modulesMap.find? name).isSome

/-- The collaborators of `generateIRUsingMonomorphizer`, whose sources are not
available, taken as given: `Monomorphizer::instantiateGeneric`, which makes
the AST of the instantiated module, and `generateModule` on the context
`ctx.clone(instantiatedModuleName)`, which compiles that AST; both work on the
state shared with `ctx` and may throw. -/
structure MonomorphizerParts where
  mangleModuleName : String → String
  instantiateGeneric : String → String → Token → List TypeDescription → List Node →
    GeneratorContext → Except Failure Node × GeneratorContext
  generateModule : String → Node → GeneratorContext → Except Failure PUnit.{1} × GeneratorContext

/-- The function `generateIRUsingMonomorphizer`: the instantiated module is
generated unless a module of that name exists; the names of the instantiated
module and struct are returned. -/
def generateIRUsingMonomorphizer (parts : MonomorphizerParts) (ctx : GeneratorContext)
    (genericModuleName : String) (genericStructNameToken : Token)
    (instantiationTypes : List TypeDescription) (instantiationTypeNodes : List Node) :
    Except Failure (String × String) × GeneratorContext :=
  let instantiationSuffix :=
    constructInstantiationSuffix parts.mangleModuleName instantiationTypes
  let instantiatedModuleName := getInstantiatedModuleName instantiationSuffix genericModuleName
  let instantiatedStructName :=
    getInstantiatedStructName instantiationSuffix genericStructNameToken
  if !ctx.moduleExists instantiatedModuleName then
    let ctx1 := { ctx with consoleModules := genericModuleName :: ctx.consoleModules }
    match parts.instantiateGeneric genericModuleName instantiationSuffix genericStructNameToken
        instantiationTypes instantiationTypeNodes ctx1 with
    | (.error e, ctx2) => (.error e, ctx2)
    | (.ok ast, ctx2) =>
      match parts.generateModule instantiatedModuleName ast ctx2 with
      | (.error e, ctx3) => (.error e, ctx3)
      | (.ok _, ctx3) =>
        (.ok (instantiatedModuleName, instantiatedStructName),
         { ctx3 with consoleModules := ctx3.consoleModules.drop 1 })
  else (.ok (instantiatedModuleName, instantiatedStructName), ctx)

/-- The property of `generateModule` that makes instantiation memoized: when
it returns, the module it was asked to generate is in the modules map. -/
def MonomorphizerParts.RegistersModule (parts : MonomorphizerParts) : Prop :=
  ∀ (name : String) (ast : Node) (ctx ctx1 : GeneratorContext),
    parts.generateModule name ast ctx = (.ok ⟨⟩, ctx1) → ctx1.moduleExists name = true

/-- Collaborators for the examples: the AST is a PROGRAM node, and generating
a module adds an empty module of the given name to the modules map. -/
def exampleMonomorphizerParts : MonomorphizerParts :=
  { mangleModuleName := fun name => name,
    instantiateGeneric := fun _ _ tok _ _ ctx => (.ok (.mk .PROGRAM tok []), ctx),
    generateModule := fun name _ ctx =>
      (.ok ⟨⟩, { ctx with modulesMap := ctx.modulesMap.assign name { name := name } }) }

/-- Collaborators that always throw. -/
def failingMonomorphizerParts : MonomorphizerParts :=
  { mangleModuleName := fun name => name,
    instantiateGeneric := fun _ _ _ _ _ ctx =>
      (.error (.compileError "instantiateGeneric"), ctx),
    generateModule := fun _ _ ctx => (.error (.compileError "generateModule"), ctx) }

/-! ## Lowering of function bodies (`irgen.cpp`)

`irgen.cpp` is written against an earlier interface of the builder and of
the operand constructors, whose sources are not available.  Its builder calls
are rendered with the methods of `FunctionBuilder.cpp`: `copy` is
`operandCopy`, `label` is `insertLabel`, `pass` is the entry of
`passParameter`, `call` is `callFunction`, and `createBranch`,
`compareOperator`, `createPointer` and `addressAddOperator` keep their names.
A lowering function returns its result, or the failure it throws, next to the
state of the generator at that point. -/

/-- Modelled from the spec: `icode::createLabelOperand(name, id)`
(`Operand.cpp` is not among the sources). -/
def createLabelOperand (name : String) (id : Nat) : Operand :=
  { operandType := .LABEL, name := name, operandId := id }

/-- Modelled from the spec: `icode::createLiteralOperand(dtype, literal, id)`
(`Operand.cpp` is not among the sources), for an integer literal. -/
def createLiteralOperand (dtype : DataType) (literal : Int) (id : Nat) : Operand :=
  { operandType := .LITERAL, dtype := dtype, integer := literal, operandId := id }

/-- Modelled from the spec: `icode::createLiteralAddressOperand(address, id)`
(`Operand.cpp` is not among the sources): the immediate address offset. -/
def createLiteralAddressOperand (address : Nat) (id : Nat) : Operand :=
  { operandType := .BYTES, bytes := address, operandId := id }

/-- Modelled from the spec: `icode::createStringDataOperand(name, size, id)`
(`Operand.cpp` is not among the sources): the key of the string data and its
size in bytes. -/
def createStringDataOperand (name : String) (size : Nat) (id : Nat) : Operand :=
  { operandType := .STR_DATA, dtype := .UI8, name := name, bytes := size, operandId := id }

/-- Modelled from the spec: `icode::createRetPointerOperand(dtype, dtypeName,
id)` (`Operand.cpp` is not among the sources): the operand through which the
return value is written. -/
def createRetPointerOperand (dtype : DataType) (id : Nat) : Operand :=
  { operandType := .RET_VALUE, dtype := dtype, operandId := id }

/-- The conversion of an `int` to `size_t` (64 bits). -/
def toSizeT (i : Int) : Nat := (i % 18446744073709551616).toNat

/-- The `char` elements of a string of ASCII text, as numbers. -/
def stringChars (s : String) : List Int := s.data.map (fun c => (c.toNat : Int))

/-- Modelled from the spec: `ModuleDescription::useExists`
(`ModuleDescription.cpp` is not among the sources). -/
def ModuleDescription.useExists (m : ModuleDescription) (name : String) : Bool :=
  decide (name ∈ m.uses)

/-- Modelled from the spec: `ModuleDescription::getFunction`
(`ModuleDescription.cpp` is not among the sources). -/
def ModuleDescription.getFunction (m : ModuleDescription) (name : String) :
    Option FunctionDescription :=
  m.functions.find? name

namespace ir_generator

/-- The result of a lowering function: the value it returns, or the failure
it throws, and the state of the generator at that point. -/
abbrev Lowered (α : Type) := Except Failure α × ir_generator

/-- Modelled from the spec: `ir_generator::id`, which returns `builder.id()`
(the builder of `irgen.cpp` is not among the sources): ids are minted in
strictly increasing order. -/
def id (g : ir_generator) : Nat × ir_generator :=
  (g.id_counter, { g with id_counter := g.id_counter + 1 })

/-- The entry list of the function `current_func_desc` points to. -/
def entries (g : ir_generator) : List Entry :=
  match g.current_function with
  | some func_desc => func_desc.icodeTable
  | none => []

/-- The state of the builder of the generator, set on a function
description. -/
def builderState (g : ir_generator) (func_desc : FunctionDescription) : FunctionBuilder :=
  { modulesMap := g.ext_modules_map, opBuilder := { idCounter := g.id_counter },
    workingFunction := func_desc }

/-- A call of a builder method: it works on `*current_func_desc`, which
`builder.setFunctionDescription` selected, and mints ids from the counter of
the generator.  (Dereferencing a null or dangling `current_func_desc` is
undefined.) -/
def withBuilder {α : Type} (g : ir_generator)
    (operation : FunctionBuilder → Except Failure α × FunctionBuilder) : Lowered α :=
  match g.current_func_desc with
  | none => (.error .undefinedBehaviour, g)
  | some func_name =>
    match g.module.functions.find? func_name with
    | none => (.error .undefinedBehaviour, g)
    | some func_desc =>
      let result := operation (g.builderState func_desc)
      let functions := g.module.functions.assign func_name result.2.workingFunction
      (result.1,
       { g with
           module := { g.module with functions := functions },
           ext_modules_map := result.2.modulesMap,
           id_counter := result.2.opBuilder.idCounter })

/-- The call `builder.copy(op1, op2)`. -/
def builder_copy (g : ir_generator) (op1 op2 : Operand) : Lowered PUnit.{1} :=
  g.withBuilder (fun fb => (.ok ⟨⟩, fb.operandCopy op1 op2))

/-- The call `builder.label(op)`. -/
def builder_label (g : ir_generator) (op : Operand) : Lowered PUnit.{1} :=
  g.withBuilder (fun fb => (.ok ⟨⟩, fb.insertLabel op))

/-- The call `builder.createBranch(instruction, op)`. -/
def builder_createBranch (g : ir_generator) (instruction : Instruction) (op : Operand) :
    Lowered PUnit.{1} :=
  g.withBuilder (fun fb => (.ok ⟨⟩, fb.createBranch instruction op))

/-- The call `builder.compareOperator(opcode, op1, op2)`, on operands. -/
def builder_compareOperator (g : ir_generator) (opcode : Instruction) (op1 op2 : Operand) :
    Lowered PUnit.{1} :=
  g.withBuilder (fun fb => (.ok ⟨⟩, fb.compareOperator opcode { first := op1 } { first := op2 }))

/-- The call `builder.createPointer(op)`; the earlier operand carries the name
of its type, which is passed here, and the builder works on the module being
compiled. -/
def builder_createPointer (g : ir_generator) (op : Operand) (dtypeName : String) :
    Lowered Operand :=
  g.withBuilder (fun fb => fb.createPointer op dtypeName g.module)

/-- The call `builder.addressAddOperator(op2, op3)`. -/
def builder_addressAddOperator (g : ir_generator) (op2 op3 : Operand) : Lowered Operand :=
  g.withBuilder (fun fb => (.ok (fb.addressAddOperator op2 op3).1, (fb.addressAddOperator op2 op3).2))

/-- The call `builder.noArgumentEntry(instruction)`. -/
def builder_noArgumentEntry (g : ir_generator) (instruction : Instruction) : Lowered PUnit.{1} :=
  g.withBuilder (fun fb => (.ok ⟨⟩, fb.noArgumentEntry instruction))

/-- Modelled from the spec: the call `builder.pass(instruction, op, func_name,
func_desc)`: PASS on the value of the operand (a pointer is read first),
PASS_ADDR on the operand itself; the second operand names the callee and the
third its module. -/
def builder_pass (g : ir_generator) (instruction : Instruction) (op : Operand)
    (func_name : String) (func_desc : FunctionDescription) : Lowered PUnit.{1} :=
  g.withBuilder (fun fb =>
    let op1 := if instruction = .PASS then fb.ensureNotPointer op else (op, fb)
    let op2 := op1.2.createVarOperand func_desc.functionReturnType.dtype func_name
    let op3 := op2.2.createModuleOperand func_desc.moduleName
    (.ok ⟨⟩, op3.2.pushEntry { opcode := instruction, op1 := op1.1, op2 := op2.1, op3 := op3.1 }))

/-- The call `builder.call(func_name, func_desc)`. -/
def builder_call (g : ir_generator) (func_name : String) (func_desc : FunctionDescription) :
    Lowered Operand :=
  g.withBuilder (fun fb =>
    (.ok (fb.callFunction { string := func_name } func_desc).1.first,
     (fb.callFunction { string := func_name } func_desc).2))

/-- The members of `ir_generator` that the lowering of statements calls and
that are taken as given: `expression`, `var`, `assignment`, `var_access`,
`copy_struct`, `print` and `input`, and the function `icode::isSameType`,
whose source is not available. -/
structure Lowering where
  expression : Node → ir_generator → Lowered Unit
  isSameType : TypeDescription → TypeDescription → Bool
  var : Node → ir_generator → Lowered PUnit.{1}
  assignment : Node → ir_generator → Lowered PUnit.{1}
  var_access : Node → ir_generator → Lowered Unit
  copy_struct : Operand → Unit → ir_generator → Lowered PUnit.{1}
  print : Node → ir_generator → Lowered PUnit.{1}
  input : Node → ir_generator → Lowered PUnit.{1}

/-- The method `ir_generator::gen_str_dat`. -/
def gen_str_dat (g : ir_generator) (str_token : Token) (char_count : Nat) (dtype : DataType) :
    Operand × ir_generator :=
  let name := "_str_l" ++ toString str_token.line ++ "_c" ++ toString str_token.col
  let g1 : ir_generator :=
    { g with module :=
        { g.module with stringsData := g.module.stringsData.assign name str_token.unescapedString } }
  let size := char_count * (getDataTypeSize dtype).toNat
  let fresh := g1.id
  (createStringDataOperand name size fresh.1, fresh.2)

/-- The method `ir_generator::var_info_to_str_dat`.  The `size_t` count is
compared with the `int` dimension converted to `size_t`. -/
def var_info_to_str_dat (g : ir_generator) (str_token : Token) (var : TypeDescription) :
    Lowered Unit :=
  if var.dimensions.length ≠ 1 ∨ var.dtype ≠ .UI8 then
    (.error (.compileError "String assignment only allowed on 1D CHAR ARRAY"), g)
  else
    let char_count := (stringChars str_token.unescapedString).length
    if char_count > toSizeT (var.dimensions.headD 0) then
      (.error (.compileError "String too big"), g)
    else
      let opr := g.gen_str_dat str_token char_count var.dtype
      (.ok { first := opr.1, second := var }, opr.2)

/-- The loop of `assign_str_literal_tovar` over the characters: each is
written to the current offset, which then advances by the size of an element. -/
def assignCharacters (dtypeSize : Nat) :
    List Int → Operand → ir_generator → Lowered Operand
  | [], curr_offset, g => (.ok curr_offset, g)
  | character :: rest, curr_offset, g =>
    let literalId := g.id
    match literalId.2.builder_copy curr_offset (createLiteralOperand .UI8 character literalId.1) with
    | (.error e, g1) => (.error e, g1)
    | (.ok _, g1) =>
      let addressId := g1.id
      match addressId.2.builder_addressAddOperator curr_offset
          (createLiteralAddressOperand dtypeSize addressId.1) with
      | (.error e, g2) => (.error e, g2)
      | (.ok next_offset, g2) => assignCharacters dtypeSize rest next_offset g2

/-- The method `ir_generator::assign_str_literal_tovar`. -/
def assign_str_literal_tovar (g : ir_generator) (var : Unit) (root : Node) : Lowered PUnit.{1} :=
  if var.second.dimensions.length ≠ 1 ∨ var.second.dtype ≠ .UI8 then
    (.error (.compileError "String assignment only allowed on 1D INT ARRAY"), g)
  else
    let characters := stringChars root.tok.unescapedString
    let char_count := characters.length
    if char_count > toSizeT (var.second.dimensions.headD 0) then
      (.error (.compileError "String too big"), g)
    else
      match g.builder_createPointer var.first var.second.dtypeName with
      | (.error e, g1) => (.error e, g1)
      | (.ok curr_offset, g1) =>
        match assignCharacters var.second.dtypeSize characters curr_offset g1 with
        | (.error e, g2) => (.error e, g2)
        | (.ok last_offset, g2) =>
          let literalId := g2.id
          literalId.2.builder_copy last_offset (createLiteralOperand .UI8 0 literalId.1)

/-- The description of the elements of an initializer list for `var`: the
leading dimension is removed and the size divided by it, in `unsigned int`
arithmetic. -/
def elementDescription (var : TypeDescription) : TypeDescription :=
  { var with
      size := var.size / toUnsigned (var.dimensions.headD 0),
      dimensions := var.dimensions.drop 1 }

mutual

/-- The method `ir_generator::assign_init_list_tovar`.  (Dividing the size by
a leading dimension 0 is undefined.) -/
def assign_init_list_tovar (l : Lowering) : Unit → Node → ir_generator → Lowered PUnit.{1}
  | var, .mk _ _ children, g =>
    if var.second.dimensions.length = 0 then
      (.error (.compileError "Cannot initialize a NON-ARRAY with initializer list"), g)
    else
      match g.builder_createPointer var.first var.second.dtypeName with
      | (.error e, g1) => (.error e, g1)
      | (.ok curr_offset, g1) =>
        if toUnsigned (var.second.dimensions.headD 0) = 0 then (.error .undefinedBehaviour, g1)
        else
          match initListChildren l var.second children 0 curr_offset g1 with
          | (.error e, g2) => (.error e, g2)
          | (.ok dim_count, g2) =>
            if dim_count < toUnsigned (var.second.dimensions.headD 0) then
              (.error (.compileError "Dimension size too small"), g2)
            else (.ok ⟨⟩, g2)
termination_by structural _ root => root

/-- The loop of `assign_init_list_tovar` over the children of the list, from
the loop state `(dim_count, curr_offset)`; it returns the final `dim_count`. -/
def initListChildren (l : Lowering) (varDescription : TypeDescription) :
    List Node → Nat → Operand → ir_generator → Lowered Nat
  | [], dim_count, _, g => (.ok dim_count, g)
  | child :: rest, dim_count, curr_offset, g =>
    if dim_count ≥ toUnsigned (varDescription.dimensions.headD 0) then
      (.error (.compileError "Dimension size too big"), g)
    else
      let element_var := elementDescription varDescription
      let written : Lowered PUnit.{1} :=
        if element_var.dimensions.length = 0 then
          if child.type ≠ .TERM ∧ child.type ≠ .EXPRESSION then
            (.error (.compileError "Incorrect dimensions"), g)
          else
            match l.expression child g with
            | (.error e, g1) => (.error e, g1)
            | (.ok element_expr, g1) =>
              if !l.isSameType element_var element_expr.second then
                (.error (.typeError element_var element_expr.second), g1)
              else if element_expr.second.dtype ≠ .STRUCT then
                g1.builder_copy curr_offset element_expr.first
              else l.copy_struct curr_offset element_expr g1
        else if child.type = .STR_LITERAL then
          g.assign_str_literal_tovar { first := curr_offset, second := element_var } child
        else
          assign_init_list_tovar l { first := curr_offset, second := element_var } child g
      match written with
      | (.error e, g1) => (.error e, g1)
      | (.ok _, g1) =>
        if rest.isEmpty then (.ok (dim_count + 1), g1)
        else
          let addressId := g1.id
          match addressId.2.builder_addressAddOperator curr_offset
              (createLiteralAddressOperand element_var.size addressId.1) with
          | (.error e, g2) => (.error e, g2)
          | (.ok next_offset, g2) =>
            initListChildren l varDescription rest (dim_count + 1) next_offset g2
termination_by structural children => children

end

/-- The method `ir_generator::gen_label`; the prefix defaults to the empty
string. -/
def gen_label (g : ir_generator) (tok : Token) (true_label : Bool) (pre : String) :
    Operand × ir_generator :=
  let label_name := "_l" ++ toString tok.line ++ "_c" ++ toString tok.col
  let fresh := g.id
  if true_label then (createLabelOperand ("_" ++ pre ++ "_true" ++ label_name) fresh.1, fresh.2)
  else (createLabelOperand ("_" ++ pre ++ "_false" ++ label_name) fresh.1, fresh.2)

/-- The method `ir_generator::tokenToCompareOperator`. -/
def tokenToCompareOperator (tok : Token) : Except Failure Instruction :=
  match tok.type with
  | .LESS_THAN => .ok .LT
  | .LESS_THAN_EQUAL => .ok .LTE
  | .GREATER_THAN => .ok .GT
  | .GREATER_THAN_EQUAL => .ok .GTE
  | .CONDN_EQUAL => .ok .EQ
  | .CONDN_NOT_EQUAL => .ok .NEQ
  | _ => .error (.compileError "Invalid conditional expression")

/-- The branches after the compare entry in `condn_expression`: a jump to the
true label unless the true side falls through, then a jump to the false label
unless the false side falls through. -/
def compareBranches (g : ir_generator) (t_label f_label : Operand) (t_fall f_fall : Bool) :
    Lowered PUnit.{1} :=
  let afterTrue : Lowered PUnit.{1} :=
    if !t_fall then g.builder_createBranch .IF_TRUE_GOTO t_label else (.ok ⟨⟩, g)
  match afterTrue with
  | (.error e, g1) => (.error e, g1)
  | (.ok _, g1) =>
    if !f_fall then g1.builder_createBranch .IF_FALSE_GOTO f_label else (.ok ⟨⟩, g1)

/-- The comparison case of `condn_expression`, for the operands
`root.children[0]` and `root.children[2]` (absent when the vector is too
short) and the operator token. -/
def compareExpression (l : Lowering) (g : ir_generator) (first : Node) (second : Option Node)
    (expr_opr : Token) (t_label f_label : Operand) (t_fall f_fall : Bool) : Lowered PUnit.{1} :=
  match tokenToCompareOperator expr_opr with
  | .error e => (.error e, g)
  | .ok opcode =>
    match l.expression first g with
    | (.error e, g1) => (.error e, g1)
    | (.ok first_operand, g1) =>
      if first_operand.second.dtype = .STRUCT ∨ first_operand.second.dimensions.length ≠ 0 then
        (.error (.compileError "Cannot compare STRUCT or ARRAYS"), g1)
      else
        match second with
        | none => (.error .undefinedBehaviour, g1)
        | some secondNode =>
          match l.expression secondNode g1 with
          | (.error e, g2) => (.error e, g2)
          | (.ok second_operand, g2) =>
            if !l.isSameType first_operand.second second_operand.second then
              (.error (.typeError first_operand.second second_operand.second), g2)
            else
              match g2.builder_compareOperator opcode first_operand.first
                  second_operand.first with
              | (.error e, g3) => (.error e, g3)
              | (.ok _, g3) => g3.compareBranches t_label f_label t_fall f_fall

/-- The method `ir_generator::condn_expression`.  (Reading `root.children[i]`
past the end of the vector is undefined.) -/
def condn_expression (l : Lowering) :
    Node → Operand → Operand → Bool → Bool → ir_generator → Lowered PUnit.{1}
  | .mk type _ children, t_label, f_label, t_fall, f_fall, g =>
    if type = .TERM then
      match children with
      | [] => (.error .undefinedBehaviour, g)
      | child0 :: _ =>
        if child0.type = .EXPRESSION then
          condn_expression l child0 t_label f_label t_fall f_fall g
        else if child0.tok.type ≠ .CONDN_NOT then
          (.error (.compileError "Invalid conditional expression"), g)
        else
          match child0 with
          | .mk _ _ [] => (.error .undefinedBehaviour, g)
          | .mk _ _ (.mk _ _ [] :: _) => (.error .undefinedBehaviour, g)
          | .mk _ _ (.mk _ _ (inner :: _) :: _) =>
            condn_expression l inner f_label t_label f_fall t_fall g
    else
      match children with
      | [] => (.error .undefinedBehaviour, g)
      | [only] => condn_expression l only t_label f_label t_fall f_fall g
      | first :: operatorNode :: rest =>
        let expr_opr := operatorNode.tok
        if expr_opr.type = .CONDN_AND then
          let new_t_label := g.gen_label expr_opr true ""
          let new_f_label := new_t_label.2.gen_label expr_opr false ""
          let firstResult :=
            if !f_fall then condn_expression l first new_t_label.1 f_label true false new_f_label.2
            else condn_expression l first new_t_label.1 new_f_label.1 true false new_f_label.2
          match firstResult with
          | (.error e, g1) => (.error e, g1)
          | (.ok _, g1) =>
            match rest with
            | [] => (.error .undefinedBehaviour, g1)
            | second :: _ =>
              match condn_expression l second t_label f_label t_fall f_fall g1 with
              | (.error e, g2) => (.error e, g2)
              | (.ok _, g2) =>
                if f_fall then g2.builder_label new_f_label.1 else (.ok ⟨⟩, g2)
        else if expr_opr.type = .CONDN_OR then
          let new_t_label := g.gen_label expr_opr true ""
          let new_f_label := new_t_label.2.gen_label expr_opr false ""
          let firstResult :=
            if !t_fall then condn_expression l first t_label new_f_label.1 false true new_f_label.2
            else condn_expression l first new_t_label.1 new_f_label.1 false true new_f_label.2
          match firstResult with
          | (.error e, g1) => (.error e, g1)
          | (.ok _, g1) =>
            match rest with
            | [] => (.error .undefinedBehaviour, g1)
            | second :: _ =>
              match condn_expression l second t_label f_label t_fall f_fall g1 with
              | (.error e, g2) => (.error e, g2)
              | (.ok _, g2) =>
                if t_fall then g2.builder_label new_t_label.1 else (.ok ⟨⟩, g2)
        else
          compareExpression l g first rest.head? expr_opr t_label f_label t_fall f_fall
termination_by structural root => root

/-- The module `current_ext_module` points to: the module being compiled, or
an element of `ext_modules_map` (held as its key).  The module being compiled
is itself the element of the map under its own name; that alias is not
followed here. -/
def currentExtModule (g : ir_generator) : ModuleDescription :=
  match g.current_ext_module with
  | none => g.module
  | some name => (g.ext_modules_map.find? name).getD {}

/-- The assignment `current_ext_module = &ext_modules_map[name]`; an absent
element is default-constructed. -/
def switchExtModule (g : ir_generator) (name : String) : ir_generator :=
  { g with ext_modules_map := (g.ext_modules_map.index name {}).2, current_ext_module := some name }

/-- The method `ir_generator::get_func`. -/
def get_func (g : ir_generator) (name : String) : Option FunctionDescription :=
  match g.currentExtModule.getFunction name with
  | some func => some func
  | none => g.module.getFunction name

/-- The formal parameter `func_desc.symbols[func_desc.parameters[i]]` in the
parameter loop of `funccall`. -/
def funccallFormal (func_desc : FunctionDescription) (i : Nat) : TypeDescription :=
  (func_desc.symbols.find? (func_desc.parameters.getD i "")).getD {}

/-- The argument passed for the child `root.children[i]` in the parameter
loop of `funccall`: string data for a string literal, the first argument
obtained before the loop, or the lowered expression. -/
def funccallActual (l : Lowering) (func_desc : FunctionDescription) (first_arg : Unit) (i : Nat)
    (child : Node) (g : ir_generator) : Lowered Unit :=
  if child.type = .STR_LITERAL then g.var_info_to_str_dat child.tok (funccallFormal func_desc i)
  else if i = 0 then (.ok first_arg, g)
  else l.expression child g

/-- One round of the parameter loop of `funccall`, for the child
`root.children[i]`: the argument is obtained and checked against the formal
parameter, then passed. -/
def funccallArgument (l : Lowering) (func_name : String) (func_desc : FunctionDescription)
    (first_arg : Unit) (i : Nat) (child : Node) (g : ir_generator) : Lowered PUnit.{1} :=
  let param := funccallFormal func_desc i
  let mut_ := param.checkProperty .IS_MUT
  match funccallActual l func_desc first_arg i child g with
  | (.error e, g1) => (.error e, g1)
  | (.ok arg, g1) =>
    if !l.isSameType param arg.second then (.error (.typeError param arg.second), g1)
    else if mut_ && (decide (arg.first.operandType = .TEMP)
        || decide (arg.first.operandType = .STR_DATA)
        || decide (arg.first.operandType = .LITERAL)) then
      (.error (.compileError "Cannot pass an EXPRESSION or STRING LITERAL as MUTABLE"), g1)
    else if mut_ && !arg.second.checkProperty .IS_MUT then
      (.error (.compileError "Cannot pass IMMUTABLE as MUTABLE"), g1)
    else if mut_ || decide (param.dtype = .STRUCT) || decide (param.dimensions.length ≠ 0) then
      g1.builder_pass .PASS_ADDR arg.first func_name func_desc
    else g1.builder_pass .PASS arg.first func_name func_desc

/-- The parameter loop of `funccall` over `root.children`, from index `i`. -/
def funccallArguments (l : Lowering) (func_name : String) (func_desc : FunctionDescription)
    (first_arg : Unit) : List Node → Nat → ir_generator → Lowered PUnit.{1}
  | [], _, g => (.ok ⟨⟩, g)
  | child :: rest, i, g =>
    match funccallArgument l func_name func_desc first_arg i child g with
    | (.error e, g1) => (.error e, g1)
    | (.ok _, g1) => funccallArguments l func_name func_desc first_arg rest (i + 1) g1

/-- The head of `funccall`: the first argument is lowered, unless it is a
string literal, and for a STRUCT_FUNCCALL `current_ext_module` is switched to
the module of its type. -/
def funccallPrologue (l : Lowering) (root : Node) (g : ir_generator) : Lowered Unit :=
  match root.children with
  | [] => (.ok {}, g)
  | child0 :: _ =>
    let evaluated : Lowered Unit :=
      if child0.type ≠ .STR_LITERAL then l.expression child0 g else (.ok {}, g)
    match evaluated with
    | (.error e, g1) => (.error e, g1)
    | (.ok first_arg, g1) =>
      if root.type = .STRUCT_FUNCCALL then
        (.ok first_arg, g1.switchExtModule first_arg.second.moduleName)
      else (.ok first_arg, g1)

/-- The method `ir_generator::funccall`. -/
def funccall (l : Lowering) (root : Node) (g : ir_generator) : Lowered Unit :=
  let temp := g.current_ext_module
  match funccallPrologue l root g with
  | (.error e, g1) => (.error e, g1)
  | (.ok first_arg, g1) =>
    let func_name := root.tok.string
    match g1.get_func func_name with
    | none => (.error (.compileError "Function does not exist"), g1)
    | some func_desc =>
      if root.children.length ≠ func_desc.parameters.length then
        (.error (.compileError "Number of parameters don't match"), g1)
      else
        match funccallArguments l func_name func_desc first_arg root.children 0 g1 with
        | (.error e, g2) => (.error e, g2)
        | (.ok _, g2) =>
          match g2.builder_call func_name func_desc with
          | (.error e, g3) => (.error e, g3)
          | (.ok ret_temp, g3) =>
            let g4 : ir_generator :=
              if root.type = .STRUCT_FUNCCALL then { g3 with current_ext_module := temp } else g3
            (.ok { first := ret_temp, second := func_desc.functionReturnType }, g4)

/-- The method `ir_generator::enter_scope`:
`scope_id_stack.push_back(++scope_id_counter)`.  The counter and the ids are
`unsigned int` (the return type of `get_scope_id`), so the increment is
modulo 2^32. -/
def enter_scope (g : ir_generator) : ir_generator :=
  { g with
      scope_id_counter := (g.scope_id_counter + 1) % 4294967296,
      scope_id_stack := g.scope_id_stack ++ [(g.scope_id_counter + 1) % 4294967296] }

/-- The method `ir_generator::exit_scope`.  (`pop_back` on an empty vector is
undefined; after `clear_scope` the stack holds the bottom 0.) -/
def exit_scope (g : ir_generator) : ir_generator :=
  { g with scope_id_stack := g.scope_id_stack.dropLast }

/-- The value part of the RETURN case of `block`: the returned expression is
checked against the return type and copied to the return pointer; without an
expression the return type has to be VOID. -/
def returnValue (l : Lowering) (stmt : Node) (ret_info : TypeDescription) (g : ir_generator) :
    Lowered PUnit.{1} :=
  match stmt.children with
  | value :: _ =>
    match l.expression value g with
    | (.error e, g1) => (.error e, g1)
    | (.ok ret_val, g1) =>
      if !l.isSameType ret_info ret_val.second then
        (.error (.typeError ret_info ret_val.second), g1)
      else
        let fresh := g1.id
        let ret_ptr := createRetPointerOperand ret_info.dtype fresh.1
        if ret_val.second.dtype = .STRUCT then l.copy_struct ret_ptr ret_val fresh.2
        else fresh.2.builder_copy ret_ptr ret_val.first
  | [] =>
    if ret_info.dtype ≠ .VOID then (.error (.compileError "Ret type is not VOID"), g)
    else (.ok ⟨⟩, g)

/-- The RETURN case of `block`. -/
def returnStatement (l : Lowering) (stmt : Node) (g : ir_generator) : Lowered PUnit.{1} :=
  match g.current_function with
  | none => (.error .undefinedBehaviour, g)
  | some func_desc =>
    match returnValue l stmt func_desc.functionReturnType g with
    | (.error e, g1) => (.error e, g1)
    | (.ok _, g1) => g1.builder_noArgumentEntry .RET

/-- The MODULE case of `block`: the call is made with `current_ext_module`
switched to the named module, and the pointer is restored after it. -/
def moduleStatement (l : Lowering) (stmt : Node) (g : ir_generator) : Lowered PUnit.{1} :=
  if !g.currentExtModule.useExists stmt.tok.string then
    (.error (.compileError "Module does not exist"), g)
  else
    let temp := g.current_ext_module
    let g1 := g.switchExtModule stmt.tok.string
    match stmt.children with
    | [] => (.error .undefinedBehaviour, g1)
    | call :: _ =>
      match funccall l call g1 with
      | (.error e, g2) => (.error e, g2)
      | (.ok _, g2) => (.ok ⟨⟩, { g2 with current_ext_module := temp })

/-- The cases ASSIGNMENT_STR and ASSIGNMENT_INITLIST of `block`: the variable
to write to is `stmt.children[0]`, the literal is `stmt.children[1]`. -/
def literalAssignment (l : Lowering) (stmt : Node) (g : ir_generator) : Lowered PUnit.{1} :=
  match stmt.children with
  | [] => (.error .undefinedBehaviour, g)
  | target :: rest =>
    match l.var_access target g with
    | (.error e, g1) => (.error e, g1)
    | (.ok var, g1) =>
      match rest with
      | [] => (.error .undefinedBehaviour, g1)
      | literal :: _ =>
        if stmt.type = .ASSIGNMENT_STR then g1.assign_str_literal_tovar var literal
        else assign_init_list_tovar l var literal g1

/-- The statements of `block` that contain no block: every case of the
switch but IF, WHILE and FOR. -/
def simpleStatement (l : Lowering) (stmt : Node) (loop : Bool) (break_label cont_label : Operand)
    (g : ir_generator) : Lowered PUnit.{1} :=
  match stmt.type with
  | .VAR => l.var stmt g
  | .CONST => l.var stmt g
  | .ASSIGNMENT => l.assignment stmt g
  | .ASSIGNMENT_STR => literalAssignment l stmt g
  | .ASSIGNMENT_INITLIST => literalAssignment l stmt g
  | .FUNCCALL =>
    match funccall l stmt g with
    | (.error e, g1) => (.error e, g1)
    | (.ok _, g1) => (.ok ⟨⟩, g1)
  | .TERM =>
    match stmt.children with
    | [] => (.error .undefinedBehaviour, g)
    | call :: _ =>
      match funccall l call g with
      | (.error e, g1) => (.error e, g1)
      | (.ok _, g1) => (.ok ⟨⟩, g1)
  | .MODULE => moduleStatement l stmt g
  | .BREAK =>
    if !loop then (.error (.compileError "BREAK outside loop"), g)
    else g.builder_createBranch .GOTO break_label
  | .CONTINUE =>
    if !loop then (.error (.compileError "CONTINUE outside loop"), g)
    else g.builder_createBranch .GOTO cont_label
  | .RETURN => returnStatement l stmt g
  | .PRINT => l.print stmt g
  | .PRINTLN => l.print stmt g
  | .INPUT => l.input stmt g
  | .EXIT => g.builder_noArgumentEntry .EXIT
  | _ => (.error .internalBugError, g)

mutual

/-- The method `ir_generator::block`. -/
def block (l : Lowering) :
    Node → Bool → Operand → Operand → Operand → ir_generator → Lowered PUnit.{1}
  | .mk _ _ children, loop, start_label, break_label, cont_label, g =>
    match blockStatements l children loop start_label break_label cont_label g.enter_scope with
    | (.error e, g1) => (.error e, g1)
    | (.ok _, g1) => (.ok ⟨⟩, g1.exit_scope)
termination_by structural root => root

/-- The loop of `block` over the statements. -/
def blockStatements (l : Lowering) :
    List Node → Bool → Operand → Operand → Operand → ir_generator → Lowered PUnit.{1}
  | [], _, _, _, _, g => (.ok ⟨⟩, g)
  | stmt :: rest, loop, start_label, break_label, cont_label, g =>
    match statement l stmt loop start_label break_label cont_label g with
    | (.error e, g1) => (.error e, g1)
    | (.ok _, g1) => blockStatements l rest loop start_label break_label cont_label g1
termination_by structural stmts => stmts

/-- One round of the loop of `block`: the switch on the type of the
statement.  The bodies of `ifstmt`, `whileloop` and `forloop` stand in their
cases, so that every call of `block` is on a child of the statement. -/
def statement (l : Lowering) :
    Node → Bool → Operand → Operand → Operand → ir_generator → Lowered PUnit.{1}
  | .mk type tok children, loop, start_label, break_label, cont_label, g =>
    if type = .IF then
      let end_label := g.gen_label tok false "ifend"
      match ifBranches l end_label.1 children loop start_label break_label cont_label
          end_label.2 with
      | (.error e, g1) => (.error e, g1)
      | (.ok _, g1) =>
        if children.length ≠ 1 then g1.builder_label end_label.1 else (.ok ⟨⟩, g1)
    else if type = .WHILE then
      let new_t_label := g.gen_label tok true "while"
      let new_f_label := new_t_label.2.gen_label tok false "while"
      match new_f_label.2.builder_label new_t_label.1 with
      | (.error e, g1) => (.error e, g1)
      | (.ok _, g1) =>
        match children with
        | [] => (.error .undefinedBehaviour, g1)
        | condition :: rest =>
          match condn_expression l condition new_t_label.1 new_f_label.1 true false g1 with
          | (.error e, g2) => (.error e, g2)
          | (.ok _, g2) =>
            match rest with
            | [] => (.error .undefinedBehaviour, g2)
            | body :: _ =>
              match block l body true new_t_label.1 new_f_label.1 new_t_label.1 g2 with
              | (.error e, g3) => (.error e, g3)
              | (.ok _, g3) =>
                match g3.builder_createBranch .GOTO new_t_label.1 with
                | (.error e, g4) => (.error e, g4)
                | (.ok _, g4) => g4.builder_label new_f_label.1
    else if type = .FOR then
      match children with
      | [] => (.error .undefinedBehaviour, g)
      | init :: rest =>
        let initialized := if init.type = .VAR then l.var init g else l.assignment init g
        match initialized with
        | (.error e, g1) => (.error e, g1)
        | (.ok _, g1) =>
          let new_t_label := g1.gen_label tok true "for"
          let new_f_label := new_t_label.2.gen_label tok false "for"
          let cont_label1 := new_f_label.2.gen_label tok true "for_cont"
          match cont_label1.2.builder_label new_t_label.1 with
          | (.error e, g2) => (.error e, g2)
          | (.ok _, g2) =>
            match rest with
            | [] => (.error .undefinedBehaviour, g2)
            | condition :: rest2 =>
              match condn_expression l condition new_t_label.1 new_f_label.1 true false g2 with
              | (.error e, g3) => (.error e, g3)
              | (.ok _, g3) =>
                match rest2 with
                | step :: body :: _ =>
                  match block l body true new_t_label.1 new_f_label.1 cont_label1.1 g3 with
                  | (.error e, g4) => (.error e, g4)
                  | (.ok _, g4) =>
                    match g4.builder_label cont_label1.1 with
                    | (.error e, g5) => (.error e, g5)
                    | (.ok _, g5) =>
                      match l.assignment step g5 with
                      | (.error e, g6) => (.error e, g6)
                      | (.ok _, g6) =>
                        match g6.builder_createBranch .GOTO new_t_label.1 with
                        | (.error e, g7) => (.error e, g7)
                        | (.ok _, g7) => g7.builder_label new_f_label.1
                | _ => (.error .undefinedBehaviour, g3)
    else simpleStatement l (.mk type tok children) loop break_label cont_label g
termination_by structural root => root

/-- The loop of `ifstmt` over the branches. -/
def ifBranches (l : Lowering) (end_label : Operand) :
    List Node → Bool → Operand → Operand → Operand → ir_generator → Lowered PUnit.{1}
  | [], _, _, _, _, g => (.ok ⟨⟩, g)
  | .mk childType childTok childChildren :: rest, loop, start_label, break_label, cont_label, g =>
    let new_t_label := g.gen_label childTok true "if"
    let new_f_label := new_t_label.2.gen_label childTok false "if"
    let branch : Lowered PUnit.{1} :=
      if childType ≠ .ELSE then
        match childChildren with
        | [] => (.error .undefinedBehaviour, new_f_label.2)
        | condition :: rest1 =>
          match condn_expression l condition new_t_label.1 new_f_label.1 true false
              new_f_label.2 with
          | (.error e, g1) => (.error e, g1)
          | (.ok _, g1) =>
            match rest1 with
            | [] => (.error .undefinedBehaviour, g1)
            | body :: _ =>
              match block l body loop start_label break_label cont_label g1 with
              | (.error e, g2) => (.error e, g2)
              | (.ok _, g2) =>
                let jumped : Lowered PUnit.{1} :=
                  if !rest.isEmpty then g2.builder_createBranch .GOTO end_label
                  else (.ok ⟨⟩, g2)
                match jumped with
                | (.error e, g3) => (.error e, g3)
                | (.ok _, g3) => g3.builder_label new_f_label.1
      else
        match childChildren with
        | [] => (.error .undefinedBehaviour, new_f_label.2)
        | body :: _ => block l body loop start_label break_label cont_label new_f_label.2
    match branch with
    | (.error e, g1) => (.error e, g1)
    | (.ok _, g1) => ifBranches l end_label rest loop start_label break_label cont_label g1
termination_by structural branches => branches

end

/-- The method `ir_generator::ifstmt`: the IF case of `statement`. -/
def ifstmt (l : Lowering) (root : Node) (loop : Bool)
    (start_label break_label cont_label : Operand) (g : ir_generator) : Lowered PUnit.{1} :=
  statement l (.mk .IF root.tok root.children) loop start_label break_label cont_label g

/-- The method `ir_generator::whileloop`: the WHILE case of `statement`. -/
def whileloop (l : Lowering) (root : Node) (g : ir_generator) : Lowered PUnit.{1} :=
  statement l (.mk .WHILE root.tok root.children) false emptyLabel emptyLabel emptyLabel g

/-- The method `ir_generator::forloop`: the FOR case of `statement`. -/
def forloop (l : Lowering) (root : Node) (g : ir_generator) : Lowered PUnit.{1} :=
  statement l (.mk .FOR root.tok root.children) false emptyLabel emptyLabel emptyLabel g

/-! ### Descriptions used in the statements about lowering -/

/-- The generator works on the function `name`, whose entry list is `es`,
and the next id is `c`. -/
def Working (g : ir_generator) (name : String) (es : List Entry) (c : Nat) : Prop :=
  g.current_func_desc = some name ∧ g.id_counter = c ∧
    ∃ func_desc, g.module.functions.find? name = some func_desc ∧ func_desc.icodeTable = es

/-- The state `g1` continues `g`: `current_func_desc` is the same pointer and
the entry list of `g` is an initial segment of that of `g1`. -/
def Extends (g g1 : ir_generator) : Prop :=
  g1.current_func_desc = g.current_func_desc ∧ g.entries <+: g1.entries

/-- The failure a lowering function throws, if it throws. -/
def failureOf {α : Type} (r : Lowered α) : Option Failure :=
  match r.1 with
  | .error e => some e
  | .ok _ => none

/-- The failure is one of the two compile errors of `block` for a BREAK or
CONTINUE statement outside a loop. -/
def outsideLoop : Failure → Bool
  | .compileError msg => msg == "BREAK outside loop" || msg == "CONTINUE outside loop"
  | _ => false

/-- A relation between the state a lowering function is called in, the
failure it throws (if any) and the state it leaves, that the steps of
lowering keep: it holds across a step that leaves the functions of the module
and `current_func_desc` alone, for a failure other than the two of
`outsideLoop` thrown on the spot, for one step after another, and
across a builder call that appends to the entry list and throws none of the
two failures. -/
structure Invariant (R : ir_generator → Option Failure → ir_generator → Prop) : Prop where
  same : ∀ g g1 : ir_generator, g1.module.functions = g.module.functions →
    g1.current_func_desc = g.current_func_desc → R g none g1
  failure : ∀ (g : ir_generator) (e : Failure), outsideLoop e = false → R g (some e) g
  trans : ∀ (g g1 g2 : ir_generator) (o : Option Failure), R g none g1 → R g1 o g2 → R g o g2
  builder : ∀ {α : Type} (g : ir_generator)
    (operation : FunctionBuilder → Except Failure α × FunctionBuilder),
    (∀ fb, fb.entries <+: (operation fb).2.entries) →
    (∀ fb e, (operation fb).1 = .error e → outsideLoop e = false) →
    R g (failureOf (g.withBuilder operation)) (g.withBuilder operation).2

/-- The result `r` of a call made in the state `g` is in the relation. -/
def Keeps {α : Type} (R : ir_generator → Option Failure → ir_generator → Prop)
    (g : ir_generator) (r : Lowered α) : Prop :=
  R g (failureOf r) r.2

/-- Every call of a member taken as given is in the relation. -/
def Lowering.Respects (l : Lowering)
    (R : ir_generator → Option Failure → ir_generator → Prop) : Prop :=
  (∀ node g, Keeps R g (l.expression node g)) ∧
  (∀ node g, Keeps R g (l.var node g)) ∧
  (∀ node g, Keeps R g (l.assignment node g)) ∧
  (∀ node g, Keeps R g (l.var_access node g)) ∧
  (∀ op unit g, Keeps R g (l.copy_struct op unit g)) ∧
  (∀ node g, Keeps R g (l.print node g)) ∧
  (∀ node g, Keeps R g (l.input node g))

/-- The members taken as given only append to the current function: each
call, returning or throwing, continues the state it was made in. -/
def Lowering.AppendOnly (l : Lowering) : Prop :=
  l.Respects (fun g _ g1 => Extends g g1)

/-- The members taken as given throw neither of the two failures of `block`
for a BREAK or CONTINUE outside a loop. -/
def Lowering.NoOutsideLoop (l : Lowering) : Prop :=
  l.Respects (fun _ o _ => ∀ e, o = some e → outsideLoop e = false)

/-- The pointer temporary with the given id and DataType. -/
def pointerTemp (id : Nat) (dtype : DataType) : Operand :=
  { operandId := id, dtype := dtype, operandType := .TEMP_PTR }

/-- The write of one child in the loop of `assign_init_list_tovar`: a scalar
element is an expression that is copied to the current offset, an element
with dimensions is a string literal or a nested initializer list. -/
def initListElement (l : Lowering) (varDescription : TypeDescription) (child : Node)
    (curr_offset : Operand) (g : ir_generator) : Lowered PUnit.{1} :=
  let element_var := elementDescription varDescription
  if element_var.dimensions.length = 0 then
    if child.type ≠ .TERM ∧ child.type ≠ .EXPRESSION then
      (.error (.compileError "Incorrect dimensions"), g)
    else
      match l.expression child g with
      | (.error e, g1) => (.error e, g1)
      | (.ok element_expr, g1) =>
        if !l.isSameType element_var element_expr.second then
          (.error (.typeError element_var element_expr.second), g1)
        else if element_expr.second.dtype ≠ .STRUCT then
          g1.builder_copy curr_offset element_expr.first
        else l.copy_struct curr_offset element_expr g1
  else if child.type = .STR_LITERAL then
    g.assign_str_literal_tovar { first := curr_offset, second := element_var } child
  else
    assign_init_list_tovar l { first := curr_offset, second := element_var } child g

mutual

/-- An initializer list fits the dimensions: at every nesting level the
number of children is the leading dimension at that level (as an
`unsigned int`); the elements below the last dimension are not lists, and a
string literal stands for a whole element with dimensions. -/
def shaped : List Int → Node → Bool
  | [], _ => false
  | n :: rest, .mk _ _ children =>
    decide (children.length = toUnsigned n) && shapedChildren rest children
termination_by structural _ root => root

/-- The children of a list whose elements have the dimensions `rest` fit
them. -/
def shapedChildren : List Int → List Node → Bool
  | _, [] => true
  | rest, child :: more =>
    (rest.isEmpty || decide (child.type = .STR_LITERAL) || shaped rest child)
      && shapedChildren rest more
termination_by structural _ children => children

end

/-! ### Examples of lowering -/

/-- The number written in decimal digits. -/
def exampleNumber (s : String) : Int :=
  (s.data.foldl (fun acc c => acc * 10 + (c.toNat - 48)) 0 : Nat)

/-- An `expression` for the examples: a node whose token is an INT_LITERAL is
lowered as the LITERAL case of `term` (a literal operand with a fresh id, no
entry); any other node is the `int` variable named by its token, mutable when
the token is an IDENTIFIER and immutable otherwise. -/
def exampleExpression (node : Node) (g : ir_generator) : Lowered Unit :=
  if node.tok.type = .INT_LITERAL then
    (.ok { first := createLiteralOperand .AUTO_INT (exampleNumber node.tok.string) g.id.1,
           second := { dtype := .AUTO_INT, dtypeName := "autoInt", dtypeSize := 8, size := 8 } },
     g.id.2)
  else
    (.ok { first := { dtype := .I32, operandType := .VAR, name := node.tok.string,
                      operandId := g.id.1 },
           second := { dtype := .I32, dtypeName := "int", dtypeSize := 4, size := 4,
                       properties := if node.tok.type = .IDENTIFIER then 1 else 0 } },
     g.id.2)

/-- The members taken as given, for the examples: expressions are literals and
variables, types are the same when their DataTypes are equal up to the
literal placeholders and their dimensions agree, a declaration appends
nothing, an assignment lowers to one EQUAL of its two children, `print` to
one NEWLN and `input` to one SPACE. -/
def exampleLowering : Lowering :=
  { expression := exampleExpression,
    isSameType := fun a b => dataTypeIsEqual a.dtype b.dtype && decide (a.dimensions = b.dimensions),
    var := fun _ g => (.ok ⟨⟩, g),
    assignment := fun node g =>
      g.builder_copy
        { dtype := .I32, operandType := .VAR, name := (node.children.headD node).tok.string }
        { dtype := .I32, operandType := .VAR,
          name := ((node.children.drop 1).headD node).tok.string },
    var_access := exampleExpression,
    copy_struct := fun _ _ g => (.ok ⟨⟩, g),
    print := fun _ g => g.builder_noArgumentEntry .NEWLN,
    input := fun _ g => g.builder_noArgumentEntry .SPACE }

/-- A generator in the function `main` of module `m`, with no entry yet. -/
def exampleGenerator : ir_generator :=
  { module := { name := "m", functions := { entries := [("main", { moduleName := "m" })] } },
    current_func_desc := some "main" }

/-- The variable `s : char[3]`. -/
def exampleCharArray : Unit :=
  { first := { dtype := .UI8, operandType := .VAR, name := "s" },
    second := { dtype := .UI8, dtypeName := "char", moduleName := "m", dtypeSize := 1, size := 3,
                dimensions := [3], dimTypes := [.FIXED_DIM], properties := 1 } }

/-- The node of an integer literal. -/
def exampleLiteral (digits : String) : Node :=
  .mk .TERM { string := digits, type := .INT_LITERAL } []

/-- The node of an identifier: a mutable variable. -/
def exampleIdentifier (name : String) : Node :=
  .mk .TERM { string := name, type := .IDENTIFIER } []

/-- The node of an immutable variable. -/
def exampleConstant (name : String) : Node :=
  .mk .TERM { string := name } []

/-- A generator in `main` of module `m`, which also declares
`fn f(mut x: int)`. -/
def exampleCallGenerator : ir_generator :=
  { module :=
      { name := "m",
        functions :=
          { entries :=
              [("f", { parameters := ["x"], moduleName := "m",
                       symbols := { entries := [("x", { dtype := .I32, dtypeName := "int",
                                                          dtypeSize := 4, size := 4,
                                                          properties := 7 })] } }),
               ("main", { moduleName := "m" })] } },
    current_func_desc := some "main" }

end ir_generator

namespace ir_generator

/-- The entries of a comparison: the reads of the operands that are pointers,
then the compare entry on their values. -/
def compareEntries (opcode : Instruction) (op1 op2 : Operand) (id : Nat) : List Entry :=
  FunctionBuilder.readEntries id op1 ++
  FunctionBuilder.readEntries (id + FunctionBuilder.idsTaken op1)
    (FunctionBuilder.adoptLiteralDataType op1 op2) ++
  [{ opcode := opcode, op1 := FunctionBuilder.valueOperand id op1,
     op2 := FunctionBuilder.valueOperand (id + FunctionBuilder.idsTaken op1)
       (FunctionBuilder.adoptLiteralDataType op1 op2) }]

/-- The block of a branch of an IF statement: `children[1]` after the
condition, or `children[0]` of an ELSE. -/
def ifBody (branch : Node) : Option Node :=
  if branch.type ≠ .ELSE then (branch.children.drop 1).head? else branch.children.head?

/-- The statement `target` is the statement `stmt` itself, or is nested in
it through any number of blocks of IF, ELSEIF and ELSE branches: it is not
separated from `stmt` by a WHILE or FOR. -/
inductive Escapes : Node → Node → Prop
  | self (stmt : Node) : Escapes stmt stmt
  | through (stmt branch inner child target : Node) :
      stmt.type = .IF → branch ∈ stmt.children → ifBody branch = some inner →
      child ∈ inner.children → Escapes child target → Escapes stmt target

/-- The statement `target` is in the block `body`, outside any loop nested
in the block. -/
def Reaches (body target : Node) : Prop :=
  ∃ child ∈ body.children, Escapes child target

/-- What `ifstmt` appends for one branch: the false label of the branch, the
entries of its condition (none for an ELSE) and the entries of its block. -/
structure IfBranchTrace where
  falseLabel : Operand
  condition : List Entry
  body : List Entry

/-- The entries of one round of the loop of `ifstmt`: for an ELSE the block;
otherwise the condition, the block, a GOTO to the end label unless the branch
is the last child, and the false label of the branch. -/
def ifBranchEntries (end_label : Operand) (isElse isLast : Bool) (t : IfBranchTrace) :
    List Entry :=
  if isElse then t.body
  else
    t.condition ++ t.body
      ++ (if isLast then [] else [{ opcode := .GOTO, op1 := end_label }])
      ++ [{ opcode := .CREATE_LABEL, op1 := t.falseLabel }]

/-- The entries of the loop of `ifstmt` over the branches. -/
def ifChainEntries (end_label : Operand) : List Node → List IfBranchTrace → List Entry
  | branch :: rest, t :: ts =>
    ifBranchEntries end_label (decide (branch.type = .ELSE)) rest.isEmpty t
      ++ ifChainEntries end_label rest ts
  | _, _ => []

/-- The trace `t` is that of lowering the branch in a loop context: from some
state `g`, in which the two labels of the branch are generated, the condition
`branch.children[0]` is lowered with the true label, the false label
`t.falseLabel`, `t_fall = true` and `f_fall = false` and appends
`t.condition`, then the block `branch.children[1]` is lowered in the context
and appends `t.body`; for an ELSE there is no condition and the block is
`branch.children[0]`. -/
def BranchLowered (l : Lowering) (loop : Bool) (start_label break_label cont_label : Operand)
    (branch : Node) (t : IfBranchTrace) : Prop :=
  ∃ g ga gb : ir_generator,
    t.falseLabel = ((g.gen_label branch.tok true "if").2.gen_label branch.tok false "if").1 ∧
    ga.entries = g.entries ++ t.condition ∧ gb.entries = ga.entries ++ t.body ∧
    if branch.type ≠ .ELSE then
      ∃ (condition body : Node) (rest : List Node),
        branch.children = condition :: body :: rest ∧
        condn_expression l condition (g.gen_label branch.tok true "if").1 t.falseLabel
          true false ((g.gen_label branch.tok true "if").2.gen_label branch.tok false "if").2
          = (.ok ⟨⟩, ga) ∧
        block l body loop start_label break_label cont_label ga = (.ok ⟨⟩, gb)
    else
      ∃ (body : Node) (rest : List Node),
        branch.children = body :: rest ∧ t.condition = [] ∧
        ga = ((g.gen_label branch.tok true "if").2.gen_label branch.tok false "if").2 ∧
        block l body loop start_label break_label cont_label ga = (.ok ⟨⟩, gb)

/-- The lowering `block` as the member `block` of the handlers of
`program`. -/
def blockHandler (l : Lowering) (body : Node) (loop : Bool)
    (start_label break_label cont_label : Operand) (g : ir_generator) :
    Except Failure ir_generator :=
  match block l body loop start_label break_label cont_label g with
  | (.error e, _) => .error e
  | (.ok _, g1) => .ok g1

/-- The three labels of a FOR loop and the state after generating them. -/
structure ForLabels where
  entry : Operand
  exit : Operand
  cont : Operand
  state : ir_generator

/-- The labels that `forloop` generates in the state `g` for the token of the
loop: the entry label, the exit label and the continue label, in this
order. -/
def forLabels (g : ir_generator) (tok : Token) : ForLabels :=
  let new_t_label := g.gen_label tok true "for"
  let new_f_label := new_t_label.2.gen_label tok false "for"
  let cont_label := new_f_label.2.gen_label tok true "for_cont"
  { entry := new_t_label.1, exit := new_f_label.1, cont := cont_label.1, state := cont_label.2 }

/-- The condition `i < 3`. -/
def exampleComparison : Node :=
  .mk .EXPRESSION {}
    [exampleIdentifier "i", .mk .OPERATOR { string := "<", type := .LESS_THAN } [],
     exampleLiteral "3"]

/-- The statement `target = source` on two variables. -/
def exampleAssignment (target source : String) : Node :=
  .mk .ASSIGNMENT {} [exampleIdentifier target, exampleIdentifier source]

/-- The loop `while i < 3 { i = j }`, at line 1, column 1. -/
def exampleWhile : Node :=
  .mk .WHILE { string := "while", line := 1, col := 1 }
    [exampleComparison, .mk .BLOCK {} [exampleAssignment "i" "j"]]

/-- The statement `if i < 3 { i = j } else { i = k }`, with the IF token at
line 3, column 1, the first branch at line 3, column 4 and the ELSE at line 4,
column 1. -/
def exampleIf : Node :=
  .mk .IF { string := "if", line := 3, col := 1 }
    [.mk .IF { string := "if", line := 3, col := 4 }
       [exampleComparison, .mk .BLOCK {} [exampleAssignment "i" "j"]],
     .mk .ELSE { string := "else", line := 4, col := 1 }
       [.mk .BLOCK {} [exampleAssignment "i" "k"]]]

/-- The token `for` at line 2, column 1. -/
def exampleForToken : Token := { string := "for", line := 2, col := 1 }

/-- The loop `for i = j; i < 3; i = k { stmt }`, at line 2, column 1. -/
def exampleFor (stmt : Node) : Node :=
  .mk .FOR exampleForToken
    [exampleAssignment "i" "j", exampleComparison, exampleAssignment "i" "k",
     .mk .BLOCK {} [stmt]]

end ir_generator

namespace ir_generator

/-- The failure is the compile error of `block` for the statement `target`:
"BREAK outside loop" for a BREAK, "CONTINUE outside loop" for a CONTINUE. -/
def OutsideLoopFailure (target : Node) (e : Failure) : Prop :=
  (target.type = .BREAK ∧ e = .compileError "BREAK outside loop") ∨
  (target.type = .CONTINUE ∧ e = .compileError "CONTINUE outside loop")

/-- The statement `if i < 3 { break }`, with the IF token at line 3, column 1
and the branch at line 3, column 4. -/
def exampleIfBreak : Node :=
  .mk .IF { string := "if", line := 3, col := 1 }
    [.mk .IF { string := "if", line := 3, col := 4 }
       [exampleComparison, .mk .BLOCK {} [.mk .BREAK { string := "break" } []]]]

/-- The loop `while i < 3 { if i < 3 { break } }`, at line 1, column 1. -/
def exampleWhileBreak : Node :=
  .mk .WHILE { string := "while", line := 1, col := 1 }
    [exampleComparison, .mk .BLOCK {} [exampleIfBreak]]

end ir_generator

/-! ## Scopes, conditions, variable access, type nodes and the driver -/

/-- The type `int[1][23]` of module `m`. -/
def exampleShapeA : TypeDescription :=
  { moduleName := "m", dtypeName := "int", dtype := .I32, dtypeSize := 4, size := 92,
    dimensions := [1, 23], dimTypes := [.FIXED_DIM, .FIXED_DIM] }

/-- The type `int[12][3]` of module `m`. -/
def exampleShapeB : TypeDescription :=
  { moduleName := "m", dtypeName := "int", dtype := .I32, dtypeSize := 4, size := 144,
    dimensions := [12, 3], dimTypes := [.FIXED_DIM, .FIXED_DIM] }

namespace ir_generator

/-- The method `ir_generator::get_scope_id`: `scope_id_stack.back()`; on an
empty stack, where `back()` is undefined, there is no result. -/
def get_scope_id (g : ir_generator) : Option Nat :=
  g.scope_id_stack.getLast?

/-- The method `ir_generator::in_scope`: `std::find` over the stack. -/
def in_scope (g : ir_generator) (scope_id : Nat) : Bool :=
  decide (scope_id ∈ g.scope_id_stack)

/-- A call of `enter_scope` or of `exit_scope`. -/
inductive ScopeCall
  | enter | exit
  deriving DecidableEq, Repr, Inhabited

/-- The effect of one call. -/
def ScopeCall.run : ScopeCall → ir_generator → ir_generator
  | .enter, g => g.enter_scope
  | .exit, g => g.exit_scope

/-- The effect of a sequence of calls, first call first. -/
def runScopeCalls : List ScopeCall → ir_generator → ir_generator
  | [], g => g
  | c :: calls, g => runScopeCalls calls (c.run g)

/-- The number of scopes open after a sequence of calls that starts with
`depth` open scopes; `none` when some exit has no open enter before it (a
beginning of the sequence has more exits than enters). -/
def scopeDepth : Nat → List ScopeCall → Option Nat
  | depth, [] => some depth
  | depth, .enter :: calls => scopeDepth (depth + 1) calls
  | depth, .exit :: calls => if depth = 0 then none else scopeDepth (depth - 1) calls

/-- The number of `enter_scope` calls of a sequence. -/
def enters : List ScopeCall → Nat
  | [] => 0
  | .enter :: calls => enters calls + 1
  | .exit :: calls => enters calls

/-- The sequence of `n` pairs of an `enter_scope` and an `exit_scope`. -/
def enterExitPairs : Nat → List ScopeCall
  | 0 => []
  | n + 1 => .enter :: .exit :: enterExitPairs n

/-- The state of the scope bookkeeping while the counter has not wrapped: the
stack is strictly increasing, starts with 0 and holds no id above the
counter. -/
structure ScopeInv (g : ir_generator) : Prop where
  sorted : g.scope_id_stack.Pairwise (· < ·)
  bottom : g.scope_id_stack.head? = some 0
  bounded : ∀ x ∈ g.scope_id_stack, x ≤ g.scope_id_counter

/-- The entry is a comparison: its opcode is LT, LTE, GT, GTE, EQ or NEQ. -/
def isCompare (e : Entry) : Bool :=
  match e.opcode with
  | .LT | .LTE | .GT | .GTE | .EQ | .NEQ => true
  | _ => false

/-- The entry is a conditional branch: IF_TRUE_GOTO or IF_FALSE_GOTO. -/
def isConditionalBranch (e : Entry) : Bool :=
  match e.opcode with
  | .IF_TRUE_GOTO | .IF_FALSE_GOTO => true
  | _ => false

/-- The property of `expression`, taken as given, that the claims on lowered
conditions rest on: a call that returns has appended entries to the current
function, none of them a comparison or a conditional branch.  (In `irgen.cpp`
the operators of an expression go through `tokenToBinaryOperator`, which
rejects the comparison and logical operators, and `expression` creates no
branch.) -/
def Lowering.PlainExpressions (l : Lowering) : Prop :=
  ∀ (node : Node) (g g1 : ir_generator) (a : Unit), l.expression node g = (.ok a, g1) →
    ∃ es : List Entry, g1.entries = g.entries ++ es ∧
      ∀ e ∈ es, isCompare e = false ∧ isConditionalBranch e = false

/-- The shape of the entries that a call of `condn_expression` with the
targets `t`, `f` and the fall flags `tf`, `ff` appends: for a comparison, the
entries of the operands, the compare entry and the branches of the sides that
do not fall through; for `&&` and `||`, the entries of the first operand
(lowered with the new labels as the code passes them), those of the second
operand (lowered with the targets and flags of the call) and the new label of
the side that falls through; for `!`, the entries of the operand lowered with
targets and flags swapped. -/
inductive CondEntries : Operand → Operand → Bool → Bool → List Entry → Prop
  | compare (t f : Operand) (tf ff : Bool) (operands : List Entry) (cmp : Entry) :
      (∀ e ∈ operands, isCompare e = false ∧ isConditionalBranch e = false) →
      isCompare cmp = true →
      CondEntries t f tf ff
        (operands ++ [cmp]
          ++ (if tf then [] else [{ opcode := .IF_TRUE_GOTO, op1 := t }])
          ++ (if ff then [] else [{ opcode := .IF_FALSE_GOTO, op1 := f }]))
  | conj (t f new_t new_f : Operand) (tf ff : Bool) (first second : List Entry) :
      CondEntries new_t (if ff then new_f else f) true false first →
      CondEntries t f tf ff second →
      CondEntries t f tf ff
        (first ++ second ++ (if ff then [{ opcode := .CREATE_LABEL, op1 := new_f }] else []))
  | disj (t f new_t new_f : Operand) (tf ff : Bool) (first second : List Entry) :
      CondEntries (if tf then new_t else t) new_f false true first →
      CondEntries t f tf ff second →
      CondEntries t f tf ff
        (first ++ second ++ (if tf then [{ opcode := .CREATE_LABEL, op1 := new_t }] else []))
  | neg (t f : Operand) (tf ff : Bool) (es : List Entry) :
      CondEntries f t ff tf es → CondEntries t f tf ff es

/-- A list of entries in which comparisons and conditional branches come in
pairs only: each element is an entry that is neither, or a comparison
directly followed by one conditional branch. -/
inductive Paired : List Entry → Prop
  | nil : Paired []
  | plain (e : Entry) (rest : List Entry) :
      isCompare e = false → isConditionalBranch e = false → Paired rest → Paired (e :: rest)
  | pair (cmp branch : Entry) (rest : List Entry) :
      isCompare cmp = true → isConditionalBranch branch = true → Paired rest →
      Paired (cmp :: branch :: rest)

/-- In the list, the target of every conditional branch is accepted by `J`
or is the label of a CREATE_LABEL entry further on in the list. -/
def TargetsDefined (J : Operand → Prop) : List Entry → Prop
  | [] => True
  | e :: rest =>
    (isConditionalBranch e = true →
      J e.op1 ∨ ∃ c ∈ rest, c.opcode = .CREATE_LABEL ∧ c.op1 = e.op1) ∧
    TargetsDefined J rest

/-- The recursive calls in the body of `condn_expression`: the call on `root`
with the fall flags `(tf, ff)` calls itself on `child` with the flags
`(tf1, ff1)`.  The parenthesised expression of a TERM and an only child keep
the flags, the operand of `!` gets them swapped, the first operand of `&&`
gets `(true, false)`, the first operand of `||` gets `(false, true)`, and the
second operand of either gets the flags of the call. -/
inductive DirectCall : Node → Bool → Bool → Node → Bool → Bool → Prop
  | parenthesised (tok : Token) (child0 : Node) (rest : List Node) (tf ff : Bool) :
      child0.type = .EXPRESSION →
      DirectCall (.mk .TERM tok (child0 :: rest)) tf ff child0 tf ff
  | negated (tok k1 k2 : Token) (t1 t2 : NodeType) (inner : Node) (r2 r1 rest : List Node)
      (tf ff : Bool) :
      t1 ≠ .EXPRESSION → k1.type = .CONDN_NOT →
      DirectCall (.mk .TERM tok (.mk t1 k1 (.mk t2 k2 (inner :: r2) :: r1) :: rest)) tf ff
        inner ff tf
  | only (type : NodeType) (tok : Token) (child : Node) (tf ff : Bool) :
      type ≠ .TERM → DirectCall (.mk type tok [child]) tf ff child tf ff
  | conjFirst (type : NodeType) (tok : Token) (first operatorNode : Node) (rest : List Node)
      (tf ff : Bool) :
      type ≠ .TERM → operatorNode.tok.type = .CONDN_AND →
      DirectCall (.mk type tok (first :: operatorNode :: rest)) tf ff first true false
  | disjFirst (type : NodeType) (tok : Token) (first operatorNode : Node) (rest : List Node)
      (tf ff : Bool) :
      type ≠ .TERM → operatorNode.tok.type = .CONDN_OR →
      DirectCall (.mk type tok (first :: operatorNode :: rest)) tf ff first false true
  | second (type : NodeType) (tok : Token) (first operatorNode second : Node)
      (rest : List Node) (tf ff : Bool) :
      type ≠ .TERM →
      operatorNode.tok.type = .CONDN_AND ∨ operatorNode.tok.type = .CONDN_OR →
      DirectCall (.mk type tok (first :: operatorNode :: second :: rest)) tf ff second tf ff

/-- The calls of `condn_expression` made, directly or through nested calls,
by the call on `root` with the flags `(tf, ff)`, that call included. -/
inductive NestedCall (root : Node) (tf ff : Bool) : Node → Bool → Bool → Prop
  | self : NestedCall root tf ff root tf ff
  | step (mid child : Node) (tf1 ff1 tf2 ff2 : Bool) :
      NestedCall root tf ff mid tf1 ff1 → DirectCall mid tf1 ff1 child tf2 ff2 →
      NestedCall root tf ff child tf2 ff2

/-- The condition `j < 4`. -/
def exampleComparisonTwo : Node :=
  .mk .EXPRESSION {}
    [exampleIdentifier "j", .mk .OPERATOR { string := "<", type := .LESS_THAN } [],
     exampleLiteral "4"]

/-- The condition `i < 3 && j < 4`, with the operator at line 5, column 7. -/
def exampleConjunction : Node :=
  .mk .EXPRESSION {}
    [exampleComparison,
     .mk .OPERATOR { string := "&&", type := .CONDN_AND, line := 5, col := 7 } [],
     exampleComparisonTwo]

/-- The condition `i < 3 || j < 4`, with the operator at line 5, column 7. -/
def exampleDisjunction : Node :=
  .mk .EXPRESSION {}
    [exampleComparison,
     .mk .OPERATOR { string := "||", type := .CONDN_OR, line := 5, col := 7 } [],
     exampleComparisonTwo]

/-- The condition `!(i < 3)`. -/
def exampleNegation : Node :=
  .mk .TERM {}
    [.mk .UNARY_OPR { string := "!", type := .CONDN_NOT } [.mk .TERM {} [exampleComparison]]]

/-- A label for the true side of the examples. -/
def exampleTrueLabel : Operand := createLabelOperand "_yes" 100

/-- A label for the false side of the examples. -/
def exampleFalseLabel : Operand := createLabelOperand "_no" 101

end ir_generator

/-- Modelled from the spec: the record `icode::Define` of the interface
`irgen.cpp` is written against (its header is not among the sources): the
DataType of the define and its value.  The generic types INT and FLOAT of
that interface are AUTO_INT and AUTO_FLOAT in `DataType.cpp`. -/
structure Define where
  dtype : DataType := .AUTO_INT
  integer : Int := 0
  floating : FloatValue := {}
  deriving DecidableEq, Repr, Inhabited

/-- Modelled from the spec: `ModuleDescription::getDefine` (body not among the
sources): the define stored under the name, an integer or a floating one. -/
def ModuleDescription.getDefine (m : ModuleDescription) (name : String) : Option Define :=
  match m.intDefines.find? name with
  | some value => some { dtype := .AUTO_INT, integer := value }
  | none =>
    match m.floatDefines.find? name with
    | some value => some { dtype := .AUTO_FLOAT, floating := value }
    | none => none

/-- Modelled from the spec: `icode::createVarOperand(dtype, dtypeName, name,
id, global, ptr)` (`Operand.cpp` is not among the sources): the operand of a
named variable, a GBL_VAR for a global, a PTR for a pointer and a VAR
otherwise.  The name of the type, which the earlier operand carries, is kept
by the caller. -/
def createVarOperand (dtype : DataType) (name : String) (id : Nat) (global ptr : Bool) :
    Operand :=
  { operandType := if global then .GBL_VAR else if ptr then .PTR else .VAR,
    dtype := dtype, name := name, operandId := id }

/-- Modelled from the spec: `Operand::updateDataType(var)` (`Operand.cpp` is
not among the sources): the operand takes the DataType of the variable
description. -/
def Operand.updateDataType (op : Operand) (var : TypeDescription) : Operand :=
  { op with dtype := var.dtype }

namespace ir_generator

/-- The call `builder.addressMultiplyOperator(op2, op3)`. -/
def builder_addressMultiplyOperator (g : ir_generator) (op2 op3 : Operand) : Lowered Operand :=
  g.withBuilder (fun fb =>
    (.ok (fb.addressMultiplyOperator op2 op3).1, (fb.addressMultiplyOperator op2 op3).2))

/-- The method `ir_generator::get_def`. -/
def get_def (g : ir_generator) (name : String) : Option Define :=
  match g.currentExtModule.getDefine name with
  | some d => some d
  | none => g.module.getDefine name

/-- The method `ir_generator::get_enum`. -/
def get_enum (g : ir_generator) (name : String) : Option Int :=
  match g.module.getEnum name with
  | some value => some value
  | none => g.currentExtModule.getEnum name

/-- The erase at the end of the SUBSCRIPT case of `var_access`: of the
dimensions, the last `dimensions.size() - dim_count` are left. -/
def eraseIndexed (info : TypeDescription) (dim_count : Nat) : TypeDescription :=
  { info with
      dimensions := info.dimensions.drop
        (info.dimensions.length - (info.dimensions.length - dim_count)) }

/-- The values of `dim_count` and `elem_width` with which the body of the
subscript loop of `var_access` runs for a SUBSCRIPT child: those of the
iteration before (`width` is `some`), or, for the first subscript of a run,
1 and `size / dimensions[0]` after the test for an array.  (Dividing by zero
is undefined.) -/
def subscriptEntry (info : TypeDescription) (dim_count : Nat) (width : Option Nat) :
    Except Failure (Nat × Nat) :=
  match width with
  | some elem_width => .ok (dim_count, elem_width)
  | none =>
    match info.dimensions.head? with
    | none => .error (.compileError "ARRAY access on a NON ARRAY")
    | some d0 =>
      if toUnsigned d0 = 0 then .error .undefinedBehaviour
      else .ok (1, info.size / toUnsigned d0)

/-- The update `if (dim_count != dimensions.size()) elem_width /=
dimensions[dim_count]` of the subscript loop. -/
def nextSubscriptWidth (info : TypeDescription) (dim_count elem_width : Nat) :
    Except Failure Nat :=
  if dim_count ≠ info.dimensions.length then
    match info.dimensions.get? dim_count with
    | none => .error .undefinedBehaviour
    | some d =>
      if toUnsigned d = 0 then .error .undefinedBehaviour
      else .ok (elem_width / toUnsigned d)
  else .ok elem_width

/-- The loop of `var_access` over the struct fields and subscripts, from the
child `root.children[i]` on: the list holds the children from index `i`.
The state is `dim_count`, `current_offset_temp` and `current_var_info`;
`width` is `some elem_width` inside a run of subscripts (the inner `while`)
and `none` at the head of the `for` loop.  A SUBSCRIPT child is one iteration
of the inner loop; when the next child is not a SUBSCRIPT the run ends, the
indexed dimensions are erased and `dim_count` keeps its value.  The field
test `fieldExists` and the read `structFields[name]` are one lookup.  (Reading
`root.children[++i]` or `child.children[0]` past the end is undefined.) -/
def accessPath (l : Lowering) :
    List Node → Nat → Option Nat → Operand → TypeDescription → ir_generator →
      Lowered (Operand × TypeDescription)
  | [], _, _, current_offset_temp, current_var_info, g =>
    (.ok (current_offset_temp, current_var_info), g)
  | child :: rest, dim_count, width, current_offset_temp, current_var_info, g =>
    if child.type = .STRUCT_VAR then
      match rest with
      | [] => (.error .undefinedBehaviour, g)
      | field :: rest2 =>
        if current_var_info.dtype ≠ .STRUCT then
          (.error (.compileError "STRUCT access on a NON-STRUCT data type"), g)
        else if dim_count = 0 ∧ current_var_info.dimensions.length ≠ 0 then
          (.error (.compileError "STRUCT access on an ARRAY"), g)
        else
          let sd := FunctionBuilder.structureAt g.ext_modules_map current_var_info.moduleName
            current_var_info.dtypeName
          let g1 : ir_generator := { g with ext_modules_map := sd.2 }
          match sd.1.structFields.find? field.tok.string with
          | none => (.error (.compileError "Undefined STRUCT field"), g1)
          | some fieldInfo =>
            let is_mut := current_var_info.checkProperty .IS_MUT
            let new_var_info := if !is_mut then fieldInfo.clearProperty .IS_MUT else fieldInfo
            let offset_temp := current_offset_temp.updateDataType new_var_info
            let fresh := g1.id
            match fresh.2.builder_addressAddOperator offset_temp
                (createLiteralAddressOperand new_var_info.offset fresh.1) with
            | (.error e, g2) => (.error e, g2)
            | (.ok new_offset_temp, g2) =>
              accessPath l rest2 0 none new_offset_temp new_var_info g2
    else if child.type = .SUBSCRIPT then
      match subscriptEntry current_var_info dim_count width with
      | .error e => (.error e, g)
      | .ok (count, elem_width) =>
        if count > current_var_info.dimensions.length then
          (.error (.compileError "Too many subscripts"), g)
        else
          match child.children.head? with
          | none => (.error .undefinedBehaviour, g)
          | some index =>
            match l.expression index g with
            | (.error e, g1) => (.error e, g1)
            | (.ok subs_expr, g1) =>
              if !isInteger subs_expr.second.dtype || subs_expr.second.dimensions.length ≠ 0
              then (.error (.compileError "Index must be an integer"), g1)
              else
                let fresh := g1.id
                match fresh.2.builder_addressMultiplyOperator subs_expr.first
                    (createLiteralAddressOperand elem_width fresh.1) with
                | (.error e, g2) => (.error e, g2)
                | (.ok subs_op, g2) =>
                  match nextSubscriptWidth current_var_info count elem_width with
                  | .error e => (.error e, g2)
                  | .ok new_width =>
                    match g2.builder_addressAddOperator current_offset_temp subs_op with
                    | (.error e, g3) => (.error e, g3)
                    | (.ok new_offset_temp, g3) =>
                      match rest with
                      | [] => (.ok (new_offset_temp, eraseIndexed current_var_info count), g3)
                      | next :: _ =>
                        if next.type = .SUBSCRIPT then
                          accessPath l rest (count + 1) (some new_width) new_offset_temp
                            current_var_info g3
                        else
                          accessPath l rest count none new_offset_temp
                            (eraseIndexed current_var_info count) g3
    else (.error .internalBugError, g)

/-- The part of `var_access` after the identifier was found as a local or a
global variable.  `scopeId` reads the member `scopeId` of the
`VariableDescription` of `irgen.cpp`, which the `TypeDescription` of the
builder sources does not have. -/
def variableAccess (l : Lowering) (scopeId : TypeDescription → Nat) (ident_name : String)
    (rest : List Node) (current_var_info : TypeDescription) (is_global is_ptr : Bool)
    (g : ir_generator) : Lowered Unit :=
  if !g.in_scope (scopeId current_var_info) then
    (.error (.compileError "Symbol not in scope"), g)
  else
    let fresh := g.id
    let op := createVarOperand current_var_info.dtype ident_name fresh.1 is_global is_ptr
    if rest.isEmpty then (.ok { first := op, second := current_var_info }, fresh.2)
    else
      match fresh.2.builder_createPointer op current_var_info.dtypeName with
      | (.error e, g1) => (.error e, g1)
      | (.ok current_offset_temp, g1) =>
        match accessPath l rest 0 none current_offset_temp current_var_info g1 with
        | (.error e, g2) => (.error e, g2)
        | (.ok (offset_temp, var_info), g2) => (.ok { first := offset_temp, second := var_info }, g2)

/-- The method `ir_generator::var_access`.  (Reading `root.children[0]` of a
node without children and dereferencing a null `current_func_desc` are
undefined.) -/
def var_access (l : Lowering) (scopeId : TypeDescription → Nat) (root : Node)
    (g : ir_generator) : Lowered Unit :=
  match root.children with
  | [] => (.error .undefinedBehaviour, g)
  | child :: rest =>
    let ident_name := child.tok.string
    match g.current_function with
    | none => (.error .undefinedBehaviour, g)
    | some func_desc =>
      match func_desc.getSymbol ident_name with
      | some current_var_info =>
        variableAccess l scopeId ident_name rest current_var_info false
          (current_var_info.checkProperty .IS_PTR) g
      | none =>
        match g.module.getGlobal ident_name with
        | some current_var_info =>
          variableAccess l scopeId ident_name rest current_var_info true false g
        | none =>
          match g.get_enum ident_name with
          | some enum_val =>
            if rest.length + 1 > 1 then (.error (.compileError "Invalid use of ENUM"), g)
            else
              (.ok { first := createLiteralOperand .AUTO_INT enum_val g.id.1,
                     second := typeDescriptionFromDataType .AUTO_INT }, g.id.2)
          | none =>
            match g.get_def ident_name with
            | some d =>
              if rest.length + 1 > 1 then (.error (.compileError "Invalid use of DEF"), g)
              else
                (.ok { first :=
                         if d.dtype = .AUTO_INT then
                           createLiteralOperand .AUTO_INT d.integer g.id.1
                         else
                           { operandType := .LITERAL, dtype := .AUTO_FLOAT, operandId := g.id.1 },
                       second := typeDescriptionFromDataType d.dtype }, g.id.2)
            | none => (.error (.compileError "Symbol does not exist"), g)

/-- The variable `a : Pair[2][3]` of module `m`, a mutable local. -/
def examplePairArray : TypeDescription :=
  { dtype := .STRUCT, dtypeName := "Pair", moduleName := "m", dtypeSize := 8, size := 48,
    dimensions := [2, 3], dimTypes := [.FIXED_DIM, .FIXED_DIM], properties := 1 }

/-- A generator in `main` of module `m`, which declares the struct `Pair`;
`main` has the local `a : Pair[2][3]`, and the bottom scope is open. -/
def exampleAccessGenerator : ir_generator :=
  { module :=
      { name := "m",
        structures := { entries := [("Pair", examplePair)] },
        functions :=
          { entries :=
              [("main", { moduleName := "m",
                          symbols := { entries := [("a", examplePairArray)] } })] } },
    current_func_desc := some "main",
    scope_id_stack := [0],
    ext_modules_map := exampleModules }

/-- The access `a[0].a`: the array of structs is indexed once, then a field is
selected. -/
def examplePartialAccess : Node :=
  .mk .TERM {}
    [exampleIdentifier "a", .mk .SUBSCRIPT {} [exampleLiteral "0"], .mk .STRUCT_VAR {} [],
     exampleIdentifier "a"]

/-- The access `a.a`: a field is selected from the array itself. -/
def exampleArrayFieldAccess : Node :=
  .mk .TERM {} [exampleIdentifier "a", .mk .STRUCT_VAR {} [], exampleIdentifier "a"]

end ir_generator

/-! ## Type descriptions of type nodes (`TypeDescriptionFromNode.cpp`) -/

/-- Modelled from the spec: `pushWorkingModule` of the builder `ctx.ir` (its
class is not among the sources): the working module is saved on the stack. -/
def GeneratorContext.pushWorkingModule (ctx : GeneratorContext) : GeneratorContext :=
  { ctx with moduleDescriptionStack := ctx.moduleDescriptionStack ++ [ctx.workingModule] }

/-- Modelled from the spec: `popWorkingModule` of the builder `ctx.ir`: the
working module saved last becomes the working module again and leaves the
stack.  (On an empty stack `back()` is undefined.) -/
def GeneratorContext.popWorkingModule (ctx : GeneratorContext) :
    Except Failure PUnit.{1} × GeneratorContext :=
  match ctx.moduleDescriptionStack.getLast? with
  | none => (.error .undefinedBehaviour, ctx)
  | some saved =>
    (.ok ⟨⟩, { ctx with workingModule := saved,
                        moduleDescriptionStack := ctx.moduleDescriptionStack.dropLast })

/-- Modelled from the spec: `resetWorkingModule` of the builder `ctx.ir`: the
root module becomes the working module. -/
def GeneratorContext.resetWorkingModule (ctx : GeneratorContext) : GeneratorContext :=
  { ctx with workingModule := ctx.rootModule }

/-- Modelled from the spec: `setWorkingModule` of the builder `ctx.ir`. -/
def GeneratorContext.setWorkingModule (ctx : GeneratorContext) (name : String) :
    GeneratorContext :=
  { ctx with workingModule := name }

/-- Modelled from the spec: `Node::isNthChild` (`Node.cpp` is not among the
sources): there is a child at the index and it has the node type. -/
def isNthChild (children : List Node) (nodeType : NodeType) (index : Nat) : Bool :=
  match children.get? index with
  | some child => decide (child.type = nodeType)
  | none => false

/-- Modelled from the spec: `Node::getNthChildToken` (`Node.cpp` is not among
the sources): the token of the child at the index, if there is one. -/
def getNthChildToken (children : List Node) (index : Nat) : Option Token :=
  (children.get? index).map Node.tok

/-- Modelled from the spec: `Node::isGenericTypeParamPresent` (`Node.cpp` is
not among the sources): some child is a GENERIC_TYPE_PARAM. -/
def isGenericTypeParamPresent (children : List Node) : Bool :=
  children.any (fun child => decide (child.type = .GENERIC_TYPE_PARAM))

/-- The collaborators of `typeDescriptionFromNode` whose sources are not
available, taken as given: `setWorkingModuleFromNode` (`Module.cpp`), the
methods `createVoidTypeDescription`, `createTypeDescription` and
`createTypeDescriptionFromStructName` of the module builder, the methods
`getGenericModuleNameFromAlias` and `getGenericModuleNameFromStruct` of the
monomorphizer, `TypeDescription::becomePointer` and `becomeArrayPointer`,
`createArrayTypeDescription` (`TypeDescriptionUtil.cpp`), `Token::toInt`, and
the collaborators of `generateIRUsingMonomorphizer`. -/
structure TypeParts where
  setWorkingModuleFromNode : Node → Nat → GeneratorContext →
    Except Failure Nat × GeneratorContext
  createVoidTypeDescription : GeneratorContext → TypeDescription
  createTypeDescription : Token → GeneratorContext →
    Except Failure TypeDescription × GeneratorContext
  createTypeDescriptionFromStructName : String → GeneratorContext →
    Except Failure TypeDescription × GeneratorContext
  getGenericModuleNameFromAlias : Token → GeneratorContext →
    Except Failure String × GeneratorContext
  getGenericModuleNameFromStruct : Token → GeneratorContext →
    Except Failure String × GeneratorContext
  becomePointer : TypeDescription → TypeDescription
  becomeArrayPointer : TypeDescription → TypeDescription
  createArrayTypeDescription : TypeDescription → List Int → DimensionType → TypeDescription
  tokenToInt : Token → Int
  monomorphizer : MonomorphizerParts

/-- The function `instantiateGenericAndGetType`; `modulesMap.at` throws
`std::out_of_range` on a missing module. -/
def instantiateGenericAndGetType (parts : TypeParts) (ctx : GeneratorContext)
    (genericModuleName : String) (genericStructNameToken : Token)
    (instantiationTypes : List TypeDescription) (instantiationTypeNodes : List Node) :
    Except Failure TypeDescription × GeneratorContext :=
  match generateIRUsingMonomorphizer parts.monomorphizer ctx.pushWorkingModule genericModuleName
      genericStructNameToken instantiationTypes instantiationTypeNodes with
  | (.error e, ctx1) => (.error e, ctx1)
  | (.ok moduleNameStructNamePair, ctx1) =>
    if !ctx1.moduleExists moduleNameStructNamePair.1 then (.error .outOfRange, ctx1)
    else
      match parts.createTypeDescriptionFromStructName moduleNameStructNamePair.2
          (ctx1.setWorkingModule moduleNameStructNamePair.1) with
      | (.error e, ctx2) => (.error e, ctx2)
      | (.ok monomorphizedType, ctx2) =>
        match ctx2.popWorkingModule with
        | (.error e, ctx3) => (.error e, ctx3)
        | (.ok _, ctx3) => (.ok monomorphizedType, ctx3)

/-- The loops `while (root.isNthChild(node::PARAM, childNodeCounter) ||
root.isNthChild(node::MUT_PARAM, childNodeCounter)) childNodeCounter++`: the
counter moves past the PARAM and MUT_PARAM children that follow it. -/
def skipParameters (children : List Node) (childNodeCounter : Nat) : Nat :=
  childNodeCounter + ((children.drop childNodeCounter).takeWhile
    (fun child => decide (child.type = .PARAM) || decide (child.type = .MUT_PARAM))).length

/-- The loop of `getMonomorphizedTypeDescriptionFromNode` over the MODULE
children, from the child at `childNodeCounter` on (the list holds the children
from that index): it returns the counter and the generic module name. -/
def genericModuleLoop (parts : TypeParts) :
    List Node → Nat → String → GeneratorContext → Except Failure (Nat × String) × GeneratorContext
  | [], childNodeCounter, genericModuleName, ctx => (.ok (childNodeCounter, genericModuleName), ctx)
  | child :: rest, childNodeCounter, genericModuleName, ctx =>
    if child.type = .MODULE then
      if childNodeCounter > 1 then
        (.error (.compileError "Invalid MODULE ACCESS from GENERIC"), ctx)
      else
        match parts.getGenericModuleNameFromAlias child.tok ctx with
        | (.error e, ctx1) => (.error e, ctx1)
        | (.ok name, ctx1) => genericModuleLoop parts rest (childNodeCounter + 1) name ctx1
    else (.ok (childNodeCounter, genericModuleName), ctx)

/-- The function `getMonomorphizedTypeDescriptionFromNode`, on the children of
the root.  `typeParameters` is its loop over the GENERIC_TYPE_PARAM children
from the counter on, which calls `typeDescriptionFromNode`.  (Reading the
token of a child past the end is undefined.) -/
def getMonomorphizedTypeDescriptionFromNode (parts : TypeParts)
    (typeParameters : Nat → GeneratorContext →
      Except Failure (List TypeDescription × List Node) × GeneratorContext)
    (children : List Node) (ctx : GeneratorContext) :
    Except Failure TypeDescription × GeneratorContext :=
  let ctx0 := ctx.pushWorkingModule.resetWorkingModule
  let afterParameters := skipParameters children 1
  match genericModuleLoop parts (children.drop afterParameters) afterParameters "" ctx0 with
  | (.error e, ctx1) => (.error e, ctx1)
  | (.ok (childNodeCounter, aliasModuleName), ctx1) =>
    match getNthChildToken children childNodeCounter with
    | none => (.error .undefinedBehaviour, ctx1)
    | some genericStructNameToken =>
      let named : Except Failure String × GeneratorContext :=
        if aliasModuleName = "" then
          parts.getGenericModuleNameFromStruct genericStructNameToken ctx1
        else (.ok aliasModuleName, ctx1)
      match named with
      | (.error e, ctx2) => (.error e, ctx2)
      | (.ok genericModuleName, ctx2) =>
        match typeParameters (childNodeCounter + 1) ctx2 with
        | (.error e, ctx3) => (.error e, ctx3)
        | (.ok (instantiationTypes, instantiationTypeNodes), ctx3) =>
          match instantiateGenericAndGetType parts ctx3 genericModuleName
              genericStructNameToken instantiationTypes instantiationTypeNodes with
          | (.error e, ctx4) => (.error e, ctx4)
          | (.ok monomorphizedType, ctx4) =>
            match ctx4.popWorkingModule with
            | (.error e, ctx5) => (.error e, ctx5)
            | (.ok _, ctx5) => (.ok monomorphizedType, ctx5)

/-- The dimensions read by the loop of `arrayTypeFromSubscript`, from the
child at `startIndex` on (the list holds the children from that index): one
for each SUBSCRIPT child, until a child of another type.  (Reading
`children[0]` of a SUBSCRIPT without children is undefined.) -/
def subscriptDimensions (parts : TypeParts) : List Node → Except Failure (List Int)
  | [] => .ok []
  | child :: rest =>
    if child.type = .SUBSCRIPT then
      match child.children.head? with
      | none => .error .undefinedBehaviour
      | some literal =>
        match subscriptDimensions parts rest with
        | .error e => .error e
        | .ok dimensions => .ok (parts.tokenToInt literal.tok :: dimensions)
    else .ok []

/-- The function `arrayTypeFromSubscript`, on the children of the root. -/
def arrayTypeFromSubscript (parts : TypeParts) (children : List Node)
    (typeDescription : TypeDescription) (startIndex : Nat) : Except Failure TypeDescription :=
  match subscriptDimensions parts (children.drop startIndex) with
  | .error e => .error e
  | .ok dimensions => .ok (parts.createArrayTypeDescription typeDescription dimensions .FIXED_DIM)

/-- The part of `typeDescriptionFromNode` for a node without generic type
parameters, after `pushWorkingModule` and `resetWorkingModule`. -/
def plainTypeDescriptionFromNode (parts : TypeParts) (root : Node) (ctx : GeneratorContext) :
    Except Failure TypeDescription × GeneratorContext :=
  let start : Nat := if root.type = .GENERIC_TYPE_PARAM then 0 else 1
  let afterParameters := skipParameters root.children start
  let afterModule : Except Failure Nat × GeneratorContext :=
    if isNthChild root.children .MODULE afterParameters then
      parts.setWorkingModuleFromNode root afterParameters ctx
    else (.ok afterParameters, ctx)
  match afterModule with
  | (.error e, ctx1) => (.error e, ctx1)
  | (.ok childNodeCounter, ctx1) =>
    match (if isNthChild root.children .IDENTIFIER childNodeCounter then
        getNthChildToken root.children childNodeCounter else none) with
    | none => (.ok (parts.createVoidTypeDescription ctx1), ctx1)
    | some dataTypeToken =>
      match parts.createTypeDescription dataTypeToken ctx1 with
      | (.error e, ctx2) => (.error e, ctx2)
      | (.ok created, ctx2) =>
        let pointed :=
          if isNthChild root.children .POINTER_STAR (childNodeCounter + 1) then
            parts.becomePointer created else created
        let arrayPointed :=
          if isNthChild root.children .EMPTY_SUBSCRIPT (childNodeCounter + 1) then
            parts.becomeArrayPointer pointed else pointed
        let shaped : Except Failure TypeDescription :=
          if isNthChild root.children .SUBSCRIPT (childNodeCounter + 1) then
            arrayTypeFromSubscript parts root.children arrayPointed (childNodeCounter + 1)
          else .ok arrayPointed
        match shaped with
        | .error e => (.error e, ctx2)
        | .ok typeDescription =>
          match ctx2.popWorkingModule with
          | (.error e, ctx3) => (.error e, ctx3)
          | (.ok _, ctx3) => (.ok typeDescription, ctx3)

mutual

/-- The function `typeDescriptionFromNode`.  A node with generic type
parameters is handed to `getMonomorphizedTypeDescriptionFromNode`, and its
result is returned as it is. -/
def typeDescriptionFromNode (parts : TypeParts) :
    Node → GeneratorContext → Except Failure TypeDescription × GeneratorContext
  | .mk type tok children, ctx =>
    let ctx0 := ctx.pushWorkingModule.resetWorkingModule
    if isGenericTypeParamPresent children then
      getMonomorphizedTypeDescriptionFromNode parts
        (fun childNodeCounter ctx1 => genericTypeParameters parts children childNodeCounter ctx1)
        children ctx0
    else plainTypeDescriptionFromNode parts (.mk type tok children) ctx0
termination_by structural root => root

/-- The loop of `getMonomorphizedTypeDescriptionFromNode` over the
GENERIC_TYPE_PARAM children: `skip` children are passed over, then each
GENERIC_TYPE_PARAM child gives an instantiation type and its node, until a
child of another type. -/
def genericTypeParameters (parts : TypeParts) :
    List Node → Nat → GeneratorContext →
      Except Failure (List TypeDescription × List Node) × GeneratorContext
  | [], _, ctx => (.ok ([], []), ctx)
  | child :: rest, skip, ctx =>
    match skip with
    | skipped + 1 => genericTypeParameters parts rest skipped ctx
    | 0 =>
      if child.type = .GENERIC_TYPE_PARAM then
        match typeDescriptionFromNode parts child ctx with
        | (.error e, ctx1) => (.error e, ctx1)
        | (.ok instantiationType, ctx1) =>
          match genericTypeParameters parts rest 0 ctx1 with
          | (.error e, ctx2) => (.error e, ctx2)
          | (.ok (types, nodes), ctx2) => (.ok (instantiationType :: types, child :: nodes), ctx2)
      else (.ok ([], []), ctx)
termination_by structural children => children

end

/-- Collaborators for the examples: a named type is a 4-byte `int` of the
working module, the VOID type is the scalar type of VOID, a generic struct
belongs to the generic module `List`, and the instantiated struct is a STRUCT
of the working module. -/
def exampleTypeParts : TypeParts :=
  { setWorkingModuleFromNode := fun _ counter ctx => (.ok (counter + 1), ctx),
    createVoidTypeDescription := fun _ => typeDescriptionFromDataType .VOID,
    createTypeDescription := fun tok ctx =>
      (.ok { dtype := .I32, dtypeName := tok.string, moduleName := ctx.workingModule,
             dtypeSize := 4, size := 4 }, ctx),
    createTypeDescriptionFromStructName := fun name ctx =>
      (.ok { dtype := .STRUCT, dtypeName := name, moduleName := ctx.workingModule }, ctx),
    getGenericModuleNameFromAlias := fun tok ctx => (.ok tok.string, ctx),
    getGenericModuleNameFromStruct := fun _ ctx => (.ok "List", ctx),
    becomePointer := fun t => t.setProperty .IS_PTR,
    becomeArrayPointer := fun t => t.setProperty .IS_PTR,
    createArrayTypeDescription := fun t dimensions dimType =>
      { t with dimensions := dimensions, dimTypes := dimensions.map (fun _ => dimType) },
    tokenToInt := fun tok => ir_generator.exampleNumber tok.string,
    monomorphizer := exampleMonomorphizerParts }

/-- A context whose root module is `m`, lowering in the module `lib`, with
the working module `m` saved once. -/
def exampleTypeContext : GeneratorContext :=
  { rootModule := "m", workingModule := "lib", moduleDescriptionStack := ["m"] }

/-- The node of `var x: int`: a plain named type. -/
def exampleNamedTypeNode : Node :=
  .mk .VAR {} [.mk .IDENTIFIER { string := "x" } [], .mk .IDENTIFIER { string := "int" } []]

/-- The node of `fn f(a: int)` without a return type: after the name and the
parameter there is no type identifier. -/
def exampleVoidTypeNode : Node :=
  .mk .FUNCTION {}
    [.mk .IDENTIFIER { string := "f" } [],
     .mk .PARAM {} [.mk .IDENTIFIER { string := "a" } [], .mk .IDENTIFIER { string := "int" } []],
     .mk .BLOCK {} []]

/-- The node of `var x: List[int]`: a type with a generic type parameter. -/
def exampleGenericTypeNode : Node :=
  .mk .VAR {}
    [.mk .IDENTIFIER { string := "x" } [], .mk .IDENTIFIER { string := "List" } [],
     .mk .GENERIC_TYPE_PARAM {} [.mk .IDENTIFIER { string := "int" } []]]

/-! ## The driver (`main.cpp`) and the imports (`irgen.cpp`) -/

/-- What the driver takes from outside the generator: the front end (opening
`file_name.uhll`, lexing and parsing it; `none` when the file cannot be opened
or does not parse, which throws), the path checks `pathchk::file_exists` and
`pathchk::dir_exists`, `ModuleDescription::initializeTargetInfo` for the
target, and the handlers of `program`. -/
structure DriverParts where
  parse : String → Option Node
  file_exists : String → Bool
  dir_exists : String → Bool
  initializeTargetInfo : ModuleDescription → ModuleDescription
  handlers : ir_generator.Handlers

/-- How a call of the driver `ir_gen` ends when it does not return: with an
exception of the front end for a module, or with one of the generator. -/
inductive DriverFailure
  | frontEnd (file_name : String)
  | generator (e : Failure)

namespace ir_generator

/-- The constructor of `ir_generator`: `module` is `modules_map[file_name]`
(an absent element is default-constructed and inserted), named after the file
and initialised for the target; `ext_modules_map` is the modules map itself;
`current_func_desc` is null and `current_ext_module` is the module. -/
def construct (parts : DriverParts) (modules_map : StringModulesMap) (file_name : String) :
    ir_generator :=
  let indexed := modules_map.index file_name {}
  let module := parts.initializeTargetInfo { indexed.1 with name := file_name }
  { module := module,
    ext_modules_map := indexed.2.assign file_name module,
    current_func_desc := none,
    current_ext_module := none,
    id_counter := 0,
    scope_id_counter := 0 }

/-- One round of the loop of `ir_generator::use`: the import of the module
named by one child of the USE node. -/
def useModule (parts : DriverParts) (child : Node) (g : ir_generator) :
    Except Failure ir_generator :=
  let name_token := child.tok
  let is_module := parts.file_exists (name_token.string ++ ".uhll")
  let is_package := parts.dir_exists name_token.string
  if !(is_module || is_package) then
    .error (.compileError "Module or Package does not exist")
  else if is_module && is_package then
    .error (.compileError "Module and Package exists with same name")
  else if g.module.useExists name_token.string then
    .error (.compileError "Multiple imports detected")
  else if g.module.symbolExists name_token.string then
    .error (.compileError "Name conflict, symbol already exists")
  else if g.module.name = name_token.string then
    .error (.compileError "Self import not allowed")
  else .ok { g with module := { g.module with uses := g.module.uses ++ [name_token.string] } }

/-- The method `ir_generator::use`. -/
def use (parts : DriverParts) (root : Node) (g : ir_generator) : Except Failure ir_generator :=
  forEachChild (useModule parts) root.children g

/-- The loop of `ir_generator::initgen`: the USE children at the head of the
list are imported, up to the first child of another type. -/
def initgenChildren (parts : DriverParts) : List Node → ir_generator → Except Failure ir_generator
  | [], g => .ok g
  | child :: rest, g =>
    if child.type = .USE then
      match use parts child g with
      | .error e => .error e
      | .ok g1 => initgenChildren parts rest g1
    else .ok g

/-- The method `ir_generator::initgen`. -/
def initgen (parts : DriverParts) (root : Node) (g : ir_generator) : Except Failure ir_generator :=
  initgenChildren parts root.children g

end ir_generator

/-- The loop of `ir_gen` over the imports of the module: a module that is not
in the modules map yet is compiled by `compile`, the recursive call of
`ir_gen`.  `none` stands for a call that has not returned within the depth
allowed. -/
def compileUses (compile : String → StringModulesMap →
      Option (Except DriverFailure StringModulesMap)) :
    List String → StringModulesMap → Option (Except DriverFailure StringModulesMap)
  | [], modules => some (.ok modules)
  | use :: rest, modules =>
    if (modules.find? use).isNone then
      match compile use modules with
      | none => none
      | some (.error e) => some (.error e)
      | some (.ok modules1) => compileUses compile rest modules1
    else compileUses compile rest modules

/-- The driver `ir_gen` of `main.cpp`, with a bound on the depth of its
recursion: `none` when the bound is reached.  The generator works on the
modules map through references: its `module` is the element of the map under
`file_name`, so the map is brought up to date with `module` before the
imports are compiled and when the call returns. -/
def ir_gen (parts : DriverParts) :
    Nat → String → StringModulesMap → Option (Except DriverFailure StringModulesMap)
  | 0, _, _ => none
  | depth + 1, file_name, modules =>
    match parts.parse file_name with
    | none => some (.error (.frontEnd file_name))
    | some ast =>
      match ir_generator.initgen parts ast (ir_generator.construct parts modules file_name) with
      | .error e => some (.error (.generator e))
      | .ok gen1 =>
        match compileUses (ir_gen parts depth) gen1.module.uses
            (gen1.ext_modules_map.assign file_name gen1.module) with
        | none => none
        | some (.error e) => some (.error e)
        | some (.ok modules1) =>
          match ir_generator.program parts.handlers ast
              { gen1 with
                  ext_modules_map := modules1,
                  module := (modules1.find? file_name).getD gen1.module } with
          | .error e => some (.error (.generator e))
          | .ok gen2 => some (.ok (gen2.ext_modules_map.assign file_name gen2.module))

/-- The source text `use other`, parsed: a PROGRAM node with one USE child. -/
def exampleUseProgram (other : String) : Node :=
  .mk .PROGRAM {} [.mk .USE {} [.mk .IDENTIFIER { string := other } []]]

/-- Two module sources that import each other: `A.uhll` is `use B` and
`B.uhll` is `use A`; there is no other file and no directory. -/
def exampleCyclicSources : DriverParts :=
  { parse := fun file_name =>
      if file_name = "A" then some (exampleUseProgram "B")
      else if file_name = "B" then some (exampleUseProgram "A")
      else none,
    file_exists := fun path => path = "A.uhll" || path = "B.uhll",
    dir_exists := fun _ => false,
    initializeTargetInfo := fun m => m,
    handlers := ir_generator.exampleHandlers }

namespace ir_generator

/-- The property of `expression`, taken as given, that the freshness of the
labels of a condition rests on: a call that returns has not set the id counter
back (ids are only minted). -/
def Lowering.MonotoneIds (l : Lowering) : Prop :=
  ∀ (node : Node) (g g1 : ir_generator) (a : Unit), l.expression node g = (.ok a, g1) →
    g.id_counter ≤ g1.id_counter

/-- In the list, every conditional branch targets `t` while `tf` is false, or
`f` while `ff` is false, or an operand whose id is `c` or greater (an operand
minted after the counter stood at `c`). -/
def BranchesTo (t f : Operand) (tf ff : Bool) (c : Nat) (es : List Entry) : Prop :=
  ∀ e ∈ es, isConditionalBranch e = true →
    (e.op1 = t ∧ tf = false) ∨ (e.op1 = f ∧ ff = false) ∨ c ≤ e.op1.operandId

/-- The generator of the examples after 102 ids were minted, the labels of the
examples among them. -/
def exampleLateGenerator : ir_generator :=
  { exampleGenerator with id_counter := 102 }

end ir_generator

/-- The state in which `ir_gen` calls `gen.program` for the module
`file_name`: the generator as `initgen` left it, seeing through its references
the modules map as the compilation of the imports left it. -/
def programState (gen : ir_generator) (file_name : String) (modules : StringModulesMap) :
    ir_generator :=
  { gen with ext_modules_map := modules, module := (modules.find? file_name).getD gen.module }

/-! ## Properties -/

namespace FunctionBuilder

@[simp] theorem entries_pushEntry (fb : FunctionBuilder) (e : Entry) :
    (fb.pushEntry e).entries = fb.entries ++ [e] := rfl

@[simp] theorem opBuilder_pushEntry (fb : FunctionBuilder) (e : Entry) :
    (fb.pushEntry e).opBuilder = fb.opBuilder := rfl

@[simp] theorem modulesMap_pushEntry (fb : FunctionBuilder) (e : Entry) :
    (fb.pushEntry e).modulesMap = fb.modulesMap := rfl

/-- A temporary made by the builder is a TEMP, so not a pointer. -/
theorem createTempOperand_isPointer (fb : FunctionBuilder) (d : DataType) :
    (fb.createTempOperand d).1.isPointer = false := rfl

theorem createTempOperand_operandType (fb : FunctionBuilder) (d : DataType) :
    (fb.createTempOperand d).1.operandType = .TEMP := rfl

/-- A pointer operand is not a LITERAL, so the literal adjustment leaves it. -/
theorem adoptLiteralDataType_of_isPointer (op1 op2 : Operand) (h : op2.isPointer = true) :
    adoptLiteralDataType op1 op2 = op2 := by
  unfold adoptLiteralDataType
  have : op2.operandType ≠ .LITERAL := by
    intro hl
    simp [Operand.isPointer, hl] at h
  simp [this]

/-- The literal adjustment keeps the tag, hence the pointer-ness. -/
theorem adoptLiteralDataType_isPointer (op1 op2 : Operand) :
    (adoptLiteralDataType op1 op2).isPointer = op2.isPointer := by
  unfold adoptLiteralDataType
  split <;> rfl

/-- The value of `operandCopy` when at most one operand is a pointer. -/
theorem operandCopy_single (fb : FunctionBuilder) (op1 op2 : Operand)
    (h : (op1.isPointer && op2.isPointer) = false) :
    fb.operandCopy op1 op2 = fb.pushCopyEntry op1 (adoptLiteralDataType op1 op2) := by
  simp [operandCopy, operandCopyFuel, adoptLiteralDataType_isPointer, h]

/-- The value of `operandCopy` when both operands are pointers. -/
theorem operandCopy_both (fb : FunctionBuilder) (op1 op2 : Operand)
    (h1 : op1.isPointer = true) (h2 : op2.isPointer = true) :
    fb.operandCopy op1 op2 =
      (((fb.createTempOperand op2.dtype).2.pushEntry
          { opcode := .READ, op1 := (fb.createTempOperand op2.dtype).1, op2 := op2 }).pushEntry
          { opcode := .WRITE, op1 := op1, op2 := (fb.createTempOperand op2.dtype).1 }) := by
  have ha : adoptLiteralDataType op1 op2 = op2 := adoptLiteralDataType_of_isPointer op1 op2 h2
  have hb : ∀ t : Operand, adoptLiteralDataType t op2 = op2 :=
    fun t => adoptLiteralDataType_of_isPointer t op2 h2
  have hc : adoptLiteralDataType op1 (fb.createTempOperand op2.dtype).1
      = (fb.createTempOperand op2.dtype).1 := by
    simp [adoptLiteralDataType, createTempOperand_operandType]
  simp [operandCopy, operandCopyFuel, ha, hb, hc, h1, h2, adoptLiteralDataType_isPointer,
    createTempOperand_isPointer, pushCopyEntry]

/-- More room for nested calls never changes the result of `operandCopy`. -/
theorem operandCopyFuel_eq (n : Nat) (fb : FunctionBuilder) (op1 op2 : Operand) :
    operandCopyFuel (n + 2) fb op1 op2 = some (fb.operandCopy op1 op2) := by
  by_cases h : (op1.isPointer && op2.isPointer) = true
  · have h1 : op1.isPointer = true := by simp at h; exact h.1
    have h2 : op2.isPointer = true := by simp at h; exact h.2
    have ha : adoptLiteralDataType op1 op2 = op2 := adoptLiteralDataType_of_isPointer op1 op2 h2
    simp [operandCopy, operandCopyFuel, ha, h1, h2, adoptLiteralDataType_isPointer,
      createTempOperand_isPointer]
  · have h' : ¬ (op1.isPointer = true ∧ op2.isPointer = true) := by simpa using h
    simp [operandCopy, operandCopyFuel, adoptLiteralDataType_isPointer, h']

/-! ### C1: `operandCopy` -/

/-- C1, as stated, fails for a literal source: copying the AUTO_INT literal 1
into the I32 variable `x` (neither is a pointer) appends one EQUAL entry whose
second operand is the literal retagged I32, which is not the source operand
itself. -/
theorem operandCopy_literal_counterexample :
    (({ dtype := .I32, operandType := .VAR, name := "x" } : Operand).isPointer = false ∧
     ({ dtype := .AUTO_INT, operandType := .LITERAL, integer := 1 } : Operand).isPointer = false) ∧
    (({} : FunctionBuilder).operandCopy
        { dtype := .I32, operandType := .VAR, name := "x" }
        { dtype := .AUTO_INT, operandType := .LITERAL, integer := 1 }).entries
      = [{ opcode := .EQUAL,
           op1 := { dtype := .I32, operandType := .VAR, name := "x" },
           op2 := { dtype := .I32, operandType := .LITERAL, integer := 1 } }] ∧
    (({} : FunctionBuilder).operandCopy
        { dtype := .I32, operandType := .VAR, name := "x" }
        { dtype := .AUTO_INT, operandType := .LITERAL, integer := 1 }).entries
      ≠ [{ opcode := .EQUAL,
           op1 := { dtype := .I32, operandType := .VAR, name := "x" },
           op2 := { dtype := .AUTO_INT, operandType := .LITERAL, integer := 1 } }] := by
  decide

/-- C1 (amended): `operandCopy dst src` chooses its instruction from the
pointer-ness of the two operands.  Writing `src'` for `src` with a LITERAL
source retagged with the DataType of `dst` (and `src` itself otherwise): if
neither is a pointer it appends exactly one EQUAL dst src'; if only `dst` is a
pointer exactly one WRITE dst src'; if only `src` is a pointer exactly one
READ dst src; if both are pointers exactly two entries, READ t src followed by
WRITE dst t, where t is a fresh (its id is the current id counter, which is
then advanced) non-pointer temporary of the DataType of `src`.  The recursion
ends after one level: with room for one nested call or more, the C++
recursion returns this result. -/
theorem operandCopy_chooses_instruction (fb : FunctionBuilder) (dst src : Operand) :
    (dst.isPointer = false → src.isPointer = false →
      fb.operandCopy dst src
        = fb.pushEntry { opcode := .EQUAL, op1 := dst, op2 := adoptLiteralDataType dst src }) ∧
    (dst.isPointer = true → src.isPointer = false →
      fb.operandCopy dst src
        = fb.pushEntry { opcode := .WRITE, op1 := dst, op2 := adoptLiteralDataType dst src }) ∧
    (dst.isPointer = false → src.isPointer = true →
      fb.operandCopy dst src = fb.pushEntry { opcode := .READ, op1 := dst, op2 := src }) ∧
    (dst.isPointer = true → src.isPointer = true →
      ∃ t : Operand,
        t.operandType = .TEMP ∧ t.isPointer = false ∧ t.dtype = src.dtype ∧
        t.operandId = fb.opBuilder.idCounter ∧
        fb.operandCopy dst src
          = (({ fb with opBuilder := { idCounter := fb.opBuilder.idCounter + 1 } }
                : FunctionBuilder).pushEntry
              { opcode := .READ, op1 := t, op2 := src }).pushEntry
              { opcode := .WRITE, op1 := dst, op2 := t }) ∧
    (∀ n : Nat, operandCopyFuel (n + 2) fb dst src = some (fb.operandCopy dst src)) := by
  refine ⟨?_, ?_, ?_, ?_, fun n => operandCopyFuel_eq n fb dst src⟩
  · intro h1 h2
    rw [operandCopy_single fb dst src (by simp [h1])]
    simp [pushCopyEntry, h1, h2, adoptLiteralDataType_isPointer]
  · intro h1 h2
    rw [operandCopy_single fb dst src (by simp [h2])]
    simp [pushCopyEntry, h1, h2, adoptLiteralDataType_isPointer]
  · intro h1 h2
    rw [operandCopy_single fb dst src (by simp [h1])]
    simp [pushCopyEntry, h1, h2, adoptLiteralDataType_of_isPointer]
  · intro h1 h2
    refine ⟨(fb.createTempOperand src.dtype).1, rfl, rfl, rfl, rfl, ?_⟩
    rw [operandCopy_both fb dst src h1 h2]
    rfl

/-- C1 (amended), at a concrete input: copying from the pointer `q` to the
pointer `p` goes through the temporary with id 0. -/
theorem operandCopy_chooses_instruction_witness :
    ∃ t : Operand,
      t.operandType = .TEMP ∧ t.isPointer = false ∧ t.dtype = .I32 ∧ t.operandId = 0 ∧
      ({} : FunctionBuilder).operandCopy
          { dtype := .I32, operandType := .PTR, name := "p" }
          { dtype := .I32, operandType := .PTR, name := "q" }
        = (({ opBuilder := { idCounter := 1 } } : FunctionBuilder).pushEntry
            { opcode := .READ, op1 := t,
              op2 := { dtype := .I32, operandType := .PTR, name := "q" } }).pushEntry
            { opcode := .WRITE, op1 := { dtype := .I32, operandType := .PTR, name := "p" },
              op2 := t } :=
  (operandCopy_chooses_instruction {}
      { dtype := .I32, operandType := .PTR, name := "p" }
      { dtype := .I32, operandType := .PTR, name := "q" }).2.2.2.1 rfl rfl

/-! ### C2: `unitCopy` -/

/-- The conversion to `int` keeps every size below `2^31`. -/
theorem toInt_of_lt (n : Nat) (h : n < 2147483648) : toInt n = (n : Int) := by
  have h1 : n % 4294967296 = n := Nat.mod_eq_of_lt (by omega)
  simp [toInt, h1, h]

/-- C2, as stated, fails for a source of `2^31` bytes or more: for the array
`short[1073741824]` (size `2^31`) the MEMCPY entry that `unitCopy` appends has
the integer literal `-2^31` as its third operand, not the size, because the
byte count goes through the `int` parameter of `memCopy`. -/
theorem unitCopy_size_counterexample :
    (exampleHugeArrayUnit "a").second.isArray = true ∧
    (exampleHugeArrayUnit "b").second.size = 2147483648 ∧
    ∃ e : Entry,
      (exampleBuilder.unitCopy (exampleHugeArrayUnit "a")
          (exampleHugeArrayUnit "b")).2.entries.getLast? = some e ∧
      e.opcode = .MEMCPY ∧ e.op3.operandType = .LITERAL ∧ e.op3.dtype = .I64 ∧
      e.op3.integer = -2147483648 ∧
      e.op3.integer ≠ ((exampleHugeArrayUnit "b").second.size : Int) := by
  refine ⟨by decide, by decide, _, rfl, by decide, by decide, by decide, by decide, by decide⟩

/-- C2 (amended): when the type of `dest` is an array or a struct and the two
pointer operands are obtained (`getPointerOperand dest`, then
`getPointerOperand src`), `unitCopy` returns after appending, as the last
entry, a MEMCPY of these two pointers whose third operand is the I64 integer
literal holding the size of `src` converted to `int`; this literal equals the
size of `src` in bytes whenever that size is below `2^31`.  When `dest` is a
scalar the builder state after `unitCopy` is that of
`operandCopy dest.first src.first`. -/
theorem unitCopy_spec (fb : FunctionBuilder) (dest src : Unit) :
    ((dest.second.isArray = true ∨ dest.second.isStruct = true) →
      ∀ (destPointer srcPointer : Operand) (fb1 fb2 : FunctionBuilder),
        fb.getPointerOperand dest = (.ok destPointer, fb1) →
        fb1.getPointerOperand src = (.ok srcPointer, fb2) →
        fb.unitCopy dest src
          = (.ok ⟨⟩, fb2.pushEntry
              { opcode := .MEMCPY, op1 := destPointer, op2 := srcPointer,
                op3 := { dtype := .I64, operandType := .LITERAL,
                         integer := toInt src.second.size } }) ∧
        (src.second.size < 2147483648 → toInt src.second.size = (src.second.size : Int))) ∧
    (dest.second.isArray = false → dest.second.isStruct = false →
      fb.unitCopy dest src = (.ok ⟨⟩, fb.operandCopy dest.first src.first)) := by
  constructor
  · intro h destPointer srcPointer fb1 fb2 h1 h2
    refine ⟨?_, toInt_of_lt _⟩
    have hc : (dest.second.isArray || dest.second.isStruct) = true := by
      rcases h with h | h <;> simp [h]
    simp [unitCopy, hc, h1, h2, memCopy, createIntLiteralOperand,
      OperandBuilder.createIntLiteralOperand]
  · intro h1 h2
    simp [unitCopy, h1, h2]

/-- C2 (amended), at a concrete input: copying the array `int[3]` named `b`
into the array `a` appends two CREATE_PTR entries and a MEMCPY of 12 bytes. -/
theorem unitCopy_spec_witness :
    (({ modulesMap := { entries := [("m", { name := "m" })] } } : FunctionBuilder).unitCopy
        { first := { dtype := .I32, operandType := .VAR, name := "a" },
          second := { dtype := .I32, dtypeName := "int", moduleName := "m", dtypeSize := 4,
                      size := 12, dimensions := [3] } }
        { first := { dtype := .I32, operandType := .VAR, name := "b" },
          second := { dtype := .I32, dtypeName := "int", moduleName := "m", dtypeSize := 4,
                      size := 12, dimensions := [3] } }).2.entries
      = [{ opcode := .CREATE_PTR,
           op1 := { operandId := 0, dtype := .I32, operandType := .TEMP_PTR },
           op2 := { dtype := .I32, operandType := .VAR, name := "a" } },
         { opcode := .CREATE_PTR,
           op1 := { operandId := 1, dtype := .I32, operandType := .TEMP_PTR },
           op2 := { dtype := .I32, operandType := .VAR, name := "b" } },
         { opcode := .MEMCPY,
           op1 := { operandId := 0, dtype := .I32, operandType := .TEMP_PTR },
           op2 := { operandId := 1, dtype := .I32, operandType := .TEMP_PTR },
           op3 := { dtype := .I64, operandType := .LITERAL, integer := 12 } }] ∧
    toInt 12 = 12 :=
  have h := (unitCopy_spec
      { modulesMap := { entries := [("m", { name := "m" })] } }
      { first := { dtype := .I32, operandType := .VAR, name := "a" },
        second := { dtype := .I32, dtypeName := "int", moduleName := "m", dtypeSize := 4,
                    size := 12, dimensions := [3] } }
      { first := { dtype := .I32, operandType := .VAR, name := "b" },
        second := { dtype := .I32, dtypeName := "int", moduleName := "m", dtypeSize := 4,
                    size := 12, dimensions := [3] } }).1 (Or.inl rfl) _ _ _ _ rfl rfl
  ⟨by rw [h.1]; decide, h.2 (by decide)⟩

/-! ### C3: `binaryOperator` -/

/-- The result of `ensureNotPointer` on a non-pointer: the operand itself, and
nothing is appended. -/
theorem ensureNotPointer_of_not (fb : FunctionBuilder) (op : Operand)
    (h : op.isPointer = false) : fb.ensureNotPointer op = (op, fb) := by
  simp [ensureNotPointer, h]

/-- The result of `ensureNotPointer` on a pointer: a fresh temporary, after a
READ of the pointer into it. -/
theorem ensureNotPointer_of_isPointer (fb : FunctionBuilder) (op : Operand)
    (h : op.isPointer = true) :
    fb.ensureNotPointer op
      = ((fb.createTempOperand op.dtype).1,
         (fb.createTempOperand op.dtype).2.pushEntry
           { opcode := .READ, op1 := (fb.createTempOperand op.dtype).1, op2 := op }) := by
  have hs := operandCopy_single (fb.createTempOperand op.dtype).2
    (fb.createTempOperand op.dtype).1 op (by simp [createTempOperand_isPointer])
  simp [ensureNotPointer, h, hs, pushCopyEntry, createTempOperand_isPointer,
    adoptLiteralDataType_of_isPointer]

/-- The operand returned by `ensureNotPointer` is never a pointer. -/
theorem ensureNotPointer_isPointer (fb : FunctionBuilder) (op : Operand) :
    (fb.ensureNotPointer op).1.isPointer = false := by
  cases h : op.isPointer
  · rw [ensureNotPointer_of_not fb op h]; exact h
  · rw [ensureNotPointer_of_isPointer fb op h]; rfl

/-- The effect of `ensureNotPointer`, in terms of `valueOperand`,
`readEntries` and `idsTaken`. -/
theorem ensureNotPointer_eq (fb : FunctionBuilder) (op : Operand) :
    fb.ensureNotPointer op
      = (valueOperand fb.opBuilder.idCounter op,
         { fb with
             opBuilder := { idCounter := fb.opBuilder.idCounter + idsTaken op },
             workingFunction :=
               { fb.workingFunction with
                   icodeTable := fb.workingFunction.icodeTable
                     ++ readEntries fb.opBuilder.idCounter op } }) := by
  cases h : op.isPointer
  · rw [ensureNotPointer_of_not fb op h]
    simp [valueOperand, readEntries, idsTaken, h]
  · rw [ensureNotPointer_of_isPointer fb op h]
    simp [valueOperand, readEntries, idsTaken, h, createTempOperand,
      OperandBuilder.createTempOperand, pushEntry]

/-- The operand `valueOperand` gives is never a pointer. -/
theorem valueOperand_isPointer (id : Nat) (op : Operand) :
    (valueOperand id op).isPointer = false := by
  unfold valueOperand
  split
  · rfl
  · simpa using ‹¬ op.isPointer = true›

/-- C3: `binaryOperator op LHS RHS` emits three-address form.  It appends one
READ into a fresh temporary for each of LHS and RHS whose operand is a pointer
(LHS first), then exactly one entry with opcode `op` whose first operand `t`
is a fresh non-pointer temporary of the DataType of LHS and whose second and
third operands are not pointers (the operand itself, or the temporary it was
read into); nothing follows that entry, so no WRITE is appended, the result
never being a pointer; the returned Unit is `t` paired with the
TypeDescription of LHS. -/
theorem binaryOperator_three_address (fb : FunctionBuilder) (op : Instruction)
    (LHS RHS : Unit) :
    ∃ t l r : Operand,
      (fb.binaryOperator op LHS RHS).1 = { first := t, second := LHS.second } ∧
      (fb.binaryOperator op LHS RHS).2.entries
        = fb.entries
          ++ readEntries (fb.opBuilder.idCounter + 1) LHS.first
          ++ readEntries (fb.opBuilder.idCounter + 1 + idsTaken LHS.first) RHS.first
          ++ [{ opcode := op, op1 := t, op2 := l, op3 := r }] ∧
      t.operandType = .TEMP ∧ t.isPointer = false ∧ t.dtype = LHS.second.dtype ∧
      t.operandId = fb.opBuilder.idCounter ∧
      l = valueOperand (fb.opBuilder.idCounter + 1) LHS.first ∧
      r = valueOperand (fb.opBuilder.idCounter + 1 + idsTaken LHS.first) RHS.first ∧
      l.isPointer = false ∧ r.isPointer = false ∧
      (fb.binaryOperator op LHS RHS).2.opBuilder.idCounter
        = fb.opBuilder.idCounter + 1 + idsTaken LHS.first + idsTaken RHS.first := by
  refine ⟨(fb.createTempOperand LHS.second.dtype).1,
    valueOperand (fb.opBuilder.idCounter + 1) LHS.first,
    valueOperand (fb.opBuilder.idCounter + 1 + idsTaken LHS.first) RHS.first,
    ?_, ?_, rfl, rfl, rfl, rfl, rfl, rfl, valueOperand_isPointer _ _,
    valueOperand_isPointer _ _, ?_⟩
  · simp [binaryOperator, pushEntryAndEnsureNoPointerWrite, createTempOperand_isPointer]
  · simp [binaryOperator, pushEntryAndEnsureNoPointerWrite, createTempOperand_isPointer,
      ensureNotPointer_eq, entries, pushEntry, createTempOperand,
      OperandBuilder.createTempOperand, Operand.isPointer]
  · simp [binaryOperator, pushEntryAndEnsureNoPointerWrite, createTempOperand_isPointer,
      ensureNotPointer_eq, pushEntry, createTempOperand,
      OperandBuilder.createTempOperand, Operand.isPointer]

/-! ### C10: `passParameter` -/

/-- C10: `passParameter calleeToken callee formal actual`.  If the type of the
formal is mutable, a struct or an array, it appends exactly one entry, a
PASS_ADDR whose first operand is the operand of the actual, unchanged.
Otherwise it appends a READ into a fresh temporary when the operand of the
actual is a pointer, and then one PASS whose first operand is not a pointer.
In both cases the second operand of the last entry is a VAR operand named by
the callee token with the return DataType of the callee, and the third is the
MODULE operand of `callee.moduleName`. -/
theorem passParameter_spec (fb : FunctionBuilder) (calleeNameToken : Token)
    (callee : FunctionDescription) (formalParam actualParam : Unit) :
    ∃ v m : Operand,
      (v.operandType = .VAR ∧ v.name = calleeNameToken.toString ∧
        v.dtype = callee.functionReturnType.dtype) ∧
      (m.operandType = .MODULE ∧ m.name = callee.moduleName) ∧
      ((formalParam.second.isMutable = true ∨ formalParam.second.isStruct = true ∨
          formalParam.second.isArray = true) →
        (fb.passParameter calleeNameToken callee formalParam actualParam).entries
          = fb.entries
            ++ [{ opcode := .PASS_ADDR, op1 := actualParam.first, op2 := v, op3 := m }]) ∧
      (formalParam.second.isMutable = false → formalParam.second.isStruct = false →
          formalParam.second.isArray = false →
        (fb.passParameter calleeNameToken callee formalParam actualParam).entries
          = fb.entries
            ++ readEntries fb.opBuilder.idCounter actualParam.first
            ++ [{ opcode := .PASS,
                  op1 := valueOperand fb.opBuilder.idCounter actualParam.first,
                  op2 := v, op3 := m }] ∧
        (valueOperand fb.opBuilder.idCounter actualParam.first).isPointer = false) := by
  refine ⟨(fb.createVarOperand callee.functionReturnType.dtype calleeNameToken.toString).1,
    (fb.createModuleOperand callee.moduleName).1, ⟨rfl, rfl, rfl⟩, ⟨rfl, rfl⟩, ?_, ?_⟩
  · intro h
    have hc : (formalParam.second.isMutable || formalParam.second.isStruct
        || formalParam.second.isArray) = true := by
      rcases h with h | h | h <;> simp [h]
    simp [passParameter, hc, entries, pushEntry, createVarOperand, createModuleOperand,
      OperandBuilder.createVarOperand, OperandBuilder.createModuleOperand]
  · intro h1 h2 h3
    refine ⟨?_, valueOperand_isPointer _ _⟩
    simp [passParameter, h1, h2, h3, ensureNotPointer_eq, entries, pushEntry,
      createVarOperand, createModuleOperand, OperandBuilder.createVarOperand,
      OperandBuilder.createModuleOperand]

/-- C10, at a concrete input: passing the pointer `p` for a by-value formal of
the function `f` of module `m` reads it into a temporary and passes that. -/
theorem passParameter_spec_witness :
    ∃ v m : Operand,
      (v.operandType = .VAR ∧ v.name = "f" ∧ v.dtype = .I32) ∧
      (m.operandType = .MODULE ∧ m.name = "m") ∧
      (({} : FunctionBuilder).passParameter { string := "f" }
          { functionReturnType := { dtype := .I32 }, moduleName := "m" }
          { first := { dtype := .I32, operandType := .VAR, name := "x" },
            second := { dtype := .I32 } }
          { first := { dtype := .I32, operandType := .PTR, name := "p" },
            second := { dtype := .I32 } }).entries
        = [{ opcode := .READ,
             op1 := { operandId := 0, dtype := .I32, operandType := .TEMP },
             op2 := { dtype := .I32, operandType := .PTR, name := "p" } },
           { opcode := .PASS,
             op1 := { operandId := 0, dtype := .I32, operandType := .TEMP },
             op2 := v, op3 := m }] := by
  obtain ⟨v, m, hv, hm, _, h⟩ := passParameter_spec {} { string := "f" }
    { functionReturnType := { dtype := .I32 }, moduleName := "m" }
    { first := { dtype := .I32, operandType := .VAR, name := "x" }, second := { dtype := .I32 } }
    { first := { dtype := .I32, operandType := .PTR, name := "p" }, second := { dtype := .I32 } }
  exact ⟨v, m, hv, hm, (h rfl rfl rfl).1⟩

/-! ### C7, C8: `getStructField` -/

/-- A successful lookup shows the entry list is not empty. -/
theorem StdMap_findIn_head {α : Type} (l : List (String × α)) (key : String) (v : α)
    (h : StdMap.findIn l key = some v) : ∃ x, l.head? = some x := by
  cases l with
  | nil => simp [StdMap.findIn] at h
  | cons x rest => exact ⟨x, rfl⟩

/-- Reading a struct that exists leaves the modules map as it is. -/
theorem structureAt_of_find (modulesMap : StringModulesMap) (moduleName dtypeName : String)
    (md : ModuleDescription) (sd : StructDescription)
    (hm : modulesMap.find? moduleName = some md)
    (hs : md.structures.find? dtypeName = some sd) :
    structureAt modulesMap moduleName dtypeName = (sd, modulesMap) := by
  simp [structureAt, StdMap.index, hm, hs]

/-- Setting IS_MUT on a type that has it changes nothing. -/
theorem becomeMutable_of_isMutable (t : TypeDescription) (h : t.isMutable = true) :
    t.becomeMutable = t := by
  have hbit : t.properties.testBit 0 = true := h
  have hp : t.properties ||| 1 = t.properties := by
    apply Nat.eq_of_testBit_eq
    intro i
    rw [Nat.testBit_or]
    cases i with
    | zero => simp [hbit]
    | succ j =>
      have : Nat.testBit 1 (j + 1) = false := by
        rw [show (1 : Nat) = 2 ^ 0 from rfl, Nat.testBit_two_pow]
        simp
      simp [this]
  have hq : t.properties ||| 1 <<< TypeProperties.toNat .IS_MUT = t.properties := by
    simpa [TypeProperties.toNat] using hp
  unfold TypeDescription.becomeMutable TypeDescription.setProperty
  rw [hq]

/-- After `becomeMutable` a type is mutable. -/
theorem isMutable_becomeMutable (t : TypeDescription) : t.becomeMutable.isMutable = true := by
  simp [TypeDescription.becomeMutable, TypeDescription.setProperty, TypeDescription.isMutable,
    TypeDescription.checkProperty, TypeProperties.toNat, Nat.testBit_or]

/-- For a Unit whose struct has a field, `getPointerOperand` returns. -/
theorem getPointerOperand_ok_of_field (fb : FunctionBuilder) (unit : Unit)
    (md : ModuleDescription) (sd : StructDescription) (name : String) (field : TypeDescription)
    (hm : fb.modulesMap.find? unit.second.moduleName = some md)
    (hs : md.structures.find? unit.second.dtypeName = some sd)
    (hf : sd.getField name = some field) :
    ∃ p fb1, fb.getPointerOperand unit = (.ok p, fb1) := by
  obtain ⟨x, hx⟩ := StdMap_findIn_head _ _ _ hf
  have hb : sd.structFields.begin? = some x := hx
  simp only [getPointerOperand, hm]
  unfold createPointer
  by_cases h1 : (unit.first.isPointer && decide (unit.first.dtype ≠ .STRUCT)) = true
  · rw [if_pos h1]
    exact ⟨_, _, rfl⟩
  · rw [if_neg h1]
    unfold getCreatePointerDestinationOperand
    by_cases h2 : unit.first.dtype ≠ .STRUCT
    · rw [if_pos h2]
      exact ⟨_, _, rfl⟩
    · rw [if_neg h2]
      simp only [hs, hb]
      exact ⟨_, _, rfl⟩

/-- C7: `getStructField fieldName unit`, for a field that exists in the struct
description of the type of `unit`, returns; its last appended entry is
ADDR_ADD p' p L, where `p` is the pointer obtained by `getPointerOperand unit`
(whose entries come first), `p'` is a fresh pointer temporary and `L` is the
address literal equal to the stored offset of the field.  It returns `p'`
retagged with the DataType of the field, paired with the TypeDescription of
the field, on which IS_MUT is set when the parent is mutable: this is the
stored TypeDescription itself whenever the field is stored mutable (as
`ir_generator::structure` stores every field) or the parent is immutable. -/
theorem getStructField_spec (fb : FunctionBuilder) (fieldName : Token) (unit : Unit)
    (md : ModuleDescription) (sd : StructDescription) (field : TypeDescription)
    (hm : fb.modulesMap.find? unit.second.moduleName = some md)
    (hs : md.structures.find? unit.second.dtypeName = some sd)
    (hf : sd.getField fieldName.toString = some field) :
    ∃ (p : Operand) (fb1 fb2 : FunctionBuilder) (p' L : Operand) (fieldType : TypeDescription),
      fb.getPointerOperand unit = (.ok p, fb1) ∧
      fb.getStructField fieldName unit
        = (.ok { first := { p' with dtype := field.dtype }, second := fieldType }, fb2) ∧
      fb2.entries = fb1.entries ++ [{ opcode := .ADDR_ADD, op1 := p', op2 := p, op3 := L }] ∧
      (L.operandType = .BYTES ∧ L.bytes = field.offset) ∧
      (p'.operandType = .TEMP_PTR ∧ p'.dtype = p.dtype ∧
        p'.operandId = fb1.opBuilder.idCounter) ∧
      fieldType = (if unit.second.isMutable then field.becomeMutable else field) ∧
      ((field.isMutable = true ∨ unit.second.isMutable = false) → fieldType = field) := by
  obtain ⟨p, fb1, hp⟩ := getPointerOperand_ok_of_field fb unit md sd _ field hm hs hf
  have hst := structureAt_of_find fb.modulesMap _ _ md sd hm hs
  have hoff : (if unit.second.isMutable then field.becomeMutable else field).offset
      = field.offset := by
    split <;> rfl
  have hdt : (if unit.second.isMutable then field.becomeMutable else field).dtype
      = field.dtype := by
    split <;> rfl
  refine ⟨p, fb1,
    ((fb1.createLiteralAddressOperand field.offset).2.addressAddOperator p
      (fb1.createLiteralAddressOperand field.offset).1).2,
    (fb1.createPointerOperand p.dtype).1,
    (fb1.createLiteralAddressOperand field.offset).1,
    (if unit.second.isMutable then field.becomeMutable else field),
    hp, ?_, ?_, ⟨rfl, rfl⟩, ⟨rfl, rfl, rfl⟩, rfl, ?_⟩
  · simp only [getStructField, hst, hf]
    have hfb : ({ fb with modulesMap := fb.modulesMap } : FunctionBuilder) = fb := rfl
    rw [hfb, hp]
    simp only [hoff, hdt]
    rfl
  · simp [addressAddOperator, createLiteralAddressOperand,
      OperandBuilder.createLiteralAddressOperand, createPointerOperand,
      OperandBuilder.createPointerOperand, entries, pushEntry]
  · rintro (h | h)
    · split
      · exact becomeMutable_of_isMutable field h
      · rfl
    · simp [h]

/-- C7, at a concrete input: selecting the field `b` of the `Pair` value `p`
appends a CREATE_PTR and an ADDR_ADD of the address literal 0, and returns the
stored TypeDescription of `b`. -/
theorem getStructField_spec_witness :
    ∃ (p : Operand) (fb1 fb2 : FunctionBuilder) (p' L : Operand),
      exampleBuilder.getPointerOperand examplePairUnit = (.ok p, fb1) ∧
      exampleBuilder.getStructField { string := "b" } examplePairUnit
        = (.ok { first := { p' with dtype := .I32 },
                 second := { dtype := .I32, dtypeName := "int", moduleName := "m",
                             dtypeSize := 4, size := 4, properties := 1 } }, fb2) ∧
      fb2.entries = fb1.entries ++ [{ opcode := .ADDR_ADD, op1 := p', op2 := p, op3 := L }] ∧
      (L.operandType = .BYTES ∧ L.bytes = 0) := by
  obtain ⟨p, fb1, fb2, p', L, fieldType, h1, h2, h3, h4, _, _, h7⟩ :=
    getStructField_spec exampleBuilder { string := "b" } examplePairUnit
      { name := "m", structures := { entries := [("Pair", examplePair)] } } examplePair
      { dtype := .I32, dtypeName := "int", moduleName := "m", dtypeSize := 4, size := 4,
        properties := 1 }
      (by decide) (by decide) (by decide)
  have h8 := h7 (Or.inl (by decide))
  rw [h8] at h2
  exact ⟨p, fb1, fb2, p', L, h1, h2, h3, h4⟩

/-- C8 at a failing input: `p` is an immutable `Pair` (IS_MUT is not set on
its type), its field `b` is stored with IS_MUT, as `ir_generator::structure`
stores every field; the Unit `getStructField` returns for `p.b` is mutable. -/
theorem getStructField_immutable_parent_mutable_field :
    examplePairUnit.second.isMutable = false ∧
    (examplePair.getField "b").map TypeDescription.isMutable = some true ∧
    ∃ (u : Unit) (fb' : FunctionBuilder),
      exampleBuilder.getStructField { string := "b" } examplePairUnit = (.ok u, fb') ∧
      u.second.isMutable = true := by
  refine ⟨by decide, by decide, _, _, rfl, by decide⟩

/-! ### C9: `createPointer` on a struct -/

/-- C9 at a failing input: for `struct Pair { b: int; a: float }` the field
declared first, at offset 0, is `b` of DataType I32, but `structFields.begin()`
is the entry of `a`, the least name, so the destination of the CREATE_PTR that
`getPointerOperand` appends for the STRUCT-typed operand `p` carries F32. -/
theorem getPointerOperand_struct_least_name :
    examplePair.fieldNames = ["b", "a"] ∧
    (examplePair.getField "b").map (fun f => (f.offset, f.dtype)) = some (0, .I32) ∧
    (examplePair.getField "a").map (fun f => (f.offset, f.dtype)) = some (4, .F32) ∧
    exampleBuilder.getPointerOperand examplePairUnit
      = (.ok { operandId := 0, dtype := .F32, operandType := .TEMP_PTR },
         ({ exampleBuilder with opBuilder := { idCounter := 1 } } : FunctionBuilder).pushEntry
           { opcode := .CREATE_PTR,
             op1 := { operandId := 0, dtype := .F32, operandType := .TEMP_PTR },
             op2 := examplePairUnit.first }) := by
  refine ⟨by decide, by decide, by decide, rfl⟩

/-! ### C4, C5, C6: `getIndexedElement` -/

/-- A positive `int` converts to `unsigned int` unchanged. -/
theorem toUnsigned_of_pos (d : Int) (h : 0 < d ∧ d < 2147483648) :
    toUnsigned d = d.toNat := by
  unfold toUnsigned
  rw [Int.emod_eq_of_lt (by omega) (by omega)]

/-- The product of the dimensions from position `i` on, split at `i`. -/
theorem dimensionProduct_drop (dims : List Int) (i : Nat) (d : Int)
    (h : dims.get? i = some d) :
    dimensionProduct (dims.drop i) = d.toNat * dimensionProduct (dims.drop (i + 1)) := by
  induction dims generalizing i with
  | nil => simp at h
  | cons x xs ih =>
    cases i with
    | zero =>
      simp at h
      simp [dimensionProduct, h]
    | succ k =>
      simp at h
      simpa using ih k (by simpa using h)

/-- The width update under the row-major invariant: from
`w * d(j+1) * ... * d(n-1)` to `w * d(j+2) * ... * d(n-1)`. -/
theorem nextElementWidth_row_major (w : Nat) (dims : List Int) (j : Nat)
    (hdims : ∀ d ∈ dims, 0 < d ∧ d < 2147483648) (hj : j < dims.length) :
    nextElementWidth dims j (w * dimensionProduct (dims.drop (j + 1)))
      = .ok (w * dimensionProduct (dims.drop (j + 2))) := by
  unfold nextElementWidth
  by_cases hlast : j + 1 = dims.length
  · have h1 : dims.drop (j + 1) = [] := List.drop_eq_nil_of_le (by omega)
    have h2 : dims.drop (j + 2) = [] := List.drop_eq_nil_of_le (by omega)
    simp [hlast, h1, h2]
  · have hlt : j + 1 < dims.length := by omega
    have hget : dims.get? (j + 1) = some (dims.get ⟨j + 1, hlt⟩) := List.get?_eq_get hlt
    have hd := hdims _ (List.get_mem dims (j + 1) hlt)
    have hu := toUnsigned_of_pos _ hd
    have hpos : 0 < (dims.get ⟨j + 1, hlt⟩).toNat := by omega
    rw [if_pos hlast, hget]
    simp only [hu]
    rw [if_neg (by omega), dimensionProduct_drop dims (j + 1) _ hget]
    congr 1
    rw [Nat.mul_left_comm, Nat.mul_div_cancel_left _ hpos]

/-- The effect of `addressMultiplyOperator` followed by `addressAddOperator`,
one step of the indexing loop, on the builder state. -/
theorem index_step_eq (fb : FunctionBuilder) (index pointer widthLiteral : Operand) :
    ((fb.addressMultiplyOperator index widthLiteral).2.addressAddOperator pointer
        (fb.addressMultiplyOperator index widthLiteral).1)
      = (({ operandId := fb.opBuilder.idCounter + 1 + idsTaken index, dtype := pointer.dtype,
            operandType := .TEMP_PTR } : Operand),
         ({ fb with
              opBuilder := { idCounter := fb.opBuilder.idCounter + 1 + idsTaken index + 1 },
              workingFunction :=
                { fb.workingFunction with
                    icodeTable := fb.workingFunction.icodeTable
                      ++ (readEntries (fb.opBuilder.idCounter + 1) index
                        ++ [{ opcode := .ADDR_MUL,
                              op1 := { operandId := fb.opBuilder.idCounter, dtype := .VOID,
                                       operandType := .TEMP_PTR },
                              op2 := valueOperand (fb.opBuilder.idCounter + 1) index,
                              op3 := widthLiteral },
                            { opcode := .ADDR_ADD,
                              op1 := { operandId := fb.opBuilder.idCounter + 1 + idsTaken index,
                                       dtype := pointer.dtype, operandType := .TEMP_PTR },
                              op2 := pointer,
                              op3 := { operandId := fb.opBuilder.idCounter, dtype := .VOID,
                                       operandType := .TEMP_PTR } }]) } } : FunctionBuilder)) := by
  simp [addressMultiplyOperator, addressAddOperator, ensureNotPointer_eq, createPointerOperand,
    OperandBuilder.createPointerOperand, pushEntry]

/-- Under the row-major invariant the indexing loop runs to its end and
appends exactly the entries of `rowMajorEntries`. -/
theorem indexLoop_row_major (w : Nat) (dims : List Int)
    (hdims : ∀ d ∈ dims, 0 < d ∧ d < 2147483648) :
    ∀ (indices : List Unit) (j : Nat) (pointer : Operand) (fb : FunctionBuilder),
      j + indices.length ≤ dims.length →
      ∃ fb' : FunctionBuilder,
        indexLoop dims indices j (w * dimensionProduct (dims.drop (j + 1))) pointer fb
          = (.ok (j + indices.length,
                  (rowMajorEntries w dims j indices pointer fb.opBuilder.idCounter).2), fb') ∧
        fb'.entries
          = fb.entries ++ (rowMajorEntries w dims j indices pointer fb.opBuilder.idCounter).1
  | [], j, pointer, fb, _ => ⟨fb, by simp [indexLoop, rowMajorEntries]⟩
  | indexUnit :: rest, j, pointer, fb, hlen => by
    have hj : j < dims.length := by simp at hlen; omega
    have hw := nextElementWidth_row_major w dims j hdims hj
    have hstep := index_step_eq fb indexUnit.first pointer
      (addressLiteral (w * dimensionProduct (dims.drop (j + 1))))
    obtain ⟨fb', h1, h2⟩ := indexLoop_row_major w dims hdims rest (j + 1)
      { operandId := fb.opBuilder.idCounter + 1 + idsTaken indexUnit.first,
        dtype := pointer.dtype, operandType := .TEMP_PTR }
      ((fb.addressMultiplyOperator indexUnit.first
          (addressLiteral (w * dimensionProduct (dims.drop (j + 1))))).2.addressAddOperator
        pointer
        (fb.addressMultiplyOperator indexUnit.first
          (addressLiteral (w * dimensionProduct (dims.drop (j + 1))))).1).2
      (by simp at hlen ⊢; omega)
    refine ⟨fb', ?_, ?_⟩
    · have hlit : fb.createLiteralAddressOperand (w * dimensionProduct (dims.drop (j + 1)))
          = (addressLiteral (w * dimensionProduct (dims.drop (j + 1))), fb) := rfl
      simp only [indexLoop, hlit, hw]
      rw [hstep] at h1 ⊢
      simp only [rowMajorEntries, List.length_cons]
      rw [h1]
      simp [Nat.add_assoc, Nat.add_comm 1]
    · rw [h2, hstep]
      simp [rowMajorEntries, entries]

/-- The indexing loop runs to its end whenever no dimension is zero and there
are no more indices than dimensions left. -/
theorem indexLoop_ok (dims : List Int) (hdims : ∀ d ∈ dims, toUnsigned d ≠ 0) :
    ∀ (indices : List Unit) (j width : Nat) (pointer : Operand) (fb : FunctionBuilder),
      j + indices.length ≤ dims.length →
      ∃ (q : Operand) (fb' : FunctionBuilder),
        indexLoop dims indices j width pointer fb = (.ok (j + indices.length, q), fb')
  | [], j, width, pointer, fb, _ => ⟨pointer, fb, by simp [indexLoop]⟩
  | indexUnit :: rest, j, width, pointer, fb, hlen => by
    have hj : j < dims.length := by simp at hlen; omega
    have hw : ∃ width', nextElementWidth dims j width = .ok width' := by
      unfold nextElementWidth
      by_cases hlast : j + 1 = dims.length
      · exact ⟨width, by simp [hlast]⟩
      · have hlt : j + 1 < dims.length := by omega
        have hget : dims.get? (j + 1) = some (dims.get ⟨j + 1, hlt⟩) := List.get?_eq_get hlt
        have hd := hdims _ (List.get_mem dims (j + 1) hlt)
        rw [if_pos hlast, hget]
        simp only []
        rw [if_neg hd]
        exact ⟨_, rfl⟩
    obtain ⟨width', hw'⟩ := hw
    simp only [indexLoop, hw']
    obtain ⟨q, fb', h⟩ := indexLoop_ok dims hdims rest (j + 1) width' _ _
      (by simp at hlen ⊢; omega)
    exact ⟨q, fb', by rw [h]; simp [Nat.add_assoc, Nat.add_comm 1]⟩

/-- When the indexing loop runs to its end, it has counted the indices, and
there were no more of them than dimensions left. -/
theorem indexLoop_count (dims : List Int) :
    ∀ (indices : List Unit) (j width : Nat) (pointer : Operand) (fb : FunctionBuilder)
      (c : Nat) (q : Operand) (fb' : FunctionBuilder),
      indexLoop dims indices j width pointer fb = (.ok (c, q), fb') →
      c = j + indices.length ∧ (indices ≠ [] → j + indices.length ≤ dims.length)
  | [], j, width, pointer, fb, c, q, fb', h => by
    simp [indexLoop] at h
    simp [h.1.1]
  | indexUnit :: rest, j, width, pointer, fb, c, q, fb', h => by
    simp only [indexLoop] at h
    cases hw : nextElementWidth dims j width with
    | error e => simp [hw] at h
    | ok width' =>
      simp only [hw] at h
      have hj : j + 1 ≤ dims.length := by
        unfold nextElementWidth at hw
        by_cases hlast : j + 1 = dims.length
        · omega
        · rw [if_pos hlast] at hw
          by_contra hcon
          have hnone : dims.get? (j + 1) = none := List.get?_eq_none.mpr (by omega)
          rw [hnone] at hw
          simp at hw
      obtain ⟨h1, h2⟩ := indexLoop_count dims rest (j + 1) width' _ _ c q fb' h
      refine ⟨by simp [h1]; omega, fun _ => ?_⟩
      cases rest with
      | nil => simpa using hj
      | cons x xs =>
        have := h2 (by simp)
        simp at this ⊢
        omega

/-- The entries `ensureNotPointer` appends are READs: none is an ADDR_MUL. -/
theorem readEntries_filter_mul (id : Nat) (op : Operand) :
    (readEntries id op).filter (hasOpcode .ADDR_MUL) = [] := by
  unfold readEntries
  split <;> simp [hasOpcode]

/-- The entries `ensureNotPointer` appends are READs: none is an ADDR_ADD. -/
theorem readEntries_filter_add (id : Nat) (op : Operand) :
    (readEntries id op).filter (hasOpcode .ADDR_ADD) = [] := by
  unfold readEntries
  split <;> simp [hasOpcode]

/-- The ADDR_MUL entries of `rowMajorEntries`: their address literals. -/
theorem rowMajorEntries_mul_literals (w : Nat) (dims : List Int) :
    ∀ (indices : List Unit) (j : Nat) (pointer : Operand) (id : Nat),
      ((rowMajorEntries w dims j indices pointer id).1.filter (hasOpcode .ADDR_MUL)).map
          (fun e => e.op3)
        = (List.range indices.length).map
            (fun i => addressLiteral (w * dimensionProduct (dims.drop (j + i + 1))))
  | [], _, _, _ => by simp [rowMajorEntries]
  | indexUnit :: rest, j, pointer, id => by
    have ih := rowMajorEntries_mul_literals w dims rest (j + 1)
      { operandId := id + 1 + idsTaken indexUnit.first, dtype := pointer.dtype,
        operandType := .TEMP_PTR } (id + 1 + idsTaken indexUnit.first + 1)
    simp only [rowMajorEntries, List.filter_append, readEntries_filter_mul, List.nil_append,
      List.length_cons, List.range_succ_eq_map, List.map_cons, List.map_map]
    simp only [List.filter_cons, hasOpcode]
    simp only [decide_True, decide_False, ite_true, ite_false, List.map_cons, Nat.add_zero]
    simp only [reduceCtorEq, decide_False, Bool.false_eq_true, ite_false]
    rw [ih]
    congr 1
    apply List.map_congr_left
    intro i _
    simp [Nat.add_assoc, Nat.add_comm 1]

/-- The ADDR_MUL entries of `rowMajorEntries` multiply the indices, in order. -/
theorem rowMajorEntries_mul_indices (w : Nat) (dims : List Int) :
    ∀ (indices : List Unit) (j : Nat) (pointer : Operand) (id : Nat),
      List.Forall₂ (fun (e : Entry) (indexUnit : Unit) =>
          ∃ t, e.op2 = valueOperand t indexUnit.first)
        ((rowMajorEntries w dims j indices pointer id).1.filter (hasOpcode .ADDR_MUL)) indices
  | [], _, _, _ => by simp [rowMajorEntries]
  | indexUnit :: rest, j, pointer, id => by
    have ih := rowMajorEntries_mul_indices w dims rest (j + 1)
      { operandId := id + 1 + idsTaken indexUnit.first, dtype := pointer.dtype,
        operandType := .TEMP_PTR } (id + 1 + idsTaken indexUnit.first + 1)
    simp only [rowMajorEntries, List.filter_append, readEntries_filter_mul, List.nil_append]
    simp only [List.filter_cons, hasOpcode]
    simp only [decide_True, ite_true, reduceCtorEq, decide_False, Bool.false_eq_true, ite_false]
    exact List.Forall₂.cons ⟨_, rfl⟩ ih

/-- The ADDR_ADD entries of `rowMajorEntries` add the products of the ADDR_MUL
entries, in order. -/
theorem rowMajorEntries_add_products (w : Nat) (dims : List Int) :
    ∀ (indices : List Unit) (j : Nat) (pointer : Operand) (id : Nat),
      ((rowMajorEntries w dims j indices pointer id).1.filter (hasOpcode .ADDR_ADD)).map
          (fun e => e.op3)
        = ((rowMajorEntries w dims j indices pointer id).1.filter (hasOpcode .ADDR_MUL)).map
            (fun e => e.op1)
  | [], _, _, _ => by simp [rowMajorEntries]
  | indexUnit :: rest, j, pointer, id => by
    have ih := rowMajorEntries_add_products w dims rest (j + 1)
      { operandId := id + 1 + idsTaken indexUnit.first, dtype := pointer.dtype,
        operandType := .TEMP_PTR } (id + 1 + idsTaken indexUnit.first + 1)
    simp only [rowMajorEntries, List.filter_append, readEntries_filter_mul,
      readEntries_filter_add, List.nil_append]
    simp only [List.filter_cons, hasOpcode]
    simp only [decide_True, ite_true, reduceCtorEq, decide_False, Bool.false_eq_true, ite_false,
      List.map_cons]
    exact congrArg _ ih

/-- The ADDR_ADD entries of `rowMajorEntries` form a chain: each adds to the
pointer of the previous step, starting from the base pointer, and the pointer
of the last step is the one returned. -/
theorem rowMajorEntries_add_chain (w : Nat) (dims : List Int) :
    ∀ (indices : List Unit) (j : Nat) (pointer : Operand) (id : Nat),
      pointer :: ((rowMajorEntries w dims j indices pointer id).1.filter
          (hasOpcode .ADDR_ADD)).map (fun e => e.op1)
        = ((rowMajorEntries w dims j indices pointer id).1.filter
            (hasOpcode .ADDR_ADD)).map (fun e => e.op2)
          ++ [(rowMajorEntries w dims j indices pointer id).2]
  | [], _, _, _ => by simp [rowMajorEntries]
  | indexUnit :: rest, j, pointer, id => by
    have ih := rowMajorEntries_add_chain w dims rest (j + 1)
      { operandId := id + 1 + idsTaken indexUnit.first, dtype := pointer.dtype,
        operandType := .TEMP_PTR } (id + 1 + idsTaken indexUnit.first + 1)
    simp only [rowMajorEntries, List.filter_append, readEntries_filter_add, List.nil_append]
    simp only [List.filter_cons, hasOpcode]
    simp only [decide_True, ite_true, reduceCtorEq, decide_False, Bool.false_eq_true, ite_false,
      List.map_cons, List.cons_append]
    exact congrArg _ ih

/-- A product of positive dimensions is positive. -/
theorem dimensionProduct_pos (dims : List Int) (h : ∀ d ∈ dims, 0 < d) :
    0 < dimensionProduct dims := by
  induction dims with
  | nil => simp [dimensionProduct]
  | cons x xs ih =>
    have hx : 0 < x := h x (by simp)
    have hxs := ih (fun d hd => h d (by simp [hd]))
    have hx' : 0 < x.toNat := by omega
    simp only [dimensionProduct, List.map_cons, List.prod_cons] at hxs ⊢
    exact Nat.mul_pos hx' hxs

/-- The product of all dimensions, split at position `i`. -/
theorem dimensionProduct_take_drop (dims : List Int) (i : Nat) :
    dimensionProduct dims = dimensionProduct (dims.take i) * dimensionProduct (dims.drop i) := by
  unfold dimensionProduct
  rw [← List.prod_append, ← List.map_append, List.take_append_drop]

/-- The closed form of the width: `w * d(i+1) * ... * d(n-1)` is the total
size divided by `d0 * ... * di`. -/
theorem width_eq_size_div (w size : Nat) (dims : List Int) (i : Nat)
    (hdims : ∀ d ∈ dims, 0 < d ∧ d < 2147483648)
    (hsize : size = w * dimensionProduct dims) :
    w * dimensionProduct (dims.drop (i + 1)) = size / dimensionProduct (dims.take (i + 1)) := by
  have hpos : 0 < dimensionProduct (dims.take (i + 1)) :=
    dimensionProduct_pos _ (fun d hd => (hdims d (List.mem_of_mem_take hd)).1)
  rw [hsize, dimensionProduct_take_drop dims (i + 1), Nat.mul_left_comm,
    Nat.mul_div_cancel_left _ hpos]

/-- Making the destination operand of a CREATE_PTR appends nothing. -/
theorem getCreatePointerDestinationOperand_entries (fb : FunctionBuilder) (op : Operand)
    (dtypeName : String) (workingModule : ModuleDescription) :
    (fb.getCreatePointerDestinationOperand op dtypeName workingModule).2.entries
      = fb.entries := by
  unfold getCreatePointerDestinationOperand
  split
  · rfl
  · split
    · rfl
    · split <;> rfl

/-- The entries `getPointerOperand` appends: none, or one CREATE_PTR from the
operand of the Unit to the pointer returned. -/
theorem getPointerOperand_entries (fb : FunctionBuilder) (unit : Unit) (p : Operand)
    (fb1 : FunctionBuilder) (h : fb.getPointerOperand unit = (.ok p, fb1)) :
    ∃ pre : List Entry, fb1.entries = fb.entries ++ pre ∧
      (pre = [] ∨ pre = [{ opcode := .CREATE_PTR, op1 := p, op2 := unit.first }]) := by
  unfold getPointerOperand at h
  cases hm : fb.modulesMap.find? unit.second.moduleName with
  | none => simp [hm] at h
  | some md =>
    simp only [hm] at h
    unfold createPointer at h
    by_cases h1 : (unit.first.isPointer && decide (unit.first.dtype ≠ .STRUCT)) = true
    · rw [if_pos h1] at h
      have h2 := congrArg Prod.snd h
      simp only at h2
      exact ⟨[], by simp [← h2], Or.inl rfl⟩
    · rw [if_neg h1] at h
      rcases hd : fb.getCreatePointerDestinationOperand unit.first unit.second.dtypeName md
        with ⟨r, fb0⟩
      have hfb0 : fb0.entries = fb.entries := by
        have h3 := getCreatePointerDestinationOperand_entries fb unit.first
          unit.second.dtypeName md
        rw [hd] at h3
        exact h3
      cases r with
      | error e => simp [hd] at h
      | ok q =>
        simp only [hd] at h
        have hq : q = p := by
          have := congrArg Prod.fst h
          simpa using this
        have h2 := congrArg Prod.snd h
        simp only at h2
        subst hq
        exact ⟨[{ opcode := .CREATE_PTR, op1 := q, op2 := unit.first }],
          by rw [← h2, entries_pushEntry, hfb0], Or.inr rfl⟩

/-- C4: `getIndexedElement` uses row-major element widths.  For an array Unit
with dimensions `d0..d(n-1)`, all positive, whose size is
`w * d0 * ... * d(n-1)`, and `k <= n` indices, the call returns.  It appends
the entries `pre` of `getPointerOperand` (none, or one CREATE_PTR) and then the
entries `es` that `rowMajorEntries` describes.  Among the appended entries
there are exactly `k` ADDR_MUL and `k` ADDR_ADD entries; the third operand of
the `i`-th ADDR_MUL is the address literal `w * d(i+1) * ... * d(n-1)`, which
is `size / (d0 * ... * di)`, and its second operand is index `i` (the
temporary it was read into, for a pointer); the `i`-th ADDR_ADD adds the
result of the `i`-th ADDR_MUL to the pointer produced by the previous step
(the base pointer `p` for `i = 0`), and the pointer of the last step is the
operand returned. -/
theorem getIndexedElement_row_major (fb : FunctionBuilder) (unit : Unit)
    (indices : List Unit) (w : Nat) (p : Operand) (fb1 : FunctionBuilder)
    (harr : unit.second.dimensions ≠ [])
    (hdims : ∀ d ∈ unit.second.dimensions, 0 < d ∧ d < 2147483648)
    (hsize : unit.second.size = w * dimensionProduct unit.second.dimensions)
    (hk : indices.length ≤ unit.second.dimensions.length)
    (hp : fb.getPointerOperand unit = (.ok p, fb1)) :
    ∃ (ret : Unit) (fb2 : FunctionBuilder) (pre es : List Entry),
      fb.getIndexedElement unit indices = (.ok ret, fb2) ∧
      fb2.entries = fb.entries ++ (pre ++ es) ∧
      (pre = [] ∨ pre = [{ opcode := .CREATE_PTR, op1 := p, op2 := unit.first }]) ∧
      (es, ret.first)
        = rowMajorEntries w unit.second.dimensions 0 indices p fb1.opBuilder.idCounter ∧
      ((pre ++ es).filter (hasOpcode .ADDR_MUL)).length = indices.length ∧
      ((pre ++ es).filter (hasOpcode .ADDR_ADD)).length = indices.length ∧
      ((pre ++ es).filter (hasOpcode .ADDR_MUL)).map (fun e => e.op3)
        = (List.range indices.length).map
            (fun i => addressLiteral (w * dimensionProduct (unit.second.dimensions.drop (i + 1)))) ∧
      (∀ i : Nat, w * dimensionProduct (unit.second.dimensions.drop (i + 1))
          = unit.second.size / dimensionProduct (unit.second.dimensions.take (i + 1))) ∧
      List.Forall₂ (fun (e : Entry) (indexUnit : Unit) =>
          ∃ t, e.op2 = valueOperand t indexUnit.first)
        ((pre ++ es).filter (hasOpcode .ADDR_MUL)) indices ∧
      ((pre ++ es).filter (hasOpcode .ADDR_ADD)).map (fun e => e.op3)
        = ((pre ++ es).filter (hasOpcode .ADDR_MUL)).map (fun e => e.op1) ∧
      p :: ((pre ++ es).filter (hasOpcode .ADDR_ADD)).map (fun e => e.op1)
        = ((pre ++ es).filter (hasOpcode .ADDR_ADD)).map (fun e => e.op2) ++ [ret.first] := by
  obtain ⟨d0, rest, hd⟩ : ∃ d0 rest, unit.second.dimensions = d0 :: rest := by
    cases h : unit.second.dimensions with
    | nil => exact absurd h harr
    | cons a l => exact ⟨a, l, rfl⟩
  have hd0 := hdims d0 (by simp [hd])
  have hu0 : toUnsigned d0 = d0.toNat := toUnsigned_of_pos d0 hd0
  have hpos0 : 0 < d0.toNat := by omega
  have hwidth : unit.second.size / toUnsigned d0
      = w * dimensionProduct (unit.second.dimensions.drop (0 + 1)) := by
    rw [hu0, hsize, hd]
    simp only [dimensionProduct, List.map_cons, List.prod_cons, Nat.zero_add, List.drop_succ_cons,
      List.drop_zero]
    rw [Nat.mul_left_comm, Nat.mul_div_cancel_left _ hpos0]
  obtain ⟨pre, hpre, hshape⟩ := getPointerOperand_entries fb unit p fb1 hp
  have hpm : pre.filter (hasOpcode .ADDR_MUL) = [] := by
    rcases hshape with h | h <;> simp [h, hasOpcode]
  have hpa : pre.filter (hasOpcode .ADDR_ADD) = [] := by
    rcases hshape with h | h <;> simp [h, hasOpcode]
  obtain ⟨fb2, hloop, hentries⟩ :=
    indexLoop_row_major w unit.second.dimensions hdims indices 0 p fb1 (by omega)
  have hmul := rowMajorEntries_mul_literals w unit.second.dimensions indices 0 p
    fb1.opBuilder.idCounter
  have hadd := rowMajorEntries_add_products w unit.second.dimensions indices 0 p
    fb1.opBuilder.idCounter
  have hlenmul : ((rowMajorEntries w unit.second.dimensions 0 indices p
      fb1.opBuilder.idCounter).1.filter (hasOpcode .ADDR_MUL)).length = indices.length := by
    have := congrArg List.length hmul
    simpa using this
  have hlenadd : ((rowMajorEntries w unit.second.dimensions 0 indices p
      fb1.opBuilder.idCounter).1.filter (hasOpcode .ADDR_ADD)).length = indices.length := by
    have := congrArg List.length hadd
    simp only [List.length_map] at this
    rw [this, hlenmul]
  refine ⟨{ first := (rowMajorEntries w unit.second.dimensions 0 indices p
                fb1.opBuilder.idCounter).2,
            second := { unit.second with
              dimensions := unit.second.dimensions.drop
                (unit.second.dimensions.length
                  - (unit.second.dimensions.length - (0 + indices.length))) } },
    fb2, pre, (rowMajorEntries w unit.second.dimensions 0 indices p
      fb1.opBuilder.idCounter).1, ?_, ?_, hshape, rfl, ?_, ?_, ?_, ?_, ?_, ?_, ?_⟩
  · have hne : toUnsigned d0 ≠ 0 := by omega
    have hhead : unit.second.dimensions.head? = some d0 := by simp [hd]
    simp only [getIndexedElement, hhead, if_neg hne, hp, hwidth, hloop]
  · rw [hentries, hpre, List.append_assoc]
  · rw [List.filter_append, hpm, List.nil_append]
    exact hlenmul
  · rw [List.filter_append, hpa, List.nil_append]
    exact hlenadd
  · rw [List.filter_append, hpm, List.nil_append]
    simpa using hmul
  · intro i
    exact width_eq_size_div w unit.second.size unit.second.dimensions i hdims hsize
  · rw [List.filter_append, hpm, List.nil_append]
    exact rowMajorEntries_mul_indices _ _ _ _ _ _
  · rw [List.filter_append, List.filter_append, hpm, hpa, List.nil_append, List.nil_append]
    exact hadd
  · rw [List.filter_append, hpa, List.nil_append]
    exact rowMajorEntries_add_chain _ _ _ _ _ _

/-- C4, at a concrete input: indexing `a : int[2][3]` (24 bytes, elements of 4
bytes) with the two literal indices 1 and 2 multiplies them by 12 and 4. -/
theorem getIndexedElement_row_major_witness :
    ∃ (ret : Unit) (fb2 : FunctionBuilder) (appended : List Entry),
      exampleBuilder.getIndexedElement exampleArrayUnit [exampleIndex 1, exampleIndex 2]
        = (.ok ret, fb2) ∧
      fb2.entries = exampleBuilder.entries ++ appended ∧
      (appended.filter (hasOpcode .ADDR_MUL)).length = 2 ∧
      (appended.filter (hasOpcode .ADDR_ADD)).length = 2 ∧
      (appended.filter (hasOpcode .ADDR_MUL)).map (fun e => e.op3)
        = [addressLiteral 12, addressLiteral 4] := by
  obtain ⟨ret, fb2, pre, es, h1, h2, _, _, h4, h5, h6, _⟩ :=
    getIndexedElement_row_major exampleBuilder exampleArrayUnit
      [exampleIndex 1, exampleIndex 2] 4
      { operandId := 0, dtype := .I32, operandType := .TEMP_PTR }
      (({ exampleBuilder with opBuilder := { idCounter := 1 } } : FunctionBuilder).pushEntry
        { opcode := .CREATE_PTR,
          op1 := { operandId := 0, dtype := .I32, operandType := .TEMP_PTR },
          op2 := exampleArrayUnit.first })
      (by decide) (by decide) (by decide) (by decide) rfl
  exact ⟨ret, fb2, pre ++ es, h1, h2, h4, h5, by rw [h6]; decide⟩

/-- C5: for every call of `getIndexedElement` that returns, there are no more
indices than dimensions (`k <= n`) and the returned TypeDescription is that of
the input Unit with the first `k` dimensions removed (none left when `k = n`):
same dtype, dtypeName, moduleName and properties.  And the call does return
for an array none of whose dimensions is zero, `k <= n` indices and a Unit
for which `getPointerOperand` returns. -/
theorem getIndexedElement_type (fb : FunctionBuilder) (unit : Unit) (indices : List Unit) :
    (∀ (ret : Unit) (fb' : FunctionBuilder),
      fb.getIndexedElement unit indices = (.ok ret, fb') →
        indices.length ≤ unit.second.dimensions.length ∧
        ret.second.dimensions = unit.second.dimensions.drop indices.length ∧
        (indices.length = unit.second.dimensions.length → ret.second.dimensions = []) ∧
        ret.second.dtype = unit.second.dtype ∧
        ret.second.dtypeName = unit.second.dtypeName ∧
        ret.second.moduleName = unit.second.moduleName ∧
        ret.second.properties = unit.second.properties ∧
        ret.second
          = { unit.second with dimensions := unit.second.dimensions.drop indices.length }) ∧
    (unit.second.dimensions ≠ [] →
      (∀ d ∈ unit.second.dimensions, toUnsigned d ≠ 0) →
      indices.length ≤ unit.second.dimensions.length →
      (∃ p fb1, fb.getPointerOperand unit = (.ok p, fb1)) →
      ∃ (ret : Unit) (fb' : FunctionBuilder),
        fb.getIndexedElement unit indices = (.ok ret, fb')) := by
  constructor
  · intro ret fb' h
    unfold getIndexedElement at h
    cases hhead : unit.second.dimensions.head? with
    | none => simp [hhead] at h
    | some d0 =>
      simp only [hhead] at h
      by_cases hz : toUnsigned d0 = 0
      · simp [hz] at h
      · rw [if_neg hz] at h
        rcases hptr : fb.getPointerOperand unit with ⟨r, fb1⟩
        cases r with
        | error e => simp [hptr] at h
        | ok p =>
          simp only [hptr] at h
          rcases hloop : indexLoop unit.second.dimensions indices 0
              (unit.second.size / toUnsigned d0) p fb1 with ⟨r2, fb2⟩
          cases r2 with
          | error e => simp [hloop] at h
          | ok res =>
            obtain ⟨c, q⟩ := res
            simp only [hloop] at h
            obtain ⟨hc, hle⟩ := indexLoop_count _ _ _ _ _ _ _ _ _ hloop
            have hk : indices.length ≤ unit.second.dimensions.length := by
              cases hi : indices with
              | nil => simp
              | cons x xs =>
                have := hle (by simp [hi])
                simpa [hi] using this
            have hdrop : unit.second.dimensions.length - (unit.second.dimensions.length - c)
                = indices.length := by omega
            rw [hdrop] at h
            have hret : ret = { first := q, second :=
                { unit.second with
                    dimensions := unit.second.dimensions.drop indices.length } } := by
              have := congrArg Prod.fst h
              simp at this
              exact this.symm
            subst hret
            refine ⟨hk, rfl, ?_, rfl, rfl, rfl, rfl, rfl⟩
            intro hkn
            simp [hkn]
  · intro harr hnz hk ⟨p, fb1, hp⟩
    obtain ⟨d0, rest, hd⟩ : ∃ d0 rest, unit.second.dimensions = d0 :: rest := by
      cases h : unit.second.dimensions with
      | nil => exact absurd h harr
      | cons a l => exact ⟨a, l, rfl⟩
    have hne : toUnsigned d0 ≠ 0 := hnz d0 (by simp [hd])
    have hhead : unit.second.dimensions.head? = some d0 := by simp [hd]
    obtain ⟨q, fb2, hloop⟩ := indexLoop_ok unit.second.dimensions hnz indices 0
      (unit.second.size / toUnsigned d0) p fb1 (by omega)
    simp only [getIndexedElement, hhead, if_neg hne, hp, hloop]
    exact ⟨_, fb2, rfl⟩

/-- C5, at a concrete input: indexing `a : int[2][3]` once leaves the
dimensions `[3]`, indexing it twice leaves none. -/
theorem getIndexedElement_type_witness :
    (∃ (ret : Unit) (fb' : FunctionBuilder),
      exampleBuilder.getIndexedElement exampleArrayUnit [exampleIndex 1] = (.ok ret, fb') ∧
      ret.second.dimensions = [3] ∧ ret.second.dtype = .I32) ∧
    (∃ (ret : Unit) (fb' : FunctionBuilder),
      exampleBuilder.getIndexedElement exampleArrayUnit [exampleIndex 1, exampleIndex 2]
        = (.ok ret, fb') ∧
      ret.second.dimensions = []) := by
  obtain ⟨r1, f1, h1⟩ := (getIndexedElement_type exampleBuilder exampleArrayUnit
    [exampleIndex 1]).2 (by decide) (by decide) (by decide) ⟨_, _, rfl⟩
  obtain ⟨r2, f2, h2⟩ := (getIndexedElement_type exampleBuilder exampleArrayUnit
    [exampleIndex 1, exampleIndex 2]).2 (by decide) (by decide) (by decide) ⟨_, _, rfl⟩
  have a1 := (getIndexedElement_type exampleBuilder exampleArrayUnit
    [exampleIndex 1]).1 r1 f1 h1
  have a2 := (getIndexedElement_type exampleBuilder exampleArrayUnit
    [exampleIndex 1, exampleIndex 2]).1 r2 f2 h2
  exact ⟨⟨r1, f1, h1, a1.2.1, a1.2.2.2.1⟩, ⟨r2, f2, h2, a2.2.2.1 rfl⟩⟩

/-- C6 at a failing input: `a : int[2][3]` satisfies the array-size invariant
(24 = 4 * 2 * 3); the type `getIndexedElement` returns for `a[1]` has the
dimensions `[3]` and the element size 4, but still the size 24, not 12. -/
theorem getIndexedElement_size_stale :
    exampleArrayUnit.second.size
      = exampleArrayUnit.second.dtypeSize * dimensionProduct exampleArrayUnit.second.dimensions ∧
    ∃ (ret : Unit) (fb' : FunctionBuilder),
      exampleBuilder.getIndexedElement exampleArrayUnit [exampleIndex 1] = (.ok ret, fb') ∧
      ret.second.dimensions = [3] ∧ ret.second.dtypeSize = 4 ∧ ret.second.size = 24 ∧
      ret.second.size ≠ ret.second.dtypeSize * dimensionProduct ret.second.dimensions := by
  refine ⟨by decide, _, _, rfl, by decide, by decide, by decide, by decide⟩

end FunctionBuilder

namespace FunctionBuilder

/-! ### C11: `terminateFunction` -/

/-- The test `doesFunctionTerminate` decides `endsWithRet`. -/
theorem doesFunctionTerminate_iff (fb : FunctionBuilder) :
    fb.doesFunctionTerminate = true ↔ endsWithRet fb.entries := by
  unfold doesFunctionTerminate endsWithRet entries
  cases h : fb.workingFunction.icodeTable.getLast? with
  | none => simp
  | some e => simp

/-- C11: `terminateFunction`.  If the entry list of the working function ends
with RET (so is not empty) it returns true and appends nothing; otherwise, if
the return type of the function is VOID, it appends exactly one RET and
returns true; otherwise it returns false and leaves the entry list (the whole
builder state) unchanged.  Hence it returns true if and only if the entry list
ends with RET afterwards. -/
theorem terminateFunction_spec (fb : FunctionBuilder) :
    (endsWithRet fb.entries → fb.terminateFunction = (true, fb)) ∧
    (¬ endsWithRet fb.entries → fb.workingFunction.isVoid = true →
      fb.terminateFunction.1 = true ∧
      fb.terminateFunction.2.entries = fb.entries ++ [{ opcode := .RET }]) ∧
    (¬ endsWithRet fb.entries → fb.workingFunction.isVoid = false →
      fb.terminateFunction = (false, fb)) ∧
    (fb.terminateFunction.1 = true ↔ endsWithRet fb.terminateFunction.2.entries) := by
  have hiff := doesFunctionTerminate_iff fb
  refine ⟨?_, ?_, ?_, ?_⟩
  · intro h
    simp [terminateFunction, hiff.mpr h]
  · intro h hv
    have hd : fb.doesFunctionTerminate = false := by
      cases hb : fb.doesFunctionTerminate
      · rfl
      · exact absurd (hiff.mp hb) h
    simp [terminateFunction, hd, hv, noArgumentEntry]
  · intro h hv
    have hd : fb.doesFunctionTerminate = false := by
      cases hb : fb.doesFunctionTerminate
      · rfl
      · exact absurd (hiff.mp hb) h
    simp [terminateFunction, hd, hv]
  · cases hb : fb.doesFunctionTerminate
    · cases hv : fb.workingFunction.isVoid
      · have hn : ¬ endsWithRet fb.entries := fun h => by
          have := hiff.mpr h
          simp [hb] at this
        simp [terminateFunction, hb, hv, hn]
      · simp [terminateFunction, hb, hv, noArgumentEntry, endsWithRet]
    · simp [terminateFunction, hb, hiff.mp hb]

/-- C11, at concrete inputs: an empty VOID function gets one RET; an empty
function returning I32 is reported as not terminated and left as it is. -/
theorem terminateFunction_spec_witness :
    ((({ workingFunction := { functionReturnType := { dtype := .VOID } } }
        : FunctionBuilder).terminateFunction).1 = true ∧
      (({ workingFunction := { functionReturnType := { dtype := .VOID } } }
        : FunctionBuilder).terminateFunction).2.entries = [] ++ [{ opcode := .RET }]) ∧
    ({ workingFunction := { functionReturnType := { dtype := .I32 } } }
        : FunctionBuilder).terminateFunction
      = (false, { workingFunction := { functionReturnType := { dtype := .I32 } } }) :=
  ⟨(terminateFunction_spec
      { workingFunction := { functionReturnType := { dtype := .VOID } } }).2.1
      (by simp [endsWithRet, entries]) rfl,
   (terminateFunction_spec
      { workingFunction := { functionReturnType := { dtype := .I32 } } }).2.2.1
      (by simp [endsWithRet, entries]) rfl⟩

end FunctionBuilder

/-! ### C14, C15: `dataTypeIsEqual` -/

/-- C14: `dataTypeIsEqual` is reflexive and symmetric. -/
theorem dataTypeIsEqual_refl_symm :
    (∀ a : DataType, dataTypeIsEqual a a = true) ∧
    (∀ a b : DataType, dataTypeIsEqual a b = dataTypeIsEqual b a) := by
  constructor
  · intro a
    cases a <;> rfl
  · intro a b
    cases a <;> cases b <;> rfl

/-- C15: `dataTypeIsEqual a b` holds exactly when `a = b`, or one of them is
AUTO_INT and the other an integer type, or one of them is AUTO_FLOAT and the
other a float type.  In particular AUTO_INT matches every signed and unsigned
integer width, AUTO_FLOAT matches F32 and F64, two distinct concrete types
never match, and no integer type matches a float type. -/
theorem dataTypeIsEqual_iff :
    (∀ a b : DataType, dataTypeIsEqual a b = true ↔
      (a = b ∨ (a = .AUTO_INT ∧ b ∈ [DataType.I8, .I16, .I32, .I64, .UI8, .UI16, .UI32, .UI64,
                                      .AUTO_INT])
        ∨ (b = .AUTO_INT ∧ a ∈ [DataType.I8, .I16, .I32, .I64, .UI8, .UI16, .UI32, .UI64,
                                 .AUTO_INT])
        ∨ (a = .AUTO_FLOAT ∧ b ∈ [DataType.F32, .F64, .AUTO_FLOAT])
        ∨ (b = .AUTO_FLOAT ∧ a ∈ [DataType.F32, .F64, .AUTO_FLOAT]))) ∧
    (∀ b ∈ [DataType.I8, .I16, .I32, .I64, .UI8, .UI16, .UI32, .UI64],
      dataTypeIsEqual .AUTO_INT b = true ∧ dataTypeIsEqual b .AUTO_INT = true) ∧
    (∀ b ∈ [DataType.F32, .F64],
      dataTypeIsEqual .AUTO_FLOAT b = true ∧ dataTypeIsEqual b .AUTO_FLOAT = true) ∧
    (∀ a b : DataType, isConcrete a = true → isConcrete b = true → a ≠ b →
      dataTypeIsEqual a b = false) ∧
    (∀ a b : DataType, isInteger a = true → isFloat b = true →
      dataTypeIsEqual a b = false ∧ dataTypeIsEqual b a = false) := by
  refine ⟨?_, ?_, ?_, ?_, ?_⟩
  · intro a b
    cases a <;> cases b <;> decide
  · decide
  · decide
  · intro a b
    cases a <;> cases b <;> decide
  · intro a b
    cases a <;> cases b <;> decide

namespace FunctionBuilder

/-! ### C16: literals in `operandCopy` -/

/-- C16: literals adopt the DataType of the destination on copy.  For a LITERAL
`src`, `operandCopy dst src` appends a single entry, whose second operand is
`src` except that its DataType is that of `dst`.  For a `src` that is not a
LITERAL the second operand is `src` unchanged: in the single entry appended
when at most one operand is a pointer, and in the READ entry, the first of the
two appended, when both are pointers. -/
theorem operandCopy_literal_adoption (fb : FunctionBuilder) (dst src : Operand) :
    (src.operandType = .LITERAL →
      ∃ e : Entry, (fb.operandCopy dst src).entries = fb.entries ++ [e] ∧
        e.op1 = dst ∧ e.op2 = { src with dtype := dst.dtype }) ∧
    (src.operandType ≠ .LITERAL → (dst.isPointer && src.isPointer) = false →
      ∃ e : Entry, (fb.operandCopy dst src).entries = fb.entries ++ [e] ∧
        e.op1 = dst ∧ e.op2 = src) ∧
    (src.operandType ≠ .LITERAL → dst.isPointer = true → src.isPointer = true →
      ∃ e1 e2 : Entry, (fb.operandCopy dst src).entries = fb.entries ++ [e1, e2] ∧
        e1.opcode = .READ ∧ e1.op2 = src ∧ e2.opcode = .WRITE ∧ e2.op1 = dst ∧
        e2.op2 = e1.op1) := by
  refine ⟨?_, ?_, ?_⟩
  · intro hl
    have hp : src.isPointer = false := by simp [Operand.isPointer, hl]
    rw [operandCopy_single fb dst src (by simp [hp])]
    exact ⟨_, rfl, rfl, by simp [adoptLiteralDataType, hl]⟩
  · intro hl hp
    rw [operandCopy_single fb dst src hp]
    exact ⟨_, rfl, rfl, by simp [adoptLiteralDataType, hl]⟩
  · intro _ h1 h2
    rw [operandCopy_both fb dst src h1 h2]
    exact ⟨{ opcode := .READ, op1 := (fb.createTempOperand src.dtype).1, op2 := src },
      { opcode := .WRITE, op1 := dst, op2 := (fb.createTempOperand src.dtype).1 },
      by simp [entries, pushEntry, createTempOperand], rfl, rfl, rfl, rfl, rfl⟩

/-- C16, at a concrete input: writing the AUTO_INT literal 7 through the I32
pointer `pp` appends `WRITE pp 7` with the literal tagged I32. -/
theorem operandCopy_literal_adoption_witness :
    ∃ e : Entry,
      (({} : FunctionBuilder).operandCopy
          { operandId := 1, dtype := .I32, operandType := .TEMP_PTR }
          { dtype := .AUTO_INT, operandType := .LITERAL, integer := 7 }).entries
        = ({} : FunctionBuilder).entries ++ [e] ∧
      e.op1 = { operandId := 1, dtype := .I32, operandType := .TEMP_PTR } ∧
      e.op2 = { dtype := .I32, operandType := .LITERAL, integer := 7 } :=
  (operandCopy_literal_adoption {}
    { operandId := 1, dtype := .I32, operandType := .TEMP_PTR }
    { dtype := .AUTO_INT, operandType := .LITERAL, integer := 7 }).1 rfl

/-! ### C19: `getStructField` on an undefined field -/

/-- The description read by `structureAt` is a stored one, or it has no
fields. -/
theorem structureAt_getField (modulesMap : StringModulesMap) (moduleName dtypeName : String)
    (name : String)
    (h : ∀ md sd, modulesMap.find? moduleName = some md →
      md.structures.find? dtypeName = some sd → sd.getField name = none) :
    (structureAt modulesMap moduleName dtypeName).1.getField name = none := by
  unfold structureAt StdMap.index
  cases hm : modulesMap.find? moduleName with
  | none => rfl
  | some md =>
    simp only []
    cases hs : md.structures.find? dtypeName with
    | none => rfl
    | some sd => exact h md sd hm hs

/-- Reading a struct description appends nothing. -/
theorem structureAt_entries (fb : FunctionBuilder) (moduleName dtypeName : String) :
    ({ fb with modulesMap := (structureAt fb.modulesMap moduleName dtypeName).2 }
      : FunctionBuilder).entries = fb.entries := rfl

/-- C19: `getStructField` on a field name that is not a field of the struct
description of the Unit raises the compile error "Undefined STRUCT field" and
appends no entry to the working function; no operand id is taken either. -/
theorem getStructField_undefined_field (fb : FunctionBuilder) (fieldName : Token) (unit : Unit)
    (h : ∀ md sd, fb.modulesMap.find? unit.second.moduleName = some md →
      md.structures.find? unit.second.dtypeName = some sd →
      sd.getField fieldName.toString = none) :
    (fb.getStructField fieldName unit).1 = .error (.compileError "Undefined STRUCT field") ∧
    (fb.getStructField fieldName unit).2.entries = fb.entries ∧
    (fb.getStructField fieldName unit).2.opBuilder = fb.opBuilder := by
  have hg := structureAt_getField fb.modulesMap unit.second.moduleName unit.second.dtypeName
    fieldName.toString h
  simp [getStructField, hg, entries]

/-- C19, at a concrete input: `Pair` has no field `c`. -/
theorem getStructField_undefined_field_witness :
    (exampleBuilder.getStructField { string := "c" } examplePairUnit).1
      = .error (.compileError "Undefined STRUCT field") ∧
    (exampleBuilder.getStructField { string := "c" } examplePairUnit).2.entries
      = exampleBuilder.entries ∧
    (exampleBuilder.getStructField { string := "c" } examplePairUnit).2.opBuilder
      = exampleBuilder.opBuilder :=
  getStructField_undefined_field exampleBuilder { string := "c" } examplePairUnit (by
    intro md sd hm hs
    have hm' : md = { name := "m", structures := { entries := [("Pair", examplePair)] } } := by
      have : exampleBuilder.modulesMap.find? examplePairUnit.second.moduleName
          = some { name := "m", structures := { entries := [("Pair", examplePair)] } } := by
        decide
      rw [this] at hm
      exact (Option.some.inj hm).symm
    subst hm'
    have hs' : sd = examplePair := by
      have : ({ name := "m", structures := { entries := [("Pair", examplePair)] } }
          : ModuleDescription).structures.find? examplePairUnit.second.dtypeName
          = some examplePair := by decide
      rw [this] at hs
      exact (Option.some.inj hs).symm
    subst hs'
    decide)

end FunctionBuilder

/-! ### Lookups in a map after an assignment -/

/-- After `m[key] = v` the key is found with the value `v`. -/
theorem StdMap_findIn_insertIn_self {α : Type} (l : List (String × α)) (key : String) (v : α) :
    StdMap.findIn (StdMap.insertIn l key v) key = some v := by
  induction l with
  | nil => simp [StdMap.insertIn, StdMap.findIn]
  | cons x rest ih =>
    obtain ⟨k, w⟩ := x
    unfold StdMap.insertIn
    by_cases h1 : stringLess key.data k.data = true
    · simp [h1, StdMap.findIn]
    · by_cases h2 : key = k
      · subst h2
        simp [h1, StdMap.findIn]
      · have h3 : ¬ k = key := fun h => h2 h.symm
        simp [h1, h2, h3, StdMap.findIn, ih]

/-- The assignment `m[key] = v` leaves the lookup of every other key as it
was. -/
theorem StdMap_findIn_insertIn_of_ne {α : Type} (l : List (String × α)) (key other : String)
    (v : α) (hne : other ≠ key) :
    StdMap.findIn (StdMap.insertIn l key v) other = StdMap.findIn l other := by
  have hne' : ¬ key = other := fun h => hne h.symm
  induction l with
  | nil => simp [StdMap.insertIn, StdMap.findIn, hne']
  | cons x rest ih =>
    obtain ⟨k, w⟩ := x
    unfold StdMap.insertIn
    by_cases h1 : stringLess key.data k.data = true
    · simp [h1, StdMap.findIn, hne']
    · by_cases h2 : key = k
      · subst h2
        simp [h1, StdMap.findIn, hne']
      · simp only [h1, h2, if_false, Bool.false_eq_true, StdMap.findIn, ih]

/-- After `m[key] = v` the key is found with the value `v`. -/
theorem StdMap_find_assign_self {α : Type} (m : StdMap α) (key : String) (v : α) :
    (m.assign key v).find? key = some v :=
  StdMap_findIn_insertIn_self m.entries key v

/-- The assignment `m[key] = v` leaves the lookup of every other key as it
was. -/
theorem StdMap_find_assign_of_ne {α : Type} (m : StdMap α) (key other : String) (v : α)
    (hne : other ≠ key) : (m.assign key v).find? other = m.find? other :=
  StdMap_findIn_insertIn_of_ne m.entries key other v hne

namespace FunctionBuilder

/-! ### C18: `createLocal` -/

/-- C18: `createLocal name type` raises "Symbol already defined" if and only
if the working function already has a symbol with that name, and then the
builder state, so the symbol map, is unchanged.  Otherwise it maps the name
to the given type with IS_LOCAL set, leaves every other symbol and the entry
list of the function unchanged, and returns the Unit the unit builder makes
from that type (with IS_LOCAL) and the name. -/
theorem createLocal_spec (unitBuilder : UnitBuilder) (fb : FunctionBuilder) (nameToken : Token)
    (typeDescription : TypeDescription) :
    ((createLocal unitBuilder fb nameToken typeDescription).1
        = .error (.compileError "Symbol already defined")
      ↔ fb.workingFunction.symbolExists nameToken.toString = true) ∧
    (fb.workingFunction.symbolExists nameToken.toString = true →
      (createLocal unitBuilder fb nameToken typeDescription).2.1 = fb) ∧
    (fb.workingFunction.symbolExists nameToken.toString = false →
      (createLocal unitBuilder fb nameToken typeDescription).1
        = .ok (unitBuilder.unitFromTypeDescription fb.opBuilder
            (typeDescription.setProperty .IS_LOCAL) nameToken.toString).1 ∧
      (createLocal unitBuilder fb nameToken typeDescription).2.1.workingFunction.symbols.find?
          nameToken.toString = some (typeDescription.setProperty .IS_LOCAL) ∧
      (∀ other : String, other ≠ nameToken.toString →
        (createLocal unitBuilder fb nameToken typeDescription).2.1.workingFunction.symbols.find?
          other = fb.workingFunction.symbols.find? other) ∧
      (createLocal unitBuilder fb nameToken typeDescription).2.1.entries = fb.entries) := by
  cases h : fb.workingFunction.symbolExists nameToken.toString
  · refine ⟨by simp [createLocal, h], by simp, fun _ => ⟨?_, ?_, ?_, ?_⟩⟩
    · simp [createLocal, h]
    · simp only [createLocal, h]
      exact StdMap_find_assign_self _ _ _
    · intro other hne
      simp only [createLocal, h]
      exact StdMap_find_assign_of_ne _ _ _ _ hne
    · simp [createLocal, h, entries]
  · exact ⟨by simp [createLocal, h], fun _ => by simp [createLocal, h], by simp⟩

/-- C18, at a concrete input: in a function without symbols, `createLocal`
maps `x` to its type with IS_LOCAL set; a second `createLocal` of `x` raises
"Symbol already defined". -/
theorem createLocal_spec_witness :
    exampleBuilder.workingFunction.symbolExists "x" = false ∧
    (createLocal exampleUnitBuilder exampleBuilder { string := "x" }
        { dtype := .I32 }).2.1.workingFunction.symbols.find? "x"
      = some (TypeDescription.setProperty { dtype := .I32 } .IS_LOCAL) ∧
    (createLocal exampleUnitBuilder
        (createLocal exampleUnitBuilder exampleBuilder { string := "x" } { dtype := .I32 }).2.1
        { string := "x" } { dtype := .I32 }).1
      = .error (.compileError "Symbol already defined") :=
  ⟨by decide,
   ((createLocal_spec exampleUnitBuilder exampleBuilder { string := "x" }
      { dtype := .I32 }).2.2 (by decide)).2.1,
   (createLocal_spec exampleUnitBuilder _ { string := "x" } { dtype := .I32 }).1.mpr
      (by decide)⟩

end FunctionBuilder

/-! ### C20: the instantiation suffix -/

/-- A fold that appends a string per element, from any prefix. -/
theorem foldl_append_eq_concat {α : Type} (f : α → String) (l : List α) (acc : String) :
    l.foldl (fun result x => result ++ f x) acc = acc ++ concatStrings (l.map f) := by
  induction l generalizing acc with
  | nil => simp [concatStrings]
  | cons d ds ih =>
    simp only [List.foldl_cons, List.map_cons, concatStrings]
    rw [ih, String.append_assoc]

/-- Prefixing every string with the separator gives the separator followed by
the joined strings. -/
theorem concat_prefixed_eq_join (separator : String) (l : List String) (h : l ≠ []) :
    concatStrings (l.map (fun s => separator ++ s)) = separator ++ joinWith separator l := by
  induction l with
  | nil => exact absurd rfl h
  | cons s rest ih =>
    cases rest with
    | nil => simp [concatStrings, joinWith]
    | cons t rest' =>
      have := ih (by simp)
      simp only [List.map_cons, concatStrings, joinWith] at this ⊢
      rw [this]
      simp [String.append_assoc]

/-- C20, as stated, fails: for the single type `int` of module `m` (with a
`mangleModuleName` that leaves `m` as it is) the suffix is `_m_int`, with a
separator before the first per-type string, whereas the per-type strings
joined with `_` give `m_int`; for two types the suffix is `_m_int_m_char`. -/
theorem constructInstantiationSuffix_leading_separator :
    constructInstantiationSuffix (fun s => s) [{ moduleName := "m", dtypeName := "int" }]
      = "_m_int" ∧
    joinWith "_" ([({ moduleName := "m", dtypeName := "int" } : TypeDescription)].map
      (instantiationStringFromType (fun s => s))) = "m_int" ∧
    constructInstantiationSuffix (fun s => s) [{ moduleName := "m", dtypeName := "int" }]
      ≠ joinWith "_" ([({ moduleName := "m", dtypeName := "int" } : TypeDescription)].map
          (instantiationStringFromType (fun s => s))) ∧
    constructInstantiationSuffix (fun s => s)
        [{ moduleName := "m", dtypeName := "int" }, { moduleName := "m", dtypeName := "char" }]
      = "_m_int_m_char" := by
  decide

/-- C20 (amended): `constructInstantiationSuffix types` is the concatenation,
over the types in order, of `_` followed by `instantiationStringFromType t`:
for a non-empty list it is `_` followed by the per-type strings joined with
`_` (so there is a separator before the first, and none after the last), for
the empty list it is empty.  Each per-type string is
`mangleModuleName moduleName`, `_`, `dtypeName`, then `_array` followed by the
decimal representations of the dimensions when the type is an array, then
`_ptr` when the type is a pointer. -/
theorem constructInstantiationSuffix_spec (mangleModuleName : String → String)
    (types : List TypeDescription) :
    constructInstantiationSuffix mangleModuleName types
      = concatStrings
          (types.map (fun t => "_" ++ instantiationStringFromType mangleModuleName t)) ∧
    (types ≠ [] →
      constructInstantiationSuffix mangleModuleName types
        = "_" ++ joinWith "_" (types.map (instantiationStringFromType mangleModuleName))) ∧
    (types = [] → constructInstantiationSuffix mangleModuleName types = "") ∧
    (∀ t : TypeDescription,
      instantiationStringFromType mangleModuleName t
        = mangleModuleName t.moduleName ++ "_" ++ t.dtypeName
          ++ (if t.isArray then "_array" ++ concatStrings (t.dimensions.map toString) else "")
          ++ (if t.isPointer then "_ptr" else "")) := by
  have h1 : constructInstantiationSuffix mangleModuleName types
      = concatStrings
          (types.map (fun t => "_" ++ instantiationStringFromType mangleModuleName t)) := by
    unfold constructInstantiationSuffix
    rw [foldl_append_eq_concat (fun t => "_" ++ instantiationStringFromType mangleModuleName t)]
    simp
  refine ⟨h1, ?_, ?_, ?_⟩
  · intro hne
    rw [h1]
    have := concat_prefixed_eq_join "_"
      (types.map (instantiationStringFromType mangleModuleName)) (by simpa using hne)
    rw [← this, List.map_map]
    rfl
  · intro he
    subst he
    rfl
  · intro t
    unfold instantiationStringFromType dimensionToString
    rw [foldl_append_eq_concat (fun d : Int => toString d)]
    cases t.isArray <;> cases t.isPointer <;> simp [String.append_assoc]

/-- C20 (amended), at a concrete input: the suffix for `int[2][3]` of module
`m` followed by a pointer to `char`. -/
theorem constructInstantiationSuffix_spec_witness :
    constructInstantiationSuffix (fun s => s)
        [{ moduleName := "m", dtypeName := "int", dimensions := [2, 3] },
         { moduleName := "m", dtypeName := "char", properties := 2 }]
      = "_" ++ joinWith "_" ["m_int_array23", "m_char_ptr"] := by
  have h := (constructInstantiationSuffix_spec (fun s => s)
    [{ moduleName := "m", dtypeName := "int", dimensions := [2, 3] },
     { moduleName := "m", dtypeName := "char", properties := 2 }]).2.1 (by simp)
  rw [h]
  decide

namespace Finder

/-! ### C17: `getUnitFromToken` -/

/-- The lookup of an enum, working module first. -/
theorem getEnum_eq (f : Finder) (nameToken : Token) :
    f.getEnum nameToken
      = (workingThenRoot (f.workingModule.getEnum nameToken.toString)
          (f.rootModule.getEnum nameToken.toString)).map
          (fun v => f.unitBuilder.unitFromEnum f.opBuilder v) := by
  unfold getEnum workingThenRoot
  cases f.workingModule.getEnum nameToken.toString <;>
    cases f.rootModule.getEnum nameToken.toString <;> rfl

/-- The lookup of an int define, working module first. -/
theorem getIntDefine_eq (f : Finder) (nameToken : Token) :
    f.getIntDefine nameToken
      = (workingThenRoot (f.workingModule.getIntDefine nameToken.toString)
          (f.rootModule.getIntDefine nameToken.toString)).map
          (fun v => f.unitBuilder.unitFromIntLiteral f.opBuilder v) := by
  unfold getIntDefine workingThenRoot
  cases f.workingModule.getIntDefine nameToken.toString <;>
    cases f.rootModule.getIntDefine nameToken.toString <;> rfl

/-- The lookup of a float define, working module first. -/
theorem getFloatDefine_eq (f : Finder) (nameToken : Token) :
    f.getFloatDefine nameToken
      = (workingThenRoot (f.workingModule.getFloatDefine nameToken.toString)
          (f.rootModule.getFloatDefine nameToken.toString)).map
          (fun v => f.unitBuilder.unitFromFloatLiteral f.opBuilder v) := by
  unfold getFloatDefine workingThenRoot
  cases f.workingModule.getFloatDefine nameToken.toString <;>
    cases f.rootModule.getFloatDefine nameToken.toString <;> rfl

/-- The lookup of a string define, working module first. -/
theorem getStringDefine_eq (f : Finder) (nameToken : Token) :
    f.getStringDefine nameToken
      = (workingThenRoot (f.workingModule.getStringDefine nameToken.toString)
          (f.rootModule.getStringDefine nameToken.toString)).map
          (fun v => f.unitBuilder.unitFromStringDataKey f.opBuilder v) := by
  unfold getStringDefine workingThenRoot
  cases f.workingModule.getStringDefine nameToken.toString <;>
    cases f.rootModule.getStringDefine nameToken.toString <;> rfl

/-- C17: `getUnitFromToken` resolves a name in a fixed order and returns on
the first hit: a local of the working function wins over everything else;
otherwise the global of the root module stored under the mangled name;
otherwise an enum (working module before root module); otherwise an int
define, then a float define, then a string define (each working module before
root module).  It raises "Symbol does not exist" if and only if the name is
found in none of these tables. -/
theorem getUnitFromToken_order (f : Finder) (nameToken : Token) :
    (∀ t, f.workingFunction.getSymbol nameToken.toString = some t →
      f.getUnitFromToken nameToken
        = .ok (f.unitBuilder.unitFromTypeDescription f.opBuilder t nameToken.toString)) ∧
    (f.workingFunction.getSymbol nameToken.toString = none →
      (∀ t, f.rootModule.getGlobal (f.nameMangle nameToken f.rootModule.name) = some t →
        f.getUnitFromToken nameToken
          = .ok (f.unitBuilder.unitFromTypeDescription f.opBuilder t
              (f.nameMangle nameToken f.rootModule.name))) ∧
      (f.rootModule.getGlobal (f.nameMangle nameToken f.rootModule.name) = none →
        (∀ v, workingThenRoot (f.workingModule.getEnum nameToken.toString)
            (f.rootModule.getEnum nameToken.toString) = some v →
          f.getUnitFromToken nameToken = .ok (f.unitBuilder.unitFromEnum f.opBuilder v)) ∧
        (workingThenRoot (f.workingModule.getEnum nameToken.toString)
            (f.rootModule.getEnum nameToken.toString) = none →
          (∀ v, workingThenRoot (f.workingModule.getIntDefine nameToken.toString)
              (f.rootModule.getIntDefine nameToken.toString) = some v →
            f.getUnitFromToken nameToken
              = .ok (f.unitBuilder.unitFromIntLiteral f.opBuilder v)) ∧
          (workingThenRoot (f.workingModule.getIntDefine nameToken.toString)
              (f.rootModule.getIntDefine nameToken.toString) = none →
            (∀ v, workingThenRoot (f.workingModule.getFloatDefine nameToken.toString)
                (f.rootModule.getFloatDefine nameToken.toString) = some v →
              f.getUnitFromToken nameToken
                = .ok (f.unitBuilder.unitFromFloatLiteral f.opBuilder v)) ∧
            (workingThenRoot (f.workingModule.getFloatDefine nameToken.toString)
                (f.rootModule.getFloatDefine nameToken.toString) = none →
              (∀ v, workingThenRoot (f.workingModule.getStringDefine nameToken.toString)
                  (f.rootModule.getStringDefine nameToken.toString) = some v →
                f.getUnitFromToken nameToken
                  = .ok (f.unitBuilder.unitFromStringDataKey f.opBuilder v))))))) ∧
    (f.getUnitFromToken nameToken = .error (.compileError "Symbol does not exist") ↔
      (f.workingFunction.getSymbol nameToken.toString = none ∧
       f.rootModule.getGlobal (f.nameMangle nameToken f.rootModule.name) = none ∧
       f.workingModule.getEnum nameToken.toString = none ∧
       f.rootModule.getEnum nameToken.toString = none ∧
       f.workingModule.getIntDefine nameToken.toString = none ∧
       f.rootModule.getIntDefine nameToken.toString = none ∧
       f.workingModule.getFloatDefine nameToken.toString = none ∧
       f.rootModule.getFloatDefine nameToken.toString = none ∧
       f.workingModule.getStringDefine nameToken.toString = none ∧
       f.rootModule.getStringDefine nameToken.toString = none)) := by
  refine ⟨?_, ?_, ?_⟩
  · intro t ht
    simp [getUnitFromToken, getLocal, ht]
  · intro hl
    refine ⟨?_, ?_⟩
    · intro t ht
      simp [getUnitFromToken, getLocal, hl, getGlobal, ht]
    · intro hg
      refine ⟨?_, ?_⟩
      · intro v hv
        simp [getUnitFromToken, getLocal, hl, getGlobal, hg, getEnum_eq, hv]
      · intro he
        refine ⟨?_, ?_⟩
        · intro v hv
          simp [getUnitFromToken, getLocal, hl, getGlobal, hg, getEnum_eq, he,
            getIntDefine_eq, hv]
        · intro hi
          refine ⟨?_, ?_⟩
          · intro v hv
            simp [getUnitFromToken, getLocal, hl, getGlobal, hg, getEnum_eq, he,
              getIntDefine_eq, hi, getFloatDefine_eq, hv]
          · intro hf v hv
            simp [getUnitFromToken, getLocal, hl, getGlobal, hg, getEnum_eq, he,
              getIntDefine_eq, hi, getFloatDefine_eq, hf, getStringDefine_eq, hv]
  · simp only [getUnitFromToken, getLocal, getGlobal, getEnum, getIntDefine, getFloatDefine,
      getStringDefine]
    cases f.workingFunction.getSymbol nameToken.toString <;>
    cases f.rootModule.getGlobal (f.nameMangle nameToken f.rootModule.name) <;>
    cases f.workingModule.getEnum nameToken.toString <;>
    cases f.rootModule.getEnum nameToken.toString <;>
    cases f.workingModule.getIntDefine nameToken.toString <;>
    cases f.rootModule.getIntDefine nameToken.toString <;>
    cases f.workingModule.getFloatDefine nameToken.toString <;>
    cases f.rootModule.getFloatDefine nameToken.toString <;>
    cases f.workingModule.getStringDefine nameToken.toString <;>
    cases f.rootModule.getStringDefine nameToken.toString <;> simp

/-- C17, at concrete inputs: `x` is a local, an enum and an int define at once
and resolves to the local; `y` is found first as the int define 5 of the root
module; `z` is in no table. -/
theorem getUnitFromToken_order_witness :
    exampleFinder.getUnitFromToken { string := "x" }
      = .ok (exampleUnitBuilder.unitFromTypeDescription {} { dtype := .I32 } "x") ∧
    exampleFinder.getUnitFromToken { string := "y" }
      = .ok (exampleUnitBuilder.unitFromIntLiteral {} 5) ∧
    exampleFinder.getUnitFromToken { string := "z" }
      = .error (.compileError "Symbol does not exist") :=
  ⟨(getUnitFromToken_order exampleFinder { string := "x" }).1 _ (by decide),
   ((((getUnitFromToken_order exampleFinder { string := "y" }).2.1 (by decide)).2
      (by decide)).2 (by decide)).1 5 (by decide),
   (getUnitFromToken_order exampleFinder { string := "z" }).2.2.mpr (by decide)⟩

end Finder

namespace ir_generator

/-! ### C13: `ir_generator::structure` -/

theorem fieldSizes_cons (var : Token × TypeDescription) (vars : List (Token × TypeDescription)) :
    fieldSizes (var :: vars) = var.2.size + fieldSizes vars := by
  simp [fieldSizes]

theorem fieldSizes_append (pre post : List (Token × TypeDescription)) :
    fieldSizes (pre ++ post) = fieldSizes pre + fieldSizes post := by
  simp [fieldSizes]

/-- The field loop of `structure`: the fields read, the size, the names
stored and the offset stored for each field. -/
theorem structureFields_layout (h : Handlers) (g : ir_generator) :
    ∀ (nodes : List Node) (sd sd' : StructDescription),
      sd.size < 4294967296 →
      structureFields h g nodes sd = .ok sd' →
      ∃ vars : List (Token × TypeDescription),
        List.Forall₂ (fun node var => h.var_from_node g node = .ok var) nodes vars ∧
        sd'.size = (sd.size + fieldSizes vars) % 4294967296 ∧
        (∀ name, (∀ var ∈ vars, var.1.string ≠ name) →
          sd'.structFields.find? name = sd.structFields.find? name) ∧
        (∀ var ∈ vars, sd.structFields.find? var.1.string = none) ∧
        (∀ pre var post, vars = pre ++ var :: post →
          sd'.structFields.find? var.1.string
            = some (storedField var ((sd.size + fieldSizes pre) % 4294967296))) := by
  intro nodes
  induction nodes with
  | nil =>
    intro sd sd' hlt hok
    simp only [structureFields, Except.ok.injEq] at hok
    subst hok
    refine ⟨[], List.Forall₂.nil, ?_, ?_, ?_, ?_⟩
    · simp [fieldSizes, Nat.mod_eq_of_lt hlt]
    · intro name _; rfl
    · intro var hvar; simp at hvar
    · intro pre var post hsplit; simp at hsplit
  | cons field rest ih =>
    intro sd sd' hlt hok
    unfold structureFields at hok
    cases hv : h.var_from_node g field with
    | error e => simp [hv] at hok
    | ok var =>
      simp only [hv] at hok
      by_cases hfe : sd.fieldExists var.1.string = true
      · simp [hfe] at hok
      · by_cases hse : g.module.symbolExists var.1.string = true
        · simp [hfe, hse] at hok
        · simp only [hfe, hse, if_false, Bool.false_eq_true] at hok
          have hnone : sd.structFields.find? var.1.string = none := by
            simpa [StructDescription.fieldExists] using hfe
          have hsize1 :
              ({ (structureAddField sd var.1.string var.2) with
                  moduleName := g.module.name } : StructDescription).size
                = (sd.size + var.2.size) % 4294967296 := rfl
          have hfields1 :
              ({ (structureAddField sd var.1.string var.2) with
                  moduleName := g.module.name } : StructDescription).structFields
                = sd.structFields.assign var.1.string (storedField var sd.size) := rfl
          obtain ⟨vars, hall, hsize, hframe, hfresh, hsplit⟩ :=
            ih _ sd' (by rw [hsize1]; exact Nat.mod_lt _ (by decide)) hok
          rw [hsize1] at hsize
          rw [hfields1] at hframe hfresh
          have hne : ∀ v ∈ vars, v.1.string ≠ var.1.string := by
            intro v hvmem heq
            have h1 := hfresh v hvmem
            rw [heq, StdMap_find_assign_self] at h1
            simp at h1
          refine ⟨var :: vars, List.Forall₂.cons hv hall, ?_, ?_, ?_, ?_⟩
          · rw [hsize, fieldSizes_cons]; omega
          · intro name hname
            rw [hframe name (fun v hvmem => hname v (List.mem_cons_of_mem _ hvmem))]
            exact StdMap_find_assign_of_ne _ _ _ _
              (fun heq => hname var (List.mem_cons_self _ _) heq.symm)
          · intro v hvmem
            rcases List.mem_cons.mp hvmem with heq | hvmem
            · rw [heq]; exact hnone
            · have h1 := hfresh v hvmem
              rwa [StdMap_find_assign_of_ne _ _ _ _ (hne v hvmem)] at h1
          · intro pre v post hsp
            cases pre with
            | nil =>
              simp only [List.nil_append, List.cons.injEq] at hsp
              obtain ⟨hv1, _⟩ := hsp
              subst hv1
              rw [hframe _ hne, StdMap_find_assign_self]
              simp [fieldSizes, Nat.mod_eq_of_lt hlt]
            | cons p pre' =>
              simp only [List.cons_append, List.cons.injEq] at hsp
              obtain ⟨hp, hrest⟩ := hsp
              subst hp
              rw [hsplit pre' v post hrest, hsize1, fieldSizes_cons]
              congr 2
              omega

end ir_generator

namespace ir_generator

/-- C13, as stated, fails once the sizes add up to 2^32 or more: for
`struct Wide { a: int[536870912]; b: int[536870912]; c: int[536870912] }` the
three fields have 2^31 bytes each, `structure` succeeds, and it stores the
offsets 0, 2^31 and 0 and the size 2^31: the offset of `c` is not the sum
2^32 of the sizes before it, the size is not the sum 3 * 2^31, and the offsets
decrease from `b` to `c`.  The running size is an `unsigned int`. -/
theorem structure_layout_wraps :
    ∃ (g' : ir_generator) (sd : StructDescription) (a b c : TypeDescription),
      structure_ exampleHandlers exampleWideNode {} = .ok g' ∧
      g'.module.structures.find? "Wide" = some sd ∧
      sd.structFields.find? "a" = some a ∧
      sd.structFields.find? "b" = some b ∧
      sd.structFields.find? "c" = some c ∧
      a.size = 2147483648 ∧ b.size = 2147483648 ∧ c.size = 2147483648 ∧
      a.offset = 0 ∧ b.offset = 2147483648 ∧ c.offset = 0 ∧
      c.offset ≠ a.size + b.size ∧
      sd.size = 2147483648 ∧ sd.size ≠ a.size + b.size + c.size ∧
      ¬ (b.offset ≤ c.offset) := by
  refine ⟨_, _, _, _, _, rfl, rfl, rfl, rfl, rfl, ?_, ?_, ?_, ?_, ?_, ?_, ?_, ?_, ?_, ?_⟩ <;>
    decide

/-- C13 (amended): when `structure` succeeds on a STRUCT node, the fields
f1..fn read by `var_from_node` in declaration order, with sizes s1..sn, are
stored under their names with IS_MUT set, the offset of fi being
(s1 + ... + s(i-1)) mod 2^32 (0 for f1), and the size of the description is
(s1 + ... + sn) mod 2^32.  When s1 + ... + sn is below 2^32 the offsets are
the prefix sums themselves, the size is the sum, and the offsets are
non-decreasing in declaration order. -/
theorem structure_layout (h : Handlers) (root : Node) (g g' : ir_generator)
    (hok : structure_ h root g = .ok g') :
    ∃ (first : Node) (rest : List Node) (vars : List (Token × TypeDescription))
      (sd : StructDescription),
      root.children = first :: rest ∧
      List.Forall₂ (fun node var => h.var_from_node g node = .ok var) first.children vars ∧
      g'.module.structures.find? first.tok.string = some sd ∧
      sd.size = fieldSizes vars % 4294967296 ∧
      (∀ pre var post, vars = pre ++ var :: post →
        sd.structFields.find? var.1.string
          = some (storedField var (fieldSizes pre % 4294967296))) ∧
      (fieldSizes vars < 4294967296 →
        sd.size = fieldSizes vars ∧
        (∀ pre var post, vars = pre ++ var :: post →
          sd.structFields.find? var.1.string = some (storedField var (fieldSizes pre))) ∧
        (∀ pre var1 mid var2 post, vars = pre ++ var1 :: (mid ++ var2 :: post) →
          ∃ field1 field2,
            sd.structFields.find? var1.1.string = some field1 ∧
            sd.structFields.find? var2.1.string = some field2 ∧
            field1.offset ≤ field2.offset)) := by
  unfold structure_ at hok
  cases hc : root.children with
  | nil => simp [hc] at hok
  | cons first rest =>
    simp only [hc] at hok
    by_cases hse : g.module.symbolExists first.tok.string = true
    · simp [hse] at hok
    · simp only [hse, if_false, Bool.false_eq_true] at hok
      cases hf : structureFields h g first.children { size := 0 } with
      | error e => simp [hf] at hok
      | ok sd =>
        simp only [hf, Except.ok.injEq] at hok
        subst hok
        obtain ⟨vars, hall, hsize, _, _, hsplit⟩ :=
          structureFields_layout h g first.children { size := 0 } sd (by decide) hf
        simp only [Nat.zero_add] at hsize hsplit
        have hpre : ∀ pre var post, vars = pre ++ var :: post →
            fieldSizes vars < 4294967296 → fieldSizes pre % 4294967296 = fieldSizes pre := by
          intro pre var post hsp hlt
          apply Nat.mod_eq_of_lt
          rw [hsp, fieldSizes_append, fieldSizes_cons] at hlt
          omega
        refine ⟨first, rest, vars, sd, rfl, hall, StdMap_find_assign_self _ _ _, hsize, hsplit,
          ?_⟩
        intro hlt
        refine ⟨by rw [hsize, Nat.mod_eq_of_lt hlt], ?_, ?_⟩
        · intro pre var post hsp
          rw [hsplit pre var post hsp, hpre pre var post hsp hlt]
        · intro pre var1 mid var2 post hsp
          have hsp2 : vars = (pre ++ var1 :: mid) ++ var2 :: post := by
            rw [hsp]; simp
          refine ⟨_, _, hsplit pre var1 _ hsp, hsplit _ var2 post hsp2, ?_⟩
          rw [hpre pre var1 _ hsp hlt, hpre _ var2 post hsp2 hlt]
          simp only [storedField, fieldSizes_append]
          omega

/-- C13 (amended), at a concrete input: for `struct Pair { b: int; a: int }`
the description stored under `Pair` has size 8, `b` at offset 0 and `a` at
offset 4. -/
theorem structure_layout_witness :
    ∃ (g' : ir_generator) (sd : StructDescription),
      structure_ exampleHandlers examplePairNode {} = .ok g' ∧
      g'.module.structures.find? "Pair" = some sd ∧
      sd.size = 8 ∧
      (sd.structFields.find? "b").map (fun field => field.offset) = some 0 ∧
      (sd.structFields.find? "a").map (fun field => field.offset) = some 4 := by
  obtain ⟨first, rest, vars, sd, h1, h2, h3, h4, h5, h6⟩ :=
    structure_layout exampleHandlers examplePairNode {} _ rfl
  refine ⟨_, _, rfl, rfl, ?_, ?_, ?_⟩ <;> decide

end ir_generator

namespace ir_generator

/-! ### C12: `ir_generator::program` -/

/-- The lookup after `m[key]` was read: the element exists. -/
theorem StdMap_find_index_self {α : Type} (m : StdMap α) (key : String) (dflt : α) :
    ∃ v, (m.index key dflt).2.find? key = some v := by
  unfold StdMap.index
  cases hf : m.find? key with
  | none => exact ⟨dflt, StdMap_find_assign_self _ _ _⟩
  | some v => exact ⟨v, hf⟩

/-- Reading `m[key]` leaves every other element as it was. -/
theorem StdMap_find_index_of_ne {α : Type} (m : StdMap α) (key other : String) (dflt : α)
    (hne : other ≠ key) : (m.index key dflt).2.find? other = m.find? other := by
  unfold StdMap.index
  cases hf : m.find? key with
  | none => exact StdMap_find_assign_of_ne _ _ _ _ hne
  | some v => rfl

/-- The entry list with a RET appended ends with RET. -/
theorem endsWithRet_append_ret (entries : List Entry) :
    FunctionBuilder.endsWithRet (entries ++ [{ opcode := .RET }]) :=
  ⟨{ opcode := .RET }, by simp, rfl⟩

/-- The call `noArgumentEntry` appends to the current function and to nothing
else. -/
theorem noArgumentEntry_ok (g g' : ir_generator) (instruction : Instruction)
    (hok : g.noArgumentEntry instruction = .ok g') :
    g'.current_func_desc = g.current_func_desc ∧
    ∃ (name : String) (func_desc : FunctionDescription),
      g.current_func_desc = some name ∧
      g.module.functions.find? name = some func_desc ∧
      g'.module.functions.find? name
        = some { func_desc with
                  icodeTable := func_desc.icodeTable ++ [{ opcode := instruction }] } ∧
      ∀ other, other ≠ name →
        g'.module.functions.find? other = g.module.functions.find? other := by
  unfold noArgumentEntry at hok
  cases hc : g.current_func_desc with
  | none => simp [hc] at hok
  | some name =>
    simp only [hc] at hok
    cases hf : g.module.functions.find? name with
    | none => simp [hf] at hok
    | some func_desc =>
      simp only [hf, Except.ok.injEq] at hok
      subst hok
      refine ⟨rfl, name, func_desc, rfl, hf, ?_, ?_⟩
      · exact StdMap_find_assign_self _ _ _
      · intro other hne
        exact StdMap_find_assign_of_ne _ _ _ _ hne

/-- The check after `block`: when it passes, the current function ends with
RET and the other functions are as they were. -/
theorem lastInstructionMustBeReturn_ok (g g' : ir_generator)
    (hok : g.lastInstructionMustBeReturn = .ok g') :
    ∃ (name : String) (func_desc : FunctionDescription),
      g.current_func_desc = some name ∧
      g'.module.functions.find? name = some func_desc ∧
      FunctionBuilder.endsWithRet func_desc.icodeTable ∧
      ∀ other, other ≠ name →
        g'.module.functions.find? other = g.module.functions.find? other := by
  unfold lastInstructionMustBeReturn at hok
  cases hc : g.current_func_desc with
  | none => simp [current_function_terminates, current_function, hc] at hok
  | some name =>
    cases hf : g.module.functions.find? name with
    | none => simp [current_function_terminates, current_function, hc, hf] at hok
    | some func_desc =>
      have hcur : g.current_function = some func_desc := by
        simp [current_function, hc, hf]
      cases ht : g.current_function_terminates with
      | error e => simp [ht] at hok
      | ok b =>
        cases b with
        | true =>
          simp only [ht, Except.ok.injEq] at hok
          subst hok
          refine ⟨name, func_desc, rfl, hf, ?_, fun _ _ => rfl⟩
          simp only [current_function_terminates, hcur] at ht
          by_cases hlen : func_desc.icodeTable.length < 1
          · simp [hlen] at ht
          · simp only [hlen, if_false] at ht
            cases hl : func_desc.icodeTable.getLast? with
            | none => simp [hl] at ht
            | some lastEntry =>
              simp only [hl, Except.ok.injEq, decide_eq_true_eq] at ht
              exact ⟨lastEntry, hl, ht⟩
        | false =>
          simp only [ht, hcur] at hok
          by_cases hv : func_desc.functionReturnType.dtype ≠ .VOID
          · simp [hv] at hok
          · simp only [hv, if_false] at hok
            obtain ⟨_, name', func_desc', h1, h2, h3, h4⟩ := noArgumentEntry_ok g g' .RET hok
            rw [hc] at h1
            cases h1
            refine ⟨name, _, rfl, h3, endsWithRet_append_ret _, h4⟩

/-- The check after `block` fails with the missing-return error when the
current function returns a value and does not end with RET. -/
theorem lastInstructionMustBeReturn_missing (g : ir_generator) (name : String)
    (func_desc : FunctionDescription) (hc : g.current_func_desc = some name)
    (hf : g.module.functions.find? name = some func_desc)
    (hv : func_desc.functionReturnType.dtype ≠ .VOID)
    (hret : ¬ FunctionBuilder.endsWithRet func_desc.icodeTable) :
    g.lastInstructionMustBeReturn = .error (.compileError "Missing RETURN for this FUNCTION") := by
  have hcur : g.current_function = some func_desc := by
    simp [current_function, hc, hf]
  have ht : g.current_function_terminates = .ok false := by
    simp only [current_function_terminates, hcur]
    by_cases hlen : func_desc.icodeTable.length < 1
    · simp [hlen]
    · simp only [hlen, if_false]
      cases hl : func_desc.icodeTable.getLast? with
      | none => rfl
      | some lastEntry =>
        have : lastEntry.opcode ≠ .RET := fun h => hret ⟨lastEntry, hl, h⟩
        simp [this]
  simp [lastInstructionMustBeReturn, ht, hcur, hv]

/-- One round of the second loop of `program`: functions that end with RET
still do, and the function of a FUNCTION child ends with RET. -/
theorem programFunctionBlock_ok (h : Handlers) (hframe : BlockFrame h) (child : Node)
    (g g' : ir_generator) (hok : programFunctionBlock h child g = .ok g') :
    (∀ name func_desc, g.module.functions.find? name = some func_desc →
      FunctionBuilder.endsWithRet func_desc.icodeTable →
      ∃ func_desc', g'.module.functions.find? name = some func_desc' ∧
        FunctionBuilder.endsWithRet func_desc'.icodeTable) ∧
    (child.type = .FUNCTION → ∀ first, child.children.head? = some first →
      ∃ func_desc', g'.module.functions.find? first.tok.string = some func_desc' ∧
        FunctionBuilder.endsWithRet func_desc'.icodeTable) := by
  unfold programFunctionBlock at hok
  by_cases hty : child.type = .FUNCTION
  · simp only [hty, if_true] at hok
    cases hh : child.children.head? with
    | none => simp [hh] at hok
    | some first =>
      cases hl : child.children.getLast? with
      | none => simp [hh, hl] at hok
      | some body =>
        simp only [hh, hl] at hok
        cases hb : h.block body false emptyLabel emptyLabel emptyLabel
            (g.enterFunction first.tok.string) with
        | error e => simp [hb] at hok
        | ok g1 =>
          simp only [hb] at hok
          obtain ⟨hcur, hother⟩ := hframe _ _ _ _ _ _ _ hb
          obtain ⟨name, func_desc, h1, h2, h3, h4⟩ := lastInstructionMustBeReturn_ok g1 g' hok
          have hname : name = first.tok.string := by
            rw [hcur] at h1
            simpa [enterFunction, clear_scope] using h1.symm
          subst hname
          have hthis : ∃ func_desc', g'.module.functions.find? first.tok.string
              = some func_desc' ∧ FunctionBuilder.endsWithRet func_desc'.icodeTable :=
            ⟨func_desc, h2, h3⟩
          refine ⟨?_, ?_⟩
          · intro name fd hfd hret
            by_cases hn : name = first.tok.string
            · rw [hn]; exact hthis
            · refine ⟨fd, ?_, hret⟩
              rw [h4 name hn, hother name (by
                simp only [enterFunction, clear_scope]
                intro heq
                exact hn (Option.some.inj heq).symm)]
              simp only [enterFunction, clear_scope]
              rw [StdMap_find_index_of_ne _ _ _ _ hn]
              exact hfd
          · intro _ first' hfirst'
            cases hfirst'
            exact hthis
  · simp only [hty, if_false, Except.ok.injEq] at hok
    subst hok
    exact ⟨fun name fd hfd hret => ⟨fd, hfd, hret⟩, fun hf => absurd hf hty⟩

/-- The second loop of `program`: after it, the function of every FUNCTION
child ends with RET. -/
theorem forEachChild_programFunctionBlock_ok (h : Handlers) (hframe : BlockFrame h) :
    ∀ (children : List Node) (g g' : ir_generator),
      forEachChild (programFunctionBlock h) children g = .ok g' →
      (∀ name func_desc, g.module.functions.find? name = some func_desc →
        FunctionBuilder.endsWithRet func_desc.icodeTable →
        ∃ func_desc', g'.module.functions.find? name = some func_desc' ∧
          FunctionBuilder.endsWithRet func_desc'.icodeTable) ∧
      (∀ child ∈ children, child.type = .FUNCTION →
        ∀ first, child.children.head? = some first →
        ∃ func_desc', g'.module.functions.find? first.tok.string = some func_desc' ∧
          FunctionBuilder.endsWithRet func_desc'.icodeTable) := by
  intro children
  induction children with
  | nil =>
    intro g g' hok
    simp only [forEachChild, Except.ok.injEq] at hok
    subst hok
    exact ⟨fun name fd hfd hret => ⟨fd, hfd, hret⟩, fun child hmem => by simp at hmem⟩
  | cons child rest ih =>
    intro g g' hok
    unfold forEachChild at hok
    cases hs : programFunctionBlock h child g with
    | error e => simp [hs] at hok
    | ok g1 =>
      simp only [hs] at hok
      obtain ⟨hkeep1, hthis⟩ := programFunctionBlock_ok h hframe child g g1 hs
      obtain ⟨hkeep2, hrest⟩ := ih g1 g' hok
      refine ⟨?_, ?_⟩
      · intro name fd hfd hret
        obtain ⟨fd1, hfd1, hret1⟩ := hkeep1 name fd hfd hret
        exact hkeep2 name fd1 hfd1 hret1
      · intro c hmem hty first hfirst
        rcases List.mem_cons.mp hmem with heq | hmem
        · subst heq
          obtain ⟨fd1, hfd1, hret1⟩ := hthis hty first hfirst
          exact hkeep2 _ fd1 hfd1 hret1
        · exact hrest c hmem hty first hfirst

/-- A loop over the children stops at the first child whose handler fails. -/
theorem forEachChild_error (f : Node → ir_generator → Except Failure ir_generator) :
    ∀ (pre : List Node) (child : Node) (post : List Node) (g g1 : ir_generator) (e : Failure),
      forEachChild f pre g = .ok g1 → f child g1 = .error e →
      forEachChild f (pre ++ child :: post) g = .error e := by
  intro pre
  induction pre with
  | nil =>
    intro child post g g1 e hpre herr
    simp only [forEachChild, Except.ok.injEq] at hpre
    subst hpre
    simp [forEachChild, herr]
  | cons p pre' ih =>
    intro child post g g1 e hpre herr
    unfold forEachChild at hpre
    cases hs : f p g with
    | error e' => simp [hs] at hpre
    | ok g2 =>
      simp only [hs] at hpre
      simp only [List.cons_append, forEachChild, hs]
      exact ih child post g2 g1 e hpre herr

/-- C12: let `block` work on the current function only (`BlockFrame`).  When
`program` completes without error, the FunctionDescription of every FUNCTION
child (the element of `module.functions` under the name of its first child)
has a non-empty entry list whose last entry is RET.  And when the declarations
and the FUNCTION children before some FUNCTION child are processed without
error, `block` returns for the body of that child, and the description then
has a return dtype other than VOID and an entry list that does not end with
RET, `program` raises the compile error "Missing RETURN for this FUNCTION". -/
theorem program_functions_end_with_ret (h : Handlers) (hframe : BlockFrame h) (root : Node)
    (g : ir_generator) :
    (∀ g', program h root g = .ok g' →
      ∀ child ∈ root.children, child.type = .FUNCTION →
      ∀ first, child.children.head? = some first →
      ∃ func_desc, g'.module.functions.find? first.tok.string = some func_desc ∧
        FunctionBuilder.endsWithRet func_desc.icodeTable) ∧
    (∀ (pre : List Node) (child : Node) (post : List Node) (first body : Node)
        (g0 g1 g2 : ir_generator) (func_desc : FunctionDescription),
      root.children = pre ++ child :: post →
      forEachChild (programDeclaration h) root.children g.clear_scope = .ok g0 →
      forEachChild (programFunctionBlock h) pre g0 = .ok g1 →
      child.type = .FUNCTION →
      child.children.head? = some first →
      child.children.getLast? = some body →
      h.block body false emptyLabel emptyLabel emptyLabel (g1.enterFunction first.tok.string)
        = .ok g2 →
      g2.module.functions.find? first.tok.string = some func_desc →
      func_desc.functionReturnType.dtype ≠ .VOID →
      ¬ FunctionBuilder.endsWithRet func_desc.icodeTable →
      program h root g = .error (.compileError "Missing RETURN for this FUNCTION")) := by
  refine ⟨?_, ?_⟩
  · intro g' hok child hmem hty first hfirst
    unfold program at hok
    cases hd : forEachChild (programDeclaration h) root.children g.clear_scope with
    | error e => simp [hd] at hok
    | ok g0 =>
      simp only [hd] at hok
      exact (forEachChild_programFunctionBlock_ok h hframe root.children g0 g' hok).2
        child hmem hty first hfirst
  · intro pre child post first body g0 g1 g2 func_desc hsplit hd hpre hty hfirst hlast hb hfd
      hv hret
    have hcur : g2.current_func_desc = some first.tok.string := by
      rw [(hframe _ _ _ _ _ _ _ hb).1]
      rfl
    have hstep : programFunctionBlock h child g1
        = .error (.compileError "Missing RETURN for this FUNCTION") := by
      simp only [programFunctionBlock, hty, if_true, hfirst, hlast, hb]
      exact lastInstructionMustBeReturn_missing g2 _ func_desc hcur hfd hv hret
    simp only [program, hd]
    rw [hsplit]
    exact forEachChild_error _ pre child post g0 g1 _ hpre hstep

end ir_generator

namespace ir_generator

/-- An entry list ends with RET when the opcode of its last entry is RET. -/
theorem endsWithRet_iff_last (entries : List Entry) :
    FunctionBuilder.endsWithRet entries
      ↔ entries.getLast?.map (fun lastEntry => lastEntry.opcode) = some .RET := by
  unfold FunctionBuilder.endsWithRet
  cases entries.getLast? with
  | none => simp
  | some lastEntry => simp

/-- The lowering of the examples works on the current function only. -/
theorem exampleBlock_frame :
    ∀ (stmts : List Node) (g g1 : ir_generator),
      forEachChild
          (fun stmt g2 => g2.noArgumentEntry (if stmt.type = .RETURN then .RET else .NEWLN))
          stmts g = .ok g1 →
      g1.current_func_desc = g.current_func_desc ∧
      ∀ name, g.current_func_desc ≠ some name →
        g1.module.functions.find? name = g.module.functions.find? name := by
  intro stmts
  induction stmts with
  | nil =>
    intro g g1 hok
    simp only [forEachChild, Except.ok.injEq] at hok
    subst hok
    exact ⟨rfl, fun _ _ => rfl⟩
  | cons stmt rest ih =>
    intro g g1 hok
    unfold forEachChild at hok
    cases hs : g.noArgumentEntry (if stmt.type = .RETURN then .RET else .NEWLN) with
    | error e => simp [hs] at hok
    | ok g2 =>
      simp only [hs] at hok
      obtain ⟨hc, name, _, hname, _, _, hother⟩ := noArgumentEntry_ok g g2 _ hs
      obtain ⟨hc2, hother2⟩ := ih g2 g1 hok
      refine ⟨hc2.trans hc, ?_⟩
      intro other hne
      rw [hother2 other (by rw [hc]; exact hne)]
      apply hother
      intro heq
      exact hne (by rw [hname, heq])

/-- The handlers of the examples satisfy the frame of `block`. -/
theorem exampleHandlers_frame : BlockFrame exampleHandlers := by
  intro body loop l1 l2 l3 g g1 hok
  exact exampleBlock_frame body.children g g1 hok

/-- C12, at concrete inputs: in `fn f() { println() }
fn g() -> int { println(); return }` both functions end with RET after
`program` (the RET of `f` is the appended one), and on
`fn f() { }  fn g() -> int { println() }` the function `g` makes `program`
raise "Missing RETURN for this FUNCTION". -/
theorem program_functions_end_with_ret_witness :
    BlockFrame exampleHandlers ∧
    (∃ (g' : ir_generator) (f g : FunctionDescription),
      program exampleHandlers exampleProgram {} = .ok g' ∧
      g'.module.functions.find? "f" = some f ∧ FunctionBuilder.endsWithRet f.icodeTable ∧
      g'.module.functions.find? "g" = some g ∧ FunctionBuilder.endsWithRet g.icodeTable) ∧
    program exampleHandlers exampleProgramMissingReturn {}
      = .error (.compileError "Missing RETURN for this FUNCTION") := by
  have h1 := (program_functions_end_with_ret exampleHandlers exampleHandlers_frame
    exampleProgram {}).1 _ rfl
  have h2 := (program_functions_end_with_ret exampleHandlers exampleHandlers_frame
    exampleProgramMissingReturn {}).2
  refine ⟨exampleHandlers_frame, ?_, ?_⟩
  · obtain ⟨f, hf, hfret⟩ :=
      h1 (exampleFunctionNode "f" "" [.mk .PRINTLN {} []]) (List.Mem.head _) rfl _ rfl
    obtain ⟨g, hg, hgret⟩ :=
      h1 (exampleFunctionNode "g" "int" [.mk .PRINTLN {} [], .mk .RETURN {} []])
        (List.Mem.tail _ (List.Mem.head _)) rfl _ rfl
    exact ⟨_, f, g, rfl, hf, hfret, hg, hgret⟩
  · exact h2 [exampleFunctionNode "f" "" []] (exampleFunctionNode "g" "int" [.mk .PRINTLN {} []])
      [] _ _ _ _ _ _ rfl rfl rfl rfl rfl rfl rfl rfl (by decide)
      ((endsWithRet_iff_last _).not.mpr (by decide))

end ir_generator

namespace FunctionBuilder

/-! ### C22: the entry stream is append-only -/

/-- The function `ensureNotPointer` appends to the entry list. -/
theorem ensureNotPointer_appends (fb : FunctionBuilder) (op : Operand) :
    fb.entries <+: (fb.ensureNotPointer op).2.entries := by
  rw [ensureNotPointer_eq]
  exact List.prefix_append _ _

/-- The function `operandCopy` appends to the entry list. -/
theorem operandCopy_appends (fb : FunctionBuilder) (op1 op2 : Operand) :
    fb.entries <+: (fb.operandCopy op1 op2).entries := by
  by_cases h : (op1.isPointer && op2.isPointer) = true
  · simp only [Bool.and_eq_true] at h
    rw [operandCopy_both fb op1 op2 h.1 h.2]
    simp only [entries_pushEntry, List.append_assoc]
    exact List.prefix_append _ _
  · rw [operandCopy_single fb op1 op2 (by simpa using h)]
    exact List.prefix_append _ _

/-- The function `pushEntryAndEnsureNoPointerWrite` appends to the entry list. -/
theorem pushEntryAndEnsureNoPointerWrite_appends (fb : FunctionBuilder) (entry : Entry) :
    fb.entries <+: (fb.pushEntryAndEnsureNoPointerWrite entry).2.entries := by
  unfold pushEntryAndEnsureNoPointerWrite
  split
  · exact List.prefix_append _ _
  · simp only [entries_pushEntry, List.append_assoc]
    exact List.prefix_append _ _

/-- The function `createPointer` appends to the entry list. -/
theorem createPointer_appends (fb : FunctionBuilder) (op : Operand) (dtypeName : String)
    (workingModule : ModuleDescription) :
    fb.entries <+: (fb.createPointer op dtypeName workingModule).2.entries := by
  unfold createPointer
  split
  · exact List.prefix_refl _
  · have h := getCreatePointerDestinationOperand_entries fb op dtypeName workingModule
    split
    · rename_i e fb1 heq
      rw [heq] at h
      simp only at h
      rw [h]
    · rename_i p fb1 heq
      rw [heq] at h
      simp only at h
      rw [entries_pushEntry, h]
      exact List.prefix_append _ _

/-- The function `getPointerOperand` appends to the entry list. -/
theorem getPointerOperand_appends (fb : FunctionBuilder) (unit : Unit) :
    fb.entries <+: (fb.getPointerOperand unit).2.entries := by
  unfold getPointerOperand
  split
  · exact List.prefix_refl _
  · exact createPointer_appends _ _ _ _

/-- The function `addressAddOperator` appends to the entry list. -/
theorem addressAddOperator_appends (fb : FunctionBuilder) (op2 op3 : Operand) :
    fb.entries <+: (fb.addressAddOperator op2 op3).2.entries :=
  List.prefix_append _ _

/-- The function `addressMultiplyOperator` appends to the entry list. -/
theorem addressMultiplyOperator_appends (fb : FunctionBuilder) (op2 op3 : Operand) :
    fb.entries <+: (fb.addressMultiplyOperator op2 op3).2.entries := by
  unfold addressMultiplyOperator
  simp only [entries_pushEntry]
  exact (ensureNotPointer_appends (fb.createPointerOperand .VOID).2 op2).trans
    (List.prefix_append _ _)

/-- The loop of `getIndexedElement` appends to the entry list. -/
theorem indexLoop_appends (dimensions : List Int) :
    ∀ (indices : List Unit) (dimensionCount elementWidth : Nat) (elementOperand : Operand)
      (fb : FunctionBuilder),
      fb.entries <+:
        (indexLoop dimensions indices dimensionCount elementWidth elementOperand fb).2.entries := by
  intro indices
  induction indices with
  | nil => intro _ _ _ fb; exact List.prefix_refl _
  | cons indexUnit rest ih =>
    intro dimensionCount elementWidth elementOperand fb
    unfold indexLoop
    have h1 : fb.entries <+:
        ((fb.createLiteralAddressOperand elementWidth).2.addressMultiplyOperator
          indexUnit.first (fb.createLiteralAddressOperand elementWidth).1).2.entries :=
      addressMultiplyOperator_appends (fb.createLiteralAddressOperand elementWidth).2 _ _
    simp only []
    split
    · exact h1
    · exact (h1.trans (addressAddOperator_appends _ _ _)).trans (ih _ _ _ _)

end FunctionBuilder

namespace FunctionBuilder

/-- The function `getStructField` appends to the entry list. -/
theorem getStructField_appends (fb : FunctionBuilder) (fieldName : Token) (unit : Unit) :
    fb.entries <+: (fb.getStructField fieldName unit).2.entries := by
  unfold getStructField
  simp only []
  split
  · exact List.prefix_refl _
  · have h := getPointerOperand_appends
      ({ fb with modulesMap :=
          (structureAt fb.modulesMap unit.second.moduleName unit.second.dtypeName).2 }) unit
    split
    · rename_i e fb1 heq
      rw [heq] at h
      exact h
    · rename_i p fb1 heq
      rw [heq] at h
      exact h.trans (addressAddOperator_appends _ _ _)

/-- The function `getIndexedElement` appends to the entry list. -/
theorem getIndexedElement_appends (fb : FunctionBuilder) (unit : Unit) (indices : List Unit) :
    fb.entries <+: (fb.getIndexedElement unit indices).2.entries := by
  unfold getIndexedElement
  split
  · exact List.prefix_refl _
  · split
    · exact List.prefix_refl _
    · rename_i d0 hd0 hne
      have h := getPointerOperand_appends fb unit
      simp only []
      split
      · rename_i e fb1 heq
        rw [heq] at h
        exact h
      · rename_i p fb1 heq
        rw [heq] at h
        have h2 := indexLoop_appends unit.second.dimensions indices 0
          (unit.second.size / toUnsigned d0) p fb1
        split
        · rename_i e fb2 heq2
          rw [heq2] at h2
          exact h.trans h2
        · rename_i dc fo fb2 heq2
          rw [heq2] at h2
          exact h.trans h2

/-- The function `unitCopy` appends to the entry list. -/
theorem unitCopy_appends (fb : FunctionBuilder) (dest src : Unit) :
    fb.entries <+: (fb.unitCopy dest src).2.entries := by
  unfold unitCopy
  split
  · have h := getPointerOperand_appends fb dest
    split
    · rename_i e fb1 heq
      rw [heq] at h
      exact h
    · rename_i p fb1 heq
      rw [heq] at h
      have h2 := getPointerOperand_appends fb1 src
      split
      · rename_i e fb2 heq2
        rw [heq2] at h2
        exact h.trans h2
      · rename_i q fb2 heq2
        rw [heq2] at h2
        exact (h.trans h2).trans (List.prefix_append _ _)
  · exact operandCopy_appends _ _ _

/-- C22: the entry stream is append-only.  For every emitting operation of
`FunctionBuilder` (operandCopy, unitCopy, binaryOperator, unaryOperator,
castOperator, compareOperator, addressAddOperator, addressMultiplyOperator,
getStructField, getIndexedElement, insertLabel, createBranch, createPrint,
createInput, passParameter, callFunction, noArgumentEntry, terminateFunction),
from every builder state and for all arguments, the entry list of the working
function before the call is an initial segment of the entry list after the
call, also when the operation ends in an error. -/
theorem entries_append_only (fb : FunctionBuilder) :
    (∀ op1 op2, fb.entries <+: (fb.operandCopy op1 op2).entries) ∧
    (∀ dest src, fb.entries <+: (fb.unitCopy dest src).2.entries) ∧
    (∀ instruction LHS RHS, fb.entries <+: (fb.binaryOperator instruction LHS RHS).2.entries) ∧
    (∀ instruction term, fb.entries <+: (fb.unaryOperator instruction term).2.entries) ∧
    (∀ unit dtype, fb.entries <+: (fb.castOperator unit dtype).2.entries) ∧
    (∀ instruction LHS RHS, fb.entries <+: (fb.compareOperator instruction LHS RHS).entries) ∧
    (∀ op2 op3, fb.entries <+: (fb.addressAddOperator op2 op3).2.entries) ∧
    (∀ op2 op3, fb.entries <+: (fb.addressMultiplyOperator op2 op3).2.entries) ∧
    (∀ fieldName unit, fb.entries <+: (fb.getStructField fieldName unit).2.entries) ∧
    (∀ unit indices, fb.entries <+: (fb.getIndexedElement unit indices).2.entries) ∧
    (∀ op, fb.entries <+: (fb.insertLabel op).entries) ∧
    (∀ instruction op, fb.entries <+: (fb.createBranch instruction op).entries) ∧
    (∀ unit, fb.entries <+: (fb.createPrint unit).entries) ∧
    (∀ unit, fb.entries <+: (fb.createInput unit).entries) ∧
    (∀ calleeNameToken callee formalParam actualParam,
      fb.entries <+: (fb.passParameter calleeNameToken callee formalParam actualParam).entries) ∧
    (∀ calleeNameToken callee, fb.entries <+: (fb.callFunction calleeNameToken callee).2.entries) ∧
    (∀ instruction, fb.entries <+: (fb.noArgumentEntry instruction).entries) ∧
    fb.entries <+: fb.terminateFunction.2.entries := by
  refine ⟨operandCopy_appends fb, unitCopy_appends fb, ?_, ?_, ?_, ?_, addressAddOperator_appends fb,
    addressMultiplyOperator_appends fb, getStructField_appends fb, getIndexedElement_appends fb,
    fun _ => List.prefix_append _ _, fun _ _ => List.prefix_append _ _, ?_,
    fun _ => List.prefix_append _ _, ?_, fun _ _ => List.prefix_append _ _,
    fun _ => List.prefix_append _ _, ?_⟩
  · intro instruction LHS RHS
    unfold binaryOperator
    exact ((ensureNotPointer_appends (fb.createTempOperand LHS.second.dtype).2 _).trans
      (ensureNotPointer_appends _ _)).trans (pushEntryAndEnsureNoPointerWrite_appends _ _)
  · intro instruction term
    unfold unaryOperator
    exact (ensureNotPointer_appends (fb.createTempOperand term.second.dtype).2 _).trans
      (pushEntryAndEnsureNoPointerWrite_appends _ _)
  · intro unit dtype
    unfold castOperator
    exact (ensureNotPointer_appends (fb.createTempOperand dtype).2 _).trans
      (pushEntryAndEnsureNoPointerWrite_appends _ _)
  · intro instruction LHS RHS
    unfold compareOperator
    exact ((ensureNotPointer_appends fb _).trans (ensureNotPointer_appends _ _)).trans
      (List.prefix_append _ _)
  · intro unit
    by_cases ha : unit.second.isArray = true
    · simp [createPrint, ha]
    · refine (ensureNotPointer_appends fb unit.first).trans ?_
      simp [createPrint, ha]
  · intro calleeNameToken callee formalParam actualParam
    unfold passParameter
    simp only []
    split
    · exact (ensureNotPointer_appends fb _).trans (List.prefix_append _ _)
    · exact List.prefix_append _ _
  · unfold terminateFunction
    split
    · exact List.prefix_refl _
    · split
      · exact List.prefix_refl _
      · exact List.prefix_append _ _

end FunctionBuilder

/-! ### C21: generic instantiation is memoized -/

/-- C21: generic instantiation is memoized on the instantiated module name.
Whenever `genericModuleName + "_" + constructInstantiationSuffix(types)` is a
key of the modules map, `generateIRUsingMonomorphizer` returns the pair of
that module name and `structName + "_" + suffix` and leaves the context, so
the modules map, unchanged, whatever `instantiateGeneric` and `generateModule`
would do: neither is called.  So when a first request returns and the module
is then in the modules map (as it is when it was there before, or when
`generateModule` registers the module it generates), a second request with
the same generic module, struct name and types returns the same two names and
leaves the context as it is. -/
theorem generateIRUsingMonomorphizer_memoized (parts : MonomorphizerParts)
    (ctx : GeneratorContext) (genericModuleName : String) (genericStructNameToken : Token)
    (instantiationTypes : List TypeDescription) :
    (ctx.moduleExists
        (genericModuleName ++ "_"
          ++ constructInstantiationSuffix parts.mangleModuleName instantiationTypes) = true →
      ∀ (nodes : List Node) (other : MonomorphizerParts),
        other.mangleModuleName = parts.mangleModuleName →
        generateIRUsingMonomorphizer other ctx genericModuleName genericStructNameToken
            instantiationTypes nodes
          = (.ok (genericModuleName ++ "_"
                    ++ constructInstantiationSuffix parts.mangleModuleName instantiationTypes,
                  genericStructNameToken.toString ++ "_"
                    ++ constructInstantiationSuffix parts.mangleModuleName instantiationTypes),
             ctx)) ∧
    (∀ (nodes nodes2 : List Node) (names : String × String) (ctx1 : GeneratorContext),
      generateIRUsingMonomorphizer parts ctx genericModuleName genericStructNameToken
          instantiationTypes nodes = (.ok names, ctx1) →
      (ctx.moduleExists
          (genericModuleName ++ "_"
            ++ constructInstantiationSuffix parts.mangleModuleName instantiationTypes) = true
        ∨ parts.RegistersModule) →
      ctx1.modulesMap.find?
          (genericModuleName ++ "_"
            ++ constructInstantiationSuffix parts.mangleModuleName instantiationTypes) ≠ none ∧
      generateIRUsingMonomorphizer parts ctx1 genericModuleName genericStructNameToken
          instantiationTypes nodes2 = (.ok names, ctx1)) := by
  have hmemo : ∀ (c : GeneratorContext) (nodes : List Node) (other : MonomorphizerParts),
      other.mangleModuleName = parts.mangleModuleName →
      c.moduleExists
        (genericModuleName ++ "_"
          ++ constructInstantiationSuffix parts.mangleModuleName instantiationTypes) = true →
      generateIRUsingMonomorphizer other c genericModuleName genericStructNameToken
          instantiationTypes nodes
        = (.ok (genericModuleName ++ "_"
                  ++ constructInstantiationSuffix parts.mangleModuleName instantiationTypes,
                genericStructNameToken.toString ++ "_"
                  ++ constructInstantiationSuffix parts.mangleModuleName instantiationTypes),
           c) := by
    intro c nodes other hm hex
    simp [generateIRUsingMonomorphizer, getInstantiatedModuleName, getInstantiatedStructName,
      hm, hex]
  refine ⟨fun hex nodes other hm => hmemo ctx nodes other hm hex, ?_⟩
  intro nodes nodes2 names ctx1 hfirst hreg
  have hex1 : ctx1.moduleExists
      (genericModuleName ++ "_"
        ++ constructInstantiationSuffix parts.mangleModuleName instantiationTypes) = true
      ∧ names = (genericModuleName ++ "_"
                  ++ constructInstantiationSuffix parts.mangleModuleName instantiationTypes,
                genericStructNameToken.toString ++ "_"
                  ++ constructInstantiationSuffix parts.mangleModuleName instantiationTypes) := by
    by_cases hex : ctx.moduleExists
        (genericModuleName ++ "_"
          ++ constructInstantiationSuffix parts.mangleModuleName instantiationTypes) = true
    · rw [hmemo ctx nodes parts rfl hex] at hfirst
      simp only [Prod.mk.injEq, Except.ok.injEq] at hfirst
      obtain ⟨hn, hc⟩ := hfirst
      rw [← hc]
      exact ⟨hex, hn.symm⟩
    · have hr : parts.RegistersModule := hreg.resolve_left hex
      have hex' : ctx.moduleExists
          (genericModuleName ++ "_"
            ++ constructInstantiationSuffix parts.mangleModuleName instantiationTypes)
          = false := by simpa using hex
      simp only [generateIRUsingMonomorphizer, getInstantiatedModuleName,
        getInstantiatedStructName, hex', Bool.not_false, ↓reduceIte] at hfirst
      split at hfirst
      · simp at hfirst
      · split at hfirst
        · simp at hfirst
        · rename_i ast ctx2 _ _ u ctx3 hgen
          simp only [Prod.mk.injEq, Except.ok.injEq] at hfirst
          obtain ⟨hn, hc⟩ := hfirst
          have := hr _ _ _ _ hgen
          rw [← hc]
          exact ⟨by simpa [GeneratorContext.moduleExists] using this, hn.symm⟩
  obtain ⟨hex1, hnames⟩ := hex1
  refine ⟨?_, ?_⟩
  · intro hnone
    simp [GeneratorContext.moduleExists, hnone] at hex1
  · rw [hnames]
    exact hmemo ctx1 nodes2 parts rfl hex1

/-- The collaborators of the examples register the module they generate. -/
theorem exampleMonomorphizerParts_registers : exampleMonomorphizerParts.RegistersModule := by
  intro name ast ctx ctx1 h
  simp only [exampleMonomorphizerParts, Prod.mk.injEq, true_and] at h
  subst h
  simp [GeneratorContext.moduleExists, StdMap_find_assign_self]

/-- C21, at a concrete input: the first request for `List[int]` generates the
module `List__m_int`; a second request returns the same names and leaves the
context as it is, also with collaborators that would throw if called. -/
theorem generateIRUsingMonomorphizer_memoized_witness :
    ∃ (ctx1 : GeneratorContext),
      generateIRUsingMonomorphizer exampleMonomorphizerParts {} "List" { string := "List" }
          [{ moduleName := "m", dtypeName := "int" }] []
        = (.ok ("List__m_int", "List__m_int"), ctx1) ∧
      ctx1.modulesMap.find? "List__m_int" ≠ none ∧
      generateIRUsingMonomorphizer exampleMonomorphizerParts ctx1 "List" { string := "List" }
          [{ moduleName := "m", dtypeName := "int" }] []
        = (.ok ("List__m_int", "List__m_int"), ctx1) ∧
      generateIRUsingMonomorphizer failingMonomorphizerParts ctx1 "List" { string := "List" }
          [{ moduleName := "m", dtypeName := "int" }] []
        = (.ok ("List__m_int", "List__m_int"), ctx1) := by
  have h := generateIRUsingMonomorphizer_memoized exampleMonomorphizerParts {} "List"
    { string := "List" } [{ moduleName := "m", dtypeName := "int" }]
  obtain ⟨h1, h2⟩ := h.2 [] [] ("List__m_int", "List__m_int") _ rfl
    (Or.inr exampleMonomorphizerParts_registers)
  have h3 := (generateIRUsingMonomorphizer_memoized exampleMonomorphizerParts
    { modulesMap := { entries := [("List__m_int", { name := "List__m_int" })] } } "List"
    { string := "List" } [{ moduleName := "m", dtypeName := "int" }]).1 (by decide) []
    failingMonomorphizerParts rfl
  exact ⟨_, rfl, h1, h2, h3⟩

namespace ir_generator

/-! ### Calls of the builder -/

/-- A builder call in a working generator: it runs the operation on the
builder state of the current function, and the generator then works on the
function as the operation left it. -/
theorem withBuilder_working {α : Type} {g : ir_generator} {name : String} {es : List Entry}
    {c : Nat} (h : Working g name es c)
    (operation : FunctionBuilder → Except Failure α × FunctionBuilder) :
    ∃ fb : FunctionBuilder, fb.entries = es ∧ fb.opBuilder.idCounter = c ∧
      (g.withBuilder operation).1 = (operation fb).1 ∧
      Working (g.withBuilder operation).2 name (operation fb).2.entries
        (operation fb).2.opBuilder.idCounter := by
  obtain ⟨hc, hid, fd, hf, he⟩ := h
  refine ⟨g.builderState fd, he, hid, ?_, ?_⟩
  · simp [withBuilder, hc, hf]
  · simp only [withBuilder, hc, hf]
    exact ⟨rfl, rfl, _, StdMap_find_assign_self _ _ _, rfl⟩

end ir_generator

namespace ir_generator

/-- A builder call that pushes one entry and mints no id, in a working
generator. -/
theorem withBuilder_pushEntry_working {g : ir_generator} {name : String}
    {es : List Entry} {c : Nat} (h : Working g name es c) (entry : Entry) :
    (g.withBuilder (fun fb => ((.ok ⟨⟩ : Except Failure PUnit.{1}), fb.pushEntry entry))).1
      = .ok ⟨⟩ ∧
    Working (g.withBuilder (fun fb => ((.ok ⟨⟩ : Except Failure PUnit.{1}),
      fb.pushEntry entry))).2 name (es ++ [entry]) c := by
  obtain ⟨fb, he, hid, h1, h2⟩ :=
    withBuilder_working h (fun fb => ((.ok ⟨⟩ : Except Failure PUnit.{1}), fb.pushEntry entry))
  simp only [FunctionBuilder.entries_pushEntry, FunctionBuilder.opBuilder_pushEntry, he, hid] at h2
  exact ⟨h1, h2⟩

/-- The wrapper `builder_label` in a working generator. -/
theorem builder_label_working {g : ir_generator} {name : String}
    {es : List Entry} {c : Nat} (h : Working g name es c) (op : Operand) :
    (g.builder_label op).1 = .ok ⟨⟩ ∧
    Working (g.builder_label op).2 name (es ++ [{ opcode := .CREATE_LABEL, op1 := op }]) c :=
  withBuilder_pushEntry_working h _

/-- The wrapper `builder_createBranch` in a working generator. -/
theorem builder_createBranch_working {g : ir_generator} {name : String}
    {es : List Entry} {c : Nat} (h : Working g name es c) (instruction : Instruction)
    (op : Operand) :
    (g.builder_createBranch instruction op).1 = .ok ⟨⟩ ∧
    Working (g.builder_createBranch instruction op).2 name
      (es ++ [{ opcode := instruction, op1 := op }]) c :=
  withBuilder_pushEntry_working h _

/-- The wrapper `builder_noArgumentEntry` in a working generator. -/
theorem builder_noArgumentEntry_working {g : ir_generator} {name : String}
    {es : List Entry} {c : Nat} (h : Working g name es c) (instruction : Instruction) :
    (g.builder_noArgumentEntry instruction).1 = .ok ⟨⟩ ∧
    Working (g.builder_noArgumentEntry instruction).2 name
      (es ++ [{ opcode := instruction }]) c :=
  withBuilder_pushEntry_working h _

end ir_generator

namespace ir_generator

/-! ### C30: a string literal copied into a byte array -/

/-- C30 at a failing input: the string literal `abc` (length 3) is accepted
for the array `s : char[3]`, and `assign_str_literal_tovar` appends, after
the CREATE_PTR of the base, four WRITE entries: the characters at the element
offsets 0, 1 and 2 and the zero byte through the pointer advanced three times
by one byte, at element offset 3, which is the dimension of the array. -/
theorem assign_str_literal_tovar_writes_past_end :
    exampleCharArray.second.dimensions = [3] ∧
    (stringChars "abc").length = 3 ∧
    (assign_str_literal_tovar exampleGenerator exampleCharArray
        (.mk .STR_LITERAL { unescapedString := "abc" } [])).1 = .ok ⟨⟩ ∧
    (assign_str_literal_tovar exampleGenerator exampleCharArray
        (.mk .STR_LITERAL { unescapedString := "abc" } [])).2.entries
      = [{ opcode := .CREATE_PTR, op1 := pointerTemp 0 .UI8, op2 := exampleCharArray.first },
         { opcode := .WRITE, op1 := pointerTemp 0 .UI8, op2 := createLiteralOperand .UI8 97 1 },
         { opcode := .ADDR_ADD, op1 := pointerTemp 3 .UI8, op2 := pointerTemp 0 .UI8,
           op3 := createLiteralAddressOperand 1 2 },
         { opcode := .WRITE, op1 := pointerTemp 3 .UI8, op2 := createLiteralOperand .UI8 98 4 },
         { opcode := .ADDR_ADD, op1 := pointerTemp 6 .UI8, op2 := pointerTemp 3 .UI8,
           op3 := createLiteralAddressOperand 1 5 },
         { opcode := .WRITE, op1 := pointerTemp 6 .UI8, op2 := createLiteralOperand .UI8 99 7 },
         { opcode := .ADDR_ADD, op1 := pointerTemp 9 .UI8, op2 := pointerTemp 6 .UI8,
           op3 := createLiteralAddressOperand 1 8 },
         { opcode := .WRITE, op1 := pointerTemp 9 .UI8, op2 := createLiteralOperand .UI8 0 10 }] ∧
    ((assign_str_literal_tovar exampleGenerator exampleCharArray
        (.mk .STR_LITERAL { unescapedString := "abc" } [])).2.entries.filter
        (FunctionBuilder.hasOpcode .WRITE)).length = 4 := by
  refine ⟨rfl, rfl, rfl, ?_, ?_⟩ <;> decide

end ir_generator

namespace ir_generator

/-! ### C29: an initializer list of scalar literals -/

end ir_generator

namespace ir_generator

end ir_generator

namespace ir_generator

end ir_generator

namespace ir_generator

/-! ### C28: the shape of an initializer list -/

/-- One round of the loop of `assign_init_list_tovar`. -/
theorem initListChildren_cons (l : Lowering) (varDescription : TypeDescription) (child : Node)
    (rest : List Node) (dim_count : Nat) (curr_offset : Operand) (g : ir_generator) :
    initListChildren l varDescription (child :: rest) dim_count curr_offset g
      = if dim_count ≥ toUnsigned (varDescription.dimensions.headD 0) then
          (.error (.compileError "Dimension size too big"), g)
        else
          match initListElement l varDescription child curr_offset g with
          | (.error e, g1) => (.error e, g1)
          | (.ok _, g1) =>
            if rest.isEmpty then (.ok (dim_count + 1), g1)
            else
              match g1.id.2.builder_addressAddOperator curr_offset
                  (createLiteralAddressOperand (elementDescription varDescription).size
                    g1.id.1) with
              | (.error e, g2) => (.error e, g2)
              | (.ok next_offset, g2) =>
                initListChildren l varDescription rest (dim_count + 1) next_offset g2 := by
  rw [initListChildren]
  rfl

/-- The method `assign_init_list_tovar` on a node, by the parts of the node. -/
theorem assign_init_list_tovar_eq (l : Lowering) (var : Unit) (root : Node) (g : ir_generator) :
    assign_init_list_tovar l var root g
      = if var.second.dimensions.length = 0 then
          (.error (.compileError "Cannot initialize a NON-ARRAY with initializer list"), g)
        else
          match g.builder_createPointer var.first var.second.dtypeName with
          | (.error e, g1) => (.error e, g1)
          | (.ok curr_offset, g1) =>
            if toUnsigned (var.second.dimensions.headD 0) = 0 then (.error .undefinedBehaviour, g1)
            else
              match initListChildren l var.second root.children 0 curr_offset g1 with
              | (.error e, g2) => (.error e, g2)
              | (.ok dim_count, g2) =>
                if dim_count < toUnsigned (var.second.dimensions.headD 0) then
                  (.error (.compileError "Dimension size too small"), g2)
                else (.ok ⟨⟩, g2) := by
  obtain ⟨type, tok, children⟩ := root
  rw [assign_init_list_tovar]
  rfl

end ir_generator

namespace ir_generator

end ir_generator

namespace ir_generator

end ir_generator

namespace ir_generator

end ir_generator

namespace ir_generator

theorem funccallArguments_append (l : Lowering) (func_name : String)
    (func_desc : FunctionDescription) (first_arg : Unit) (pre rest : List Node) (i : Nat)
    (g : ir_generator) :
    funccallArguments l func_name func_desc first_arg (pre ++ rest) i g
      = match funccallArguments l func_name func_desc first_arg pre i g with
        | (.error e, g1) => (.error e, g1)
        | (.ok _, g1) =>
          funccallArguments l func_name func_desc first_arg rest (i + pre.length) g1 := by
  induction pre generalizing i g with
  | nil => simp [funccallArguments]
  | cons child more ih =>
    simp only [List.cons_append, funccallArguments, List.length_cons]
    rcases h : funccallArgument l func_name func_desc first_arg i child g with ⟨r, g1⟩
    cases r with
    | error e => rfl
    | ok u =>
      have e1 : i + 1 + more.length = i + (more.length + 1) := by omega
      have h2 := ih (i + 1) g1
      rw [e1] at h2
      exact h2

theorem funccall_argument_error (l : Lowering) (root : Node) (g g1 g2 g3 : ir_generator)
    (first_arg : Unit) (func_desc : FunctionDescription) (pre post : List Node) (child : Node)
    (e : Failure)
    (hpro : funccallPrologue l root g = (.ok first_arg, g1))
    (hfun : g1.get_func root.tok.string = some func_desc)
    (hlen : root.children.length = func_desc.parameters.length)
    (hsplit : root.children = pre ++ child :: post)
    (hpre : funccallArguments l root.tok.string func_desc first_arg pre 0 g1 = (.ok ⟨⟩, g2))
    (harg : funccallArgument l root.tok.string func_desc first_arg pre.length child g2
      = (.error e, g3)) :
    funccall l root g = (.error e, g3) := by
  have hargs : funccallArguments l root.tok.string func_desc first_arg root.children 0 g1
      = (.error e, g3) := by
    rw [hsplit, funccallArguments_append, hpre]
    simp only [funccallArguments, Nat.zero_add, harg]
  simp only [funccall, hpro, hfun, hlen, ne_eq, not_true_eq_false, ↓reduceIte, hargs]

/-- C27: in `funccall`, when the i-th formal parameter is mutable and the i-th
actual was obtained (in state `g3`, after the arguments before it were passed)
with a type that `isSameType` accepts: if the actual's operand is a TEMP,
STR_DATA or LITERAL the call fails with "Cannot pass an EXPRESSION or STRING
LITERAL as MUTABLE"; otherwise, if the actual's type lacks IS_MUT, the call
fails with "Cannot pass IMMUTABLE as MUTABLE".  In both cases the generator is
left in `g3`, the state in which the actual was obtained: no PASS or PASS_ADDR
for that argument and no CALL is appended after it. -/
theorem funccall_mutable_parameter (l : Lowering) (root : Node) (g g1 g2 g3 : ir_generator)
    (first_arg arg : Unit) (func_desc : FunctionDescription) (pre post : List Node)
    (child : Node)
    (hpro : funccallPrologue l root g = (.ok first_arg, g1))
    (hfun : g1.get_func root.tok.string = some func_desc)
    (hlen : root.children.length = func_desc.parameters.length)
    (hsplit : root.children = pre ++ child :: post)
    (hpre : funccallArguments l root.tok.string func_desc first_arg pre 0 g1 = (.ok ⟨⟩, g2))
    (hact : funccallActual l func_desc first_arg pre.length child g2 = (.ok arg, g3))
    (hsame : l.isSameType (funccallFormal func_desc pre.length) arg.second = true)
    (hmut : (funccallFormal func_desc pre.length).checkProperty .IS_MUT = true) :
    ((arg.first.operandType = .TEMP ∨ arg.first.operandType = .STR_DATA
        ∨ arg.first.operandType = .LITERAL) →
      funccall l root g
        = (.error (.compileError "Cannot pass an EXPRESSION or STRING LITERAL as MUTABLE"), g3))
    ∧ (¬ (arg.first.operandType = .TEMP ∨ arg.first.operandType = .STR_DATA
        ∨ arg.first.operandType = .LITERAL) →
      arg.second.checkProperty .IS_MUT = false →
      funccall l root g = (.error (.compileError "Cannot pass IMMUTABLE as MUTABLE"), g3)) := by
  constructor
  · intro hop
    refine funccall_argument_error l root g g1 g2 g3 first_arg func_desc pre post child _
      hpro hfun hlen hsplit hpre ?_
    have hb : (decide (arg.first.operandType = .TEMP)
        || decide (arg.first.operandType = .STR_DATA)
        || decide (arg.first.operandType = .LITERAL)) = true := by
      rcases hop with h | h | h <;> simp [h]
    simp only [funccallArgument, hact, hsame, hmut, hb, Bool.not_true, Bool.and_self,
      Bool.false_eq_true, ↓reduceIte]
  · intro hop himm
    refine funccall_argument_error l root g g1 g2 g3 first_arg func_desc pre post child _
      hpro hfun hlen hsplit hpre ?_
    have hb : (decide (arg.first.operandType = .TEMP)
        || decide (arg.first.operandType = .STR_DATA)
        || decide (arg.first.operandType = .LITERAL)) = false := by
      simp only [not_or] at hop
      simp [hop.1, hop.2.1, hop.2.2]
    simp only [funccallArgument, hact, hsame, hmut, hb, himm, Bool.not_true, Bool.not_false,
      Bool.and_self, Bool.and_false, Bool.and_true, Bool.false_eq_true, ↓reduceIte]

theorem funccall_mutable_parameter_witness :
    funccall exampleLowering (.mk .FUNCCALL { string := "f" } [exampleLiteral "1"])
        exampleCallGenerator
      = (.error (.compileError "Cannot pass an EXPRESSION or STRING LITERAL as MUTABLE"),
         exampleCallGenerator.id.2)
    ∧ funccall exampleLowering (.mk .FUNCCALL { string := "f" } [exampleConstant "c"])
        exampleCallGenerator
      = (.error (.compileError "Cannot pass IMMUTABLE as MUTABLE"), exampleCallGenerator.id.2)
    ∧ exampleCallGenerator.id.2.entries = exampleCallGenerator.entries :=
  ⟨(funccall_mutable_parameter exampleLowering
      (.mk .FUNCCALL { string := "f" } [exampleLiteral "1"])
      exampleCallGenerator exampleCallGenerator.id.2 exampleCallGenerator.id.2
      exampleCallGenerator.id.2
      ((exampleExpression (exampleLiteral "1") exampleCallGenerator).1.toOption.getD {})
      ((exampleExpression (exampleLiteral "1") exampleCallGenerator).1.toOption.getD {})
      ((exampleCallGenerator.get_func "f").getD {}) [] [] (exampleLiteral "1")
      rfl rfl rfl rfl rfl rfl (by decide) (by decide)).1 (by decide),
   (funccall_mutable_parameter exampleLowering
      (.mk .FUNCCALL { string := "f" } [exampleConstant "c"])
      exampleCallGenerator exampleCallGenerator.id.2 exampleCallGenerator.id.2
      exampleCallGenerator.id.2
      ((exampleExpression (exampleConstant "c") exampleCallGenerator).1.toOption.getD {})
      ((exampleExpression (exampleConstant "c") exampleCallGenerator).1.toOption.getD {})
      ((exampleCallGenerator.get_func "f").getD {}) [] [] (exampleConstant "c")
      rfl rfl rfl rfl rfl rfl (by decide) (by decide)).2 (by decide) (by decide),
   rfl⟩

end ir_generator

namespace ir_generator

/-! ### Relations that lowering keeps -/

theorem Extends.refl (g : ir_generator) : Extends g g := ⟨rfl, List.prefix_refl _⟩

theorem Extends.trans {a b c : ir_generator} (h1 : Extends a b) (h2 : Extends b c) :
    Extends a c :=
  ⟨h2.1.trans h1.1, h1.2.trans h2.2⟩

/-- A step that leaves the functions of the module and `current_func_desc`
alone leaves the entry list alone. -/
theorem entries_of_same {g g1 : ir_generator}
    (hf : g1.module.functions = g.module.functions)
    (hc : g1.current_func_desc = g.current_func_desc) : g1.entries = g.entries := by
  simp [entries, current_function, hf, hc]

/-- The entry list across a builder call that appends. -/
theorem withBuilder_extends {α : Type} (g : ir_generator)
    (operation : FunctionBuilder → Except Failure α × FunctionBuilder)
    (h : ∀ fb, fb.entries <+: (operation fb).2.entries) :
    Extends g (g.withBuilder operation).2 := by
  cases hc : g.current_func_desc with
  | none =>
    simp only [withBuilder, hc]
    exact Extends.refl g
  | some name =>
    cases hf : g.module.functions.find? name with
    | none =>
      simp only [withBuilder, hc, hf]
      exact Extends.refl g
    | some fd =>
      simp only [withBuilder, hc, hf]
      refine ⟨hc.symm ▸ rfl, ?_⟩
      have := h (g.builderState fd)
      simpa [entries, current_function, hc, hf, StdMap_find_assign_self,
        FunctionBuilder.entries, builderState] using this

/-- The failure of a builder call is that of the operation, or the undefined
use of `current_func_desc`. -/
theorem withBuilder_failure {α : Type} (g : ir_generator)
    (operation : FunctionBuilder → Except Failure α × FunctionBuilder)
    (h : ∀ fb e, (operation fb).1 = .error e → outsideLoop e = false) :
    ∀ e, failureOf (g.withBuilder operation) = some e → outsideLoop e = false := by
  intro e he
  cases hc : g.current_func_desc with
  | none =>
    simp only [withBuilder, hc, failureOf, Option.some.injEq] at he
    subst he; rfl
  | some name =>
    cases hf : g.module.functions.find? name with
    | none =>
      simp only [withBuilder, hc, hf, failureOf, Option.some.injEq] at he
      subst he; rfl
    | some fd =>
      simp only [withBuilder, hc, hf, failureOf] at he
      cases hop : (operation (g.builderState fd)).1 with
      | error e1 =>
        simp only [hop, Option.some.injEq] at he
        subst he
        exact h _ _ hop
      | ok x => simp [hop] at he

/-- Continuation of the state is a relation that lowering keeps. -/
theorem extends_invariant : Invariant (fun g _ g1 => Extends g g1) where
  same := fun g g1 hf hc => ⟨hc, by rw [entries_of_same hf hc]⟩
  failure := fun g _ _ => Extends.refl g
  trans := fun _ _ _ _ h1 h2 => Extends.trans h1 h2
  builder := fun g operation h _ => withBuilder_extends g operation h

/-- Throwing neither of the two failures of a BREAK or CONTINUE outside a
loop is a relation that lowering keeps. -/
theorem noOutsideLoop_invariant :
    Invariant (fun _ o _ => ∀ e, o = some e → outsideLoop e = false) where
  same := fun _ _ _ _ e he => by simp at he
  failure := fun _ e h e1 he => by
    simp only [Option.some.injEq] at he
    subst he; exact h
  trans := fun _ _ _ _ _ h2 => h2
  builder := fun g operation _ h => withBuilder_failure g operation h

end ir_generator

namespace ir_generator

/-! ### Every step of lowering keeps an invariant relation -/

theorem Keeps.ok {R : ir_generator → Option Failure → ir_generator → Prop} {α : Type}
    (hR : Invariant R) {g g1 : ir_generator} (x : α)
    (hf : g1.module.functions = g.module.functions)
    (hc : g1.current_func_desc = g.current_func_desc) :
    Keeps R g ((.ok x, g1) : Lowered α) :=
  hR.same g g1 hf hc

theorem Keeps.error {R : ir_generator → Option Failure → ir_generator → Prop} {α : Type}
    (hR : Invariant R) {g g1 : ir_generator} (e : Failure) (he : outsideLoop e = false)
    (hf : g1.module.functions = g.module.functions)
    (hc : g1.current_func_desc = g.current_func_desc) :
    Keeps R g ((.error e, g1) : Lowered α) :=
  hR.trans g g1 g1 _ (hR.same g g1 hf hc) (hR.failure g1 e he)

/-- One call after another: the result of a call that returned, then any
result in the state it left. -/
theorem Keeps.bind {R : ir_generator → Option Failure → ir_generator → Prop} {α β : Type}
    (hR : Invariant R) {g : ir_generator} (r : Lowered α) (result : Lowered β)
    (hr : Keeps R g r)
    (herr : ∀ e g1, r = (.error e, g1) → result = (.error e, g1))
    (hok : ∀ x g1, r = (.ok x, g1) → Keeps R g1 result) : Keeps R g result := by
  rcases hX : r with ⟨_ | x, g1⟩
  · rw [herr _ _ hX]
    rw [hX] at hr
    exact hr
  · rw [hX] at hr
    exact hR.trans g g1 _ _ hr (hok x g1 hX)

/-- A call made after a step that leaves the functions of the module and
`current_func_desc` alone. -/
theorem Keeps.after {R : ir_generator → Option Failure → ir_generator → Prop} {α : Type}
    (hR : Invariant R) {g : ir_generator} (g1 : ir_generator) {r : Lowered α}
    (hf : g1.module.functions = g.module.functions)
    (hc : g1.current_func_desc = g.current_func_desc)
    (h : Keeps R g1 r) : Keeps R g r :=
  hR.trans g g1 _ _ (hR.same g g1 hf hc) h

theorem gen_label_functions (g : ir_generator) (tok : Token) (true_label : Bool)
    (pre : String) :
    (g.gen_label tok true_label pre).2.module.functions = g.module.functions ∧
    (g.gen_label tok true_label pre).2.current_func_desc = g.current_func_desc := by
  unfold gen_label
  cases true_label <;> exact ⟨rfl, rfl⟩

theorem gen_str_dat_functions (g : ir_generator) (tok : Token) (n : Nat) (dtype : DataType) :
    (g.gen_str_dat tok n dtype).2.module.functions = g.module.functions ∧
    (g.gen_str_dat tok n dtype).2.current_func_desc = g.current_func_desc :=
  ⟨rfl, rfl⟩

end ir_generator

namespace FunctionBuilder

theorem compareOperator_appends (fb : FunctionBuilder) (instruction : Instruction)
    (LHS RHS : Unit) : fb.entries <+: (fb.compareOperator instruction LHS RHS).entries := by
  unfold compareOperator
  exact ((ensureNotPointer_appends fb _).trans (ensureNotPointer_appends _ _)).trans
    (List.prefix_append _ _)

/-- The method `createPointer` fails only where the source is undefined. -/
theorem createPointer_failure (fb : FunctionBuilder) (op : Operand) (dtypeName : String)
    (workingModule : ModuleDescription) (e : Failure)
    (h : (fb.createPointer op dtypeName workingModule).1 = .error e) :
    e = .undefinedBehaviour := by
  unfold createPointer at h
  split at h
  · simp at h
  · unfold getCreatePointerDestinationOperand at h
    split at h
    · rename_i e1 fb1 hd
      split at hd
      · simp at hd
      · split at hd
        · simp only [Prod.mk.injEq, Except.error.injEq] at hd
          simp only [Except.error.injEq] at h
          rw [← h, ← hd.1]
        · split at hd
          · simp only [Prod.mk.injEq, Except.error.injEq] at hd
            simp only [Except.error.injEq] at h
            rw [← h, ← hd.1]
          · simp at hd
    · simp at h

end FunctionBuilder

namespace ir_generator

theorem builder_copy_keeps {R : ir_generator → Option Failure → ir_generator → Prop}
    (hR : Invariant R) (g : ir_generator) (op1 op2 : Operand) :
    Keeps R g (g.builder_copy op1 op2) :=
  hR.builder g _ (fun fb => FunctionBuilder.operandCopy_appends fb op1 op2)
    (fun _ _ h => by simp at h)

theorem builder_label_keeps {R : ir_generator → Option Failure → ir_generator → Prop}
    (hR : Invariant R) (g : ir_generator) (op : Operand) : Keeps R g (g.builder_label op) :=
  hR.builder g _ (fun _ => List.prefix_append _ _) (fun _ _ h => by simp at h)

theorem builder_createBranch_keeps {R : ir_generator → Option Failure → ir_generator → Prop}
    (hR : Invariant R) (g : ir_generator) (instruction : Instruction) (op : Operand) :
    Keeps R g (g.builder_createBranch instruction op) :=
  hR.builder g _ (fun _ => List.prefix_append _ _) (fun _ _ h => by simp at h)

theorem builder_noArgumentEntry_keeps {R : ir_generator → Option Failure → ir_generator → Prop}
    (hR : Invariant R) (g : ir_generator) (instruction : Instruction) :
    Keeps R g (g.builder_noArgumentEntry instruction) :=
  hR.builder g _ (fun _ => List.prefix_append _ _) (fun _ _ h => by simp at h)

theorem builder_compareOperator_keeps
    {R : ir_generator → Option Failure → ir_generator → Prop}
    (hR : Invariant R) (g : ir_generator) (opcode : Instruction) (op1 op2 : Operand) :
    Keeps R g (g.builder_compareOperator opcode op1 op2) :=
  hR.builder g _ (fun fb => FunctionBuilder.compareOperator_appends fb _ _ _)
    (fun _ _ h => by simp at h)

theorem builder_createPointer_keeps {R : ir_generator → Option Failure → ir_generator → Prop}
    (hR : Invariant R) (g : ir_generator) (op : Operand) (dtypeName : String) :
    Keeps R g (g.builder_createPointer op dtypeName) :=
  hR.builder g _ (fun fb => FunctionBuilder.createPointer_appends fb op dtypeName g.module)
    (fun fb e h => by
      rw [FunctionBuilder.createPointer_failure fb op dtypeName g.module e h]; rfl)

theorem builder_addressAddOperator_keeps
    {R : ir_generator → Option Failure → ir_generator → Prop}
    (hR : Invariant R) (g : ir_generator) (op2 op3 : Operand) :
    Keeps R g (g.builder_addressAddOperator op2 op3) :=
  hR.builder g _ (fun fb => FunctionBuilder.addressAddOperator_appends fb op2 op3)
    (fun _ _ h => by simp at h)

theorem builder_pass_keeps {R : ir_generator → Option Failure → ir_generator → Prop}
    (hR : Invariant R) (g : ir_generator) (instruction : Instruction) (op : Operand)
    (func_name : String) (func_desc : FunctionDescription) :
    Keeps R g (g.builder_pass instruction op func_name func_desc) :=
  hR.builder g _
    (fun fb => by
      simp only []
      split
      · exact (FunctionBuilder.ensureNotPointer_appends fb _).trans (List.prefix_append _ _)
      · exact List.prefix_append _ _)
    (fun _ _ h => by simp at h)

theorem builder_call_keeps {R : ir_generator → Option Failure → ir_generator → Prop}
    (hR : Invariant R) (g : ir_generator) (func_name : String)
    (func_desc : FunctionDescription) : Keeps R g (g.builder_call func_name func_desc) :=
  hR.builder g _ (fun _ => List.prefix_append _ _) (fun _ _ h => by simp at h)

end ir_generator

namespace ir_generator

theorem var_info_to_str_dat_keeps {R : ir_generator → Option Failure → ir_generator → Prop}
    (hR : Invariant R) (g : ir_generator) (tok : Token) (var : TypeDescription) :
    Keeps R g (g.var_info_to_str_dat tok var) := by
  unfold var_info_to_str_dat
  split
  · exact Keeps.error hR _ rfl rfl rfl
  · simp only []
    split
    · exact Keeps.error hR _ rfl rfl rfl
    · exact Keeps.ok hR _ rfl rfl

theorem assignCharacters_keeps {R : ir_generator → Option Failure → ir_generator → Prop}
    (hR : Invariant R) (dtypeSize : Nat) :
    ∀ (characters : List Int) (offset : Operand) (g : ir_generator),
      Keeps R g (assignCharacters dtypeSize characters offset g) := by
  intro characters
  induction characters with
  | nil => intro offset g; exact Keeps.ok hR _ rfl rfl
  | cons character rest ih =>
    intro offset g
    rw [assignCharacters]
    refine Keeps.after hR g.id.2 rfl rfl ?_
    refine Keeps.bind hR (g.id.2.builder_copy offset (createLiteralOperand .UI8 character g.id.1))
      _ (builder_copy_keeps hR _ _ _) (fun e g1 h => by simp only [h]) (fun x g1 h => ?_)
    simp only [h]
    refine Keeps.after hR g1.id.2 rfl rfl ?_
    refine Keeps.bind hR (g1.id.2.builder_addressAddOperator offset
        (createLiteralAddressOperand dtypeSize g1.id.1))
      _ (builder_addressAddOperator_keeps hR _ _ _) (fun e g2 h => by simp only [h])
      (fun x g2 h => ?_)
    simp only [h]
    exact ih _ _

theorem assign_str_literal_tovar_keeps
    {R : ir_generator → Option Failure → ir_generator → Prop}
    (hR : Invariant R) (g : ir_generator) (var : Unit) (root : Node) :
    Keeps R g (g.assign_str_literal_tovar var root) := by
  unfold assign_str_literal_tovar
  split
  · exact Keeps.error hR _ rfl rfl rfl
  · simp only []
    split
    · exact Keeps.error hR _ rfl rfl rfl
    · refine Keeps.bind hR (g.builder_createPointer var.first var.second.dtypeName) _
        (builder_createPointer_keeps hR _ _ _) (fun e g1 h => by simp only [h])
        (fun x g1 h => ?_)
      simp only [h]
      refine Keeps.bind hR (assignCharacters var.second.dtypeSize
          (stringChars root.tok.unescapedString) x g1) _
        (assignCharacters_keeps hR _ _ _ _) (fun e g2 h => by simp only [h])
        (fun y g2 h => ?_)
      simp only [h]
      exact Keeps.after hR g2.id.2 rfl rfl (builder_copy_keeps hR _ _ _)

/-- The loop of `assign_init_list_tovar`, when the nested lists keep the
relation. -/
theorem initListChildren_keeps {R : ir_generator → Option Failure → ir_generator → Prop}
    (hR : Invariant R) (l : Lowering) (hl : l.Respects R) (varDescription : TypeDescription) :
    ∀ (children : List Node),
      (∀ child ∈ children, ∀ (var : Unit) (g : ir_generator),
        Keeps R g (assign_init_list_tovar l var child g)) →
      ∀ (dim_count : Nat) (offset : Operand) (g : ir_generator),
        Keeps R g (initListChildren l varDescription children dim_count offset g) := by
  intro children
  induction children with
  | nil => intro _ dim_count offset g; exact Keeps.ok hR _ rfl rfl
  | cons child rest ih =>
    intro hnested dim_count offset g
    rw [initListChildren_cons]
    split
    · exact Keeps.error hR _ rfl rfl rfl
    · have helement : Keeps R g (initListElement l varDescription child offset g) := by
        unfold initListElement
        simp only []
        split
        · split
          · exact Keeps.error hR _ rfl rfl rfl
          · refine Keeps.bind hR (l.expression child g) _ (hl.1 _ _)
              (fun e g1 h => by simp only [h]) (fun x g1 h => ?_)
            simp only [h]
            split
            · exact Keeps.error hR _ rfl rfl rfl
            · split
              · exact builder_copy_keeps hR _ _ _
              · exact hl.2.2.2.2.1 _ _ _
        · split
          · exact assign_str_literal_tovar_keeps hR _ _ _
          · exact hnested child (List.mem_cons_self _ _) _ _
      refine Keeps.bind hR (initListElement l varDescription child offset g) _ helement
        (fun e g1 h => by simp only [h]) (fun x g1 h => ?_)
      simp only [h]
      split
      · exact Keeps.ok hR _ rfl rfl
      · refine Keeps.after hR g1.id.2 rfl rfl ?_
        refine Keeps.bind hR (g1.id.2.builder_addressAddOperator offset
            (createLiteralAddressOperand (elementDescription varDescription).size g1.id.1)) _
          (builder_addressAddOperator_keeps hR _ _ _) (fun e g2 h => by simp only [h])
          (fun y g2 h => ?_)
        simp only [h]
        exact ih (fun c hc => hnested c (List.mem_cons_of_mem _ hc)) _ _ _

theorem assign_init_list_tovar_keeps {R : ir_generator → Option Failure → ir_generator → Prop}
    (hR : Invariant R) (l : Lowering) (hl : l.Respects R) :
    ∀ (root : Node) (var : Unit) (g : ir_generator),
      Keeps R g (assign_init_list_tovar l var root g) := by
  intro root
  generalize hsize : sizeOf root = k
  induction k using Nat.strong_induction_on generalizing root with
  | _ k ih =>
    intro var g
    obtain ⟨type, tok, children⟩ := root
    rw [assign_init_list_tovar_eq]
    split
    · exact Keeps.error hR _ rfl rfl rfl
    · refine Keeps.bind hR (g.builder_createPointer var.first var.second.dtypeName) _
        (builder_createPointer_keeps hR _ _ _) (fun e g1 h => by simp only [h])
        (fun x g1 h => ?_)
      simp only [h]
      split
      · exact Keeps.error hR _ rfl rfl rfl
      · have hnested : ∀ child ∈ children, ∀ (var : Unit) (g : ir_generator),
            Keeps R g (assign_init_list_tovar l var child g) := by
          intro child hmem
          have hlt : sizeOf child < k := by
            have := List.sizeOf_lt_of_mem hmem
            rw [← hsize]
            simp only [Node.mk.sizeOf_spec]
            omega
          exact ih _ hlt child rfl
        refine Keeps.bind hR (initListChildren l var.second children 0 x g1) _
          (initListChildren_keeps hR l hl var.second children hnested 0 x g1)
          (fun e g2 h => by simp only [Node.children, h]) (fun y g2 h => ?_)
        simp only [Node.children, h]
        split
        · exact Keeps.error hR _ rfl rfl rfl
        · exact Keeps.ok hR _ rfl rfl

end ir_generator

namespace ir_generator

theorem compareBranches_keeps {R : ir_generator → Option Failure → ir_generator → Prop}
    (hR : Invariant R) (g : ir_generator) (t_label f_label : Operand) (t_fall f_fall : Bool) :
    Keeps R g (g.compareBranches t_label f_label t_fall f_fall) := by
  have hsecond : ∀ g1 : ir_generator,
      Keeps R g1 (if (!f_fall) = true then g1.builder_createBranch .IF_FALSE_GOTO f_label
        else ((.ok ⟨⟩, g1) : Lowered PUnit.{1})) := by
    intro g1
    split
    · exact builder_createBranch_keeps hR _ _ _
    · exact Keeps.ok hR _ rfl rfl
  cases t_fall with
  | true =>
    simp only [compareBranches, Bool.not_true, Bool.false_eq_true, if_false]
    exact hsecond g
  | false =>
    simp only [compareBranches, Bool.not_false, if_true]
    refine Keeps.bind hR (g.builder_createBranch .IF_TRUE_GOTO t_label) _
      (builder_createBranch_keeps hR _ _ _) (fun e g1 h => by simp only [h]) (fun x g1 h => ?_)
    simp only [h]
    exact hsecond g1

theorem tokenToCompareOperator_failure (tok : Token) (e : Failure)
    (h : tokenToCompareOperator tok = .error e) : outsideLoop e = false := by
  unfold tokenToCompareOperator at h
  split at h <;> first | (simp at h; done) | (simp only [Except.error.injEq] at h; subst h; rfl)

theorem compareExpression_keeps {R : ir_generator → Option Failure → ir_generator → Prop}
    (hR : Invariant R) (l : Lowering) (hl : l.Respects R) (g : ir_generator) (first : Node)
    (second : Option Node) (expr_opr : Token) (t_label f_label : Operand)
    (t_fall f_fall : Bool) :
    Keeps R g (compareExpression l g first second expr_opr t_label f_label t_fall f_fall) := by
  unfold compareExpression
  split
  · rename_i e he
    exact Keeps.error hR _ (tokenToCompareOperator_failure _ _ he) rfl rfl
  · rename_i opcode hop
    refine Keeps.bind hR (l.expression first g) _ (hl.1 _ _) (fun e g1 h => by simp only [h])
      (fun a g1 h => ?_)
    simp only [h]
    split
    · exact Keeps.error hR _ rfl rfl rfl
    · split
      · exact Keeps.error hR _ rfl rfl rfl
      · rename_i secondNode
        refine Keeps.bind hR (l.expression secondNode g1) _ (hl.1 _ _)
          (fun e g2 h => by simp only [h]) (fun b g2 h => ?_)
        simp only [h]
        split
        · exact Keeps.error hR _ rfl rfl rfl
        · refine Keeps.bind hR (g2.builder_compareOperator opcode a.first b.first) _
            (builder_compareOperator_keeps hR _ _ _ _) (fun e g3 h => by simp only [h])
            (fun _ g3 h => ?_)
          simp only [h]
          exact compareBranches_keeps hR _ _ _ _ _

end ir_generator

namespace ir_generator

set_option smartUnfolding false in
/-- The method `condn_expression` on a node, by the parts of the node. -/
theorem condn_expression_eq (l : Lowering) (type : NodeType) (tok : Token)
    (children : List Node) (t_label f_label : Operand) (t_fall f_fall : Bool)
    (g : ir_generator) :
    condn_expression l (.mk type tok children) t_label f_label t_fall f_fall g =
    (
    if type = .TERM then
      match children with
      | [] => (.error .undefinedBehaviour, g)
      | child0 :: _ =>
        if child0.type = .EXPRESSION then
          condn_expression l child0 t_label f_label t_fall f_fall g
        else if child0.tok.type ≠ .CONDN_NOT then
          (.error (.compileError "Invalid conditional expression"), g)
        else
          match child0 with
          | .mk _ _ [] => (.error .undefinedBehaviour, g)
          | .mk _ _ (.mk _ _ [] :: _) => (.error .undefinedBehaviour, g)
          | .mk _ _ (.mk _ _ (inner :: _) :: _) =>
            condn_expression l inner f_label t_label f_fall t_fall g
    else
      match children with
      | [] => (.error .undefinedBehaviour, g)
      | [only] => condn_expression l only t_label f_label t_fall f_fall g
      | first :: operatorNode :: rest =>
        let expr_opr := operatorNode.tok
        if expr_opr.type = .CONDN_AND then
          let new_t_label := g.gen_label expr_opr true ""
          let new_f_label := new_t_label.2.gen_label expr_opr false ""
          let firstResult :=
            if !f_fall then condn_expression l first new_t_label.1 f_label true false new_f_label.2
            else condn_expression l first new_t_label.1 new_f_label.1 true false new_f_label.2
          match firstResult with
          | (.error e, g1) => (.error e, g1)
          | (.ok _, g1) =>
            match rest with
            | [] => (.error .undefinedBehaviour, g1)
            | second :: _ =>
              match condn_expression l second t_label f_label t_fall f_fall g1 with
              | (.error e, g2) => (.error e, g2)
              | (.ok _, g2) =>
                if f_fall then g2.builder_label new_f_label.1 else (.ok ⟨⟩, g2)
        else if expr_opr.type = .CONDN_OR then
          let new_t_label := g.gen_label expr_opr true ""
          let new_f_label := new_t_label.2.gen_label expr_opr false ""
          let firstResult :=
            if !t_fall then condn_expression l first t_label new_f_label.1 false true new_f_label.2
            else condn_expression l first new_t_label.1 new_f_label.1 false true new_f_label.2
          match firstResult with
          | (.error e, g1) => (.error e, g1)
          | (.ok _, g1) =>
            match rest with
            | [] => (.error .undefinedBehaviour, g1)
            | second :: _ =>
              match condn_expression l second t_label f_label t_fall f_fall g1 with
              | (.error e, g2) => (.error e, g2)
              | (.ok _, g2) =>
                if t_fall then g2.builder_label new_t_label.1 else (.ok ⟨⟩, g2)
        else
          compareExpression l g first rest.head? expr_opr t_label f_label t_fall f_fall) := by
  rcases children with _ | ⟨⟨t1, k1, _ | ⟨⟨t2, k2, _ | ⟨inner, tail2⟩⟩, tail1⟩⟩,
    _ | ⟨operatorNode, _ | ⟨second, rest⟩⟩⟩ <;> rfl

end ir_generator

namespace ir_generator

theorem Node.sizeOf_child_lt (type : NodeType) (tok : Token) (children : List Node)
    (child : Node) (h : child ∈ children) : sizeOf child < sizeOf (Node.mk type tok children) := by
  have := List.sizeOf_lt_of_mem h
  simp only [Node.mk.sizeOf_spec]
  omega

theorem condn_expression_keeps {R : ir_generator → Option Failure → ir_generator → Prop}
    (hR : Invariant R) (l : Lowering) (hl : l.Respects R) :
    ∀ (root : Node) (t_label f_label : Operand) (t_fall f_fall : Bool) (g : ir_generator),
      Keeps R g (condn_expression l root t_label f_label t_fall f_fall g) := by
  intro root
  generalize hsize : sizeOf root = k
  induction k using Nat.strong_induction_on generalizing root with
  | _ k ih =>
    intro t_label f_label t_fall f_fall g
    obtain ⟨type, tok, children⟩ := root
    have hchild : ∀ child ∈ children, ∀ (t_label f_label : Operand) (t_fall f_fall : Bool)
        (g : ir_generator),
        Keeps R g (condn_expression l child t_label f_label t_fall f_fall g) := by
      intro child hmem
      exact ih _ (hsize ▸ Node.sizeOf_child_lt type tok children child hmem) child rfl
    rw [condn_expression_eq]
    split
    · split
      · exact Keeps.error hR _ rfl rfl rfl
      · rename_i child0 rest0
        split
        · exact hchild child0 (List.mem_cons_self _ _) _ _ _ _ _
        · split
          · exact Keeps.error hR _ rfl rfl rfl
          · split
            · exact Keeps.error hR _ rfl rfl rfl
            · exact Keeps.error hR _ rfl rfl rfl
            · rename_i t1 k1 t2 k2 inner rest2 rest1 _ _
              have hlt : sizeOf inner < k := by
                rw [← hsize]
                simp only [Node.mk.sizeOf_spec, List.cons.sizeOf_spec]
                omega
              exact ih _ hlt inner rfl _ _ _ _ _
    · split
      · exact Keeps.error hR _ rfl rfl rfl
      · rename_i only
        exact hchild only (List.mem_cons_self _ _) _ _ _ _ _
      · rename_i first operatorNode rest
        have hfirst := hchild first (List.mem_cons_self _ _)
        simp only []
        split
        · have hf : Keeps R g
              (if (!f_fall) = true then
                condn_expression l first (g.gen_label operatorNode.tok true "").1 f_label true false
                  ((g.gen_label operatorNode.tok true "").2.gen_label operatorNode.tok false "").2
              else
                condn_expression l first (g.gen_label operatorNode.tok true "").1
                  ((g.gen_label operatorNode.tok true "").2.gen_label operatorNode.tok false "").1
                  true false
                  ((g.gen_label operatorNode.tok true "").2.gen_label operatorNode.tok false "").2)
              := by
            refine Keeps.after hR
              ((g.gen_label operatorNode.tok true "").2.gen_label operatorNode.tok
                false "").2
              ((gen_label_functions _ _ _ _).1.trans (gen_label_functions _ _ _ _).1)
              ((gen_label_functions _ _ _ _).2.trans (gen_label_functions _ _ _ _).2) ?_
            split
            · exact hfirst _ _ _ _ _
            · exact hfirst _ _ _ _ _
          refine Keeps.bind hR _ _ hf (fun e g1 h => by simp only [h]) (fun x g1 h => ?_)
          simp only [h]
          split
          · exact Keeps.error hR _ rfl rfl rfl
          · rename_i second rest3
            refine Keeps.bind hR (condn_expression l second t_label f_label t_fall f_fall g1) _
              (hchild second (by simp) _ _ _ _ _) (fun e g2 h => by simp only [h])
              (fun y g2 h => ?_)
            simp only [h]
            split
            · exact builder_label_keeps hR _ _
            · exact Keeps.ok hR _ rfl rfl
        · split
          · have hf : Keeps R g
                (if (!t_fall) = true then
                  condn_expression l first t_label
                    ((g.gen_label operatorNode.tok true "").2.gen_label operatorNode.tok
                      false "").1 false true
                    ((g.gen_label operatorNode.tok true "").2.gen_label operatorNode.tok
                      false "").2
                else
                  condn_expression l first (g.gen_label operatorNode.tok true "").1
                    ((g.gen_label operatorNode.tok true "").2.gen_label operatorNode.tok
                      false "").1 false true
                    ((g.gen_label operatorNode.tok true "").2.gen_label operatorNode.tok
                      false "").2) := by
              refine Keeps.after hR
                ((g.gen_label operatorNode.tok true "").2.gen_label operatorNode.tok
                  false "").2
                ((gen_label_functions _ _ _ _).1.trans (gen_label_functions _ _ _ _).1)
                ((gen_label_functions _ _ _ _).2.trans (gen_label_functions _ _ _ _).2) ?_
              split
              · exact hfirst _ _ _ _ _
              · exact hfirst _ _ _ _ _
            refine Keeps.bind hR _ _ hf (fun e g1 h => by simp only [h]) (fun x g1 h => ?_)
            simp only [h]
            split
            · exact Keeps.error hR _ rfl rfl rfl
            · rename_i second rest3
              refine Keeps.bind hR (condn_expression l second t_label f_label t_fall f_fall g1) _
                (hchild second (by simp) _ _ _ _ _) (fun e g2 h => by simp only [h])
                (fun y g2 h => ?_)
              simp only [h]
              split
              · exact builder_label_keeps hR _ _
              · exact Keeps.ok hR _ rfl rfl
          · exact compareExpression_keeps hR l hl _ _ _ _ _ _ _ _

end ir_generator

namespace ir_generator

theorem switchExtModule_functions (g : ir_generator) (name : String) :
    (g.switchExtModule name).module.functions = g.module.functions ∧
    (g.switchExtModule name).current_func_desc = g.current_func_desc :=
  ⟨rfl, rfl⟩

theorem funccallActual_keeps {R : ir_generator → Option Failure → ir_generator → Prop}
    (hR : Invariant R) (l : Lowering) (hl : l.Respects R) (func_desc : FunctionDescription)
    (first_arg : Unit) (i : Nat) (child : Node) (g : ir_generator) :
    Keeps R g (funccallActual l func_desc first_arg i child g) := by
  unfold funccallActual
  split
  · exact var_info_to_str_dat_keeps hR _ _ _
  · split
    · exact Keeps.ok hR _ rfl rfl
    · exact hl.1 _ _

theorem funccallArgument_keeps {R : ir_generator → Option Failure → ir_generator → Prop}
    (hR : Invariant R) (l : Lowering) (hl : l.Respects R) (func_name : String)
    (func_desc : FunctionDescription) (first_arg : Unit) (i : Nat) (child : Node)
    (g : ir_generator) :
    Keeps R g (funccallArgument l func_name func_desc first_arg i child g) := by
  unfold funccallArgument
  simp only []
  refine Keeps.bind hR (funccallActual l func_desc first_arg i child g) _
    (funccallActual_keeps hR l hl _ _ _ _ _) (fun e g1 h => by simp only [h])
    (fun arg g1 h => ?_)
  simp only [h]
  split
  · exact Keeps.error hR _ rfl rfl rfl
  · split
    · exact Keeps.error hR _ rfl rfl rfl
    · split
      · exact Keeps.error hR _ rfl rfl rfl
      · split
        · exact builder_pass_keeps hR _ _ _ _ _
        · exact builder_pass_keeps hR _ _ _ _ _

theorem funccallArguments_keeps {R : ir_generator → Option Failure → ir_generator → Prop}
    (hR : Invariant R) (l : Lowering) (hl : l.Respects R) (func_name : String)
    (func_desc : FunctionDescription) (first_arg : Unit) :
    ∀ (children : List Node) (i : Nat) (g : ir_generator),
      Keeps R g (funccallArguments l func_name func_desc first_arg children i g) := by
  intro children
  induction children with
  | nil => intro i g; exact Keeps.ok hR _ rfl rfl
  | cons child rest ih =>
    intro i g
    rw [funccallArguments]
    refine Keeps.bind hR (funccallArgument l func_name func_desc first_arg i child g) _
      (funccallArgument_keeps hR l hl _ _ _ _ _ _) (fun e g1 h => by simp only [h])
      (fun _ g1 h => ?_)
    simp only [h]
    exact ih _ _

theorem funccallPrologue_keeps {R : ir_generator → Option Failure → ir_generator → Prop}
    (hR : Invariant R) (l : Lowering) (hl : l.Respects R) (root : Node) (g : ir_generator) :
    Keeps R g (funccallPrologue l root g) := by
  unfold funccallPrologue
  split
  · exact Keeps.ok hR _ rfl rfl
  · rename_i child0 rest hchildren
    simp only []
    by_cases hstr : child0.type ≠ .STR_LITERAL
    · rw [if_pos hstr]
      refine Keeps.bind hR (l.expression child0 g) _ (hl.1 _ _)
        (fun e g1 h => by simp only [h]) (fun first_arg g1 h => ?_)
      simp only [h]
      split
      · exact Keeps.ok hR _ rfl rfl
      · exact Keeps.ok hR _ rfl rfl
    · rw [if_neg hstr]
      simp only []
      split
      · exact Keeps.ok hR _ rfl rfl
      · exact Keeps.ok hR _ rfl rfl

theorem funccall_keeps {R : ir_generator → Option Failure → ir_generator → Prop}
    (hR : Invariant R) (l : Lowering) (hl : l.Respects R) (root : Node) (g : ir_generator) :
    Keeps R g (funccall l root g) := by
  unfold funccall
  simp only []
  refine Keeps.bind hR (funccallPrologue l root g) _ (funccallPrologue_keeps hR l hl _ _)
    (fun e g1 h => by simp only [h]) (fun first_arg g1 h => ?_)
  simp only [h]
  split
  · exact Keeps.error hR _ rfl rfl rfl
  · rename_i func_desc hfun
    split
    · exact Keeps.error hR _ rfl rfl rfl
    · refine Keeps.bind hR
        (funccallArguments l root.tok.string func_desc first_arg root.children 0 g1) _
        (funccallArguments_keeps hR l hl _ _ _ _ _ _) (fun e g2 h => by simp only [h])
        (fun _ g2 h => ?_)
      simp only [h]
      refine Keeps.bind hR (g2.builder_call root.tok.string func_desc) _
        (builder_call_keeps hR _ _ _) (fun e g3 h => by simp only [h]) (fun ret g3 h => ?_)
      simp only [h]
      split
      · exact Keeps.ok hR _ rfl rfl
      · exact Keeps.ok hR _ rfl rfl

theorem returnValue_keeps {R : ir_generator → Option Failure → ir_generator → Prop}
    (hR : Invariant R) (l : Lowering) (hl : l.Respects R) (stmt : Node)
    (ret_info : TypeDescription) (g : ir_generator) :
    Keeps R g (returnValue l stmt ret_info g) := by
  unfold returnValue
  split
  · rename_i value rest hchildren
    refine Keeps.bind hR (l.expression value g) _ (hl.1 _ _)
      (fun e g1 h => by simp only [h]) (fun ret_val g1 h => ?_)
    simp only [h]
    split
    · exact Keeps.error hR _ rfl rfl rfl
    · split
      · exact Keeps.after hR g1.id.2 rfl rfl (hl.2.2.2.2.1 _ _ _)
      · exact Keeps.after hR g1.id.2 rfl rfl (builder_copy_keeps hR _ _ _)
  · split
    · exact Keeps.error hR _ rfl rfl rfl
    · exact Keeps.ok hR _ rfl rfl

theorem returnStatement_keeps {R : ir_generator → Option Failure → ir_generator → Prop}
    (hR : Invariant R) (l : Lowering) (hl : l.Respects R) (stmt : Node) (g : ir_generator) :
    Keeps R g (returnStatement l stmt g) := by
  unfold returnStatement
  split
  · exact Keeps.error hR _ rfl rfl rfl
  · rename_i func_desc hfd
    refine Keeps.bind hR (returnValue l stmt func_desc.functionReturnType g) _
      (returnValue_keeps hR l hl _ _ _) (fun e g1 h => by simp only [h]) (fun _ g1 h => ?_)
    simp only [h]
    exact builder_noArgumentEntry_keeps hR _ _

theorem moduleStatement_keeps {R : ir_generator → Option Failure → ir_generator → Prop}
    (hR : Invariant R) (l : Lowering) (hl : l.Respects R) (stmt : Node) (g : ir_generator) :
    Keeps R g (moduleStatement l stmt g) := by
  unfold moduleStatement
  split
  · exact Keeps.error hR _ rfl rfl rfl
  · simp only []
    split
    · exact Keeps.error hR _ rfl rfl rfl
    · rename_i call rest hchildren
      refine Keeps.after hR (g.switchExtModule stmt.tok.string) rfl rfl ?_
      refine Keeps.bind hR (funccall l call (g.switchExtModule stmt.tok.string)) _
        (funccall_keeps hR l hl _ _) (fun e g2 h => by simp only [h]) (fun _ g2 h => ?_)
      simp only [h]
      exact Keeps.ok hR _ rfl rfl

theorem literalAssignment_keeps {R : ir_generator → Option Failure → ir_generator → Prop}
    (hR : Invariant R) (l : Lowering) (hl : l.Respects R) (stmt : Node) (g : ir_generator) :
    Keeps R g (literalAssignment l stmt g) := by
  unfold literalAssignment
  split
  · exact Keeps.error hR _ rfl rfl rfl
  · rename_i target rest hchildren
    refine Keeps.bind hR (l.var_access target g) _ (hl.2.2.2.1 _ _)
      (fun e g1 h => by simp only [h]) (fun var g1 h => ?_)
    simp only [h]
    split
    · exact Keeps.error hR _ rfl rfl rfl
    · split
      · exact assign_str_literal_tovar_keeps hR _ _ _
      · exact assign_init_list_tovar_keeps hR l hl _ _ _

/-- The statements without a block keep the relation; for a BREAK or CONTINUE
that is not in a loop, the relation has to hold for a failure thrown on the
spot. -/
theorem simpleStatement_keeps {R : ir_generator → Option Failure → ir_generator → Prop}
    (hR : Invariant R) (l : Lowering) (hl : l.Respects R) (stmt : Node) (loop : Bool)
    (break_label cont_label : Operand) (g : ir_generator)
    (hloop : loop = false → stmt.type = .BREAK ∨ stmt.type = .CONTINUE →
      ∀ (g : ir_generator) (e : Failure), R g (some e) g) :
    Keeps R g (simpleStatement l stmt loop break_label cont_label g) := by
  unfold simpleStatement
  split
  · exact hl.2.1 _ _
  · exact hl.2.1 _ _
  · exact hl.2.2.1 _ _
  · exact literalAssignment_keeps hR l hl _ _
  · exact literalAssignment_keeps hR l hl _ _
  · refine Keeps.bind hR (funccall l stmt g) _ (funccall_keeps hR l hl _ _)
      (fun e g1 h => by simp only [h]) (fun _ g1 h => ?_)
    simp only [h]
    exact Keeps.ok hR _ rfl rfl
  · split
    · exact Keeps.error hR _ rfl rfl rfl
    · rename_i call rest hchildren
      refine Keeps.bind hR (funccall l call g) _ (funccall_keeps hR l hl _ _)
        (fun e g1 h => by simp only [h]) (fun _ g1 h => ?_)
      simp only [h]
      exact Keeps.ok hR _ rfl rfl
  · exact moduleStatement_keeps hR l hl _ _
  · rename_i htype
    cases loop with
    | false => exact hloop rfl (Or.inl htype) _ _
    | true => exact builder_createBranch_keeps hR _ _ _
  · rename_i htype
    cases loop with
    | false => exact hloop rfl (Or.inr htype) _ _
    | true => exact builder_createBranch_keeps hR _ _ _
  · exact returnStatement_keeps hR l hl _ _
  · exact hl.2.2.2.2.2.1 _ _
  · exact hl.2.2.2.2.2.1 _ _
  · exact hl.2.2.2.2.2.2 _ _
  · exact builder_noArgumentEntry_keeps hR _ _
  · exact Keeps.error hR _ rfl rfl rfl

end ir_generator

namespace ir_generator

/-- The method `block` on a node, by the parts of the node. -/
theorem block_eq (l : Lowering) (type : NodeType) (tok : Token) (children : List Node)
    (loop : Bool) (start_label break_label cont_label : Operand) (g : ir_generator) :
    block l (.mk type tok children) loop start_label break_label cont_label g
      = match blockStatements l children loop start_label break_label cont_label
            g.enter_scope with
        | (.error e, g1) => (.error e, g1)
        | (.ok _, g1) => (.ok ⟨⟩, g1.exit_scope) := by
  rw [block]

/-- One round of the loop of `block`. -/
theorem blockStatements_cons (l : Lowering) (stmt : Node) (rest : List Node)
    (loop : Bool) (start_label break_label cont_label : Operand) (g : ir_generator) :
    blockStatements l (stmt :: rest) loop start_label break_label cont_label g
      = match statement l stmt loop start_label break_label cont_label g with
        | (.error e, g1) => (.error e, g1)
        | (.ok _, g1) => blockStatements l rest loop start_label break_label cont_label g1 := by
  rw [blockStatements]

set_option smartUnfolding false in
/-- The switch of `block` on a statement, by the parts of the node. -/
theorem statement_eq (l : Lowering) (type : NodeType) (tok : Token) (children : List Node)
    (loop : Bool) (start_label break_label cont_label : Operand) (g : ir_generator) :
    statement l (.mk type tok children) loop start_label break_label cont_label g =
    (
    if type = .IF then
      let end_label := g.gen_label tok false "ifend"
      match ifBranches l end_label.1 children loop start_label break_label cont_label
          end_label.2 with
      | (.error e, g1) => (.error e, g1)
      | (.ok _, g1) =>
        if children.length ≠ 1 then g1.builder_label end_label.1 else (.ok ⟨⟩, g1)
    else if type = .WHILE then
      let new_t_label := g.gen_label tok true "while"
      let new_f_label := new_t_label.2.gen_label tok false "while"
      match new_f_label.2.builder_label new_t_label.1 with
      | (.error e, g1) => (.error e, g1)
      | (.ok _, g1) =>
        match children with
        | [] => (.error .undefinedBehaviour, g1)
        | condition :: rest =>
          match condn_expression l condition new_t_label.1 new_f_label.1 true false g1 with
          | (.error e, g2) => (.error e, g2)
          | (.ok _, g2) =>
            match rest with
            | [] => (.error .undefinedBehaviour, g2)
            | body :: _ =>
              match block l body true new_t_label.1 new_f_label.1 new_t_label.1 g2 with
              | (.error e, g3) => (.error e, g3)
              | (.ok _, g3) =>
                match g3.builder_createBranch .GOTO new_t_label.1 with
                | (.error e, g4) => (.error e, g4)
                | (.ok _, g4) => g4.builder_label new_f_label.1
    else if type = .FOR then
      match children with
      | [] => (.error .undefinedBehaviour, g)
      | init :: rest =>
        let initialized := if init.type = .VAR then l.var init g else l.assignment init g
        match initialized with
        | (.error e, g1) => (.error e, g1)
        | (.ok _, g1) =>
          let new_t_label := g1.gen_label tok true "for"
          let new_f_label := new_t_label.2.gen_label tok false "for"
          let cont_label1 := new_f_label.2.gen_label tok true "for_cont"
          match cont_label1.2.builder_label new_t_label.1 with
          | (.error e, g2) => (.error e, g2)
          | (.ok _, g2) =>
            match rest with
            | [] => (.error .undefinedBehaviour, g2)
            | condition :: rest2 =>
              match condn_expression l condition new_t_label.1 new_f_label.1 true false g2 with
              | (.error e, g3) => (.error e, g3)
              | (.ok _, g3) =>
                match rest2 with
                | step :: body :: _ =>
                  match block l body true new_t_label.1 new_f_label.1 cont_label1.1 g3 with
                  | (.error e, g4) => (.error e, g4)
                  | (.ok _, g4) =>
                    match g4.builder_label cont_label1.1 with
                    | (.error e, g5) => (.error e, g5)
                    | (.ok _, g5) =>
                      match l.assignment step g5 with
                      | (.error e, g6) => (.error e, g6)
                      | (.ok _, g6) =>
                        match g6.builder_createBranch .GOTO new_t_label.1 with
                        | (.error e, g7) => (.error e, g7)
                        | (.ok _, g7) => g7.builder_label new_f_label.1
                | _ => (.error .undefinedBehaviour, g3)
    else simpleStatement l (.mk type tok children) loop break_label cont_label g) := by
  rcases children with _ | ⟨c0, _ | ⟨c1, _ | ⟨c2, _ | ⟨c3, rest⟩⟩⟩⟩ <;> rfl

set_option smartUnfolding false in
/-- One round of the loop of `ifstmt`. -/
theorem ifBranches_cons (l : Lowering) (end_label : Operand) (childType : NodeType)
    (childTok : Token) (childChildren rest : List Node)
    (loop : Bool) (start_label break_label cont_label : Operand) (g : ir_generator) :
    ifBranches l end_label (.mk childType childTok childChildren :: rest) loop start_label
      break_label cont_label g =
    (
    let new_t_label := g.gen_label childTok true "if"
    let new_f_label := new_t_label.2.gen_label childTok false "if"
    let branch : Lowered PUnit.{1} :=
      if childType ≠ .ELSE then
        match childChildren with
        | [] => (.error .undefinedBehaviour, new_f_label.2)
        | condition :: rest1 =>
          match condn_expression l condition new_t_label.1 new_f_label.1 true false
              new_f_label.2 with
          | (.error e, g1) => (.error e, g1)
          | (.ok _, g1) =>
            match rest1 with
            | [] => (.error .undefinedBehaviour, g1)
            | body :: _ =>
              match block l body loop start_label break_label cont_label g1 with
              | (.error e, g2) => (.error e, g2)
              | (.ok _, g2) =>
                let jumped : Lowered PUnit.{1} :=
                  if !rest.isEmpty then g2.builder_createBranch .GOTO end_label
                  else (.ok ⟨⟩, g2)
                match jumped with
                | (.error e, g3) => (.error e, g3)
                | (.ok _, g3) => g3.builder_label new_f_label.1
      else
        match childChildren with
        | [] => (.error .undefinedBehaviour, new_f_label.2)
        | body :: _ => block l body loop start_label break_label cont_label new_f_label.2
    match branch with
    | (.error e, g1) => (.error e, g1)
    | (.ok _, g1) => ifBranches l end_label rest loop start_label break_label cont_label g1) := by
  rcases childChildren with _ | ⟨c0, _ | ⟨c1, rest1⟩⟩ <;> rfl

end ir_generator

namespace ir_generator

/-- The loop of `block` keeps the relation when each statement does. -/
theorem blockStatements_keeps {R : ir_generator → Option Failure → ir_generator → Prop}
    (hR : Invariant R) (l : Lowering) (loop : Bool)
    (start_label break_label cont_label : Operand) :
    ∀ (stmts : List Node),
      (∀ stmt ∈ stmts, ∀ g : ir_generator,
        Keeps R g (statement l stmt loop start_label break_label cont_label g)) →
      ∀ g : ir_generator,
        Keeps R g (blockStatements l stmts loop start_label break_label cont_label g) := by
  intro stmts
  induction stmts with
  | nil =>
    intro _ g
    rw [blockStatements]
    exact Keeps.ok hR _ rfl rfl
  | cons stmt rest ih =>
    intro hstmts g
    rw [blockStatements_cons]
    refine Keeps.bind hR (statement l stmt loop start_label break_label cont_label g) _
      (hstmts stmt (List.mem_cons_self _ _) g) (fun e g1 h => by simp only [h])
      (fun _ g1 h => ?_)
    simp only [h]
    exact ih (fun s hs => hstmts s (List.mem_cons_of_mem _ hs)) g1

theorem ifBranches_nil (l : Lowering) (end_label : Operand)
    (loop : Bool) (start_label break_label cont_label : Operand) (g : ir_generator) :
    ifBranches l end_label [] loop start_label break_label cont_label g = (.ok ⟨⟩, g) := rfl

/-- The loop of `ifstmt` keeps the relation when the blocks of the branches
do. -/
theorem ifBranches_keeps {R : ir_generator → Option Failure → ir_generator → Prop}
    (hR : Invariant R) (l : Lowering) (hl : l.Respects R) (end_label : Operand) (loop : Bool)
    (start_label break_label cont_label : Operand) :
    ∀ (branches : List Node),
      (∀ branch ∈ branches, ∀ body ∈ branch.children, ∀ g : ir_generator,
        Keeps R g (block l body loop start_label break_label cont_label g)) →
      ∀ g : ir_generator,
        Keeps R g
          (ifBranches l end_label branches loop start_label break_label cont_label g) := by
  intro branches
  induction branches with
  | nil =>
    intro _ g
    rw [ifBranches_nil]
    exact Keeps.ok hR _ rfl rfl
  | cons branch rest ih =>
    intro hblocks g
    obtain ⟨childType, childTok, childChildren⟩ := branch
    have hbody : ∀ body ∈ childChildren, ∀ g : ir_generator,
        Keeps R g (block l body loop start_label break_label cont_label g) :=
      fun body hb => hblocks _ (List.mem_cons_self _ _) body hb
    rw [ifBranches_cons]
    simp only []
    have hlabels : ∀ {α : Type} (r : Lowered α),
        Keeps R ((g.gen_label childTok true "if").2.gen_label childTok false "if").2 r →
        Keeps R g r := fun r hr =>
      Keeps.after hR _
        ((gen_label_functions _ _ _ _).1.trans (gen_label_functions _ _ _ _).1)
        ((gen_label_functions _ _ _ _).2.trans (gen_label_functions _ _ _ _).2) hr
    by_cases helse : childType ≠ .ELSE
    · rw [if_pos helse]
      cases childChildren with
      | nil =>
        simp only []
        exact hlabels _ (Keeps.error hR _ rfl rfl rfl)
      | cons condition rest1 =>
        simp only []
        refine hlabels _ ?_
        refine Keeps.bind hR (condn_expression l condition (g.gen_label childTok true "if").1
            ((g.gen_label childTok true "if").2.gen_label childTok false "if").1 true false
            ((g.gen_label childTok true "if").2.gen_label childTok false "if").2) _
          (condn_expression_keeps hR l hl _ _ _ _ _ _) ?_ ?_
        · intro e g1 h
          simp only [h]
        · intro _ g1 h
          simp only [h]
          cases rest1 with
          | nil =>
            simp only []
            exact Keeps.error hR _ rfl rfl rfl
          | cons body rest2 =>
            simp only []
            refine Keeps.bind hR (block l body loop start_label break_label cont_label g1) _
              (hbody body (by simp) g1) ?_ ?_
            · intro e g2 h
              simp only [h]
            · intro _ g2 h
              simp only [h]
              by_cases hlast : rest.isEmpty = true
              · simp only [hlast, Bool.not_true, Bool.false_eq_true, if_false]
                refine Keeps.bind hR (g2.builder_label
                    ((g.gen_label childTok true "if").2.gen_label childTok false "if").1) _
                  (builder_label_keeps hR _ _) (fun e g3 h => by simp only [h])
                  (fun _ g3 h => ?_)
                simp only [h]
                exact ih (fun br hbr => hblocks br (List.mem_cons_of_mem _ hbr)) g3
              · have hlast1 : rest.isEmpty = false := by simpa using hlast
                simp only [hlast1, Bool.not_false, if_true]
                refine Keeps.bind hR (g2.builder_createBranch .GOTO end_label) _
                  (builder_createBranch_keeps hR _ _ _) ?_ ?_
                · intro e g3 h
                  simp only [h]
                · intro _ g3 h
                  simp only [h]
                  refine Keeps.bind hR (g3.builder_label
                      ((g.gen_label childTok true "if").2.gen_label childTok false "if").1) _
                    (builder_label_keeps hR _ _) (fun e g4 h => by simp only [h])
                    (fun _ g4 h => ?_)
                  simp only [h]
                  exact ih (fun br hbr => hblocks br (List.mem_cons_of_mem _ hbr)) g4
    · rw [if_neg helse]
      cases childChildren with
      | nil =>
        simp only []
        exact hlabels _ (Keeps.error hR _ rfl rfl rfl)
      | cons body rest1 =>
        simp only []
        refine hlabels _ ?_
        refine Keeps.bind hR (block l body loop start_label break_label cont_label
            ((g.gen_label childTok true "if").2.gen_label childTok false "if").2) _
          (hbody body (by simp) _) (fun e g1 h => by simp only [h]) (fun _ g1 h => ?_)
        simp only [h]
        exact ih (fun br hbr => hblocks br (List.mem_cons_of_mem _ hbr)) g1

end ir_generator

namespace ir_generator

theorem Node.sizeOf_grandchild_lt (type : NodeType) (tok : Token) (children : List Node)
    (child body : Node) (h : child ∈ children) (hb : body ∈ child.children) :
    sizeOf body < sizeOf (Node.mk type tok children) := by
  obtain ⟨t1, k1, cc⟩ := child
  have h1 := Node.sizeOf_child_lt t1 k1 cc body hb
  have h2 := Node.sizeOf_child_lt type tok children _ h
  omega

/-- Every statement and every block keeps the relation, when the members
taken as given do; for a statement that is not in a loop, the relation has to
hold for a failure thrown on the spot. -/
theorem statement_block_keeps {R : ir_generator → Option Failure → ir_generator → Prop}
    (hR : Invariant R) (l : Lowering) (hl : l.Respects R) :
    ∀ (root : Node) (loop : Bool) (start_label break_label cont_label : Operand),
      (loop = false → ∀ (g : ir_generator) (e : Failure), R g (some e) g) →
      (∀ g : ir_generator,
        Keeps R g (statement l root loop start_label break_label cont_label g)) ∧
      (∀ g : ir_generator,
        Keeps R g (block l root loop start_label break_label cont_label g)) := by
  intro root
  generalize hsize : sizeOf root = k
  induction k using Nat.strong_induction_on generalizing root with
  | _ k ih =>
    intro loop start_label break_label cont_label hloop
    obtain ⟨type, tok, children⟩ := root
    have hchild : ∀ child ∈ children,
        ∀ (loop : Bool) (start_label break_label cont_label : Operand),
        (loop = false → ∀ (g : ir_generator) (e : Failure), R g (some e) g) →
        (∀ g : ir_generator,
          Keeps R g (statement l child loop start_label break_label cont_label g)) ∧
        (∀ g : ir_generator,
          Keeps R g (block l child loop start_label break_label cont_label g)) :=
      fun child hmem =>
        ih _ (hsize ▸ Node.sizeOf_child_lt type tok children child hmem) child rfl
    have hgrand : ∀ child ∈ children, ∀ body ∈ child.children,
        ∀ (loop : Bool) (start_label break_label cont_label : Operand),
        (loop = false → ∀ (g : ir_generator) (e : Failure), R g (some e) g) →
        (∀ g : ir_generator,
          Keeps R g (statement l body loop start_label break_label cont_label g)) ∧
        (∀ g : ir_generator,
          Keeps R g (block l body loop start_label break_label cont_label g)) :=
      fun child hmem body hb =>
        ih _ (hsize ▸ Node.sizeOf_grandchild_lt type tok children child body hmem hb) body rfl
    have hinLoop : true = false → ∀ (g : ir_generator) (e : Failure), R g (some e) g :=
      fun h => by cases h
    constructor
    · intro g
      rw [statement_eq]
      split
      · simp only []
        refine Keeps.after hR (g.gen_label tok false "ifend").2 (gen_label_functions _ _ _ _).1
          (gen_label_functions _ _ _ _).2 ?_
        refine Keeps.bind hR (ifBranches l (g.gen_label tok false "ifend").1 children loop
            start_label break_label cont_label (g.gen_label tok false "ifend").2) _
          (ifBranches_keeps hR l hl _ loop start_label break_label cont_label children
            (fun br hbr body hb g1 =>
              (hgrand br hbr body hb loop start_label break_label cont_label hloop).2 g1) _)
          (fun e g1 h => by simp only [h]) (fun _ g1 h => ?_)
        simp only [h]
        split
        · exact builder_label_keeps hR _ _
        · exact Keeps.ok hR _ rfl rfl
      · split
        · simp only []
          refine Keeps.after hR
            ((g.gen_label tok true "while").2.gen_label tok false "while").2
            ((gen_label_functions _ _ _ _).1.trans (gen_label_functions _ _ _ _).1)
            ((gen_label_functions _ _ _ _).2.trans (gen_label_functions _ _ _ _).2) ?_
          refine Keeps.bind hR
            (((g.gen_label tok true "while").2.gen_label tok false "while").2.builder_label
              (g.gen_label tok true "while").1) _
            (builder_label_keeps hR _ _) (fun e g1 h => by simp only [h]) (fun _ g1 h => ?_)
          simp only [h]
          cases children with
          | nil => exact Keeps.error hR _ rfl rfl rfl
          | cons condition rest =>
            simp only []
            refine Keeps.bind hR (condn_expression l condition (g.gen_label tok true "while").1
                ((g.gen_label tok true "while").2.gen_label tok false "while").1 true false g1) _
              (condn_expression_keeps hR l hl _ _ _ _ _ _) (fun e g2 h => by simp only [h])
              (fun _ g2 h => ?_)
            simp only [h]
            cases rest with
            | nil => exact Keeps.error hR _ rfl rfl rfl
            | cons body rest2 =>
              simp only []
              refine Keeps.bind hR (block l body true (g.gen_label tok true "while").1
                  ((g.gen_label tok true "while").2.gen_label tok false "while").1
                  (g.gen_label tok true "while").1 g2) _
                ((hchild body (by simp) true _ _ _ hinLoop).2 g2)
                (fun e g3 h => by simp only [h]) (fun _ g3 h => ?_)
              simp only [h]
              refine Keeps.bind hR (g3.builder_createBranch .GOTO
                  (g.gen_label tok true "while").1) _
                (builder_createBranch_keeps hR _ _ _) (fun e g4 h => by simp only [h])
                (fun _ g4 h => ?_)
              simp only [h]
              exact builder_label_keeps hR _ _
        · split
          · cases children with
            | nil => exact Keeps.error hR _ rfl rfl rfl
            | cons init rest =>
              simp only []
              have hinit : Keeps R g
                  (if init.type = .VAR then l.var init g else l.assignment init g) := by
                split
                · exact hl.2.1 _ _
                · exact hl.2.2.1 _ _
              refine Keeps.bind hR _ _ hinit (fun e g1 h => by simp only [h])
                (fun _ g1 h => ?_)
              simp only [h]
              refine Keeps.after hR
                (((g1.gen_label tok true "for").2.gen_label tok false "for").2.gen_label tok
                  true "for_cont").2
                ((gen_label_functions _ _ _ _).1.trans
                  ((gen_label_functions _ _ _ _).1.trans (gen_label_functions _ _ _ _).1))
                ((gen_label_functions _ _ _ _).2.trans
                  ((gen_label_functions _ _ _ _).2.trans (gen_label_functions _ _ _ _).2)) ?_
              refine Keeps.bind hR
                ((((g1.gen_label tok true "for").2.gen_label tok false "for").2.gen_label tok
                  true "for_cont").2.builder_label (g1.gen_label tok true "for").1) _
                (builder_label_keeps hR _ _) (fun e g2 h => by simp only [h])
                (fun _ g2 h => ?_)
              simp only [h]
              cases rest with
              | nil => exact Keeps.error hR _ rfl rfl rfl
              | cons condition rest2 =>
                simp only []
                refine Keeps.bind hR (condn_expression l condition
                    (g1.gen_label tok true "for").1
                    ((g1.gen_label tok true "for").2.gen_label tok false "for").1 true false g2) _
                  (condn_expression_keeps hR l hl _ _ _ _ _ _) (fun e g3 h => by simp only [h])
                  (fun _ g3 h => ?_)
                simp only [h]
                cases rest2 with
                | nil => exact Keeps.error hR _ rfl rfl rfl
                | cons step rest3 =>
                  cases rest3 with
                  | nil => exact Keeps.error hR _ rfl rfl rfl
                  | cons body rest4 =>
                    simp only []
                    refine Keeps.bind hR (block l body true (g1.gen_label tok true "for").1
                        ((g1.gen_label tok true "for").2.gen_label tok false "for").1
                        (((g1.gen_label tok true "for").2.gen_label tok false "for").2.gen_label
                          tok true "for_cont").1 g3) _
                      ((hchild body (by simp) true _ _ _ hinLoop).2 g3)
                      (fun e g4 h => by simp only [h]) (fun _ g4 h => ?_)
                    simp only [h]
                    refine Keeps.bind hR (g4.builder_label
                        (((g1.gen_label tok true "for").2.gen_label tok false "for").2.gen_label
                          tok true "for_cont").1) _
                      (builder_label_keeps hR _ _) (fun e g5 h => by simp only [h])
                      (fun _ g5 h => ?_)
                    simp only [h]
                    refine Keeps.bind hR (l.assignment step g5) _ (hl.2.2.1 _ _)
                      (fun e g6 h => by simp only [h]) (fun _ g6 h => ?_)
                    simp only [h]
                    refine Keeps.bind hR (g6.builder_createBranch .GOTO
                        (g1.gen_label tok true "for").1) _
                      (builder_createBranch_keeps hR _ _ _) (fun e g7 h => by simp only [h])
                      (fun _ g7 h => ?_)
                    simp only [h]
                    exact builder_label_keeps hR _ _
          · exact simpleStatement_keeps hR l hl _ loop _ _ g (fun h _ => hloop h)
    · intro g
      rw [block_eq]
      refine Keeps.after hR g.enter_scope rfl rfl ?_
      refine Keeps.bind hR (blockStatements l children loop start_label break_label cont_label
          g.enter_scope) _
        (blockStatements_keeps hR l loop start_label break_label cont_label children
          (fun stmt hs g1 =>
            (hchild stmt hs loop start_label break_label cont_label hloop).1 g1) _)
        (fun e g1 h => by simp only [h]) (fun _ g1 h => ?_)
      simp only [h]
      exact Keeps.ok hR _ rfl rfl

end ir_generator

namespace ir_generator

/-- A block extends the state it is lowered in, when the members taken as
given only append. -/
theorem block_extends (l : Lowering) (hl : l.AppendOnly) (root : Node) (loop : Bool)
    (start_label break_label cont_label : Operand) (g : ir_generator) :
    Extends g (block l root loop start_label break_label cont_label g).2 :=
  (statement_block_keeps extends_invariant l hl root loop start_label break_label cont_label
    (fun _ g _ => Extends.refl g)).2 g

/-- A condition extends the state it is lowered in, when the members taken as
given only append. -/
theorem condn_expression_extends (l : Lowering) (hl : l.AppendOnly) (root : Node)
    (t_label f_label : Operand) (t_fall f_fall : Bool) (g : ir_generator) :
    Extends g (condn_expression l root t_label f_label t_fall f_fall g).2 :=
  condn_expression_keeps extends_invariant l hl root t_label f_label t_fall f_fall g

/-- The entries appended between a state and one that extends it. -/
theorem Extends.appended {g g1 : ir_generator} (h : Extends g g1) :
    ∃ es, g1.entries = g.entries ++ es := by
  obtain ⟨es, hes⟩ := h.2
  exact ⟨es, hes.symm⟩

/-- A builder call that returns: it ran the operation on the builder state
of the current function. -/
theorem withBuilder_ok {α : Type} {g g1 : ir_generator}
    {operation : FunctionBuilder → Except Failure α × FunctionBuilder} {x : α}
    (h : g.withBuilder operation = (.ok x, g1)) :
    ∃ fb : FunctionBuilder, fb.entries = g.entries ∧ fb.opBuilder.idCounter = g.id_counter ∧
      (operation fb).1 = .ok x ∧ g1.entries = (operation fb).2.entries ∧
      g1.id_counter = (operation fb).2.opBuilder.idCounter := by
  cases hc : g.current_func_desc with
  | none => simp [withBuilder, hc] at h
  | some name =>
    cases hf : g.module.functions.find? name with
    | none => simp [withBuilder, hc, hf] at h
    | some fd =>
      simp only [withBuilder, hc, hf, Prod.mk.injEq] at h
      refine ⟨g.builderState fd, ?_, rfl, h.1, ?_, ?_⟩
      · simp [entries, current_function, hc, hf, FunctionBuilder.entries, builderState]
      · rw [← h.2]
        simp [entries, current_function, hc, StdMap_find_assign_self, FunctionBuilder.entries]
      · rw [← h.2]

/-- A builder call that pushes one entry, when it returns. -/
theorem withBuilder_pushEntry_ok {g g1 : ir_generator} {entry : Entry}
    (h : g.withBuilder (fun fb => ((.ok ⟨⟩ : Except Failure PUnit.{1}), fb.pushEntry entry))
      = (.ok ⟨⟩, g1)) :
    g1.entries = g.entries ++ [entry] ∧ g1.id_counter = g.id_counter := by
  obtain ⟨fb, he, hid, _, h1, h2⟩ := withBuilder_ok h
  simp only [FunctionBuilder.entries_pushEntry, FunctionBuilder.opBuilder_pushEntry] at h1 h2
  exact ⟨by rw [h1, he], by rw [h2, hid]⟩

theorem builder_label_ok {g g1 : ir_generator} {op : Operand}
    (h : g.builder_label op = (.ok ⟨⟩, g1)) :
    g1.entries = g.entries ++ [{ opcode := .CREATE_LABEL, op1 := op }] ∧
      g1.id_counter = g.id_counter :=
  withBuilder_pushEntry_ok h

theorem builder_createBranch_ok {g g1 : ir_generator} {instruction : Instruction}
    {op : Operand} (h : g.builder_createBranch instruction op = (.ok ⟨⟩, g1)) :
    g1.entries = g.entries ++ [{ opcode := instruction, op1 := op }] ∧
      g1.id_counter = g.id_counter :=
  withBuilder_pushEntry_ok h

theorem builder_compareOperator_ok {g g1 : ir_generator} {opcode : Instruction}
    {op1 op2 : Operand} (h : g.builder_compareOperator opcode op1 op2 = (.ok ⟨⟩, g1)) :
    g1.entries = g.entries ++ compareEntries opcode op1 op2 g.id_counter := by
  obtain ⟨fb, he, hid, _, h1, _⟩ := withBuilder_ok h
  rw [h1, ← he, ← hid]
  simp [FunctionBuilder.compareOperator, FunctionBuilder.ensureNotPointer_eq,
    FunctionBuilder.entries, FunctionBuilder.pushEntry, compareEntries]

theorem tokenToCompareOperator_ok {tok : Token} {opcode : Instruction}
    (h : tokenToCompareOperator tok = .ok opcode) :
    tok.type ≠ .CONDN_AND ∧ tok.type ≠ .CONDN_OR := by
  constructor <;> intro hc <;> simp [tokenToCompareOperator, hc] at h

/-- The comparison case of `condn_expression` with the true side falling
through and the false side branching: when it returns, both operands were
lowered, and the entries appended after them are those of the comparison
followed by one IF_FALSE_GOTO to the false label. -/
theorem condn_expression_comparison (l : Lowering) (type : NodeType) (tok : Token)
    (first operatorNode second : Node) (more : List Node) (opcode : Instruction)
    (t_label f_label : Operand) (g g1 : ir_generator)
    (htype : type ≠ .TERM) (hop : tokenToCompareOperator operatorNode.tok = .ok opcode)
    (hok : condn_expression l (.mk type tok (first :: operatorNode :: second :: more))
      t_label f_label true false g = (.ok ⟨⟩, g1)) :
    ∃ (a b : Unit) (ga gb : ir_generator),
      l.expression first g = (.ok a, ga) ∧ l.expression second ga = (.ok b, gb) ∧
      g1.entries = gb.entries ++ compareEntries opcode a.first b.first gb.id_counter
        ++ [{ opcode := .IF_FALSE_GOTO, op1 := f_label }] := by
  rw [condn_expression_eq] at hok
  obtain ⟨hand, hor⟩ := tokenToCompareOperator_ok hop
  simp only [if_neg htype, if_neg hand, if_neg hor, compareExpression, hop, List.head?_cons]
    at hok
  rcases hfirst : l.expression first g with ⟨_ | a, ga⟩
  · simp [hfirst] at hok
  · simp only [hfirst] at hok
    split at hok
    · simp at hok
    · rcases hsecond : l.expression second ga with ⟨_ | b, gb⟩
      · simp [hsecond] at hok
      · simp only [hsecond] at hok
        split at hok
        · simp at hok
        · rcases hcmp : gb.builder_compareOperator opcode a.first b.first with ⟨_ | u, gc⟩
          · simp [hcmp] at hok
          · simp only [hcmp, compareBranches, Bool.not_true, Bool.false_eq_true, if_false,
              Bool.not_false, if_true] at hok
            refine ⟨a, b, ga, gb, rfl, hsecond, ?_⟩
            rw [(builder_createBranch_ok hok).1, builder_compareOperator_ok hcmp]

end ir_generator

namespace ir_generator

/-- C23: when `whileloop` returns, and the members taken as given only append
to the current function, the entries it appended are, in this order:
CREATE_LABEL Lt; the entries of the condition `root.children[0]`, lowered
with true target Lt, false target Lf, `t_fall = true` and `f_fall = false`;
the entries of the body `root.children[1]`, lowered as a block in a loop with
start and continue label Lt and break label Lf; GOTO Lt; CREATE_LABEL Lf.
Here Lt and Lf are the two labels generated first.  When the condition is a
single comparison (a node that is not a TERM, with an operator token that
`tokenToCompareOperator` accepts), the entries of the condition are those of
lowering the two operands, then the entries of the comparison (the compare
entry, after the reads of pointer operands), immediately followed by
IF_FALSE_GOTO Lf: no IF_TRUE_GOTO is appended. -/
theorem whileloop_entries (l : Lowering) (hl : l.AppendOnly) (root : Node)
    (g g1 : ir_generator) (hok : whileloop l root g = (.ok ⟨⟩, g1)) :
    ∃ (condition body : Node) (rest : List Node) (ga gb gc : ir_generator)
      (conditionEntries bodyEntries : List Entry),
      root.children = condition :: body :: rest ∧
      ((g.gen_label root.tok true "while").2.gen_label root.tok false "while").2.builder_label
          (g.gen_label root.tok true "while").1 = (.ok ⟨⟩, ga) ∧
      condn_expression l condition (g.gen_label root.tok true "while").1
          ((g.gen_label root.tok true "while").2.gen_label root.tok false "while").1
          true false ga = (.ok ⟨⟩, gb) ∧
      gb.entries = ga.entries ++ conditionEntries ∧
      block l body true (g.gen_label root.tok true "while").1
          ((g.gen_label root.tok true "while").2.gen_label root.tok false "while").1
          (g.gen_label root.tok true "while").1 gb = (.ok ⟨⟩, gc) ∧
      gc.entries = gb.entries ++ bodyEntries ∧
      g1.entries = g.entries
        ++ [{ opcode := .CREATE_LABEL, op1 := (g.gen_label root.tok true "while").1 }]
        ++ conditionEntries ++ bodyEntries
        ++ [{ opcode := .GOTO, op1 := (g.gen_label root.tok true "while").1 },
            { opcode := .CREATE_LABEL,
              op1 := ((g.gen_label root.tok true "while").2.gen_label root.tok false
                "while").1 }] ∧
      (∀ (type : NodeType) (tok : Token) (first operatorNode second : Node)
          (more : List Node) (opcode : Instruction),
        condition = .mk type tok (first :: operatorNode :: second :: more) →
        type ≠ .TERM → tokenToCompareOperator operatorNode.tok = .ok opcode →
        ∃ (a b : Unit) (g2 g3 : ir_generator) (operandEntries : List Entry),
          l.expression first ga = (.ok a, g2) ∧ l.expression second g2 = (.ok b, g3) ∧
          g3.entries = ga.entries ++ operandEntries ∧
          conditionEntries = operandEntries
            ++ compareEntries opcode a.first b.first g3.id_counter
            ++ [{ opcode := .IF_FALSE_GOTO,
                  op1 := ((g.gen_label root.tok true "while").2.gen_label root.tok false
                    "while").1 }]) := by
  unfold whileloop at hok
  rw [statement_eq] at hok
  rw [if_neg (by decide), if_pos rfl] at hok
  simp only [] at hok
  rcases hlabel :
    ((g.gen_label root.tok true "while").2.gen_label root.tok false "while").2.builder_label
      (g.gen_label root.tok true "while").1 with ⟨_ | u, ga⟩
  · simp [hlabel] at hok
  · simp only [hlabel] at hok
    cases hchildren : root.children with
    | nil => simp [hchildren] at hok
    | cons condition rest0 =>
      simp only [hchildren] at hok
      rcases hcond : condn_expression l condition (g.gen_label root.tok true "while").1
          ((g.gen_label root.tok true "while").2.gen_label root.tok false "while").1
          true false ga with ⟨_ | u1, gb⟩
      · simp [hcond] at hok
      · simp only [hcond] at hok
        cases rest0 with
        | nil => simp at hok
        | cons body rest =>
          simp only [] at hok
          rcases hbody : block l body true (g.gen_label root.tok true "while").1
              ((g.gen_label root.tok true "while").2.gen_label root.tok false "while").1
              (g.gen_label root.tok true "while").1 gb with ⟨_ | u2, gc⟩
          · simp [hbody] at hok
          · simp only [hbody] at hok
            rcases hgoto : gc.builder_createBranch .GOTO
                (g.gen_label root.tok true "while").1 with ⟨_ | u3, gd⟩
            · simp [hgoto] at hok
            · simp only [hgoto] at hok
              have hce := condn_expression_extends l hl condition
                (g.gen_label root.tok true "while").1
                ((g.gen_label root.tok true "while").2.gen_label root.tok false "while").1
                true false ga
              rw [hcond] at hce
              obtain ⟨conditionEntries, hconditionEntries⟩ := hce.appended
              have hbe := block_extends l hl body true (g.gen_label root.tok true "while").1
                ((g.gen_label root.tok true "while").2.gen_label root.tok false "while").1
                (g.gen_label root.tok true "while").1 gb
              rw [hbody] at hbe
              obtain ⟨bodyEntries, hbodyEntries⟩ := hbe.appended
              have hga := (builder_label_ok hlabel).1
              have hstart : ((g.gen_label root.tok true "while").2.gen_label root.tok false
                  "while").2.entries = g.entries :=
                entries_of_same
                  ((gen_label_functions _ _ _ _).1.trans (gen_label_functions _ _ _ _).1)
                  ((gen_label_functions _ _ _ _).2.trans (gen_label_functions _ _ _ _).2)
              rw [hstart] at hga
              refine ⟨condition, body, rest, ga, gb, gc, conditionEntries, bodyEntries, rfl,
                rfl, hcond, hconditionEntries, hbody, hbodyEntries, ?_, ?_⟩
              · rw [(builder_label_ok hok).1, (builder_createBranch_ok hgoto).1, hbodyEntries,
                  hconditionEntries, hga]
                simp
              · intro type tok first operatorNode second more opcode hshape htype hop
                subst hshape
                obtain ⟨a, b, g2, g3, h1, h2, h3⟩ := condn_expression_comparison l type tok
                  first operatorNode second more opcode _ _ ga gb htype hop hcond
                have he1 := hl.1 first ga
                rw [h1] at he1
                have he2 := hl.1 second g2
                rw [h2] at he2
                obtain ⟨operandEntries, hoperands⟩ := (Extends.trans he1 he2).appended
                refine ⟨a, b, g2, g3, operandEntries, h1, h2, hoperands, ?_⟩
                have := h3
                rw [hconditionEntries, hoperands] at this
                simp only [List.append_assoc] at this
                simpa using List.append_cancel_left this

end ir_generator

namespace ir_generator

/-- The members of the examples keep every invariant relation. -/
theorem exampleLowering_respects {R : ir_generator → Option Failure → ir_generator → Prop}
    (hR : Invariant R) : exampleLowering.Respects R := by
  have hexpr : ∀ node g, Keeps R g (exampleExpression node g) := by
    intro node g
    unfold exampleExpression
    split
    · exact Keeps.ok hR _ rfl rfl
    · exact Keeps.ok hR _ rfl rfl
  exact ⟨hexpr, fun _ _ => Keeps.ok hR _ rfl rfl, fun _ _ => builder_copy_keeps hR _ _ _, hexpr,
    fun _ _ _ => Keeps.ok hR _ rfl rfl, fun _ _ => builder_noArgumentEntry_keeps hR _ _,
    fun _ _ => builder_noArgumentEntry_keeps hR _ _⟩

theorem whileloop_entries_witness :
    (whileloop exampleLowering exampleWhile exampleGenerator).1 = .ok ⟨⟩ ∧
    (whileloop exampleLowering exampleWhile exampleGenerator).2.entries
      = [{ opcode := .CREATE_LABEL, op1 := createLabelOperand "_while_true_l1_c1" 0 },
         { opcode := .LT,
           op1 := { dtype := .I32, operandType := .VAR, name := "i", operandId := 2 },
           op2 := createLiteralOperand .I32 3 3 },
         { opcode := .IF_FALSE_GOTO, op1 := createLabelOperand "_while_false_l1_c1" 1 },
         { opcode := .EQUAL, op1 := { dtype := .I32, operandType := .VAR, name := "i" },
           op2 := { dtype := .I32, operandType := .VAR, name := "j" } },
         { opcode := .GOTO, op1 := createLabelOperand "_while_true_l1_c1" 0 },
         { opcode := .CREATE_LABEL, op1 := createLabelOperand "_while_false_l1_c1" 1 }] ∧
    ∃ conditionEntries bodyEntries : List Entry,
      (whileloop exampleLowering exampleWhile exampleGenerator).2.entries
        = exampleGenerator.entries
          ++ [{ opcode := .CREATE_LABEL, op1 := createLabelOperand "_while_true_l1_c1" 0 }]
          ++ conditionEntries ++ bodyEntries
          ++ [{ opcode := .GOTO, op1 := createLabelOperand "_while_true_l1_c1" 0 },
              { opcode := .CREATE_LABEL,
                op1 := createLabelOperand "_while_false_l1_c1" 1 }] := by
  obtain ⟨_, _, _, _, _, _, conditionEntries, bodyEntries, _, _, _, _, _, _, h, _⟩ :=
    whileloop_entries exampleLowering (exampleLowering_respects extends_invariant) exampleWhile
      exampleGenerator (whileloop exampleLowering exampleWhile exampleGenerator).2 rfl
  exact ⟨rfl, rfl, conditionEntries, bodyEntries, h⟩

end ir_generator

namespace ir_generator

/-- A statement extends the state it is lowered in, when the members taken
as given only append. -/
theorem statement_extends (l : Lowering) (hl : l.AppendOnly) (root : Node) (loop : Bool)
    (start_label break_label cont_label : Operand) (g : ir_generator) :
    Extends g (statement l root loop start_label break_label cont_label g).2 :=
  (statement_block_keeps extends_invariant l hl root loop start_label break_label cont_label
    (fun _ g _ => Extends.refl g)).1 g

theorem blockStatements_extends (l : Lowering) (hl : l.AppendOnly) (stmts : List Node)
    (loop : Bool) (start_label break_label cont_label : Operand) (g : ir_generator) :
    Extends g (blockStatements l stmts loop start_label break_label cont_label g).2 :=
  blockStatements_keeps extends_invariant l loop start_label break_label cont_label stmts
    (fun stmt _ g1 => statement_extends l hl stmt loop start_label break_label cont_label g1) g

theorem ifBranches_extends (l : Lowering) (hl : l.AppendOnly) (end_label : Operand)
    (branches : List Node) (loop : Bool) (start_label break_label cont_label : Operand)
    (g : ir_generator) :
    Extends g
      (ifBranches l end_label branches loop start_label break_label cont_label g).2 :=
  ifBranches_keeps extends_invariant l hl end_label loop start_label break_label cont_label
    branches
    (fun _ _ body _ g1 => block_extends l hl body loop start_label break_label cont_label g1) g

/-- When the loop of `block` returns, each statement was lowered, in a state
that continues the one the loop started in and with a result that the final
state continues. -/
theorem blockStatements_visit (l : Lowering) (loop : Bool)
    (start_label break_label cont_label : Operand) :
    ∀ (stmts : List Node) (g g1 : ir_generator),
      blockStatements l stmts loop start_label break_label cont_label g = (.ok ⟨⟩, g1) →
      ∀ stmt ∈ stmts, ∃ h h1 : ir_generator,
        statement l stmt loop start_label break_label cont_label h = (.ok ⟨⟩, h1) ∧
        (l.AppendOnly → Extends g h ∧ Extends h1 g1) := by
  intro stmts
  induction stmts with
  | nil => intro g g1 _ stmt hmem; cases hmem
  | cons first rest ih =>
    intro g g1 hok stmt hmem
    rw [blockStatements_cons] at hok
    rcases hfirst : statement l first loop start_label break_label cont_label g with
      ⟨_ | u, g2⟩
    · simp [hfirst] at hok
    · simp only [hfirst] at hok
      rcases List.mem_cons.mp hmem with heq | hrest
      · subst heq
        refine ⟨g, g2, hfirst, fun hl => ⟨Extends.refl g, ?_⟩⟩
        have := blockStatements_extends l hl rest loop start_label break_label cont_label g2
        rw [hok] at this
        exact this
      · obtain ⟨h, h1, hstmt, hext⟩ := ih g2 g1 hok stmt hrest
        refine ⟨h, h1, hstmt, fun hl => ⟨?_, (hext hl).2⟩⟩
        have := statement_extends l hl first loop start_label break_label cont_label g
        rw [hfirst] at this
        exact this.trans (hext hl).1

theorem ifBody_branch (childType : NodeType) (tok : Token) (condition body : Node)
    (rest : List Node) (h : childType ≠ .ELSE) :
    ifBody (.mk childType tok (condition :: body :: rest)) = some body := by
  simp [ifBody, Node.type, Node.children, h]

theorem ifBody_else (childType : NodeType) (tok : Token) (body : Node)
    (rest : List Node) (h : ¬ childType ≠ .ELSE) :
    ifBody (.mk childType tok (body :: rest)) = some body := by
  simp only [ne_eq, not_not] at h
  simp [ifBody, Node.type, Node.children, h]

/-- When the loop of `ifstmt` returns, the block of each branch was lowered
in the loop context of the IF statement. -/
theorem ifBranches_visit (l : Lowering) (end_label : Operand) (loop : Bool)
    (start_label break_label cont_label : Operand) :
    ∀ (branches : List Node) (g g1 : ir_generator),
      ifBranches l end_label branches loop start_label break_label cont_label g
        = (.ok ⟨⟩, g1) →
      ∀ branch ∈ branches, ∃ inner, ifBody branch = some inner ∧ ∃ h h1 : ir_generator,
        block l inner loop start_label break_label cont_label h = (.ok ⟨⟩, h1) ∧
        (l.AppendOnly → Extends g h ∧ Extends h1 g1) := by
  intro branches
  induction branches with
  | nil => intro g g1 _ branch hmem; cases hmem
  | cons first rest ih =>
    intro g g1 hok branch hmem
    obtain ⟨childType, childTok, childChildren⟩ := first
    have hlabels : Extends g
        ((g.gen_label childTok true "if").2.gen_label childTok false "if").2 :=
      ⟨(gen_label_functions _ _ _ _).2.trans (gen_label_functions _ _ _ _).2,
       by rw [entries_of_same
          ((gen_label_functions _ _ _ _).1.trans (gen_label_functions _ _ _ _).1)
          ((gen_label_functions _ _ _ _).2.trans (gen_label_functions _ _ _ _).2)]⟩
    rw [ifBranches_cons] at hok
    simp only [] at hok
    -- the round of the first branch: the block of the branch and the state after it
    have hround : ∃ inner, ifBody (.mk childType childTok childChildren) = some inner ∧
        ∃ h h1 g2 : ir_generator,
          block l inner loop start_label break_label cont_label h = (.ok ⟨⟩, h1) ∧
          ifBranches l end_label rest loop start_label break_label cont_label g2
            = (.ok ⟨⟩, g1) ∧
          (l.AppendOnly → Extends g h ∧ Extends h1 g2) := by
      by_cases helse : childType ≠ .ELSE
      · rw [if_pos helse] at hok
        cases childChildren with
        | nil => simp at hok
        | cons condition rest1 =>
          simp only [] at hok
          rcases hcond : condn_expression l condition (g.gen_label childTok true "if").1
              ((g.gen_label childTok true "if").2.gen_label childTok false "if").1 true false
              ((g.gen_label childTok true "if").2.gen_label childTok false "if").2 with
            ⟨_ | u, ga⟩
          · simp [hcond] at hok
          · simp only [hcond] at hok
            cases rest1 with
            | nil => simp at hok
            | cons body rest2 =>
              simp only [] at hok
              rcases hbody : block l body loop start_label break_label cont_label ga with
                ⟨_ | u1, gb⟩
              · simp [hbody] at hok
              · simp only [hbody] at hok
                have hce : l.AppendOnly → Extends g ga := fun hl => by
                  have := condn_expression_extends l hl condition
                    (g.gen_label childTok true "if").1
                    ((g.gen_label childTok true "if").2.gen_label childTok false "if").1
                    true false
                    ((g.gen_label childTok true "if").2.gen_label childTok false "if").2
                  rw [hcond] at this
                  exact hlabels.trans this
                by_cases hlast : rest.isEmpty = true
                · simp only [hlast, Bool.not_true, Bool.false_eq_true, if_false] at hok
                  rcases hlab : gb.builder_label
                      ((g.gen_label childTok true "if").2.gen_label childTok false "if").1 with
                    ⟨_ | u2, gc⟩
                  · simp [hlab] at hok
                  · simp only [hlab] at hok
                    refine ⟨body, ifBody_branch _ _ _ _ _ helse, ga, gb, gc, hbody, hok,
                      fun hl => ⟨hce hl, ?_⟩⟩
                    have := builder_label_keeps extends_invariant gb
                      ((g.gen_label childTok true "if").2.gen_label childTok false "if").1
                    rw [hlab] at this
                    exact this
                · have hlast1 : rest.isEmpty = false := by simpa using hlast
                  simp only [hlast1, Bool.not_false, if_true] at hok
                  rcases hgoto : gb.builder_createBranch .GOTO end_label with ⟨_ | u2, gc⟩
                  · simp [hgoto] at hok
                  · simp only [hgoto] at hok
                    rcases hlab : gc.builder_label
                        ((g.gen_label childTok true "if").2.gen_label childTok false "if").1
                      with ⟨_ | u3, gd⟩
                    · simp [hlab] at hok
                    · simp only [hlab] at hok
                      refine ⟨body, ifBody_branch _ _ _ _ _ helse, ga, gb, gd, hbody, hok,
                        fun hl => ⟨hce hl, ?_⟩⟩
                      have h1 := builder_createBranch_keeps extends_invariant gb .GOTO end_label
                      rw [hgoto] at h1
                      have h2 := builder_label_keeps extends_invariant gc
                        ((g.gen_label childTok true "if").2.gen_label childTok false "if").1
                      rw [hlab] at h2
                      exact Extends.trans h1 h2
      · rw [if_neg helse] at hok
        cases childChildren with
        | nil => simp at hok
        | cons body rest1 =>
          simp only [] at hok
          rcases hbody : block l body loop start_label break_label cont_label
              ((g.gen_label childTok true "if").2.gen_label childTok false "if").2 with
            ⟨_ | u1, gb⟩
          · simp [hbody] at hok
          · simp only [hbody] at hok
            exact ⟨body, ifBody_else _ _ _ _ helse, _, gb, gb, hbody, hok,
              fun _ => ⟨hlabels, Extends.refl gb⟩⟩
    obtain ⟨inner, hinner, h, h1, g2, hblock, hrest, hext⟩ := hround
    rcases List.mem_cons.mp hmem with heq | hmemRest
    · subst heq
      refine ⟨inner, hinner, h, h1, hblock, fun hl => ⟨(hext hl).1, ?_⟩⟩
      have := ifBranches_extends l hl end_label rest loop start_label break_label cont_label g2
      rw [hrest] at this
      exact (hext hl).2.trans this
    · obtain ⟨inner2, hinner2, k, k1, hblock2, hext2⟩ := ih g2 g1 hrest branch hmemRest
      refine ⟨inner2, hinner2, k, k1, hblock2, fun hl => ⟨?_, (hext2 hl).2⟩⟩
      have hb := block_extends l hl inner loop start_label break_label cont_label h
      rw [hblock] at hb
      exact (((hext hl).1.trans hb).trans (hext hl).2).trans (hext2 hl).1

end ir_generator

namespace ir_generator

/-- A step that leaves the functions of the module and `current_func_desc`
alone continues the state. -/
theorem Extends.of_same {g g1 : ir_generator}
    (hf : g1.module.functions = g.module.functions)
    (hc : g1.current_func_desc = g.current_func_desc) : Extends g g1 :=
  ⟨hc, by rw [entries_of_same hf hc]⟩

/-- When a block returns, each of its statements was lowered in the loop
context of the block. -/
theorem block_visit (l : Lowering) (body : Node) (loop : Bool)
    (start_label break_label cont_label : Operand) (g g1 : ir_generator)
    (hok : block l body loop start_label break_label cont_label g = (.ok ⟨⟩, g1)) :
    ∀ stmt ∈ body.children, ∃ h h1 : ir_generator,
      statement l stmt loop start_label break_label cont_label h = (.ok ⟨⟩, h1) ∧
      (l.AppendOnly → Extends g h ∧ Extends h1 g1) := by
  intro stmt hmem
  obtain ⟨type, tok, children⟩ := body
  rw [block_eq] at hok
  rcases hstmts : blockStatements l children loop start_label break_label cont_label
      g.enter_scope with ⟨_ | u, g2⟩
  · simp [hstmts] at hok
  · simp only [hstmts, Prod.mk.injEq, true_and] at hok
    obtain ⟨h, h1, hstmt, hext⟩ := blockStatements_visit l loop start_label break_label
      cont_label children g.enter_scope g2 hstmts stmt hmem
    refine ⟨h, h1, hstmt, fun hl => ⟨?_, ?_⟩⟩
    · exact Extends.trans (Extends.of_same rfl rfl) (hext hl).1
    · refine (hext hl).2.trans ?_
      rw [← hok]
      exact Extends.of_same rfl rfl

/-- When a statement returns, every statement nested in it through the
blocks of IF branches was lowered in the same loop context: with the same
`loop` flag and the same break and continue labels, in a state that continues
the one the statement started in and with a result that its final state
continues. -/
theorem statement_visit (l : Lowering) (root target : Node) (hnested : Escapes root target) :
    ∀ (loop : Bool) (start_label break_label cont_label : Operand) (g g1 : ir_generator),
      statement l root loop start_label break_label cont_label g = (.ok ⟨⟩, g1) →
      ∃ h h1 : ir_generator,
        statement l target loop start_label break_label cont_label h = (.ok ⟨⟩, h1) ∧
        (l.AppendOnly → Extends g h ∧ Extends h1 g1) := by
  induction hnested with
  | self stmt =>
    intro loop start_label break_label cont_label g g1 hok
    exact ⟨g, g1, hok, fun _ => ⟨Extends.refl g, Extends.refl g1⟩⟩
  | through stmt branch inner child target htype hbranch hinner hchild _ ih =>
    intro loop start_label break_label cont_label g g1 hok
    obtain ⟨type, tok, children⟩ := stmt
    have htype1 : type = .IF := htype
    subst htype1
    rw [statement_eq] at hok
    rw [if_pos rfl] at hok
    simp only [] at hok
    rcases hbranches : ifBranches l (g.gen_label tok false "ifend").1 children loop start_label
        break_label cont_label (g.gen_label tok false "ifend").2 with ⟨_ | u, g2⟩
    · simp [hbranches] at hok
    · simp only [hbranches] at hok
      obtain ⟨inner1, hinner1, k, k1, hblock, hext⟩ := ifBranches_visit l _ loop start_label
        break_label cont_label children _ g2 hbranches branch hbranch
      rw [hinner] at hinner1
      cases hinner1
      obtain ⟨k2, k3, hstmt, hext2⟩ := block_visit l inner loop start_label break_label
        cont_label k k1 hblock child hchild
      obtain ⟨h, h1, htarget, hext3⟩ := ih loop start_label break_label cont_label k2 k3 hstmt
      refine ⟨h, h1, htarget, fun hl => ⟨?_, ?_⟩⟩
      · have hstart : Extends g (g.gen_label tok false "ifend").2 :=
          Extends.of_same (gen_label_functions _ _ _ _).1 (gen_label_functions _ _ _ _).2
        exact ((hstart.trans (hext hl).1).trans (hext2 hl).1).trans (hext3 hl).1
      · refine (((hext3 hl).2.trans (hext2 hl).2).trans (hext hl).2).trans ?_
        by_cases hone : children.length ≠ 1
        · rw [if_pos hone] at hok
          have := builder_label_keeps extends_invariant g2 (g.gen_label tok false "ifend").1
          rw [hok] at this
          exact this
        · rw [if_neg hone] at hok
          simp only [Prod.mk.injEq, true_and] at hok
          rw [hok]
          exact Extends.refl g1

/-- When a block returns, every statement in it outside nested loops was
lowered in the loop context of the block. -/
theorem block_reaches (l : Lowering) (body target : Node) (hreach : Reaches body target)
    (loop : Bool) (start_label break_label cont_label : Operand) (g g1 : ir_generator)
    (hok : block l body loop start_label break_label cont_label g = (.ok ⟨⟩, g1)) :
    ∃ h h1 : ir_generator,
      statement l target loop start_label break_label cont_label h = (.ok ⟨⟩, h1) ∧
      (l.AppendOnly → Extends g h ∧ Extends h1 g1) := by
  obtain ⟨child, hchild, hnested⟩ := hreach
  obtain ⟨k, k1, hstmt, hext⟩ := block_visit l body loop start_label break_label cont_label
    g g1 hok child hchild
  obtain ⟨h, h1, htarget, hext2⟩ := statement_visit l child target hnested loop start_label
    break_label cont_label k k1 hstmt
  exact ⟨h, h1, htarget,
    fun hl => ⟨(hext hl).1.trans (hext2 hl).1, (hext2 hl).2.trans (hext hl).2⟩⟩

/-- A BREAK statement in a loop is one GOTO to the break label, a CONTINUE
statement one GOTO to the continue label; outside a loop each is a compile
error. -/
theorem statement_break_continue (l : Lowering) (stmt : Node) (loop : Bool)
    (start_label break_label cont_label : Operand) (g : ir_generator) :
    (stmt.type = .BREAK →
      statement l stmt loop start_label break_label cont_label g
        = if loop then g.builder_createBranch .GOTO break_label
          else (.error (.compileError "BREAK outside loop"), g)) ∧
    (stmt.type = .CONTINUE →
      statement l stmt loop start_label break_label cont_label g
        = if loop then g.builder_createBranch .GOTO cont_label
          else (.error (.compileError "CONTINUE outside loop"), g)) := by
  obtain ⟨type, tok, children⟩ := stmt
  constructor
  · intro h
    have h1 : type = .BREAK := h
    subst h1
    rw [statement_eq]
    rw [if_neg (by decide), if_neg (by decide), if_neg (by decide)]
    cases loop <;> simp [simpleStatement, Node.type]
  · intro h
    have h1 : type = .CONTINUE := h
    subst h1
    rw [statement_eq]
    rw [if_neg (by decide), if_neg (by decide), if_neg (by decide)]
    cases loop <;> simp [simpleStatement, Node.type]

end ir_generator

namespace ir_generator

theorem forLabels_state (g : ir_generator) (tok : Token) :
    (forLabels g tok).state.module.functions = g.module.functions ∧
    (forLabels g tok).state.current_func_desc = g.current_func_desc :=
  ⟨(gen_label_functions _ _ _ _).1.trans
      ((gen_label_functions _ _ _ _).1.trans (gen_label_functions _ _ _ _).1),
   (gen_label_functions _ _ _ _).2.trans
      ((gen_label_functions _ _ _ _).2.trans (gen_label_functions _ _ _ _).2)⟩

/-- C24: when `forloop` returns, and the members taken as given only append
to the current function, the entries it appended are, in this order: the
entries of the init statement `root.children[0]` (a `var` or an assignment);
CREATE_LABEL entry; the entries of the condition `root.children[1]`, lowered
with true target entry, false target exit, `t_fall = true` and
`f_fall = false`; the entries of the body `root.children[3]`, lowered as a
block in a loop with break label exit and continue label cont;
CREATE_LABEL cont; the entries of the step assignment `root.children[2]`;
GOTO entry; CREATE_LABEL exit.  The three labels are generated after the init
statement.  Every BREAK statement in the body outside nested loops is lowered
to one GOTO exit and every CONTINUE to one GOTO cont, among the entries of
the body: the step assignment follows the cont label. -/
theorem forloop_entries (l : Lowering) (hl : l.AppendOnly) (root : Node)
    (g g1 : ir_generator) (hok : forloop l root g = (.ok ⟨⟩, g1)) :
    ∃ (init condition step body : Node) (rest : List Node)
      (ga gb gc gd ge gf : ir_generator)
      (initEntries conditionEntries bodyEntries stepEntries : List Entry),
      root.children = init :: condition :: step :: body :: rest ∧
      (if init.type = .VAR then l.var init g else l.assignment init g) = (.ok ⟨⟩, ga) ∧
      ga.entries = g.entries ++ initEntries ∧
      (forLabels ga root.tok).state.builder_label (forLabels ga root.tok).entry
        = (.ok ⟨⟩, gb) ∧
      condn_expression l condition (forLabels ga root.tok).entry (forLabels ga root.tok).exit
        true false gb = (.ok ⟨⟩, gc) ∧
      gc.entries = gb.entries ++ conditionEntries ∧
      block l body true (forLabels ga root.tok).entry (forLabels ga root.tok).exit
        (forLabels ga root.tok).cont gc = (.ok ⟨⟩, gd) ∧
      gd.entries = gc.entries ++ bodyEntries ∧
      gd.builder_label (forLabels ga root.tok).cont = (.ok ⟨⟩, ge) ∧
      l.assignment step ge = (.ok ⟨⟩, gf) ∧
      gf.entries = ge.entries ++ stepEntries ∧
      g1.entries = g.entries ++ initEntries
        ++ [{ opcode := .CREATE_LABEL, op1 := (forLabels ga root.tok).entry }]
        ++ conditionEntries ++ bodyEntries
        ++ [{ opcode := .CREATE_LABEL, op1 := (forLabels ga root.tok).cont }]
        ++ stepEntries
        ++ [{ opcode := .GOTO, op1 := (forLabels ga root.tok).entry },
            { opcode := .CREATE_LABEL, op1 := (forLabels ga root.tok).exit }] ∧
      (∀ target, Reaches body target →
        (target.type = .BREAK → ∃ h h1 : ir_generator,
          statement l target true (forLabels ga root.tok).entry (forLabels ga root.tok).exit
            (forLabels ga root.tok).cont h = (.ok ⟨⟩, h1) ∧
          h1.entries = h.entries ++ [{ opcode := .GOTO, op1 := (forLabels ga root.tok).exit }] ∧
          Extends gc h ∧ Extends h1 gd) ∧
        (target.type = .CONTINUE → ∃ h h1 : ir_generator,
          statement l target true (forLabels ga root.tok).entry (forLabels ga root.tok).exit
            (forLabels ga root.tok).cont h = (.ok ⟨⟩, h1) ∧
          h1.entries = h.entries ++ [{ opcode := .GOTO, op1 := (forLabels ga root.tok).cont }] ∧
          Extends gc h ∧ Extends h1 gd)) := by
  unfold forloop at hok
  rw [statement_eq] at hok
  rw [if_neg (by decide), if_neg (by decide), if_pos rfl] at hok
  cases hchildren : root.children with
  | nil => simp [hchildren] at hok
  | cons init rest0 =>
    simp only [hchildren] at hok
    rcases hinit : (if init.type = .VAR then l.var init g else l.assignment init g) with
      ⟨_ | u, ga⟩
    · simp [hinit] at hok
    · simp only [hinit] at hok
      rcases hlabel : (forLabels ga root.tok).state.builder_label (forLabels ga root.tok).entry
        with ⟨_ | u0, gb⟩
      · have hlabel1 := hlabel
        simp only [forLabels] at hlabel1
        simp [hlabel1] at hok
      · have hlabel1 := hlabel
        simp only [forLabels] at hlabel1
        simp only [hlabel1] at hok
        cases rest0 with
        | nil => simp at hok
        | cons condition rest1 =>
          simp only [] at hok
          rcases hcond : condn_expression l condition (forLabels ga root.tok).entry
              (forLabels ga root.tok).exit true false gb with ⟨_ | u1, gc⟩
          · have hcond1 := hcond
            simp only [forLabels] at hcond1
            simp [hcond1] at hok
          · have hcond1 := hcond
            simp only [forLabels] at hcond1
            simp only [hcond1] at hok
            cases rest1 with
            | nil => simp at hok
            | cons step rest2 =>
              cases rest2 with
              | nil => simp at hok
              | cons body rest =>
                simp only [] at hok
                rcases hbody : block l body true (forLabels ga root.tok).entry
                    (forLabels ga root.tok).exit (forLabels ga root.tok).cont gc with
                  ⟨_ | u2, gd⟩
                · have hbody1 := hbody
                  simp only [forLabels] at hbody1
                  simp [hbody1] at hok
                · have hbody1 := hbody
                  simp only [forLabels] at hbody1
                  simp only [hbody1] at hok
                  rcases hcont : gd.builder_label (forLabels ga root.tok).cont with
                    ⟨_ | u3, ge⟩
                  · have hcont1 := hcont
                    simp only [forLabels] at hcont1
                    simp [hcont1] at hok
                  · have hcont1 := hcont
                    simp only [forLabels] at hcont1
                    simp only [hcont1] at hok
                    rcases hstep : l.assignment step ge with ⟨_ | u4, gf⟩
                    · simp [hstep] at hok
                    · simp only [hstep] at hok
                      rcases hgoto : gf.builder_createBranch .GOTO
                          (forLabels ga root.tok).entry with ⟨_ | u5, gg⟩
                      · have hgoto1 := hgoto
                        simp only [forLabels] at hgoto1
                        simp [hgoto1] at hok
                      · have hgoto1 := hgoto
                        simp only [forLabels] at hgoto1
                        simp only [hgoto1] at hok
                        have hexit : gg.builder_label (forLabels ga root.tok).exit
                            = (.ok ⟨⟩, g1) := hok
                        have hie : Extends g ga := by
                          have : Extends g
                              (if init.type = .VAR then l.var init g
                                else l.assignment init g).2 := by
                            split
                            · exact hl.2.1 _ _
                            · exact hl.2.2.1 _ _
                          rw [hinit] at this
                          exact this
                        obtain ⟨initEntries, hinitEntries⟩ := hie.appended
                        have hce := condn_expression_extends l hl condition
                          (forLabels ga root.tok).entry (forLabels ga root.tok).exit
                          true false gb
                        rw [hcond] at hce
                        obtain ⟨conditionEntries, hconditionEntries⟩ := hce.appended
                        have hbe := block_extends l hl body true (forLabels ga root.tok).entry
                          (forLabels ga root.tok).exit (forLabels ga root.tok).cont gc
                        rw [hbody] at hbe
                        obtain ⟨bodyEntries, hbodyEntries⟩ := hbe.appended
                        have hse : Extends ge gf := by
                          have := hl.2.2.1 step ge
                          rw [hstep] at this
                          exact this
                        obtain ⟨stepEntries, hstepEntries⟩ := hse.appended
                        have hgb := (builder_label_ok hlabel).1
                        rw [entries_of_same (forLabels_state ga root.tok).1
                          (forLabels_state ga root.tok).2] at hgb
                        refine ⟨init, condition, step, body, rest, ga, gb, gc, gd, ge, gf,
                          initEntries, conditionEntries, bodyEntries, stepEntries, rfl, hinit,
                          hinitEntries, hlabel, hcond, hconditionEntries, hbody, hbodyEntries,
                          hcont, hstep, hstepEntries, ?_, ?_⟩
                        · rw [(builder_label_ok hexit).1, (builder_createBranch_ok hgoto).1,
                            hstepEntries, (builder_label_ok hcont).1, hbodyEntries,
                            hconditionEntries, hgb, hinitEntries]
                          simp
                        · intro target hreach
                          obtain ⟨h, h1, htarget, hext⟩ := block_reaches l body target hreach
                            true (forLabels ga root.tok).entry (forLabels ga root.tok).exit
                            (forLabels ga root.tok).cont gc gd hbody
                          constructor
                          · intro hbreak
                            refine ⟨h, h1, htarget, ?_, (hext hl).1, (hext hl).2⟩
                            rw [(statement_break_continue l target true _ _ _ h).1 hbreak]
                              at htarget
                            exact (builder_createBranch_ok htarget).1
                          · intro hcontinue
                            refine ⟨h, h1, htarget, ?_, (hext hl).1, (hext hl).2⟩
                            rw [(statement_break_continue l target true _ _ _ h).2 hcontinue]
                              at htarget
                            exact (builder_createBranch_ok htarget).1

end ir_generator

namespace ir_generator

theorem forloop_entries_witness :
    (forloop exampleLowering (exampleFor (.mk .BREAK {} [])) exampleGenerator).1 = .ok ⟨⟩ ∧
    (forloop exampleLowering (exampleFor (.mk .BREAK {} [])) exampleGenerator).2.entries
      = [{ opcode := .EQUAL, op1 := { dtype := .I32, operandType := .VAR, name := "i" },
           op2 := { dtype := .I32, operandType := .VAR, name := "j" } },
         { opcode := .CREATE_LABEL, op1 := createLabelOperand "_for_true_l2_c1" 0 },
         { opcode := .LT,
           op1 := { dtype := .I32, operandType := .VAR, name := "i", operandId := 3 },
           op2 := createLiteralOperand .I32 3 4 },
         { opcode := .IF_FALSE_GOTO, op1 := createLabelOperand "_for_false_l2_c1" 1 },
         { opcode := .GOTO, op1 := createLabelOperand "_for_false_l2_c1" 1 },
         { opcode := .CREATE_LABEL, op1 := createLabelOperand "_for_cont_true_l2_c1" 2 },
         { opcode := .EQUAL, op1 := { dtype := .I32, operandType := .VAR, name := "i" },
           op2 := { dtype := .I32, operandType := .VAR, name := "k" } },
         { opcode := .GOTO, op1 := createLabelOperand "_for_true_l2_c1" 0 },
         { opcode := .CREATE_LABEL, op1 := createLabelOperand "_for_false_l2_c1" 1 }] ∧
    ∃ (ga : ir_generator)
      (initEntries conditionEntries bodyEntries stepEntries : List Entry),
      (forloop exampleLowering (exampleFor (.mk .BREAK {} [])) exampleGenerator).2.entries
        = exampleGenerator.entries ++ initEntries
          ++ [{ opcode := .CREATE_LABEL, op1 := (forLabels ga exampleForToken).entry }]
          ++ conditionEntries ++ bodyEntries
          ++ [{ opcode := .CREATE_LABEL, op1 := (forLabels ga exampleForToken).cont }]
          ++ stepEntries
          ++ [{ opcode := .GOTO, op1 := (forLabels ga exampleForToken).entry },
              { opcode := .CREATE_LABEL, op1 := (forLabels ga exampleForToken).exit }] := by
  obtain ⟨_, _, _, _, _, ga, _, _, _, _, _, initEntries, conditionEntries, bodyEntries,
      stepEntries, _, _, _, _, _, _, _, _, _, _, _, h, _⟩ :=
    forloop_entries exampleLowering (exampleLowering_respects extends_invariant)
      (exampleFor (.mk .BREAK {} [])) exampleGenerator
      (forloop exampleLowering (exampleFor (.mk .BREAK {} [])) exampleGenerator).2 rfl
  exact ⟨rfl, rfl, ga, initEntries, conditionEntries, bodyEntries, stepEntries, h⟩

end ir_generator

namespace ir_generator

/-- When the loop of `ifstmt` returns, and the members taken as given only
append, each branch was lowered as its trace says and the loop appended the
entries of the traces, round by round. -/
theorem ifBranches_trace (l : Lowering) (hl : l.AppendOnly) (end_label : Operand) (loop : Bool)
    (start_label break_label cont_label : Operand) :
    ∀ (branches : List Node) (g g1 : ir_generator),
      ifBranches l end_label branches loop start_label break_label cont_label g
        = (.ok ⟨⟩, g1) →
      ∃ traces : List IfBranchTrace,
        List.Forall₂ (BranchLowered l loop start_label break_label cont_label) branches traces ∧
        g1.entries = g.entries ++ ifChainEntries end_label branches traces := by
  intro branches
  induction branches with
  | nil =>
    intro g g1 hok
    rw [ifBranches_nil] at hok
    simp only [Prod.mk.injEq, true_and] at hok
    subst hok
    exact ⟨[], .nil, by simp [ifChainEntries]⟩
  | cons first rest ih =>
    intro g g1 hok
    obtain ⟨childType, childTok, childChildren⟩ := first
    have hlabels : ((g.gen_label childTok true "if").2.gen_label childTok false "if").2.entries
        = g.entries :=
      entries_of_same
        ((gen_label_functions _ _ _ _).1.trans (gen_label_functions _ _ _ _).1)
        ((gen_label_functions _ _ _ _).2.trans (gen_label_functions _ _ _ _).2)
    rw [ifBranches_cons] at hok
    simp only [] at hok
    have hround : ∃ (t : IfBranchTrace) (g2 : ir_generator),
        BranchLowered l loop start_label break_label cont_label
          (.mk childType childTok childChildren) t ∧
        ifBranches l end_label rest loop start_label break_label cont_label g2
          = (.ok ⟨⟩, g1) ∧
        g2.entries = g.entries
          ++ ifBranchEntries end_label (decide (childType = .ELSE)) rest.isEmpty t := by
      by_cases helse : childType ≠ .ELSE
      · rw [if_pos helse] at hok
        cases childChildren with
        | nil => simp at hok
        | cons condition rest1 =>
          simp only [] at hok
          rcases hcond : condn_expression l condition (g.gen_label childTok true "if").1
              ((g.gen_label childTok true "if").2.gen_label childTok false "if").1 true false
              ((g.gen_label childTok true "if").2.gen_label childTok false "if").2 with
            ⟨_ | u, ga⟩
          · simp [hcond] at hok
          · simp only [hcond] at hok
            cases rest1 with
            | nil => simp at hok
            | cons body rest2 =>
              simp only [] at hok
              rcases hbody : block l body loop start_label break_label cont_label ga with
                ⟨_ | u1, gb⟩
              · simp [hbody] at hok
              · simp only [hbody] at hok
                have hce := condn_expression_extends l hl condition
                  (g.gen_label childTok true "if").1
                  ((g.gen_label childTok true "if").2.gen_label childTok false "if").1
                  true false
                  ((g.gen_label childTok true "if").2.gen_label childTok false "if").2
                rw [hcond] at hce
                obtain ⟨conditionEntries, hconditionEntries⟩ := hce.appended
                rw [hlabels] at hconditionEntries
                have hbe := block_extends l hl body loop start_label break_label cont_label ga
                rw [hbody] at hbe
                obtain ⟨bodyEntries, hbodyEntries⟩ := hbe.appended
                have hlowered : BranchLowered l loop start_label break_label cont_label
                    (.mk childType childTok (condition :: body :: rest2))
                    { falseLabel :=
                        ((g.gen_label childTok true "if").2.gen_label childTok false "if").1,
                      condition := conditionEntries, body := bodyEntries } := by
                  refine ⟨g, ga, gb, rfl, hconditionEntries, hbodyEntries, ?_⟩
                  rw [if_pos (show (Node.mk childType childTok
                    (condition :: body :: rest2)).type ≠ .ELSE from helse)]
                  exact ⟨condition, body, rest2, rfl, hcond, hbody⟩
                have hne : decide (childType = .ELSE) = false := by simpa using helse
                by_cases hlast : rest.isEmpty = true
                · simp only [hlast, Bool.not_true, Bool.false_eq_true, if_false] at hok
                  rcases hlab : gb.builder_label
                      ((g.gen_label childTok true "if").2.gen_label childTok false "if").1 with
                    ⟨_ | u2, gc⟩
                  · simp [hlab] at hok
                  · simp only [hlab] at hok
                    refine ⟨_, gc, hlowered, hok, ?_⟩
                    rw [(builder_label_ok hlab).1, hbodyEntries, hconditionEntries]
                    simp [ifBranchEntries, hne, hlast]
                · have hlast1 : rest.isEmpty = false := by simpa using hlast
                  simp only [hlast1, Bool.not_false, if_true] at hok
                  rcases hgoto : gb.builder_createBranch .GOTO end_label with ⟨_ | u2, gc⟩
                  · simp [hgoto] at hok
                  · simp only [hgoto] at hok
                    rcases hlab : gc.builder_label
                        ((g.gen_label childTok true "if").2.gen_label childTok false "if").1
                      with ⟨_ | u3, gd⟩
                    · simp [hlab] at hok
                    · simp only [hlab] at hok
                      refine ⟨_, gd, hlowered, hok, ?_⟩
                      rw [(builder_label_ok hlab).1, (builder_createBranch_ok hgoto).1,
                        hbodyEntries, hconditionEntries]
                      simp [ifBranchEntries, hne, hlast1]
      · rw [if_neg helse] at hok
        cases childChildren with
        | nil => simp at hok
        | cons body rest1 =>
          simp only [] at hok
          rcases hbody : block l body loop start_label break_label cont_label
              ((g.gen_label childTok true "if").2.gen_label childTok false "if").2 with
            ⟨_ | u1, gb⟩
          · simp [hbody] at hok
          · simp only [hbody] at hok
            have hbe := block_extends l hl body loop start_label break_label cont_label
              ((g.gen_label childTok true "if").2.gen_label childTok false "if").2
            rw [hbody] at hbe
            obtain ⟨bodyEntries, hbodyEntries⟩ := hbe.appended
            have he : decide (childType = .ELSE) = true := by simpa using helse
            refine ⟨{ falseLabel :=
                        ((g.gen_label childTok true "if").2.gen_label childTok false "if").1,
                      condition := [], body := bodyEntries }, gb, ?_, hok, ?_⟩
            · refine ⟨g, _, gb, rfl, by simp [hlabels], hbodyEntries, ?_⟩
              rw [if_neg (show ¬ (Node.mk childType childTok (body :: rest1)).type ≠ .ELSE
                from helse)]
              exact ⟨body, rest1, rfl, rfl, rfl, hbody⟩
            · rw [hbodyEntries, hlabels]
              simp [ifBranchEntries, he]
    obtain ⟨t, g2, hlowered, hrest, hentries⟩ := hround
    obtain ⟨traces, hall, htraces⟩ := ih g2 g1 hrest
    refine ⟨t :: traces, .cons hlowered hall, ?_⟩
    rw [htraces, hentries]
    simp [ifChainEntries, Node.type]

end ir_generator

namespace ir_generator

/-- C25: when `ifstmt` returns on a chain of branches, and the members taken
as given only append to the current function, there is a trace for each
branch (its false label, the entries of its condition lowered with
`t_fall = true`, `f_fall = false` and that false label, and the entries of
its block, lowered in the loop context of the IF statement) such that the
entries appended are, branch after branch: for a branch that is not an ELSE
the condition, the block, a GOTO to the shared ifend label unless the branch
is the last child, and CREATE_LABEL of the false label of the branch; for an
ELSE the block.  After the branches comes CREATE_LABEL ifend, unless there is
exactly one branch: with two or more branches it is the last entry, and with
one branch `ifstmt` appends neither the ifend label nor a GOTO to it. -/
theorem ifstmt_entries (l : Lowering) (hl : l.AppendOnly) (root : Node) (loop : Bool)
    (start_label break_label cont_label : Operand) (g g1 : ir_generator)
    (hok : ifstmt l root loop start_label break_label cont_label g = (.ok ⟨⟩, g1)) :
    ∃ traces : List IfBranchTrace,
      List.Forall₂ (BranchLowered l loop start_label break_label cont_label)
        root.children traces ∧
      g1.entries = g.entries
        ++ ifChainEntries (g.gen_label root.tok false "ifend").1 root.children traces
        ++ (if root.children.length ≠ 1 then
              [{ opcode := .CREATE_LABEL, op1 := (g.gen_label root.tok false "ifend").1 }]
            else []) ∧
      (root.children.length ≠ 1 →
        g1.entries.getLast?
          = some { opcode := .CREATE_LABEL, op1 := (g.gen_label root.tok false "ifend").1 }) ∧
      (∀ branch, root.children = [branch] → ∃ t, traces = [t] ∧
        g1.entries = g.entries
          ++ (if branch.type = .ELSE then t.body
              else t.condition ++ t.body
                ++ [{ opcode := .CREATE_LABEL, op1 := t.falseLabel }])) := by
  unfold ifstmt at hok
  rw [statement_eq] at hok
  rw [if_pos rfl] at hok
  simp only [] at hok
  rcases hbranches : ifBranches l (g.gen_label root.tok false "ifend").1 root.children loop
      start_label break_label cont_label (g.gen_label root.tok false "ifend").2 with
    ⟨_ | u, g2⟩
  · simp [hbranches] at hok
  · simp only [hbranches] at hok
    obtain ⟨traces, hall, htraces⟩ := ifBranches_trace l hl _ loop start_label break_label
      cont_label root.children _ g2 hbranches
    rw [entries_of_same (gen_label_functions _ _ _ _).1 (gen_label_functions _ _ _ _).2]
      at htraces
    have hentries : g1.entries = g.entries
        ++ ifChainEntries (g.gen_label root.tok false "ifend").1 root.children traces
        ++ (if root.children.length ≠ 1 then
              [{ opcode := .CREATE_LABEL, op1 := (g.gen_label root.tok false "ifend").1 }]
            else []) := by
      by_cases hone : root.children.length ≠ 1
      · rw [if_pos hone] at hok
        rw [if_pos hone, (builder_label_ok hok).1, htraces]
      · rw [if_neg hone] at hok
        simp only [Prod.mk.injEq, true_and] at hok
        rw [if_neg hone, ← hok, htraces]
        simp
    refine ⟨traces, hall, hentries, ?_, ?_⟩
    · intro hone
      rw [hentries, if_pos hone]
      simp
    · intro branch hbranch
      rw [hbranch] at hall
      cases hall with
      | cons hfirst hrest =>
        cases hrest
        rename_i t
        refine ⟨t, rfl, ?_⟩
        rw [hentries, hbranch]
        by_cases he : branch.type = .ELSE <;>
          simp [ifChainEntries, ifBranchEntries, he]

theorem ifstmt_entries_witness :
    (ifstmt exampleLowering exampleIf false emptyLabel emptyLabel emptyLabel
      exampleGenerator).1 = .ok ⟨⟩ ∧
    (ifstmt exampleLowering exampleIf false emptyLabel emptyLabel emptyLabel
      exampleGenerator).2.entries
      = [{ opcode := .LT,
           op1 := { dtype := .I32, operandType := .VAR, name := "i", operandId := 3 },
           op2 := createLiteralOperand .I32 3 4 },
         { opcode := .IF_FALSE_GOTO, op1 := createLabelOperand "_if_false_l3_c4" 2 },
         { opcode := .EQUAL, op1 := { dtype := .I32, operandType := .VAR, name := "i" },
           op2 := { dtype := .I32, operandType := .VAR, name := "j" } },
         { opcode := .GOTO, op1 := createLabelOperand "_ifend_false_l3_c1" 0 },
         { opcode := .CREATE_LABEL, op1 := createLabelOperand "_if_false_l3_c4" 2 },
         { opcode := .EQUAL, op1 := { dtype := .I32, operandType := .VAR, name := "i" },
           op2 := { dtype := .I32, operandType := .VAR, name := "k" } },
         { opcode := .CREATE_LABEL, op1 := createLabelOperand "_ifend_false_l3_c1" 0 }] ∧
    (ifstmt exampleLowering exampleIf false emptyLabel emptyLabel emptyLabel
      exampleGenerator).2.entries.getLast?
      = some { opcode := .CREATE_LABEL, op1 := createLabelOperand "_ifend_false_l3_c1" 0 } := by
  obtain ⟨_, _, _, h, _⟩ :=
    ifstmt_entries exampleLowering (exampleLowering_respects extends_invariant) exampleIf false
      emptyLabel emptyLabel emptyLabel exampleGenerator
      (ifstmt exampleLowering exampleIf false emptyLabel emptyLabel emptyLabel
        exampleGenerator).2 rfl
  exact ⟨rfl, rfl, h (by decide)⟩

end ir_generator

namespace ir_generator

/-- The failure of a call that throws neither of the two failures of a BREAK
or CONTINUE outside a loop. -/
theorem Keeps.quiet {α : Type} {g : ir_generator} {r : Lowered α}
    (h : Keeps (fun _ o _ => ∀ e, o = some e → outsideLoop e = false) g r) {e : Failure}
    (he : r.1 = .error e) : outsideLoop e = false :=
  h e (by simp [failureOf, he])

/-- A WHILE or FOR statement is lowered without regard to the loop context it
stands in. -/
theorem statement_loop (l : Lowering) (type : NodeType) (tok : Token) (children : List Node)
    (htype : type = .WHILE ∨ type = .FOR) (loop : Bool)
    (start_label break_label cont_label : Operand) (g : ir_generator) :
    statement l (.mk type tok children) loop start_label break_label cont_label g
      = statement l (.mk type tok children) true start_label break_label cont_label g := by
  rw [statement_eq, statement_eq]
  rcases htype with h | h <;> subst h
  · rw [if_neg (by decide), if_pos rfl, if_neg (by decide), if_pos rfl]
  · rw [if_neg (by decide), if_neg (by decide), if_pos rfl, if_neg (by decide),
      if_neg (by decide), if_pos rfl]

/-- A failure of the loop of `block` is the failure of one of the
statements. -/
theorem blockStatements_error (l : Lowering) (loop : Bool)
    (start_label break_label cont_label : Operand) (e : Failure) :
    ∀ (stmts : List Node) (g : ir_generator),
      (blockStatements l stmts loop start_label break_label cont_label g).1 = .error e →
      ∃ stmt ∈ stmts, ∃ h : ir_generator,
        (statement l stmt loop start_label break_label cont_label h).1 = .error e := by
  intro stmts
  induction stmts with
  | nil =>
    intro g h
    rw [blockStatements] at h
    simp at h
  | cons first rest ih =>
    intro g h
    rw [blockStatements_cons] at h
    rcases hfirst : statement l first loop start_label break_label cont_label g with
      ⟨_ | u, g2⟩
    · simp only [hfirst, Except.error.injEq] at h
      exact ⟨first, List.mem_cons_self _ _, g, by rw [hfirst, h]⟩
    · simp only [hfirst] at h
      obtain ⟨stmt, hmem, k, hk⟩ := ih g2 h
      exact ⟨stmt, List.mem_cons_of_mem _ hmem, k, hk⟩

/-- One of the two failures of a BREAK or CONTINUE outside a loop, thrown in
the loop of `ifstmt`, is thrown by the block of one of the branches. -/
theorem ifBranches_error (l : Lowering) (hl : l.NoOutsideLoop) (end_label : Operand)
    (loop : Bool) (start_label break_label cont_label : Operand) (e : Failure)
    (he : outsideLoop e = true) :
    ∀ (branches : List Node) (g : ir_generator),
      (ifBranches l end_label branches loop start_label break_label cont_label g).1
        = .error e →
      ∃ branch ∈ branches, ∃ inner, ifBody branch = some inner ∧ ∃ h : ir_generator,
        (block l inner loop start_label break_label cont_label h).1 = .error e := by
  intro branches
  induction branches with
  | nil =>
    intro g h
    rw [ifBranches_nil] at h
    simp at h
  | cons first rest ih =>
    intro g h
    obtain ⟨childType, childTok, childChildren⟩ := first
    have hquiet : ∀ {α : Type} (k : ir_generator) (r : Lowered α),
        Keeps (fun _ o _ => ∀ e, o = some e → outsideLoop e = false) k r →
        r.1 = .error e → False := fun k r hk hr => by
      have := Keeps.quiet hk hr
      rw [he] at this
      cases this
    have hrest : ∀ g2 : ir_generator,
        (ifBranches l end_label rest loop start_label break_label cont_label g2).1
          = .error e →
        ∃ branch ∈ Node.mk childType childTok childChildren :: rest, ∃ inner,
          ifBody branch = some inner ∧ ∃ h : ir_generator,
            (block l inner loop start_label break_label cont_label h).1 = .error e := by
      intro g2 h2
      obtain ⟨branch, hmem, inner, hinner, k, hk⟩ := ih g2 h2
      exact ⟨branch, List.mem_cons_of_mem _ hmem, inner, hinner, k, hk⟩
    rw [ifBranches_cons] at h
    simp only [] at h
    by_cases helse : childType ≠ .ELSE
    · rw [if_pos helse] at h
      cases childChildren with
      | nil =>
        simp only [Except.error.injEq] at h
        rw [← h] at he
        cases he
      | cons condition rest1 =>
        simp only [] at h
        rcases hcond : condn_expression l condition (g.gen_label childTok true "if").1
            ((g.gen_label childTok true "if").2.gen_label childTok false "if").1 true false
            ((g.gen_label childTok true "if").2.gen_label childTok false "if").2 with
          ⟨_ | u, ga⟩
        · simp only [hcond, Except.error.injEq] at h
          exact (hquiet _ _ (condn_expression_keeps noOutsideLoop_invariant l hl condition
            (g.gen_label childTok true "if").1
            ((g.gen_label childTok true "if").2.gen_label childTok false "if").1 true false
            ((g.gen_label childTok true "if").2.gen_label childTok false "if").2)
            (by rw [hcond, h])).elim
        · simp only [hcond] at h
          cases rest1 with
          | nil =>
            simp only [Except.error.injEq] at h
            rw [← h] at he
            cases he
          | cons body rest2 =>
            simp only [] at h
            rcases hbody : block l body loop start_label break_label cont_label ga with
              ⟨_ | u1, gb⟩
            · simp only [hbody, Except.error.injEq] at h
              exact ⟨_, List.mem_cons_self _ _, body, ifBody_branch _ _ _ _ _ helse, ga,
                by rw [hbody, h]⟩
            · simp only [hbody] at h
              by_cases hlast : rest.isEmpty = true
              · simp only [hlast, Bool.not_true, Bool.false_eq_true, if_false] at h
                rcases hlab : gb.builder_label
                    ((g.gen_label childTok true "if").2.gen_label childTok false "if").1 with
                  ⟨_ | u2, gc⟩
                · simp only [hlab, Except.error.injEq] at h
                  exact (hquiet _ _ (builder_label_keeps noOutsideLoop_invariant gb _)
                    (by rw [hlab, h])).elim
                · simp only [hlab] at h
                  exact hrest gc h
              · have hlast1 : rest.isEmpty = false := by simpa using hlast
                simp only [hlast1, Bool.not_false, if_true] at h
                rcases hgoto : gb.builder_createBranch .GOTO end_label with ⟨_ | u2, gc⟩
                · simp only [hgoto, Except.error.injEq] at h
                  exact (hquiet _ _ (builder_createBranch_keeps noOutsideLoop_invariant gb _ _)
                    (by rw [hgoto, h])).elim
                · simp only [hgoto] at h
                  rcases hlab : gc.builder_label
                      ((g.gen_label childTok true "if").2.gen_label childTok false "if").1
                    with ⟨_ | u3, gd⟩
                  · simp only [hlab, Except.error.injEq] at h
                    exact (hquiet _ _ (builder_label_keeps noOutsideLoop_invariant gc _)
                      (by rw [hlab, h])).elim
                  · simp only [hlab] at h
                    exact hrest gd h
    · rw [if_neg helse] at h
      cases childChildren with
      | nil =>
        simp only [Except.error.injEq] at h
        rw [← h] at he
        cases he
      | cons body rest1 =>
        simp only [] at h
        rcases hbody : block l body loop start_label break_label cont_label
            ((g.gen_label childTok true "if").2.gen_label childTok false "if").2 with
          ⟨_ | u1, gb⟩
        · simp only [hbody, Except.error.injEq] at h
          exact ⟨_, List.mem_cons_self _ _, body, ifBody_else _ _ _ _ helse, _,
            by rw [hbody, h]⟩
        · simp only [hbody] at h
          exact hrest gb h

end ir_generator

namespace ir_generator

/-- One of the two failures of a BREAK or CONTINUE outside a loop, thrown by
a statement or a block when the members taken as given throw neither: the
statement or block is not in a loop, and the failure is that of a BREAK or
CONTINUE statement in it that no nested loop encloses. -/
theorem statement_block_outsideLoop (l : Lowering) (hl : l.NoOutsideLoop) (e : Failure)
    (he : outsideLoop e = true) :
    ∀ (root : Node) (loop : Bool) (start_label break_label cont_label : Operand),
      (∀ g : ir_generator,
        (statement l root loop start_label break_label cont_label g).1 = .error e →
        loop = false ∧ ∃ target, Escapes root target ∧ OutsideLoopFailure target e) ∧
      (∀ g : ir_generator,
        (block l root loop start_label break_label cont_label g).1 = .error e →
        loop = false ∧ ∃ target, Reaches root target ∧ OutsideLoopFailure target e) := by
  intro root
  generalize hsize : sizeOf root = k
  induction k using Nat.strong_induction_on generalizing root with
  | _ k ih =>
    intro loop start_label break_label cont_label
    obtain ⟨type, tok, children⟩ := root
    have hquiet : ∀ {α : Type} (k : ir_generator) (r : Lowered α),
        Keeps (fun _ o _ => ∀ e, o = some e → outsideLoop e = false) k r →
        r.1 = .error e → False := fun k r hk hr => by
      have := Keeps.quiet hk hr
      rw [he] at this
      cases this
    constructor
    · intro g h
      by_cases hif : type = .IF
      · subst hif
        rw [statement_eq, if_pos rfl] at h
        simp only [] at h
        rcases hbranches : ifBranches l (g.gen_label tok false "ifend").1 children loop
            start_label break_label cont_label (g.gen_label tok false "ifend").2 with
          ⟨_ | u, g2⟩
        · simp only [hbranches, Except.error.injEq] at h
          obtain ⟨branch, hbranch, inner, hinner, k1, hk1⟩ := ifBranches_error l hl _ loop
            start_label break_label cont_label e he children _ (by rw [hbranches, h])
          have hlt : sizeOf inner < k := by
            rw [← hsize]
            refine Node.sizeOf_grandchild_lt _ tok children branch inner hbranch ?_
            unfold ifBody at hinner
            split at hinner
            · exact List.mem_of_mem_drop (List.mem_of_mem_head? hinner)
            · exact List.mem_of_mem_head? hinner
          obtain ⟨hloop, target, ⟨child, hchild, hnested⟩, hfailure⟩ :=
            (ih _ hlt inner rfl loop start_label break_label cont_label).2 k1 hk1
          exact ⟨hloop, target,
            .through _ branch inner child target rfl hbranch hinner hchild hnested, hfailure⟩
        · simp only [hbranches] at h
          split at h
          · exact (hquiet _ _ (builder_label_keeps noOutsideLoop_invariant g2 _) h).elim
          · simp at h
      · by_cases hloopStmt : type = .WHILE ∨ type = .FOR
        · rw [statement_loop l type tok children hloopStmt] at h
          exact (hquiet _ _ ((statement_block_keeps noOutsideLoop_invariant l hl
            (.mk type tok children) true start_label break_label cont_label
            (fun h => by cases h)).1 g) h).elim
        · simp only [not_or] at hloopStmt
          by_cases hbreak : type = .BREAK
          · rw [(statement_break_continue l (.mk type tok children) loop start_label
              break_label cont_label g).1 hbreak] at h
            cases loop with
            | true =>
              exact (hquiet _ _ (builder_createBranch_keeps noOutsideLoop_invariant g _ _)
                h).elim
            | false =>
              simp only [Bool.false_eq_true, if_false, Except.error.injEq] at h
              exact ⟨rfl, _, .self _, Or.inl ⟨hbreak, h.symm⟩⟩
          · by_cases hcontinue : type = .CONTINUE
            · rw [(statement_break_continue l (.mk type tok children) loop start_label
                break_label cont_label g).2 hcontinue] at h
              cases loop with
              | true =>
                exact (hquiet _ _ (builder_createBranch_keeps noOutsideLoop_invariant g _ _)
                  h).elim
              | false =>
                simp only [Bool.false_eq_true, if_false, Except.error.injEq] at h
                exact ⟨rfl, _, .self _, Or.inr ⟨hcontinue, h.symm⟩⟩
            · rw [statement_eq, if_neg hif, if_neg hloopStmt.1, if_neg hloopStmt.2] at h
              exact (hquiet _ _ (simpleStatement_keeps noOutsideLoop_invariant l hl
                (.mk type tok children) loop break_label cont_label g
                (fun _ hbc => by
                  rcases hbc with hb | hc
                  · exact absurd hb hbreak
                  · exact absurd hc hcontinue)) h).elim
    · intro g h
      rw [block_eq] at h
      rcases hstmts : blockStatements l children loop start_label break_label cont_label
          g.enter_scope with ⟨_ | u, g2⟩
      · simp only [hstmts, Except.error.injEq] at h
        obtain ⟨stmt, hmem, k1, hk1⟩ := blockStatements_error l loop start_label break_label
          cont_label e children g.enter_scope (by rw [hstmts, h])
        obtain ⟨hloop, target, hnested, hfailure⟩ :=
          (ih _ (hsize ▸ Node.sizeOf_child_lt type tok children stmt hmem) stmt rfl loop
            start_label break_label cont_label).1 k1 hk1
        exact ⟨hloop, target, ⟨stmt, hmem, hnested⟩, hfailure⟩
      · simp [hstmts] at h

end ir_generator

namespace ir_generator

/-- When `whileloop` returns, the body was lowered as a block in a loop, with
the exit label of the loop as break label and its entry label as continue
label. -/
theorem whileloop_body (l : Lowering) (root : Node) (g g1 : ir_generator)
    (hok : whileloop l root g = (.ok ⟨⟩, g1)) :
    ∃ (condition body : Node) (rest : List Node) (gb gc : ir_generator),
      root.children = condition :: body :: rest ∧
      block l body true (g.gen_label root.tok true "while").1
        ((g.gen_label root.tok true "while").2.gen_label root.tok false "while").1
        (g.gen_label root.tok true "while").1 gb = (.ok ⟨⟩, gc) := by
  unfold whileloop at hok
  rw [statement_eq] at hok
  rw [if_neg (by decide), if_pos rfl] at hok
  simp only [] at hok
  rcases hlabel :
    ((g.gen_label root.tok true "while").2.gen_label root.tok false "while").2.builder_label
      (g.gen_label root.tok true "while").1 with ⟨_ | u, ga⟩
  · simp [hlabel] at hok
  · simp only [hlabel] at hok
    cases hchildren : root.children with
    | nil => simp [hchildren] at hok
    | cons condition rest0 =>
      simp only [hchildren] at hok
      rcases hcond : condn_expression l condition (g.gen_label root.tok true "while").1
          ((g.gen_label root.tok true "while").2.gen_label root.tok false "while").1
          true false ga with ⟨_ | u1, gb⟩
      · simp [hcond] at hok
      · simp only [hcond] at hok
        cases rest0 with
        | nil => simp at hok
        | cons body rest =>
          simp only [] at hok
          rcases hbody : block l body true (g.gen_label root.tok true "while").1
              ((g.gen_label root.tok true "while").2.gen_label root.tok false "while").1
              (g.gen_label root.tok true "while").1 gb with ⟨_ | u2, gc⟩
          · simp [hbody] at hok
          · exact ⟨condition, body, rest, gb, gc, rfl, hbody⟩

/-- When `forloop` returns, the body was lowered as a block in a loop, with
the exit label of the loop as break label and its cont label as continue
label. -/
theorem forloop_body (l : Lowering) (root : Node) (g g1 : ir_generator)
    (hok : forloop l root g = (.ok ⟨⟩, g1)) :
    ∃ (init condition step body : Node) (rest : List Node) (ga gc gd : ir_generator),
      root.children = init :: condition :: step :: body :: rest ∧
      block l body true (forLabels ga root.tok).entry (forLabels ga root.tok).exit
        (forLabels ga root.tok).cont gc = (.ok ⟨⟩, gd) := by
  unfold forloop at hok
  rw [statement_eq] at hok
  rw [if_neg (by decide), if_neg (by decide), if_pos rfl] at hok
  cases hchildren : root.children with
  | nil => simp [hchildren] at hok
  | cons init rest0 =>
    simp only [hchildren] at hok
    rcases hinit : (if init.type = .VAR then l.var init g else l.assignment init g) with
      ⟨_ | u, ga⟩
    · simp [hinit] at hok
    · simp only [hinit] at hok
      rcases hlabel : (forLabels ga root.tok).state.builder_label (forLabels ga root.tok).entry
        with ⟨_ | u0, gb⟩
      · simp only [forLabels] at hlabel
        simp [hlabel] at hok
      · simp only [forLabels] at hlabel
        simp only [hlabel] at hok
        cases rest0 with
        | nil => simp at hok
        | cons condition rest1 =>
          simp only [] at hok
          rcases hcond : condn_expression l condition (forLabels ga root.tok).entry
              (forLabels ga root.tok).exit true false gb with ⟨_ | u1, gc⟩
          · simp only [forLabels] at hcond
            simp [hcond] at hok
          · simp only [forLabels] at hcond
            simp only [hcond] at hok
            cases rest1 with
            | nil => simp at hok
            | cons step rest2 =>
              cases rest2 with
              | nil => simp at hok
              | cons body rest =>
                simp only [] at hok
                rcases hbody : block l body true (forLabels ga root.tok).entry
                    (forLabels ga root.tok).exit (forLabels ga root.tok).cont gc with
                  ⟨_ | u2, gd⟩
                · simp only [forLabels] at hbody
                  simp [hbody] at hok
                · exact ⟨init, condition, step, body, rest, ga, gc, gd, rfl, hbody⟩

/-- In a block that is lowered in a loop, each BREAK outside nested loops is
one GOTO to the break label and each CONTINUE one GOTO to the continue
label. -/
theorem block_break_continue (l : Lowering) (body : Node)
    (start_label break_label cont_label : Operand) (g g1 : ir_generator)
    (hok : block l body true start_label break_label cont_label g = (.ok ⟨⟩, g1))
    (target : Node) (hreach : Reaches body target) :
    (target.type = .BREAK → ∃ h h1 : ir_generator,
      statement l target true start_label break_label cont_label h = (.ok ⟨⟩, h1) ∧
      h1.entries = h.entries ++ [{ opcode := .GOTO, op1 := break_label }] ∧
      (l.AppendOnly → Extends g h ∧ Extends h1 g1)) ∧
    (target.type = .CONTINUE → ∃ h h1 : ir_generator,
      statement l target true start_label break_label cont_label h = (.ok ⟨⟩, h1) ∧
      h1.entries = h.entries ++ [{ opcode := .GOTO, op1 := cont_label }] ∧
      (l.AppendOnly → Extends g h ∧ Extends h1 g1)) := by
  obtain ⟨h, h1, htarget, hext⟩ := block_reaches l body target hreach true start_label
    break_label cont_label g g1 hok
  constructor
  · intro hbreak
    refine ⟨h, h1, htarget, ?_, hext⟩
    rw [(statement_break_continue l target true _ _ _ h).1 hbreak] at htarget
    exact (builder_createBranch_ok htarget).1
  · intro hcontinue
    refine ⟨h, h1, htarget, ?_, hext⟩
    rw [(statement_break_continue l target true _ _ _ h).2 hcontinue] at htarget
    exact (builder_createBranch_ok htarget).1

/-- A block that is not in a loop returns only if no BREAK or CONTINUE is in
it outside nested loops. -/
theorem block_no_break_continue (l : Lowering) (body : Node)
    (start_label break_label cont_label : Operand) (g g1 : ir_generator)
    (hok : block l body false start_label break_label cont_label g = (.ok ⟨⟩, g1))
    (target : Node) (hreach : Reaches body target) :
    target.type ≠ .BREAK ∧ target.type ≠ .CONTINUE := by
  obtain ⟨h, h1, htarget, _⟩ := block_reaches l body target hreach false start_label
    break_label cont_label g g1 hok
  constructor
  · intro hbreak
    rw [(statement_break_continue l target false _ _ _ h).1 hbreak] at htarget
    simp at htarget
  · intro hcontinue
    rw [(statement_break_continue l target false _ _ _ h).2 hcontinue] at htarget
    simp at htarget

end ir_generator

namespace ir_generator

/-- C26: BREAK and CONTINUE against the loop context.  A BREAK or CONTINUE
statement lowered outside a loop is the compile error "BREAK outside loop" or
"CONTINUE outside loop", and lowered in a loop it is one GOTO.  A block that
is not in a loop, as the function bodies that `program` lowers with
`loop = false`, returns only if no BREAK or CONTINUE is in it but inside a
WHILE or FOR (through any number of IF, ELSEIF and ELSE blocks); and when the
members taken as given throw neither error, a block that fails with one of
the two is not in a loop and has such a BREAK or CONTINUE, of the kind the
error names.  In a block lowered in a loop, each BREAK outside nested loops is
one GOTO to the break label of the block and each CONTINUE one GOTO to its
continue label; `whileloop` lowers its body with its exit label and entry
label as these, `forloop` with its exit label and cont label: the labels of
the innermost enclosing loop. -/
theorem break_continue_loop_context (l : Lowering) :
    (∀ (stmt : Node) (start_label break_label cont_label : Operand) (g : ir_generator),
      (stmt.type = .BREAK →
        statement l stmt false start_label break_label cont_label g
          = (.error (.compileError "BREAK outside loop"), g) ∧
        statement l stmt true start_label break_label cont_label g
          = g.builder_createBranch .GOTO break_label) ∧
      (stmt.type = .CONTINUE →
        statement l stmt false start_label break_label cont_label g
          = (.error (.compileError "CONTINUE outside loop"), g) ∧
        statement l stmt true start_label break_label cont_label g
          = g.builder_createBranch .GOTO cont_label)) ∧
    (∀ (body : Node) (start_label break_label cont_label : Operand) (g g1 : ir_generator),
      block l body false start_label break_label cont_label g = (.ok ⟨⟩, g1) →
      ∀ target, Reaches body target → target.type ≠ .BREAK ∧ target.type ≠ .CONTINUE) ∧
    (∀ (h : Handlers) (child body : Node) (g g1 : ir_generator),
      h.block = blockHandler l → child.type = .FUNCTION →
      child.children.getLast? = some body → programFunctionBlock h child g = .ok g1 →
      ∀ target, Reaches body target → target.type ≠ .BREAK ∧ target.type ≠ .CONTINUE) ∧
    (l.NoOutsideLoop →
      ∀ (body : Node) (loop : Bool) (start_label break_label cont_label : Operand)
        (g : ir_generator) (e : Failure),
      (block l body loop start_label break_label cont_label g).1 = .error e →
      outsideLoop e = true →
      loop = false ∧ ∃ target, Reaches body target ∧ OutsideLoopFailure target e) ∧
    (∀ (body : Node) (start_label break_label cont_label : Operand) (g g1 : ir_generator),
      block l body true start_label break_label cont_label g = (.ok ⟨⟩, g1) →
      ∀ target, Reaches body target →
        (target.type = .BREAK → ∃ h h1 : ir_generator,
          statement l target true start_label break_label cont_label h = (.ok ⟨⟩, h1) ∧
          h1.entries = h.entries ++ [{ opcode := .GOTO, op1 := break_label }] ∧
          (l.AppendOnly → Extends g h ∧ Extends h1 g1)) ∧
        (target.type = .CONTINUE → ∃ h h1 : ir_generator,
          statement l target true start_label break_label cont_label h = (.ok ⟨⟩, h1) ∧
          h1.entries = h.entries ++ [{ opcode := .GOTO, op1 := cont_label }] ∧
          (l.AppendOnly → Extends g h ∧ Extends h1 g1))) ∧
    (∀ (root : Node) (g g1 : ir_generator), whileloop l root g = (.ok ⟨⟩, g1) →
      ∃ (condition body : Node) (rest : List Node) (gb gc : ir_generator),
        root.children = condition :: body :: rest ∧
        block l body true (g.gen_label root.tok true "while").1
          ((g.gen_label root.tok true "while").2.gen_label root.tok false "while").1
          (g.gen_label root.tok true "while").1 gb = (.ok ⟨⟩, gc)) ∧
    (∀ (root : Node) (g g1 : ir_generator), forloop l root g = (.ok ⟨⟩, g1) →
      ∃ (init condition step body : Node) (rest : List Node) (ga gc gd : ir_generator),
        root.children = init :: condition :: step :: body :: rest ∧
        block l body true (forLabels ga root.tok).entry (forLabels ga root.tok).exit
          (forLabels ga root.tok).cont gc = (.ok ⟨⟩, gd)) := by
  refine ⟨?_, ?_, ?_, ?_, ?_, whileloop_body l, forloop_body l⟩
  · intro stmt start_label break_label cont_label g
    constructor
    · intro hbreak
      exact ⟨(statement_break_continue l stmt false _ _ _ g).1 hbreak,
        (statement_break_continue l stmt true _ _ _ g).1 hbreak⟩
    · intro hcontinue
      exact ⟨(statement_break_continue l stmt false _ _ _ g).2 hcontinue,
        (statement_break_continue l stmt true _ _ _ g).2 hcontinue⟩
  · intro body start_label break_label cont_label g g1 hok target hreach
    exact block_no_break_continue l body _ _ _ g g1 hok target hreach
  · intro h child body g g1 hblock hfunction hlast hok target hreach
    unfold programFunctionBlock at hok
    rw [if_pos hfunction, hlast] at hok
    cases hfirst : child.children.head? with
    | none => simp [hfirst] at hok
    | some first =>
      simp only [hfirst, hblock, blockHandler] at hok
      rcases hbody : block l body false emptyLabel emptyLabel emptyLabel
          (g.enterFunction first.tok.string) with ⟨_ | u, g2⟩
      · simp [hbody] at hok
      · exact block_no_break_continue l body _ _ _ _ g2 hbody target hreach
  · intro hl body loop start_label break_label cont_label g e herror he
    exact (statement_block_outsideLoop l hl e he body loop start_label break_label
      cont_label).2 g herror
  · intro body start_label break_label cont_label g g1 hok target hreach
    exact block_break_continue l body _ _ _ g g1 hok target hreach

theorem break_continue_loop_context_witness :
    statement exampleLowering (.mk .BREAK { string := "break" } []) false emptyLabel emptyLabel
        emptyLabel exampleGenerator
      = (.error (.compileError "BREAK outside loop"), exampleGenerator) ∧
    (block exampleLowering (.mk .BLOCK {} [exampleIfBreak]) false emptyLabel emptyLabel
        emptyLabel exampleGenerator).1 = .error (.compileError "BREAK outside loop") ∧
    (block exampleLowering (.mk .BLOCK {} [exampleWhileBreak]) false emptyLabel emptyLabel
        emptyLabel exampleGenerator).1 = .ok ⟨⟩ ∧
    (block exampleLowering (.mk .BLOCK {} [exampleWhileBreak]) false emptyLabel emptyLabel
        emptyLabel exampleGenerator).2.entries
      = [{ opcode := .CREATE_LABEL, op1 := createLabelOperand "_while_true_l1_c1" 0 },
         { opcode := .LT,
           op1 := { dtype := .I32, operandType := .VAR, name := "i", operandId := 2 },
           op2 := createLiteralOperand .I32 3 3 },
         { opcode := .IF_FALSE_GOTO, op1 := createLabelOperand "_while_false_l1_c1" 1 },
         { opcode := .LT,
           op1 := { dtype := .I32, operandType := .VAR, name := "i", operandId := 7 },
           op2 := createLiteralOperand .I32 3 8 },
         { opcode := .IF_FALSE_GOTO, op1 := createLabelOperand "_if_false_l3_c4" 6 },
         { opcode := .GOTO, op1 := createLabelOperand "_while_false_l1_c1" 1 },
         { opcode := .CREATE_LABEL, op1 := createLabelOperand "_if_false_l3_c4" 6 },
         { opcode := .GOTO, op1 := createLabelOperand "_while_true_l1_c1" 0 },
         { opcode := .CREATE_LABEL, op1 := createLabelOperand "_while_false_l1_c1" 1 }] ∧
    (exampleWhileBreak.type ≠ .BREAK ∧ exampleWhileBreak.type ≠ .CONTINUE) :=
  ⟨(((break_continue_loop_context exampleLowering).1 (.mk .BREAK { string := "break" } [])
      emptyLabel emptyLabel emptyLabel exampleGenerator).1 rfl).1,
   rfl, rfl, rfl,
   (break_continue_loop_context exampleLowering).2.1 (.mk .BLOCK {} [exampleWhileBreak])
      emptyLabel emptyLabel emptyLabel exampleGenerator
      (block exampleLowering (.mk .BLOCK {} [exampleWhileBreak]) false emptyLabel emptyLabel
        emptyLabel exampleGenerator).2 rfl exampleWhileBreak
      ⟨exampleWhileBreak, List.Mem.head _, .self _⟩⟩

end ir_generator

/-! ### Scope ids, indexing, conditions, variable access, type nodes, imports -/

/-- C39: `dataTypeIsEqual` is not an equivalence relation: it is not
transitive, since I8 matches AUTO_INT and AUTO_INT matches I32 while I8 does
not match I32 (and likewise F32, AUTO_FLOAT, F64); on the concrete types,
which exclude AUTO_INT and AUTO_FLOAT, it coincides with equality. -/
theorem dataTypeIsEqual_not_transitive :
    (dataTypeIsEqual .I8 .AUTO_INT = true ∧ dataTypeIsEqual .AUTO_INT .I32 = true ∧
      dataTypeIsEqual .I8 .I32 = false) ∧
    (¬ ∀ a b c : DataType, dataTypeIsEqual a b = true → dataTypeIsEqual b c = true →
      dataTypeIsEqual a c = true) ∧
    (∀ a b : DataType, isConcrete a = true → isConcrete b = true →
      (dataTypeIsEqual a b = true ↔ a = b)) := by
  refine ⟨by decide, ?_, ?_⟩
  · intro h
    exact absurd (h .I8 .AUTO_INT .I32 (by decide) (by decide)) (by decide)
  · intro a b
    cases a <;> cases b <;> decide

theorem dataTypeIsEqual_not_transitive_witness :
    isConcrete .I32 = true ∧ isConcrete .UI32 = true ∧
    (dataTypeIsEqual .I32 .UI32 = true ↔ DataType.I32 = DataType.UI32) ∧
    dataTypeIsEqual .I32 .UI32 = false :=
  ⟨by decide, by decide,
   dataTypeIsEqual_not_transitive.2.2 .I32 .UI32 (by decide) (by decide), by decide⟩

/-- C38 at a failing input: the arrays `int[1][23]` and `int[12][3]` of module
`m` agree in module name, type name and pointer-ness and have different
dimension lists, and their instantiation strings are equal, whatever
`mangleModuleName` is: `dimensionToString` gives `123` for both.  So they
share the instantiation suffix and, for a generic module `List`, the
instantiated module name. -/
theorem instantiationStringFromType_shapes_collide :
    exampleShapeA.moduleName = exampleShapeB.moduleName ∧
    exampleShapeA.dtypeName = exampleShapeB.dtypeName ∧
    exampleShapeA.isPointer = exampleShapeB.isPointer ∧
    exampleShapeA.isArray = true ∧ exampleShapeB.isArray = true ∧
    exampleShapeA.dimensions ≠ exampleShapeB.dimensions ∧
    dimensionToString exampleShapeA.dimensions = "123" ∧
    dimensionToString exampleShapeB.dimensions = "123" ∧
    instantiationStringFromType (fun name => name) exampleShapeA = "m_int_array123" ∧
    instantiationStringFromType (fun name => name) exampleShapeB = "m_int_array123" ∧
    (∀ mangleModuleName : String → String,
      instantiationStringFromType mangleModuleName exampleShapeA
        = instantiationStringFromType mangleModuleName exampleShapeB ∧
      getInstantiatedModuleName
          (constructInstantiationSuffix mangleModuleName [exampleShapeA]) "List"
        = getInstantiatedModuleName
            (constructInstantiationSuffix mangleModuleName [exampleShapeB]) "List") := by
  refine ⟨rfl, rfl, rfl, by decide, by decide, by decide, by decide, by decide, by decide,
    by decide, ?_⟩
  intro mangleModuleName
  have h : instantiationStringFromType mangleModuleName exampleShapeA
      = instantiationStringFromType mangleModuleName exampleShapeB := by
    have ha : dimensionToString exampleShapeA.dimensions = "123" := by decide
    have hb : dimensionToString exampleShapeB.dimensions = "123" := by decide
    have h1 : exampleShapeA.isArray = true := by decide
    have h2 : exampleShapeB.isArray = true := by decide
    have h3 : exampleShapeA.isPointer = false := by decide
    have h4 : exampleShapeB.isPointer = false := by decide
    simp only [instantiationStringFromType, ha, hb, h1, h2, h3, h4, if_true]
    rfl
  refine ⟨h, ?_⟩
  simp only [constructInstantiationSuffix, List.foldl_cons, List.foldl_nil, h]

namespace ir_generator

theorem runScopeCalls_append (xs ys : List ScopeCall) (g : ir_generator) :
    runScopeCalls (xs ++ ys) g = runScopeCalls ys (runScopeCalls xs g) := by
  induction xs generalizing g with
  | nil => rfl
  | cons c xs ih => exact ih (c.run g)

theorem enters_append (xs ys : List ScopeCall) : enters (xs ++ ys) = enters xs + enters ys := by
  induction xs with
  | nil => simp [enters]
  | cons c xs ih =>
    cases c with
    | enter =>
      show enters (xs ++ ys) + 1 = enters xs + 1 + enters ys
      rw [ih]; omega
    | exit => exact ih

theorem scopeDepth_nil (d : Nat) : scopeDepth d [] = some d := rfl

theorem scopeDepth_enter (d : Nat) (calls : List ScopeCall) :
    scopeDepth d (.enter :: calls) = scopeDepth (d + 1) calls := rfl

theorem scopeDepth_exit_zero (calls : List ScopeCall) :
    scopeDepth 0 (.exit :: calls) = none := rfl

theorem scopeDepth_exit_succ (d : Nat) (calls : List ScopeCall) :
    scopeDepth (d + 1) (.exit :: calls) = scopeDepth d calls := rfl

theorem scopeDepth_append (xs ys : List ScopeCall) (d : Nat) :
    scopeDepth d (xs ++ ys) = (scopeDepth d xs).bind (fun k => scopeDepth k ys) := by
  induction xs generalizing d with
  | nil => rw [List.nil_append, scopeDepth_nil]; rfl
  | cons c xs ih =>
    cases c with
    | enter => rw [List.cons_append, scopeDepth_enter, scopeDepth_enter]; exact ih (d + 1)
    | exit =>
      cases d with
      | zero => rw [List.cons_append, scopeDepth_exit_zero, scopeDepth_exit_zero]; rfl
      | succ d =>
        rw [List.cons_append, scopeDepth_exit_succ, scopeDepth_exit_succ]; exact ih d

theorem ScopeInv.clear (g : ir_generator) : ScopeInv g.clear_scope :=
  ⟨by simp [clear_scope], rfl, by simp [clear_scope]⟩

theorem ScopeInv.enter {g : ir_generator} (h : ScopeInv g)
    (hb : g.scope_id_counter + 1 < 4294967296) :
    ScopeInv g.enter_scope ∧ g.enter_scope.scope_id_counter = g.scope_id_counter + 1 ∧
      g.enter_scope.scope_id_stack = g.scope_id_stack ++ [g.scope_id_counter + 1] := by
  have hm : (g.scope_id_counter + 1) % 4294967296 = g.scope_id_counter + 1 := Nat.mod_eq_of_lt hb
  refine ⟨⟨?_, ?_, ?_⟩, ?_, ?_⟩
  · simp only [enter_scope, hm, List.pairwise_append, List.pairwise_cons, List.mem_singleton]
    refine ⟨h.sorted, ⟨by simp, List.Pairwise.nil⟩, ?_⟩
    intro a ha b hb2
    have := h.bounded a ha
    omega
  · have hb0 := h.bottom
    simp only [enter_scope]
    cases hs : g.scope_id_stack with
    | nil => rw [hs] at hb0; simp at hb0
    | cons x xs => rw [hs] at hb0; simpa using hb0
  · intro x hx
    simp only [enter_scope, hm, List.mem_append, List.mem_singleton] at hx ⊢
    rcases hx with hx | hx
    · have := h.bounded x hx
      omega
    · omega
  · simp only [enter_scope, hm]
  · simp only [enter_scope, hm]

theorem ScopeInv.exit {g : ir_generator} (h : ScopeInv g) (hl : 2 ≤ g.scope_id_stack.length) :
    ScopeInv g.exit_scope := by
  refine ⟨?_, ?_, ?_⟩
  · exact List.Pairwise.sublist (List.dropLast_sublist _) h.sorted
  · have hb0 := h.bottom
    simp only [exit_scope]
    cases hs : g.scope_id_stack with
    | nil => rw [hs] at hl; simp at hl
    | cons x xs =>
      rw [hs] at hb0 hl
      cases xs with
      | nil => simp at hl
      | cons y ys => simpa using hb0
  · intro x hx
    exact h.bounded x (List.mem_of_mem_dropLast hx)

/-- Running a well nested sequence of calls that does not take the counter to
2^32 keeps the scope invariant; the counter advances by the number of enters
and the stack height follows the nesting depth. -/
theorem runScopeCalls_inv (calls : List ScopeCall) :
    ∀ (g : ir_generator) (d k : Nat), ScopeInv g → g.scope_id_stack.length = d + 1 →
      scopeDepth d calls = some k → g.scope_id_counter + enters calls < 4294967296 →
      ScopeInv (runScopeCalls calls g) ∧
        (runScopeCalls calls g).scope_id_stack.length = k + 1 ∧
        (runScopeCalls calls g).scope_id_counter = g.scope_id_counter + enters calls := by
  induction calls with
  | nil =>
    intro g d k h hl hd _
    rw [scopeDepth_nil, Option.some.injEq] at hd
    subst hd
    exact ⟨h, hl, rfl⟩
  | cons c calls ih =>
    intro g d k h hl hd hb
    cases c with
    | enter =>
      simp only [enters] at hb
      rw [scopeDepth_enter] at hd
      obtain ⟨h1, hc, hs⟩ := h.enter (by omega)
      have := ih g.enter_scope (d + 1) k h1 (by rw [hs]; simp [hl]) hd (by rw [hc]; omega)
      refine ⟨this.1, this.2.1, ?_⟩
      show (runScopeCalls calls g.enter_scope).scope_id_counter = _
      rw [this.2.2, hc]
      simp only [enters]
      omega
    | exit =>
      cases d with
      | zero => simp [scopeDepth] at hd
      | succ d =>
        simp only [enters] at hb
        rw [scopeDepth_exit_succ] at hd
        have h1 := h.exit (by omega)
        have := ih g.exit_scope d k h1 (by simp [exit_scope, hl]) hd
          (by simpa [exit_scope] using hb)
        refine ⟨this.1, this.2.1, ?_⟩
        show (runScopeCalls calls g.exit_scope).scope_id_counter = _
        rw [this.2.2]
        simp [exit_scope, enters]

/-- A sequence that closes every scope it opens leaves the stack as it found
it, whatever the counter does. -/
theorem runScopeCalls_stack (calls : List ScopeCall) :
    ∀ (g : ir_generator) (base ext : List Nat) (k : Nat),
      g.scope_id_stack = base ++ ext → scopeDepth ext.length calls = some k →
      ∃ ext1, (runScopeCalls calls g).scope_id_stack = base ++ ext1 ∧ ext1.length = k := by
  induction calls with
  | nil =>
    intro g base ext k hs hd
    rw [scopeDepth_nil, Option.some.injEq] at hd
    exact ⟨ext, hs, hd⟩
  | cons c calls ih =>
    intro g base ext k hs hd
    cases c with
    | enter =>
      refine ih g.enter_scope base (ext ++ [(g.scope_id_counter + 1) % 4294967296]) k ?_ ?_
      · simp [enter_scope, hs]
      · rw [scopeDepth_enter] at hd
        simpa using hd
    | exit =>
      cases hext : ext.length with
      | zero => rw [hext] at hd; simp [scopeDepth] at hd
      | succ d =>
        rw [hext] at hd
        have hne : ext ≠ [] := by
          intro h0
          rw [h0] at hext
          simp at hext
        refine ih g.exit_scope base ext.dropLast k ?_ ?_
        · simp only [exit_scope, hs]
          exact List.dropLast_append_of_ne_nil _ hne
        · rw [scopeDepth_exit_succ] at hd
          simpa [hext] using hd

theorem scopeDepth_some_of_append {xs ys : List ScopeCall} {d : Nat}
    (h : (scopeDepth d (xs ++ ys)).isSome = true) : ∃ k, scopeDepth d xs = some k ∧
      (scopeDepth k ys).isSome = true := by
  rw [scopeDepth_append] at h
  cases hx : scopeDepth d xs with
  | none => rw [hx] at h; simp at h
  | some k => rw [hx] at h; exact ⟨k, rfl, by simpa using h⟩

/-- After an id has been popped, no later state has it in scope, while the
counter does not wrap: later ids are above the counter of that time. -/
theorem runScopeCalls_fresh (calls : List ScopeCall) (i c0 : Nat) :
    ∀ (g : ir_generator) (d k : Nat), ScopeInv g → g.scope_id_stack.length = d + 1 →
      scopeDepth d calls = some k → g.scope_id_counter + enters calls < 4294967296 →
      c0 ≤ g.scope_id_counter → i ≤ c0 →
      (∀ x ∈ g.scope_id_stack, x < i ∨ c0 < x) →
      ∀ x ∈ (runScopeCalls calls g).scope_id_stack, x < i ∨ c0 < x := by
  induction calls with
  | nil =>
    intro g d k _ _ _ _ _ _ hx
    exact hx
  | cons c calls ih =>
    intro g d k h hl hd hb hc hi hx
    cases c with
    | enter =>
      simp only [enters] at hb
      rw [scopeDepth_enter] at hd
      obtain ⟨h1, hcn, hs⟩ := h.enter (by omega)
      refine ih g.enter_scope (d + 1) k h1 (by rw [hs]; simp [hl]) hd (by rw [hcn]; omega)
        (by rw [hcn]; omega) hi ?_
      intro x hxm
      rw [hs, List.mem_append, List.mem_singleton] at hxm
      rcases hxm with hxm | hxm
      · exact hx x hxm
      · right; omega
    | exit =>
      cases d with
      | zero => simp [scopeDepth] at hd
      | succ d =>
        simp only [enters] at hb
        rw [scopeDepth_exit_succ] at hd
        have h1 := h.exit (by omega)
        refine ih g.exit_scope d k h1 (by simp [exit_scope, hl]) hd
          (by simpa [exit_scope] using hb) (by simpa [exit_scope] using hc) hi ?_
        intro x hxm
        exact hx x (List.mem_of_mem_dropLast hxm)

theorem runScopeCalls_enterExitPairs (n : Nat) :
    ∀ g : ir_generator, (runScopeCalls (enterExitPairs n) g).scope_id_stack = g.scope_id_stack ∧
      (runScopeCalls (enterExitPairs n) g).scope_id_counter
        = (g.scope_id_counter + n) % 4294967296 ∨
      (n = 0 ∧ runScopeCalls (enterExitPairs n) g = g) := by
  induction n with
  | zero => intro g; exact Or.inr ⟨rfl, rfl⟩
  | succ n ih =>
    intro g
    left
    have hstep : runScopeCalls (enterExitPairs (n + 1)) g
        = runScopeCalls (enterExitPairs n) g.enter_scope.exit_scope := rfl
    have hs : g.enter_scope.exit_scope.scope_id_stack = g.scope_id_stack := by
      simp [enter_scope, exit_scope]
    have hc : g.enter_scope.exit_scope.scope_id_counter
        = (g.scope_id_counter + 1) % 4294967296 := rfl
    rw [hstep]
    rcases ih g.enter_scope.exit_scope with ⟨h1, h2⟩ | ⟨h0, h1⟩
    · refine ⟨by rw [h1, hs], ?_⟩
      rw [h2, hc]
      omega
    · subst h0
      rw [h1]
      exact ⟨hs, by rw [hc]⟩

theorem scopeDepth_enterExitPairs (n d : Nat) (rest : List ScopeCall) :
    scopeDepth d (enterExitPairs n ++ rest) = scopeDepth d rest := by
  induction n with
  | zero => rfl
  | succ n ih =>
    show scopeDepth d (.enter :: .exit :: (enterExitPairs n ++ rest)) = _
    rw [scopeDepth_enter, scopeDepth_exit_succ]
    exact ih

/-- C40, counterexample: the counter is an `unsigned int`.  After
`clear_scope`, 2^32 - 1 pairs of `enter_scope` and `exit_scope` and one more
`enter_scope` (a sequence in which no beginning has more exits than enters)
leave the stack `[0, 0]`, which is not strictly increasing: the last enter
pushed the id 0 of the bottom scope.  After 2^32 pairs and one more enter the
stack is `[0, 1]`: the id 1, pushed by the first enter and popped by the first
exit, is in scope again. -/
theorem scope_ids_reused_after_wrap :
    (scopeDepth 0 (enterExitPairs 4294967295 ++ [.enter])).isSome = true ∧
    (runScopeCalls (enterExitPairs 4294967295 ++ [.enter])
        (clear_scope {})).scope_id_stack = [0, 0] ∧
    ¬ List.Pairwise (· < ·) (runScopeCalls (enterExitPairs 4294967295 ++ [.enter])
        (clear_scope {})).scope_id_stack ∧
    (scopeDepth 0 (enterExitPairs 4294967296 ++ [.enter])).isSome = true ∧
    get_scope_id (runScopeCalls [.enter] (clear_scope {})) = some 1 ∧
    in_scope (runScopeCalls [.enter, .exit] (clear_scope {})) 1 = false ∧
    (runScopeCalls (enterExitPairs 4294967296 ++ [.enter])
        (clear_scope {})).scope_id_stack = [0, 1] ∧
    in_scope (runScopeCalls (enterExitPairs 4294967296 ++ [.enter]) (clear_scope {})) 1
      = true := by
  have run : ∀ n : Nat, 0 < n →
      (runScopeCalls (enterExitPairs n ++ [.enter]) (clear_scope {})).scope_id_stack
        = [0, (n % 4294967296 + 1) % 4294967296] := by
    intro n hn
    rw [runScopeCalls_append]
    rcases runScopeCalls_enterExitPairs n (clear_scope {}) with ⟨h1, h2⟩ | ⟨h0, _⟩
    · show (enter_scope _).scope_id_stack = _
      simp only [enter_scope, h1, h2]
      simp [clear_scope]
    · omega
  have h1 := run 4294967295 (by decide)
  have h2 := run 4294967296 (by decide)
  have e1 : (4294967295 % 4294967296 + 1) % 4294967296 = 0 := by decide
  have e2 : (4294967296 % 4294967296 + 1) % 4294967296 = 1 := by decide
  rw [e1] at h1
  rw [e2] at h2
  refine ⟨?_, h1, ?_, ?_, by decide, by decide, h2, ?_⟩
  · rw [scopeDepth_enterExitPairs]; rfl
  · rw [h1]; decide
  · rw [scopeDepth_enterExitPairs]; rfl
  · simp only [in_scope, h2]; decide

/-- C40, amended: starting from `clear_scope`, after every sequence of
`enter_scope` / `exit_scope` calls in which no beginning has more exits than
enters and which has fewer than 2^32 enters, the scope-id stack is strictly
increasing from bottom to top with bottom element 0; `get_scope_id` returns 0
when every scope is closed, and otherwise the id pushed by the innermost open
`enter_scope`, which is the number of that enter among the enters; and an id
popped by an `exit_scope` is not in scope after any later call. -/
theorem scope_ids_not_reused (g : ir_generator) (calls : List ScopeCall)
    (hnest : (scopeDepth 0 calls).isSome = true) (hbound : enters calls < 4294967296) :
    List.Pairwise (· < ·) (runScopeCalls calls g.clear_scope).scope_id_stack ∧
    (runScopeCalls calls g.clear_scope).scope_id_stack.head? = some 0 ∧
    (scopeDepth 0 calls = some 0 → (runScopeCalls calls g.clear_scope).get_scope_id = some 0) ∧
    (∀ pre post : List ScopeCall, calls = pre ++ .enter :: post → scopeDepth 0 post = some 0 →
      (runScopeCalls (pre ++ [.enter]) g.clear_scope).get_scope_id = some (enters pre + 1) ∧
      (runScopeCalls calls g.clear_scope).get_scope_id = some (enters pre + 1)) ∧
    (∀ (pre post : List ScopeCall) (i : Nat), calls = pre ++ .exit :: post →
      (runScopeCalls pre g.clear_scope).get_scope_id = some i →
      (runScopeCalls calls g.clear_scope).in_scope i = false) := by
  have hc0 : g.clear_scope.scope_id_counter = 0 := rfl
  have hl0 : g.clear_scope.scope_id_stack.length = 0 + 1 := rfl
  obtain ⟨k, hk⟩ := Option.isSome_iff_exists.mp hnest
  obtain ⟨hinv, -, -⟩ := runScopeCalls_inv calls g.clear_scope 0 k (ScopeInv.clear g) hl0 hk
    (by rw [hc0]; omega)
  refine ⟨hinv.sorted, hinv.bottom, ?_, ?_, ?_⟩
  · intro hd
    obtain ⟨ext1, hs, hlen⟩ := runScopeCalls_stack calls g.clear_scope [0] [] 0 rfl hd
    have : ext1 = [] := List.length_eq_zero.mp hlen
    subst this
    simp only [get_scope_id, hs]
    rfl
  · intro pre post hcalls hpost
    subst hcalls
    obtain ⟨kp, hkp, -⟩ := scopeDepth_some_of_append hnest
    have hen : enters (pre ++ .enter :: post) = enters pre + (enters post + 1) := by
      rw [enters_append]; rfl
    obtain ⟨hip, -, hcp⟩ := runScopeCalls_inv pre g.clear_scope 0 kp (ScopeInv.clear g) hl0 hkp
      (by rw [hc0]; omega)
    rw [hc0, Nat.zero_add] at hcp
    obtain ⟨-, -, hse⟩ := hip.enter (by rw [hcp]; omega)
    have hrun1 : runScopeCalls (pre ++ [.enter]) g.clear_scope
        = (runScopeCalls pre g.clear_scope).enter_scope := by
      rw [runScopeCalls_append]; rfl
    have hget : (runScopeCalls (pre ++ [.enter]) g.clear_scope).get_scope_id
        = some (enters pre + 1) := by
      simp only [get_scope_id, hrun1, hse, hcp, List.getLast?_append, List.getLast?_singleton]
      rfl
    refine ⟨hget, ?_⟩
    have hrun2 : runScopeCalls (pre ++ .enter :: post) g.clear_scope
        = runScopeCalls post (runScopeCalls (pre ++ [.enter]) g.clear_scope) := by
      rw [← runScopeCalls_append, List.append_assoc]; rfl
    obtain ⟨ext1, hs, hlen⟩ := runScopeCalls_stack post
      (runScopeCalls (pre ++ [.enter]) g.clear_scope) _ [] 0 (List.append_nil _).symm hpost
    have : ext1 = [] := List.length_eq_zero.mp hlen
    subst this
    rw [List.append_nil] at hs
    rw [hrun2]
    simp only [get_scope_id] at hget ⊢
    rw [hs]
    exact hget
  · intro pre post i hcalls hi
    subst hcalls
    obtain ⟨kp, hkp, hrest⟩ := scopeDepth_some_of_append hnest
    have hen : enters (pre ++ .exit :: post) = enters pre + enters post := by
      rw [enters_append]; rfl
    obtain ⟨hip, hlp, hcp⟩ := runScopeCalls_inv pre g.clear_scope 0 kp (ScopeInv.clear g) hl0
      hkp (by rw [hc0]; omega)
    rw [hc0, Nat.zero_add] at hcp
    cases kp with
    | zero => simp [scopeDepth] at hrest
    | succ d =>
      obtain ⟨k2, hk2⟩ := Option.isSome_iff_exists.mp hrest
      have hk2 : scopeDepth d post = some k2 := hk2
      have hrun : runScopeCalls (pre ++ .exit :: post) g.clear_scope
          = runScopeCalls post (runScopeCalls pre g.clear_scope).exit_scope := by
        rw [runScopeCalls_append]; rfl
      set gp := runScopeCalls pre g.clear_scope with hgp
      have hne : gp.scope_id_stack ≠ [] := by
        intro h0
        rw [h0] at hlp
        simp at hlp
      have hlast : gp.scope_id_stack = gp.scope_id_stack.dropLast ++ [i] := by
        have := List.dropLast_append_getLast hne
        simp only [get_scope_id] at hi
        rw [List.getLast?_eq_getLast _ hne, Option.some.injEq] at hi
        rw [hi] at this
        exact this.symm
      have hile : i ≤ gp.scope_id_counter :=
        hip.bounded i (by rw [hlast]; simp)
      have hbelow : ∀ x ∈ gp.exit_scope.scope_id_stack, x < i ∨ gp.scope_id_counter < x := by
        intro x hx
        left
        have hs := hip.sorted
        rw [hlast, List.pairwise_append] at hs
        exact hs.2.2 x hx i (by simp)
      have hfresh := runScopeCalls_fresh post i gp.scope_id_counter gp.exit_scope d k2
        (hip.exit (by omega)) (by simp [exit_scope, hlp]) hk2
        (by
          show gp.scope_id_counter + enters post < 4294967296
          rw [hcp]; omega)
        (Nat.le_refl _) hile hbelow
      rw [hrun]
      simp only [in_scope, decide_eq_false_iff_not]
      intro hmem
      rcases hfresh i hmem with h | h
      · omega
      · omega

theorem scope_ids_not_reused_witness :
    (scopeDepth 0 [.enter, .enter, .exit, .enter]).isSome = true ∧
    enters [.enter, .enter, .exit, .enter] < 4294967296 ∧
    (runScopeCalls [.enter, .enter, .exit, .enter] (clear_scope {})).scope_id_stack = [0, 1, 3] ∧
    (runScopeCalls [.enter, .enter] (clear_scope {})).get_scope_id = some 2 ∧
    (runScopeCalls [.enter, .enter, .exit, .enter] (clear_scope {})).in_scope 2 = false ∧
    (runScopeCalls [.enter, .enter, .exit, .enter] (clear_scope {})).get_scope_id = some 3 :=
  ⟨by decide, by decide, by decide, by decide,
   (scope_ids_not_reused {} [.enter, .enter, .exit, .enter] (by decide) (by decide)).2.2.2.2
     [.enter, .enter] [.enter] 2 rfl (by decide),
   ((scope_ids_not_reused {} [.enter, .enter, .exit, .enter] (by decide) (by decide)).2.2.2.1
     [.enter, .enter, .exit] [] rfl rfl).2⟩

end ir_generator
namespace FunctionBuilder

/-- With more indices than dimensions left, the indexing loop reads the
dimensions vector out of bounds: in the iteration whose `dimensionCount` is
the number of dimensions, `dimensions[dimensionCount + 1]` is read. -/
theorem indexLoop_past_end (dims : List Int) (hdims : ∀ d ∈ dims, toUnsigned d ≠ 0) :
    ∀ (indices : List Unit) (j width : Nat) (pointer : Operand) (fb : FunctionBuilder),
      j ≤ dims.length → dims.length < j + indices.length →
      ∃ fb' : FunctionBuilder,
        indexLoop dims indices j width pointer fb = (.error .undefinedBehaviour, fb')
  | [], j, width, pointer, fb, hj, hlen => by simp at hlen; omega
  | indexUnit :: rest, j, width, pointer, fb, hj, hlen => by
    by_cases hend : j = dims.length
    · have hw : nextElementWidth dims j width = .error .undefinedBehaviour := by
        unfold nextElementWidth
        have hne : j + 1 ≠ dims.length := by omega
        have hget : dims.get? (j + 1) = none := List.get?_eq_none.mpr (by omega)
        rw [if_pos hne, hget]
      simp only [indexLoop, hw]
      exact ⟨_, rfl⟩
    · have hlt : j < dims.length := by omega
      have hw : ∃ width', nextElementWidth dims j width = .ok width' := by
        unfold nextElementWidth
        by_cases hlast : j + 1 = dims.length
        · exact ⟨width, by simp [hlast]⟩
        · have hlt2 : j + 1 < dims.length := by omega
          have hget : dims.get? (j + 1) = some (dims.get ⟨j + 1, hlt2⟩) := List.get?_eq_get hlt2
          have hd := hdims _ (List.get_mem dims (j + 1) hlt2)
          rw [if_pos hlast, hget]
          simp only []
          rw [if_neg hd]
          exact ⟨_, rfl⟩
      obtain ⟨width', hw'⟩ := hw
      simp only [indexLoop, hw']
      exact indexLoop_past_end dims hdims rest (j + 1) width' _ _ (by omega)
        (by simp at hlen ⊢; omega)

/-- C37: for an array Unit with at least one dimension, none of them zero (as
the `unsigned int` the width is divided by), for which `getPointerOperand`
returns: with `k <= n` indices, `dimensions[0]` is read in bounds and is not
zero, the indexing loop runs to its end without an out-of-bounds read and
without a division by zero, `getIndexedElement` returns, and the number of
remaining dimensions is `n - k` (the remaining and the consumed dimensions add
up to `n`); with `k > n` indices the loop reads the dimensions vector past its
end, which is undefined. -/
theorem getIndexedElement_safe (fb fb1 : FunctionBuilder) (unit : Unit) (indices : List Unit)
    (p : Operand)
    (hn : 1 ≤ unit.second.dimensions.length)
    (hnz : ∀ d ∈ unit.second.dimensions, toUnsigned d ≠ 0)
    (hp : fb.getPointerOperand unit = (.ok p, fb1)) :
    (∃ d0, unit.second.dimensions.head? = some d0 ∧ toUnsigned d0 ≠ 0 ∧
      (indices.length ≤ unit.second.dimensions.length →
        ∃ (q : Operand) (ret : Unit) (fb' : FunctionBuilder),
          indexLoop unit.second.dimensions indices 0 (unit.second.size / toUnsigned d0) p fb1
            = (.ok (indices.length, q), fb') ∧
          fb.getIndexedElement unit indices = (.ok ret, fb') ∧
          ret.second.dimensions.length + indices.length = unit.second.dimensions.length ∧
          ret.second.dimensions.length = unit.second.dimensions.length - indices.length) ∧
      (unit.second.dimensions.length < indices.length →
        ∃ fb' : FunctionBuilder,
          indexLoop unit.second.dimensions indices 0 (unit.second.size / toUnsigned d0) p fb1
            = (.error .undefinedBehaviour, fb') ∧
          fb.getIndexedElement unit indices = (.error .undefinedBehaviour, fb'))) := by
  obtain ⟨d0, rest, hd⟩ : ∃ d0 rest, unit.second.dimensions = d0 :: rest := by
    cases h : unit.second.dimensions with
    | nil => rw [h] at hn; simp at hn
    | cons a l => exact ⟨a, l, rfl⟩
  have hne : toUnsigned d0 ≠ 0 := hnz d0 (by simp [hd])
  have hhead : unit.second.dimensions.head? = some d0 := by simp [hd]
  refine ⟨d0, hhead, hne, ?_, ?_⟩
  · intro hk
    obtain ⟨q, fb2, hloop⟩ := indexLoop_ok unit.second.dimensions hnz indices 0
      (unit.second.size / toUnsigned d0) p fb1 (by omega)
    rw [Nat.zero_add] at hloop
    have hret : fb.getIndexedElement unit indices
        = (.ok { first := q, second :=
            { unit.second with
                dimensions := unit.second.dimensions.drop
                  (unit.second.dimensions.length
                    - (unit.second.dimensions.length - indices.length)) } }, fb2) := by
      simp only [getIndexedElement, hhead, if_neg hne, hp, hloop]
    refine ⟨q, _, fb2, hloop, hret, ?_, ?_⟩
    · simp only [List.length_drop]
      omega
    · simp only [List.length_drop]
      omega
  · intro hk
    obtain ⟨fb2, hloop⟩ := indexLoop_past_end unit.second.dimensions hnz indices 0
      (unit.second.size / toUnsigned d0) p fb1 (by omega) (by omega)
    refine ⟨fb2, hloop, ?_⟩
    simp only [getIndexedElement, hhead, if_neg hne, hp, hloop]

/-- C37 at a concrete input: `a : int[2][3]` indexed twice is an element with
no dimension left; indexed three times the loop reads `dimensions[3]`. -/
theorem getIndexedElement_safe_witness :
    1 ≤ exampleArrayUnit.second.dimensions.length ∧
    (∀ d ∈ exampleArrayUnit.second.dimensions, toUnsigned d ≠ 0) ∧
    (∃ (ret : Unit) (fb' : FunctionBuilder),
      exampleBuilder.getIndexedElement exampleArrayUnit [exampleIndex 1, exampleIndex 2]
        = (.ok ret, fb') ∧ ret.second.dimensions.length = 0) ∧
    (∃ fb' : FunctionBuilder,
      exampleBuilder.getIndexedElement exampleArrayUnit
        [exampleIndex 1, exampleIndex 2, exampleIndex 0] = (.error .undefinedBehaviour, fb')) := by
  obtain ⟨d0, -, -, h1, -⟩ := getIndexedElement_safe exampleBuilder _ exampleArrayUnit
    [exampleIndex 1, exampleIndex 2] _ (by decide) (by decide) rfl
  obtain ⟨d1, -, -, -, h2⟩ := getIndexedElement_safe exampleBuilder _ exampleArrayUnit
    [exampleIndex 1, exampleIndex 2, exampleIndex 0] _ (by decide) (by decide) rfl
  obtain ⟨q, ret, fb', -, hret, -, hlen⟩ := h1 (by decide)
  obtain ⟨fb2, -, herr⟩ := h2 (by decide)
  exact ⟨by decide, by decide, ⟨ret, fb', hret, hlen⟩, ⟨fb2, herr⟩⟩

end FunctionBuilder
namespace ir_generator

/-! ### The shape of a lowered condition -/

theorem readEntries_plain (id : Nat) (op : Operand) :
    ∀ e ∈ FunctionBuilder.readEntries id op,
      isCompare e = false ∧ isConditionalBranch e = false := by
  intro e he
  unfold FunctionBuilder.readEntries at he
  split at he
  · rw [List.mem_singleton] at he
    subst he
    exact ⟨rfl, rfl⟩
  · simp at he

theorem tokenToCompareOperator_isCompare {tok : Token} {opcode : Instruction}
    (h : tokenToCompareOperator tok = .ok opcode) (op1 op2 op3 : Operand) :
    isCompare { opcode := opcode, op1 := op1, op2 := op2, op3 := op3 } = true := by
  unfold tokenToCompareOperator at h
  split at h <;> simp only [Except.ok.injEq, reduceCtorEq] at h <;> subst h <;> rfl

theorem gen_label_entries (g : ir_generator) (tok : Token) (true_label : Bool) (pre : String) :
    (g.gen_label tok true_label pre).2.entries = g.entries :=
  entries_of_same (gen_label_functions g tok true_label pre).1
    (gen_label_functions g tok true_label pre).2

/-- The branches after a comparison, when they are created: one entry for
each side that does not fall through. -/
theorem compareBranches_ok {g g1 : ir_generator} {t_label f_label : Operand}
    {t_fall f_fall : Bool}
    (h : g.compareBranches t_label f_label t_fall f_fall = (.ok ⟨⟩, g1)) :
    g1.entries = g.entries
      ++ (if t_fall then [] else [{ opcode := .IF_TRUE_GOTO, op1 := t_label }])
      ++ (if f_fall then [] else [{ opcode := .IF_FALSE_GOTO, op1 := f_label }]) := by
  unfold compareBranches at h
  cases t_fall <;> cases f_fall
  · simp only [Bool.not_false, if_true] at h
    rcases h1 : g.builder_createBranch .IF_TRUE_GOTO t_label with ⟨_ | u, ga⟩
    · simp [h1] at h
    · simp only [h1] at h
      rw [(builder_createBranch_ok h).1, (builder_createBranch_ok h1).1]
      simp
  · simp only [Bool.not_false, Bool.not_true, if_true, Bool.false_eq_true, if_false] at h
    rcases h1 : g.builder_createBranch .IF_TRUE_GOTO t_label with ⟨_ | u, ga⟩
    · simp [h1] at h
    · simp only [h1, Prod.mk.injEq] at h
      rw [← h.2, (builder_createBranch_ok h1).1]
      simp
  · simp only [Bool.not_false, Bool.not_true, if_true, Bool.false_eq_true, if_false] at h
    rw [(builder_createBranch_ok h).1]
    simp
  · simp only [Bool.not_true, Bool.false_eq_true, if_false, Prod.mk.injEq] at h
    rw [← h.2]
    simp

/-- The comparison case of `condn_expression`, when it returns. -/
theorem compareExpression_shape (l : Lowering) (hplain : l.PlainExpressions)
    (g g1 : ir_generator) (first : Node) (second : Option Node) (expr_opr : Token)
    (t_label f_label : Operand) (t_fall f_fall : Bool)
    (hok : compareExpression l g first second expr_opr t_label f_label t_fall f_fall
      = (.ok ⟨⟩, g1)) :
    ∃ es, g1.entries = g.entries ++ es ∧ CondEntries t_label f_label t_fall f_fall es := by
  unfold compareExpression at hok
  cases hop : tokenToCompareOperator expr_opr with
  | error e => simp [hop] at hok
  | ok opcode =>
    simp only [hop] at hok
    rcases hfirst : l.expression first g with ⟨_ | a, ga⟩
    · simp [hfirst] at hok
    · simp only [hfirst] at hok
      split at hok
      · simp at hok
      · cases second with
        | none => simp at hok
        | some secondNode =>
          simp only at hok
          rcases hsecond : l.expression secondNode ga with ⟨_ | b, gb⟩
          · simp [hsecond] at hok
          · simp only [hsecond] at hok
            split at hok
            · simp at hok
            · rcases hcmp : gb.builder_compareOperator opcode a.first b.first with ⟨_ | u, gc⟩
              · simp [hcmp] at hok
              · simp only [hcmp] at hok
                obtain ⟨ea, hea, hpa⟩ := hplain first g ga a hfirst
                obtain ⟨eb, heb, hpb⟩ := hplain secondNode ga gb b hsecond
                have hc := builder_compareOperator_ok hcmp
                have hb := compareBranches_ok hok
                refine ⟨_, ?_, CondEntries.compare t_label f_label t_fall f_fall
                  (ea ++ eb ++ FunctionBuilder.readEntries gb.id_counter a.first
                    ++ FunctionBuilder.readEntries
                      (gb.id_counter + FunctionBuilder.idsTaken a.first)
                      (FunctionBuilder.adoptLiteralDataType a.first b.first))
                  { opcode := opcode,
                    op1 := FunctionBuilder.valueOperand gb.id_counter a.first,
                    op2 := FunctionBuilder.valueOperand
                      (gb.id_counter + FunctionBuilder.idsTaken a.first)
                      (FunctionBuilder.adoptLiteralDataType a.first b.first) }
                  ?_ (tokenToCompareOperator_isCompare hop _ _ _)⟩
                · rw [hb, hc, heb, hea]
                  simp only [compareEntries, List.append_assoc]
                · intro e he
                  simp only [List.mem_append] at he
                  rcases he with ((he | he) | he) | he
                  · exact hpa e he
                  · exact hpb e he
                  · exact readEntries_plain _ _ e he
                  · exact readEntries_plain _ _ e he

/-- A call of `condn_expression` that returns has appended entries of the
shape `CondEntries`, when expressions append neither comparisons nor
conditional branches. -/
theorem condn_expression_shape (l : Lowering) (hplain : l.PlainExpressions) :
    ∀ (root : Node) (t_label f_label : Operand) (t_fall f_fall : Bool) (g g1 : ir_generator),
      condn_expression l root t_label f_label t_fall f_fall g = (.ok ⟨⟩, g1) →
      ∃ es, g1.entries = g.entries ++ es ∧ CondEntries t_label f_label t_fall f_fall es := by
  intro root
  generalize hsize : sizeOf root = k
  induction k using Nat.strong_induction_on generalizing root with
  | _ k ih =>
    intro t_label f_label t_fall f_fall g g1 hok
    obtain ⟨type, tok, children⟩ := root
    have hchild : ∀ child ∈ children, ∀ (t_label f_label : Operand) (t_fall f_fall : Bool)
        (g g1 : ir_generator),
        condn_expression l child t_label f_label t_fall f_fall g = (.ok ⟨⟩, g1) →
        ∃ es, g1.entries = g.entries ++ es ∧ CondEntries t_label f_label t_fall f_fall es := by
      intro child hmem
      exact ih _ (hsize ▸ Node.sizeOf_child_lt type tok children child hmem) child rfl
    rw [condn_expression_eq] at hok
    by_cases htype : type = .TERM
    · rw [if_pos htype] at hok
      cases children with
      | nil => simp at hok
      | cons child0 rest0 =>
        simp only at hok
        by_cases hexpr : child0.type = .EXPRESSION
        · rw [if_pos hexpr] at hok
          exact hchild child0 (List.mem_cons_self _ _) _ _ _ _ _ _ hok
        · rw [if_neg hexpr] at hok
          by_cases hnot : child0.tok.type ≠ .CONDN_NOT
          · rw [if_pos hnot] at hok
            simp at hok
          · rw [if_neg hnot] at hok
            obtain ⟨t1, k1, cc⟩ := child0
            cases cc with
            | nil => simp at hok
            | cons c1 r1 =>
              obtain ⟨t2, k2, cc2⟩ := c1
              cases cc2 with
              | nil => simp at hok
              | cons inner r2 =>
                simp only at hok
                have hlt : sizeOf inner < k := by
                  rw [← hsize]
                  simp only [Node.mk.sizeOf_spec, List.cons.sizeOf_spec]
                  omega
                obtain ⟨es, h1, h2⟩ := ih _ hlt inner rfl _ _ _ _ _ _ hok
                exact ⟨es, h1, CondEntries.neg _ _ _ _ _ h2⟩
    · rw [if_neg htype] at hok
      cases children with
      | nil => simp at hok
      | cons first rest1 =>
        cases rest1 with
        | nil =>
          simp only at hok
          exact hchild first (List.mem_cons_self _ _) _ _ _ _ _ _ hok
        | cons operatorNode rest =>
          have hfirst := hchild first (List.mem_cons_self _ _)
          simp only at hok
          have hg0 : ((g.gen_label operatorNode.tok true "").2.gen_label operatorNode.tok
              false "").2.entries = g.entries := by
            rw [gen_label_entries, gen_label_entries]
          by_cases hand : operatorNode.tok.type = .CONDN_AND
          · rw [if_pos hand] at hok
            rcases hf : condn_expression l first (g.gen_label operatorNode.tok true "").1
                (if f_fall then ((g.gen_label operatorNode.tok true "").2.gen_label
                  operatorNode.tok false "").1 else f_label) true false
                ((g.gen_label operatorNode.tok true "").2.gen_label operatorNode.tok
                  false "").2 with ⟨_ | u, ga⟩
            · cases f_fall <;> simp [hf] at hf hok <;> simp [hf] at hok
            · have hok2 : (match rest with
                  | [] => ((.error .undefinedBehaviour, ga) : Lowered PUnit.{1})
                  | second :: _ =>
                    match condn_expression l second t_label f_label t_fall f_fall ga with
                    | (.error e, g2) => (.error e, g2)
                    | (.ok _, g2) =>
                      if f_fall then g2.builder_label
                        ((g.gen_label operatorNode.tok true "").2.gen_label operatorNode.tok
                          false "").1
                      else (.ok ⟨⟩, g2)) = (.ok ⟨⟩, g1) := by
                cases f_fall <;> simp [hf] at hf hok <;> simpa [hf] using hok
              obtain ⟨es1, he1, hc1⟩ := hfirst _ _ _ _ _ _ hf
              cases rest with
              | nil => simp at hok2
              | cons second rest3 =>
                simp only at hok2
                rcases hs : condn_expression l second t_label f_label t_fall f_fall ga
                  with ⟨_ | u2, gb⟩
                · simp [hs] at hok2
                · simp only [hs] at hok2
                  obtain ⟨es2, he2, hc2⟩ := hchild second (by simp) _ _ _ _ _ _ hs
                  refine ⟨_, ?_, CondEntries.conj t_label f_label
                    (g.gen_label operatorNode.tok true "").1
                    ((g.gen_label operatorNode.tok true "").2.gen_label operatorNode.tok
                      false "").1 t_fall f_fall es1 es2 hc1 hc2⟩
                  cases f_fall
                  · simp only [Bool.false_eq_true, if_false, Prod.mk.injEq] at hok2
                    rw [← hok2.2, he2, he1, hg0]
                    simp
                  · simp only [if_true] at hok2
                    rw [(builder_label_ok hok2).1, he2, he1, hg0]
                    simp
          · rw [if_neg hand] at hok
            by_cases hor : operatorNode.tok.type = .CONDN_OR
            · rw [if_pos hor] at hok
              rcases hf : condn_expression l first
                  (if t_fall then (g.gen_label operatorNode.tok true "").1 else t_label)
                  ((g.gen_label operatorNode.tok true "").2.gen_label operatorNode.tok
                    false "").1 false true
                  ((g.gen_label operatorNode.tok true "").2.gen_label operatorNode.tok
                    false "").2 with ⟨_ | u, ga⟩
              · cases t_fall <;> simp [hf] at hf hok <;> simp [hf] at hok
              · have hok2 : (match rest with
                    | [] => ((.error .undefinedBehaviour, ga) : Lowered PUnit.{1})
                    | second :: _ =>
                      match condn_expression l second t_label f_label t_fall f_fall ga with
                      | (.error e, g2) => (.error e, g2)
                      | (.ok _, g2) =>
                        if t_fall then g2.builder_label (g.gen_label operatorNode.tok true "").1
                        else (.ok ⟨⟩, g2)) = (.ok ⟨⟩, g1) := by
                  cases t_fall <;> simp [hf] at hf hok <;> simpa [hf] using hok
                obtain ⟨es1, he1, hc1⟩ := hfirst _ _ _ _ _ _ hf
                cases rest with
                | nil => simp at hok2
                | cons second rest3 =>
                  simp only at hok2
                  rcases hs : condn_expression l second t_label f_label t_fall f_fall ga
                    with ⟨_ | u2, gb⟩
                  · simp [hs] at hok2
                  · simp only [hs] at hok2
                    obtain ⟨es2, he2, hc2⟩ := hchild second (by simp) _ _ _ _ _ _ hs
                    refine ⟨_, ?_, CondEntries.disj t_label f_label
                      (g.gen_label operatorNode.tok true "").1
                      ((g.gen_label operatorNode.tok true "").2.gen_label operatorNode.tok
                        false "").1 t_fall f_fall es1 es2 hc1 hc2⟩
                    cases t_fall
                    · simp only [Bool.false_eq_true, if_false, Prod.mk.injEq] at hok2
                      rw [← hok2.2, he2, he1, hg0]
                      simp
                    · simp only [if_true] at hok2
                      rw [(builder_label_ok hok2).1, he2, he1, hg0]
                      simp
            · rw [if_neg hor] at hok
              exact compareExpression_shape l hplain g g1 first rest.head? operatorNode.tok
                t_label f_label t_fall f_fall hok

end ir_generator
namespace ir_generator

/-! ### Comparisons and branches in pairs -/

theorem isConditionalBranch_not_isCompare {e : Entry} (h : isConditionalBranch e = true) :
    isCompare e = false := by
  unfold isConditionalBranch at h
  unfold isCompare
  split at h <;> simp_all

theorem Paired.paired_of_plain {es : List Entry}
    (h : ∀ e ∈ es, isCompare e = false ∧ isConditionalBranch e = false) : Paired es := by
  induction es with
  | nil => exact Paired.nil
  | cons e rest ih =>
    exact Paired.plain e rest (h e (List.mem_cons_self _ _)).1 (h e (List.mem_cons_self _ _)).2
      (ih (fun x hx => h x (List.mem_cons_of_mem _ hx)))

theorem Paired.paired_append {xs ys : List Entry} (hx : Paired xs) (hy : Paired ys) :
    Paired (xs ++ ys) := by
  induction hx with
  | nil => exact hy
  | plain e rest h1 h2 _ ih => exact Paired.plain e (rest ++ ys) h1 h2 ih
  | pair c b rest h1 h2 _ ih => exact Paired.pair c b (rest ++ ys) h1 h2 ih

/-- A paired list does not begin with a conditional branch. -/
theorem Paired.head {e : Entry} {rest : List Entry} (h : Paired (e :: rest)) :
    isConditionalBranch e = false := by
  cases h with
  | plain _ _ _ h2 _ => exact h2
  | pair _ b rest1 h1 _ _ =>
    cases hb : isConditionalBranch e with
    | false => rfl
    | true =>
      have := isConditionalBranch_not_isCompare hb
      rw [h1] at this
      exact absurd this (by decide)

/-- In a paired list, every comparison is directly followed by a conditional
branch, and the entry after that branch is not a conditional branch. -/
theorem Paired.adjacent {es : List Entry} (h : Paired es) :
    ∀ (before after : List Entry) (e : Entry), es = before ++ e :: after →
      isCompare e = true →
      ∃ (branch : Entry) (rest : List Entry), after = branch :: rest ∧
        isConditionalBranch branch = true ∧
        ∀ next ∈ rest.head?, isConditionalBranch next = false := by
  induction h with
  | nil =>
    intro before after e he
    simp at he
  | plain x rest h1 h2 _ ih =>
    intro before after e he hc
    cases before with
    | nil =>
      simp only [List.nil_append, List.cons.injEq] at he
      rw [he.1, hc] at h1
      exact absurd h1 (by decide)
    | cons b before1 =>
      simp only [List.cons_append, List.cons.injEq] at he
      exact ih before1 after e he.2 hc
  | pair c b rest h1 h2 hrest ih =>
    intro before after e he hc
    cases before with
    | nil =>
      simp only [List.nil_append, List.cons.injEq] at he
      refine ⟨b, rest, he.2.symm, h2, ?_⟩
      intro next hnext
      cases rest with
      | nil => simp at hnext
      | cons r rest2 =>
        simp only [List.head?_cons, Option.mem_def, Option.some.injEq] at hnext
        subst hnext
        exact hrest.head
    | cons b0 before1 =>
      simp only [List.cons_append, List.cons.injEq] at he
      cases before1 with
      | nil =>
        simp only [List.nil_append, List.cons.injEq] at he
        have := isConditionalBranch_not_isCompare h2
        rw [he.2.1, hc] at this
        exact absurd this (by decide)
      | cons b1 before2 =>
        simp only [List.cons_append, List.cons.injEq] at he
        exact ih before2 after e he.2.2 hc

/-- With different fall flags, the entries of a lowered condition are
paired. -/
theorem CondEntries.paired {t f : Operand} {tf ff : Bool} {es : List Entry}
    (h : CondEntries t f tf ff es) : tf ≠ ff → Paired es := by
  induction h with
  | compare t f tf ff operands cmp hplain hcmp =>
    intro hne
    have hbranch : Paired ([cmp]
        ++ (if tf then [] else [{ opcode := .IF_TRUE_GOTO, op1 := t }])
        ++ (if ff then [] else [({ opcode := .IF_FALSE_GOTO, op1 := f } : Entry)])) := by
      cases tf <;> cases ff
      · exact absurd rfl hne
      · exact Paired.pair cmp _ [] hcmp rfl Paired.nil
      · exact Paired.pair cmp _ [] hcmp rfl Paired.nil
      · exact absurd rfl hne
    have := Paired.paired_append (Paired.paired_of_plain hplain) hbranch
    simpa [List.append_assoc] using this
  | conj t f new_t new_f tf ff first second _ _ ih1 ih2 =>
    intro hne
    refine Paired.paired_append (Paired.paired_append (ih1 (by decide)) (ih2 hne)) ?_
    cases ff
    · exact Paired.nil
    · exact Paired.plain _ [] rfl rfl Paired.nil
  | disj t f new_t new_f tf ff first second _ _ ih1 ih2 =>
    intro hne
    refine Paired.paired_append (Paired.paired_append (ih1 (by decide)) (ih2 hne)) ?_
    cases tf
    · exact Paired.nil
    · exact Paired.plain _ [] rfl rfl Paired.nil
  | neg t f tf ff es _ ih =>
    intro hne
    exact ih (fun h => hne h.symm)

/-- A recursive call of `condn_expression` made with different fall flags
passes different fall flags. -/
theorem DirectCall.direct_flags {root child : Node} {tf ff tf1 ff1 : Bool}
    (h : DirectCall root tf ff child tf1 ff1) : tf ≠ ff → tf1 ≠ ff1 := by
  intro hne
  cases h with
  | parenthesised => exact hne
  | negated => exact fun h => hne h.symm
  | only => exact hne
  | conjFirst => decide
  | disjFirst => decide
  | second => exact hne

theorem NestedCall.nested_flags {root child : Node} {tf ff tf1 ff1 : Bool}
    (h : NestedCall root tf ff child tf1 ff1) : tf ≠ ff → tf1 ≠ ff1 := by
  intro hne
  induction h with
  | self => exact hne
  | step mid child a b c d _ hd ih => exact hd.direct_flags ih

/-! ### Branch targets -/

theorem TargetsDefined.targets_of_plain (J : Operand → Prop) {es : List Entry}
    (h : ∀ e ∈ es, isConditionalBranch e = false) : TargetsDefined J es := by
  induction es with
  | nil => exact True.intro
  | cons e rest ih =>
    refine ⟨?_, ih (fun x hx => h x (List.mem_cons_of_mem _ hx))⟩
    intro hb
    rw [h e (List.mem_cons_self _ _)] at hb
    exact absurd hb (by decide)

/-- Targets accepted by `J` for a first segment may be accepted by `K`, or be
labels created in the segment that follows. -/
theorem TargetsDefined.targets_append {J K : Operand → Prop} {xs ys : List Entry}
    (hx : TargetsDefined J xs) (hy : TargetsDefined K ys)
    (hJ : ∀ x, J x → K x ∨ ∃ c ∈ ys, c.opcode = .CREATE_LABEL ∧ c.op1 = x) :
    TargetsDefined K (xs ++ ys) := by
  induction xs with
  | nil => exact hy
  | cons e rest ih =>
    obtain ⟨he, hrest⟩ := hx
    refine ⟨?_, ih hrest⟩
    intro hb
    rcases he hb with h | ⟨c, hc, hl⟩
    · rcases hJ _ h with h1 | ⟨c, hc, hl⟩
      · exact Or.inl h1
      · exact Or.inr ⟨c, List.mem_append_right _ hc, hl⟩
    · exact Or.inr ⟨c, List.mem_append_left _ hc, hl⟩

theorem TargetsDefined.at {J : Operand → Prop} :
    ∀ {es : List Entry}, TargetsDefined J es →
      ∀ (before after : List Entry) (e : Entry), es = before ++ e :: after →
        isConditionalBranch e = true →
        J e.op1 ∨ ∃ c ∈ after, c.opcode = .CREATE_LABEL ∧ c.op1 = e.op1 := by
  intro es h before
  induction before generalizing es with
  | nil =>
    intro after e he hb
    subst he
    exact h.1 hb
  | cons b before1 ih =>
    intro after e he hb
    subst he
    exact ih h.2 after e rfl hb

/-- The branch targets of a lowered condition: each is the true target of a
call whose true side does not fall through, the false target of a call whose
false side does not fall through, or a label created further on. -/
theorem CondEntries.targets {t f : Operand} {tf ff : Bool} {es : List Entry}
    (h : CondEntries t f tf ff es) :
    TargetsDefined (fun x => (x = t ∧ tf = false) ∨ (x = f ∧ ff = false)) es := by
  induction h with
  | compare t f tf ff operands cmp hplain hcmp =>
    have hbranch : TargetsDefined (fun x => (x = t ∧ tf = false) ∨ (x = f ∧ ff = false))
        ([cmp] ++ (if tf then [] else [{ opcode := .IF_TRUE_GOTO, op1 := t }])
          ++ (if ff then [] else [({ opcode := .IF_FALSE_GOTO, op1 := f } : Entry)])) := by
      have hc : isConditionalBranch cmp = true → False := by
        intro hb
        have := isConditionalBranch_not_isCompare hb
        rw [hcmp] at this
        exact absurd this (by decide)
      cases tf <;> cases ff
      · exact ⟨fun hb => (hc hb).elim, fun _ => Or.inl (Or.inl ⟨rfl, rfl⟩),
          fun _ => Or.inl (Or.inr ⟨rfl, rfl⟩), True.intro⟩
      · exact ⟨fun hb => (hc hb).elim, fun _ => Or.inl (Or.inl ⟨rfl, rfl⟩), True.intro⟩
      · exact ⟨fun hb => (hc hb).elim, fun _ => Or.inl (Or.inr ⟨rfl, rfl⟩), True.intro⟩
      · exact ⟨fun hb => (hc hb).elim, True.intro⟩
    have := TargetsDefined.targets_append
      (TargetsDefined.targets_of_plain (fun x => (x = t ∧ tf = false) ∨ (x = f ∧ ff = false))
        (fun e he => (hplain e he).2)) hbranch (fun x hx => Or.inl hx)
    simpa [List.append_assoc] using this
  | conj t f new_t new_f tf ff first second _ _ ih1 ih2 =>
    have hlabel : TargetsDefined (fun x => (x = t ∧ tf = false) ∨ (x = f ∧ ff = false))
        (if ff then [({ opcode := .CREATE_LABEL, op1 := new_f } : Entry)] else []) := by
      cases ff
      · exact True.intro
      · exact ⟨fun hb => Bool.noConfusion hb, True.intro⟩
    have h2 := TargetsDefined.targets_append ih2 hlabel (fun x hx => Or.inl hx)
    have := TargetsDefined.targets_append ih1 h2 (by
      intro x hx
      rcases hx with ⟨_, h0⟩ | ⟨hxf, _⟩
      · exact absurd h0 (by decide)
      · cases ff
        · exact Or.inl (Or.inr ⟨hxf, rfl⟩)
        · refine Or.inr ⟨{ opcode := .CREATE_LABEL, op1 := new_f }, ?_, rfl, hxf.symm⟩
          simp)
    simpa [List.append_assoc] using this
  | disj t f new_t new_f tf ff first second _ _ ih1 ih2 =>
    have hlabel : TargetsDefined (fun x => (x = t ∧ tf = false) ∨ (x = f ∧ ff = false))
        (if tf then [({ opcode := .CREATE_LABEL, op1 := new_t } : Entry)] else []) := by
      cases tf
      · exact True.intro
      · exact ⟨fun hb => Bool.noConfusion hb, True.intro⟩
    have h2 := TargetsDefined.targets_append ih2 hlabel (fun x hx => Or.inl hx)
    have := TargetsDefined.targets_append ih1 h2 (by
      intro x hx
      rcases hx with ⟨hxt, _⟩ | ⟨_, h0⟩
      · cases tf
        · exact Or.inl (Or.inl ⟨hxt, rfl⟩)
        · refine Or.inr ⟨{ opcode := .CREATE_LABEL, op1 := new_t }, ?_, rfl, hxt.symm⟩
          simp
      · exact absurd h0 (by decide))
    simpa [List.append_assoc] using this
  | neg t f tf ff es _ ih =>
    have := TargetsDefined.targets_append ih (show TargetsDefined
      (fun x => (x = t ∧ tf = false) ∨ (x = f ∧ ff = false)) [] from True.intro)
      (fun x hx => Or.inl hx.symm)
    simpa using this

end ir_generator
namespace ir_generator

theorem exampleLowering_plain : exampleLowering.PlainExpressions := by
  intro node g g1 a h
  refine ⟨[], ?_, fun e he => absurd he (List.not_mem_nil e)⟩
  rw [List.append_nil]
  have h2 : g1 = (exampleLowering.expression node g).2 := by rw [h]
  rw [h2]
  show (exampleExpression node g).2.entries = g.entries
  unfold exampleExpression
  split <;> exact entries_of_same rfl rfl

/-- C34: for a node `a && b` (not a TERM, operator token CONDN_AND), with
`new_t` and `new_f` the labels `gen_label` makes from the operator token:
`condn_expression` lowers `a` with the targets `new_t` and, when `f_fall` is
false, the false target of the caller, otherwise `new_f`, and the flags
(true, false); then `b` with the targets and flags of the caller; and when
both return, it appends as last entry the CREATE_LABEL of `new_f` if `f_fall`
is true, and nothing if it is false.  For `a || b` likewise: `a` gets the
true target of the caller when `t_fall` is false, otherwise `new_t`, the false
target `new_f` and the flags (false, true), and the CREATE_LABEL of `new_t`
is appended exactly when `t_fall` is true.  A TERM whose child is the
operator `!` is lowered as the operand of `!` with the two targets and the
two flags swapped. -/
theorem condn_expression_short_circuit (l : Lowering) (type : NodeType) (tok : Token)
    (a operatorNode b : Node) (more : List Node) (t_label f_label : Operand)
    (t_fall f_fall : Bool) (g : ir_generator) (htype : type ≠ .TERM) :
    (operatorNode.tok.type = .CONDN_AND →
      condn_expression l (.mk type tok (a :: operatorNode :: b :: more))
          t_label f_label t_fall f_fall g
        = (match condn_expression l a (g.gen_label operatorNode.tok true "").1
              (if f_fall then ((g.gen_label operatorNode.tok true "").2.gen_label
                operatorNode.tok false "").1 else f_label) true false
              ((g.gen_label operatorNode.tok true "").2.gen_label operatorNode.tok false "").2
            with
          | (.error e, ga) => (.error e, ga)
          | (.ok _, ga) =>
            match condn_expression l b t_label f_label t_fall f_fall ga with
            | (.error e, gb) => (.error e, gb)
            | (.ok _, gb) =>
              if f_fall then gb.builder_label
                ((g.gen_label operatorNode.tok true "").2.gen_label operatorNode.tok false "").1
              else (.ok ⟨⟩, gb)) ∧
      ∀ g1 : ir_generator,
        condn_expression l (.mk type tok (a :: operatorNode :: b :: more))
          t_label f_label t_fall f_fall g = (.ok ⟨⟩, g1) →
        ∃ ga gb : ir_generator,
          condn_expression l a (g.gen_label operatorNode.tok true "").1
              (if f_fall then ((g.gen_label operatorNode.tok true "").2.gen_label
                operatorNode.tok false "").1 else f_label) true false
              ((g.gen_label operatorNode.tok true "").2.gen_label operatorNode.tok false "").2
            = (.ok ⟨⟩, ga) ∧
          condn_expression l b t_label f_label t_fall f_fall ga = (.ok ⟨⟩, gb) ∧
          (f_fall = true → g1.entries = gb.entries ++
            [{ opcode := .CREATE_LABEL,
               op1 := ((g.gen_label operatorNode.tok true "").2.gen_label
                 operatorNode.tok false "").1 }]) ∧
          (f_fall = false → g1 = gb)) ∧
    (operatorNode.tok.type = .CONDN_OR →
      condn_expression l (.mk type tok (a :: operatorNode :: b :: more))
          t_label f_label t_fall f_fall g
        = (match condn_expression l a
              (if t_fall then (g.gen_label operatorNode.tok true "").1 else t_label)
              ((g.gen_label operatorNode.tok true "").2.gen_label operatorNode.tok false "").1
              false true
              ((g.gen_label operatorNode.tok true "").2.gen_label operatorNode.tok false "").2
            with
          | (.error e, ga) => (.error e, ga)
          | (.ok _, ga) =>
            match condn_expression l b t_label f_label t_fall f_fall ga with
            | (.error e, gb) => (.error e, gb)
            | (.ok _, gb) =>
              if t_fall then gb.builder_label (g.gen_label operatorNode.tok true "").1
              else (.ok ⟨⟩, gb)) ∧
      ∀ g1 : ir_generator,
        condn_expression l (.mk type tok (a :: operatorNode :: b :: more))
          t_label f_label t_fall f_fall g = (.ok ⟨⟩, g1) →
        ∃ ga gb : ir_generator,
          condn_expression l a
              (if t_fall then (g.gen_label operatorNode.tok true "").1 else t_label)
              ((g.gen_label operatorNode.tok true "").2.gen_label operatorNode.tok false "").1
              false true
              ((g.gen_label operatorNode.tok true "").2.gen_label operatorNode.tok false "").2
            = (.ok ⟨⟩, ga) ∧
          condn_expression l b t_label f_label t_fall f_fall ga = (.ok ⟨⟩, gb) ∧
          (t_fall = true → g1.entries = gb.entries ++
            [{ opcode := .CREATE_LABEL, op1 := (g.gen_label operatorNode.tok true "").1 }]) ∧
          (t_fall = false → g1 = gb)) ∧
    (∀ (t1 t2 : NodeType) (k1 k2 : Token) (e : Node) (r2 r1 rest : List Node),
      t1 ≠ .EXPRESSION → k1.type = .CONDN_NOT →
      condn_expression l (.mk .TERM tok (.mk t1 k1 (.mk t2 k2 (e :: r2) :: r1) :: rest))
          t_label f_label t_fall f_fall g
        = condn_expression l e f_label t_label f_fall t_fall g) := by
  refine ⟨?_, ?_, ?_⟩
  · intro hand
    have heq : condn_expression l (.mk type tok (a :: operatorNode :: b :: more))
          t_label f_label t_fall f_fall g
        = (match condn_expression l a (g.gen_label operatorNode.tok true "").1
              (if f_fall then ((g.gen_label operatorNode.tok true "").2.gen_label
                operatorNode.tok false "").1 else f_label) true false
              ((g.gen_label operatorNode.tok true "").2.gen_label operatorNode.tok false "").2
            with
          | (.error e, ga) => (.error e, ga)
          | (.ok _, ga) =>
            match condn_expression l b t_label f_label t_fall f_fall ga with
            | (.error e, gb) => (.error e, gb)
            | (.ok _, gb) =>
              if f_fall then gb.builder_label
                ((g.gen_label operatorNode.tok true "").2.gen_label operatorNode.tok false "").1
              else (.ok ⟨⟩, gb)) := by
      rw [condn_expression_eq]
      simp only [if_neg htype, if_pos hand]
      cases f_fall
      · simp only [Bool.not_false, if_true, Bool.false_eq_true, if_false]
      · simp only [Bool.not_true, Bool.false_eq_true, if_false, if_true]
    refine ⟨heq, ?_⟩
    intro g1 hok
    rw [heq] at hok
    rcases hf : condn_expression l a (g.gen_label operatorNode.tok true "").1
        (if f_fall then ((g.gen_label operatorNode.tok true "").2.gen_label
          operatorNode.tok false "").1 else f_label) true false
        ((g.gen_label operatorNode.tok true "").2.gen_label operatorNode.tok false "").2
      with ⟨_ | u, ga⟩
    · simp [hf] at hok
    · simp only [hf] at hok
      rcases hs : condn_expression l b t_label f_label t_fall f_fall ga with ⟨_ | u2, gb⟩
      · simp [hs] at hok
      · simp only [hs] at hok
        refine ⟨ga, gb, rfl, hs, ?_, ?_⟩
        · intro hff
          rw [if_pos hff] at hok
          exact (builder_label_ok hok).1
        · intro hff
          rw [hff] at hok
          simp only [Bool.false_eq_true, if_false, Prod.mk.injEq] at hok
          exact hok.2.symm
  · intro hor
    have hand : operatorNode.tok.type ≠ .CONDN_AND := by rw [hor]; decide
    have heq : condn_expression l (.mk type tok (a :: operatorNode :: b :: more))
          t_label f_label t_fall f_fall g
        = (match condn_expression l a
              (if t_fall then (g.gen_label operatorNode.tok true "").1 else t_label)
              ((g.gen_label operatorNode.tok true "").2.gen_label operatorNode.tok false "").1
              false true
              ((g.gen_label operatorNode.tok true "").2.gen_label operatorNode.tok false "").2
            with
          | (.error e, ga) => (.error e, ga)
          | (.ok _, ga) =>
            match condn_expression l b t_label f_label t_fall f_fall ga with
            | (.error e, gb) => (.error e, gb)
            | (.ok _, gb) =>
              if t_fall then gb.builder_label (g.gen_label operatorNode.tok true "").1
              else (.ok ⟨⟩, gb)) := by
      rw [condn_expression_eq]
      simp only [if_neg htype, if_neg hand, if_pos hor]
      cases t_fall
      · simp only [Bool.not_false, if_true, Bool.false_eq_true, if_false]
      · simp only [Bool.not_true, Bool.false_eq_true, if_false, if_true]
    refine ⟨heq, ?_⟩
    intro g1 hok
    rw [heq] at hok
    rcases hf : condn_expression l a
        (if t_fall then (g.gen_label operatorNode.tok true "").1 else t_label)
        ((g.gen_label operatorNode.tok true "").2.gen_label operatorNode.tok false "").1
        false true
        ((g.gen_label operatorNode.tok true "").2.gen_label operatorNode.tok false "").2
      with ⟨_ | u, ga⟩
    · simp [hf] at hok
    · simp only [hf] at hok
      rcases hs : condn_expression l b t_label f_label t_fall f_fall ga with ⟨_ | u2, gb⟩
      · simp [hs] at hok
      · simp only [hs] at hok
        refine ⟨ga, gb, rfl, hs, ?_, ?_⟩
        · intro htf
          rw [if_pos htf] at hok
          exact (builder_label_ok hok).1
        · intro htf
          rw [htf] at hok
          simp only [Bool.false_eq_true, if_false, Prod.mk.injEq] at hok
          exact hok.2.symm
  · intro t1 t2 k1 k2 e r2 r1 rest ht1 hk1
    rw [condn_expression_eq]
    have h1 : (Node.mk t1 k1 (.mk t2 k2 (e :: r2) :: r1)).type ≠ .EXPRESSION := ht1
    have h2 : ¬ (Node.mk t1 k1 (.mk t2 k2 (e :: r2) :: r1)).tok.type ≠ .CONDN_NOT := by
      intro h
      exact h hk1
    simp only [if_true, if_neg h1, if_neg h2]

end ir_generator
namespace ir_generator

/-- C34 at concrete inputs: `i < 3 && j < 4` lowered with the false side
falling through ends with the CREATE_LABEL of the new false label, to which
the first comparison branches; lowered with the true side falling through it
creates no label and both comparisons branch to the false target of the
caller; and `!(i < 3)` with the true side falling through is `i < 3` with
the false side falling through. -/
theorem condn_expression_short_circuit_witness :
    (condn_expression exampleLowering exampleConjunction exampleTrueLabel exampleFalseLabel
        false true exampleGenerator).2.entries
      = [{ opcode := .LT,
           op1 := { dtype := .I32, operandType := .VAR, name := "i", operandId := 2 },
           op2 := createLiteralOperand .I32 3 3 },
         { opcode := .IF_FALSE_GOTO, op1 := createLabelOperand "__false_l5_c7" 1 },
         { opcode := .LT,
           op1 := { dtype := .I32, operandType := .VAR, name := "j", operandId := 4 },
           op2 := createLiteralOperand .I32 4 5 },
         { opcode := .IF_TRUE_GOTO, op1 := exampleTrueLabel },
         { opcode := .CREATE_LABEL, op1 := createLabelOperand "__false_l5_c7" 1 }] ∧
    (condn_expression exampleLowering exampleConjunction exampleTrueLabel exampleFalseLabel
        true false exampleGenerator).2.entries
      = [{ opcode := .LT,
           op1 := { dtype := .I32, operandType := .VAR, name := "i", operandId := 2 },
           op2 := createLiteralOperand .I32 3 3 },
         { opcode := .IF_FALSE_GOTO, op1 := exampleFalseLabel },
         { opcode := .LT,
           op1 := { dtype := .I32, operandType := .VAR, name := "j", operandId := 4 },
           op2 := createLiteralOperand .I32 4 5 },
         { opcode := .IF_FALSE_GOTO, op1 := exampleFalseLabel }] ∧
    (∃ ga gb : ir_generator,
      condn_expression exampleLowering exampleComparisonTwo exampleTrueLabel exampleFalseLabel
        false true ga = (.ok ⟨⟩, gb) ∧
      (condn_expression exampleLowering exampleConjunction exampleTrueLabel exampleFalseLabel
          false true exampleGenerator).2.entries
        = gb.entries ++ [{ opcode := .CREATE_LABEL,
                           op1 := createLabelOperand "__false_l5_c7" 1 }]) ∧
    condn_expression exampleLowering exampleNegation exampleTrueLabel exampleFalseLabel
        true false exampleGenerator
      = condn_expression exampleLowering exampleComparison exampleFalseLabel exampleTrueLabel
          false true exampleGenerator := by
  have h := condn_expression_short_circuit exampleLowering .EXPRESSION {} exampleComparison
    (.mk .OPERATOR { string := "&&", type := .CONDN_AND, line := 5, col := 7 } [])
    exampleComparisonTwo [] exampleTrueLabel exampleFalseLabel false true exampleGenerator
    (by decide)
  obtain ⟨ga, gb, -, hb, hlabel, -⟩ := (h.1 rfl).2 _ rfl
  refine ⟨rfl, rfl, ⟨ga, gb, hb, hlabel rfl⟩, ?_⟩
  exact (condn_expression_short_circuit exampleLowering .EXPRESSION {} exampleComparison
    exampleComparison exampleComparison [] exampleTrueLabel exampleFalseLabel true false
    exampleGenerator (by decide)).2.2 .UNARY_OPR .TERM { string := "!", type := .CONDN_NOT } {}
    exampleComparison [] [] [] (by decide) rfl

/-- C33: when expressions append neither comparisons nor conditional
branches, a call of `condn_expression` with `t_fall != f_fall` that returns
has appended entries in which every comparison entry (LT, LTE, GT, GTE, EQ,
NEQ) is directly followed by a conditional branch entry (IF_TRUE_GOTO or
IF_FALSE_GOTO), and the entry after that branch, if there is one, is not a
conditional branch; and every call of `condn_expression` nested in the call
has different fall flags again. -/
theorem condn_expression_compare_then_branch (l : Lowering) (hplain : l.PlainExpressions)
    (root : Node) (t_label f_label : Operand) (t_fall f_fall : Bool) (g g1 : ir_generator)
    (hflags : t_fall ≠ f_fall)
    (hok : condn_expression l root t_label f_label t_fall f_fall g = (.ok ⟨⟩, g1)) :
    (∃ es : List Entry, g1.entries = g.entries ++ es ∧
      ∀ (before after : List Entry) (e : Entry), es = before ++ e :: after →
        isCompare e = true →
        ∃ (branch : Entry) (rest : List Entry), after = branch :: rest ∧
          isConditionalBranch branch = true ∧
          ∀ next ∈ rest.head?, isConditionalBranch next = false) ∧
    (∀ (child : Node) (tf ff : Bool), NestedCall root t_fall f_fall child tf ff → tf ≠ ff) := by
  obtain ⟨es, hes, hshape⟩ := condn_expression_shape l hplain root t_label f_label t_fall
    f_fall g g1 hok
  exact ⟨⟨es, hes, (hshape.paired hflags).adjacent⟩, fun child tf ff h => h.nested_flags hflags⟩

/-- C33 at a concrete input: `i < 3 && j < 4` lowered as the condition of a
loop (true side falling through) is two comparisons, each followed by its
IF_FALSE_GOTO. -/
theorem condn_expression_compare_then_branch_witness :
    true ≠ false ∧
    condn_expression exampleLowering exampleConjunction exampleTrueLabel exampleFalseLabel
      true false exampleGenerator
      = (.ok ⟨⟩, (condn_expression exampleLowering exampleConjunction exampleTrueLabel
          exampleFalseLabel true false exampleGenerator).2) ∧
    ∃ es : List Entry,
      (condn_expression exampleLowering exampleConjunction exampleTrueLabel exampleFalseLabel
        true false exampleGenerator).2.entries = exampleGenerator.entries ++ es ∧
      ∀ (before after : List Entry) (e : Entry), es = before ++ e :: after →
        isCompare e = true →
        ∃ (branch : Entry) (rest : List Entry), after = branch :: rest ∧
          isConditionalBranch branch = true ∧
          ∀ next ∈ rest.head?, isConditionalBranch next = false :=
  ⟨by decide, rfl,
   (condn_expression_compare_then_branch exampleLowering exampleLowering_plain
     exampleConjunction exampleTrueLabel exampleFalseLabel true false exampleGenerator _
     (by decide) rfl).1⟩

end ir_generator
namespace ir_generator

/-- C31 at a failing input: `a : Pair[2][3]` is an array of structs.  For
`a[0].a` the run of subscripts indexes one of the two dimensions, so the
STRUCT_VAR selector is applied while the dimension list of the current type is
`[3]`, with `dim_count` equal to 1; `var_access` returns, and the last entry
it appends is the ADDR_ADD of the offset 4 of the field.  For `a.a`, where no
subscript precedes the selector, it raises `STRUCT access on an ARRAY` after
the CREATE_PTR of the variable, with no ADDR_ADD. -/
theorem var_access_partial_index_accepted :
    (eraseIndexed examplePairArray 1).dimensions = [3] ∧
    (var_access exampleLowering (fun _ => 0) examplePartialAccess exampleAccessGenerator).1
      = .ok { first := { operandId := 7, dtype := .F32, operandType := .TEMP_PTR },
              second := { dtype := .F32, dtypeName := "float", moduleName := "m",
                          dtypeSize := 4, offset := 4, size := 4, properties := 1 } } ∧
    (var_access exampleLowering (fun _ => 0) examplePartialAccess
        exampleAccessGenerator).2.entries
      = [{ opcode := .CREATE_PTR,
           op1 := { operandId := 1, dtype := .F32, operandType := .TEMP_PTR },
           op2 := { operandId := 0, dtype := .STRUCT, operandType := .VAR, name := "a" } },
         { opcode := .ADDR_MUL,
           op1 := { operandId := 4, dtype := .VOID, operandType := .TEMP_PTR },
           op2 := createLiteralOperand .AUTO_INT 0 2,
           op3 := createLiteralAddressOperand 24 3 },
         { opcode := .ADDR_ADD,
           op1 := { operandId := 5, dtype := .F32, operandType := .TEMP_PTR },
           op2 := { operandId := 1, dtype := .F32, operandType := .TEMP_PTR },
           op3 := { operandId := 4, dtype := .VOID, operandType := .TEMP_PTR } },
         { opcode := .ADDR_ADD,
           op1 := { operandId := 7, dtype := .F32, operandType := .TEMP_PTR },
           op2 := { operandId := 5, dtype := .F32, operandType := .TEMP_PTR },
           op3 := createLiteralAddressOperand 4 6 }] ∧
    (var_access exampleLowering (fun _ => 0) exampleArrayFieldAccess exampleAccessGenerator).1
      = .error (.compileError "STRUCT access on an ARRAY") ∧
    (var_access exampleLowering (fun _ => 0) exampleArrayFieldAccess
        exampleAccessGenerator).2.entries
      = [{ opcode := .CREATE_PTR,
           op1 := { operandId := 1, dtype := .F32, operandType := .TEMP_PTR },
           op2 := { operandId := 0, dtype := .STRUCT, operandType := .VAR, name := "a" } }] :=
  ⟨rfl, rfl, rfl, rfl, rfl⟩

end ir_generator
namespace ir_generator

/-- The test of the STRUCT_VAR case of `var_access` on an array that no
subscript precedes (`dim_count` is 0): the selector is rejected and the state
is left as it was. -/
theorem accessPath_struct_of_array (l : Lowering) (child field : Node) (rest : List Node)
    (width : Option Nat) (current_offset_temp : Operand) (current_var_info : TypeDescription)
    (g : ir_generator) (hchild : child.type = .STRUCT_VAR)
    (hstruct : current_var_info.dtype = .STRUCT)
    (harray : current_var_info.dimensions.length ≠ 0) :
    accessPath l (child :: field :: rest) 0 width current_offset_temp current_var_info g
      = (.error (.compileError "STRUCT access on an ARRAY"), g) := by
  rw [accessPath]
  simp only [hchild, if_true, hstruct, ne_eq, not_true_eq_false, if_false, true_and]
  rw [if_pos harray]

end ir_generator

/-- C35 at failing inputs, in a context with the working module `lib`, the
root module `m` and one saved working module.  For the plain named type of
`var x: int` the call leaves the context as it found it.  For the node of
`fn f(a: int)`, which has no type identifier, it returns the VOID type, and
for the node of `var x: List[int]`, which has a generic type parameter, it
returns the instantiated type; after either call the working module is the
root module `m`, not `lib`, and the stack of saved working modules holds two
modules, not one: the working module pushed on entry was not popped. -/
theorem typeDescriptionFromNode_leaves_module_pushed :
    exampleTypeContext.workingModule = "lib" ∧
    exampleTypeContext.moduleDescriptionStack = ["m"] ∧
    (typeDescriptionFromNode exampleTypeParts exampleNamedTypeNode exampleTypeContext)
      = (.ok { dtype := .I32, dtypeName := "int", moduleName := "m", dtypeSize := 4, size := 4 },
         exampleTypeContext) ∧
    isGenericTypeParamPresent exampleVoidTypeNode.children = false ∧
    (typeDescriptionFromNode exampleTypeParts exampleVoidTypeNode exampleTypeContext).1
      = .ok (typeDescriptionFromDataType .VOID) ∧
    (typeDescriptionFromNode exampleTypeParts exampleVoidTypeNode
      exampleTypeContext).2.workingModule = "m" ∧
    (typeDescriptionFromNode exampleTypeParts exampleVoidTypeNode
      exampleTypeContext).2.moduleDescriptionStack = ["m", "lib"] ∧
    isGenericTypeParamPresent exampleGenericTypeNode.children = true ∧
    (typeDescriptionFromNode exampleTypeParts exampleGenericTypeNode exampleTypeContext).1
      = .ok { dtype := .STRUCT, dtypeName := "List__m_int", moduleName := "List__m_int" } ∧
    (typeDescriptionFromNode exampleTypeParts exampleGenericTypeNode
      exampleTypeContext).2.workingModule = "m" ∧
    (typeDescriptionFromNode exampleTypeParts exampleGenericTypeNode
      exampleTypeContext).2.moduleDescriptionStack = ["m", "lib"] := by
  exact ⟨rfl, rfl, rfl, rfl, rfl, rfl, rfl, rfl, rfl, rfl, rfl⟩

/-- A node without generic type parameters, without a MODULE child and without
a type identifier after its parameters: `typeDescriptionFromNode` returns the
VOID type in the context it made on entry, the working module pushed and
reset, whatever the context and the collaborators. -/
theorem typeDescriptionFromNode_void (parts : TypeParts) (type : NodeType) (tok : Token)
    (children : List Node) (ctx : GeneratorContext)
    (hgeneric : isGenericTypeParamPresent children = false)
    (hmodule : isNthChild children .MODULE
      (skipParameters children (if type = .GENERIC_TYPE_PARAM then 0 else 1)) = false)
    (hident : isNthChild children .IDENTIFIER
      (skipParameters children (if type = .GENERIC_TYPE_PARAM then 0 else 1)) = false) :
    typeDescriptionFromNode parts (.mk type tok children) ctx
      = (.ok (parts.createVoidTypeDescription ctx.pushWorkingModule.resetWorkingModule),
         ctx.pushWorkingModule.resetWorkingModule) ∧
    (typeDescriptionFromNode parts (.mk type tok children) ctx).2.moduleDescriptionStack.length
      = ctx.moduleDescriptionStack.length + 1 := by
  have h : typeDescriptionFromNode parts (.mk type tok children) ctx
      = (.ok (parts.createVoidTypeDescription ctx.pushWorkingModule.resetWorkingModule),
         ctx.pushWorkingModule.resetWorkingModule) := by
    rw [typeDescriptionFromNode]
    simp only [hgeneric, Bool.false_eq_true, if_false, plainTypeDescriptionFromNode, Node.type,
      Node.children, hmodule, hident]
  refine ⟨h, ?_⟩
  rw [h]
  simp [GeneratorContext.pushWorkingModule, GeneratorContext.resetWorkingModule]

/-- C32, counterexample: the module `A` is `use B` and the module `B` is
`use A`.  The driver `ir_gen` called on `A` (with any bound of at least 2 on
the depth of its recursion: it compiles `B` from inside the call on `A`, and
`B`, finding `A` in the modules map already, compiles nothing further)
returns, and the modules map holds both modules, each with its import of the
other: no compile error is raised. -/
theorem ir_gen_cyclic_imports_complete :
    exampleCyclicSources.parse "A" = some (exampleUseProgram "B") ∧
    exampleCyclicSources.parse "B" = some (exampleUseProgram "A") ∧
    ∀ depth : Nat,
      ir_gen exampleCyclicSources (depth + 2) "A" {}
        = some (.ok { entries := [("A", { name := "A", uses := ["B"] }),
                                   ("B", { name := "B", uses := ["A"] })] }) :=
  ⟨rfl, rfl, fun _ => rfl⟩

namespace ir_generator

/-! ### Freshness of the labels of a condition -/

theorem gen_label_id (g : ir_generator) (tok : Token) (true_label : Bool) (pre : String) :
    (g.gen_label tok true_label pre).1.operandId = g.id_counter ∧
    (g.gen_label tok true_label pre).2.id_counter = g.id_counter + 1 := by
  unfold gen_label
  cases true_label <;> exact ⟨rfl, rfl⟩

theorem builder_compareOperator_id {g g1 : ir_generator} {opcode : Instruction}
    {op1 op2 : Operand} (h : g.builder_compareOperator opcode op1 op2 = (.ok ⟨⟩, g1)) :
    g.id_counter ≤ g1.id_counter := by
  obtain ⟨fb, _, hid, _, _, h2⟩ := withBuilder_ok h
  rw [h2, ← hid]
  simp only [FunctionBuilder.compareOperator, FunctionBuilder.ensureNotPointer_eq,
    FunctionBuilder.pushEntry]
  omega

theorem compareBranches_id {g g1 : ir_generator} {t_label f_label : Operand}
    {t_fall f_fall : Bool}
    (h : g.compareBranches t_label f_label t_fall f_fall = (.ok ⟨⟩, g1)) :
    g1.id_counter = g.id_counter := by
  unfold compareBranches at h
  cases t_fall <;> cases f_fall
  · simp only [Bool.not_false, if_true] at h
    rcases h1 : g.builder_createBranch .IF_TRUE_GOTO t_label with ⟨_ | u, ga⟩
    · simp [h1] at h
    · simp only [h1] at h
      rw [(builder_createBranch_ok h).2, (builder_createBranch_ok h1).2]
  · simp only [Bool.not_false, Bool.not_true, if_true, Bool.false_eq_true, if_false] at h
    rcases h1 : g.builder_createBranch .IF_TRUE_GOTO t_label with ⟨_ | u, ga⟩
    · simp [h1] at h
    · simp only [h1, Prod.mk.injEq] at h
      rw [← h.2, (builder_createBranch_ok h1).2]
  · simp only [Bool.not_false, Bool.not_true, if_true, Bool.false_eq_true, if_false] at h
    exact (builder_createBranch_ok h).2
  · simp only [Bool.not_true, Bool.false_eq_true, if_false, Prod.mk.injEq] at h
    rw [← h.2]

/-- The comparison case of `condn_expression`, when it returns: the id counter
has not gone back, and the branches appended target the targets of the call
whose sides do not fall through. -/
theorem compareExpression_fresh (l : Lowering) (hplain : l.PlainExpressions)
    (hmono : l.MonotoneIds) (g g1 : ir_generator) (first : Node) (second : Option Node)
    (expr_opr : Token) (t_label f_label : Operand) (t_fall f_fall : Bool)
    (hok : compareExpression l g first second expr_opr t_label f_label t_fall f_fall
      = (.ok ⟨⟩, g1)) :
    g.id_counter ≤ g1.id_counter ∧
    ∃ es, g1.entries = g.entries ++ es ∧
      BranchesTo t_label f_label t_fall f_fall g.id_counter es := by
  unfold compareExpression at hok
  cases hop : tokenToCompareOperator expr_opr with
  | error e => simp [hop] at hok
  | ok opcode =>
    simp only [hop] at hok
    rcases hfirst : l.expression first g with ⟨_ | a, ga⟩
    · simp [hfirst] at hok
    · simp only [hfirst] at hok
      split at hok
      · simp at hok
      · cases second with
        | none => simp at hok
        | some secondNode =>
          simp only at hok
          rcases hsecond : l.expression secondNode ga with ⟨_ | b, gb⟩
          · simp [hsecond] at hok
          · simp only [hsecond] at hok
            split at hok
            · simp at hok
            · rcases hcmp : gb.builder_compareOperator opcode a.first b.first with ⟨_ | u, gc⟩
              · simp [hcmp] at hok
              · simp only [hcmp] at hok
                obtain ⟨ea, hea, hpa⟩ := hplain first g ga a hfirst
                obtain ⟨eb, heb, hpb⟩ := hplain secondNode ga gb b hsecond
                have hc := builder_compareOperator_ok hcmp
                have hb := compareBranches_ok hok
                have hid : g.id_counter ≤ g1.id_counter := by
                  have h1 := hmono first g ga a hfirst
                  have h2 := hmono secondNode ga gb b hsecond
                  have h3 := builder_compareOperator_id hcmp
                  have h4 := compareBranches_id hok
                  omega
                refine ⟨hid,
                  ea ++ (eb ++ (compareEntries opcode a.first b.first gb.id_counter
                    ++ ((if t_fall then []
                         else [({ opcode := .IF_TRUE_GOTO, op1 := t_label } : Entry)])
                      ++ (if f_fall then []
                          else [({ opcode := .IF_FALSE_GOTO, op1 := f_label } : Entry)])))),
                  ?_, ?_⟩
                · rw [hb, hc, heb, hea]
                  simp only [List.append_assoc]
                · intro e he hbr
                  simp only [List.mem_append] at he
                  rcases he with he | he | he | he | he
                  · rw [(hpa e he).2] at hbr
                    exact absurd hbr (by decide)
                  · rw [(hpb e he).2] at hbr
                    exact absurd hbr (by decide)
                  · exfalso
                    simp only [compareEntries, List.mem_append, List.mem_singleton] at he
                    rcases he with (he | he) | he
                    · rw [(readEntries_plain _ _ e he).2] at hbr
                      exact absurd hbr (by decide)
                    · rw [(readEntries_plain _ _ e he).2] at hbr
                      exact absurd hbr (by decide)
                    · have hcmpe := tokenToCompareOperator_isCompare hop
                        (FunctionBuilder.valueOperand gb.id_counter a.first)
                        (FunctionBuilder.valueOperand
                          (gb.id_counter + FunctionBuilder.idsTaken a.first)
                          (FunctionBuilder.adoptLiteralDataType a.first b.first)) {}
                      have := isConditionalBranch_not_isCompare hbr
                      rw [he] at this
                      rw [hcmpe] at this
                      exact absurd this (by decide)
                  · cases t_fall
                    · simp only [Bool.false_eq_true, if_false, List.mem_singleton] at he
                      subst he
                      exact Or.inl ⟨rfl, rfl⟩
                    · simp at he
                  · cases f_fall
                    · simp only [Bool.false_eq_true, if_false, List.mem_singleton] at he
                      subst he
                      exact Or.inr (Or.inl ⟨rfl, rfl⟩)
                    · simp at he

end ir_generator
namespace ir_generator

theorem BranchesTo.of_label (t f : Operand) (tf ff flag : Bool) (c : Nat) (label : Operand) :
    BranchesTo t f tf ff c
      (if flag then [({ opcode := .CREATE_LABEL, op1 := label } : Entry)] else []) := by
  intro e he hbr
  cases flag
  · simp at he
  · simp only [if_true, List.mem_singleton] at he
    subst he
    exact Bool.noConfusion hbr

theorem BranchesTo.concat {t f : Operand} {tf ff : Bool} {c : Nat} {xs ys : List Entry}
    (hx : BranchesTo t f tf ff c xs) (hy : BranchesTo t f tf ff c ys) :
    BranchesTo t f tf ff c (xs ++ ys) := by
  intro e he hbr
  rcases List.mem_append.mp he with h | h
  · exact hx e h hbr
  · exact hy e h hbr

/-- A call of `condn_expression` that returns has not set the id counter back,
and every conditional branch it appended targets the true target of the call
while the true side does not fall through, the false target while the false
side does not fall through, or an operand minted during the call. -/
theorem condn_expression_fresh (l : Lowering) (hplain : l.PlainExpressions)
    (hmono : l.MonotoneIds) :
    ∀ (root : Node) (t_label f_label : Operand) (t_fall f_fall : Bool) (g g1 : ir_generator),
      condn_expression l root t_label f_label t_fall f_fall g = (.ok ⟨⟩, g1) →
      g.id_counter ≤ g1.id_counter ∧
      ∃ es, g1.entries = g.entries ++ es ∧
        BranchesTo t_label f_label t_fall f_fall g.id_counter es := by
  intro root
  generalize hsize : sizeOf root = k
  induction k using Nat.strong_induction_on generalizing root with
  | _ k ih =>
    intro t_label f_label t_fall f_fall g g1 hok
    obtain ⟨type, tok, children⟩ := root
    have hchild : ∀ child ∈ children, ∀ (t_label f_label : Operand) (t_fall f_fall : Bool)
        (g g1 : ir_generator),
        condn_expression l child t_label f_label t_fall f_fall g = (.ok ⟨⟩, g1) →
        g.id_counter ≤ g1.id_counter ∧
        ∃ es, g1.entries = g.entries ++ es ∧
          BranchesTo t_label f_label t_fall f_fall g.id_counter es := by
      intro child hmem
      exact ih _ (hsize ▸ Node.sizeOf_child_lt type tok children child hmem) child rfl
    rw [condn_expression_eq] at hok
    by_cases htype : type = .TERM
    · rw [if_pos htype] at hok
      cases children with
      | nil => simp at hok
      | cons child0 rest0 =>
        simp only at hok
        by_cases hexpr : child0.type = .EXPRESSION
        · rw [if_pos hexpr] at hok
          exact hchild child0 (List.mem_cons_self _ _) _ _ _ _ _ _ hok
        · rw [if_neg hexpr] at hok
          by_cases hnot : child0.tok.type ≠ .CONDN_NOT
          · rw [if_pos hnot] at hok
            simp at hok
          · rw [if_neg hnot] at hok
            obtain ⟨t1, k1, cc⟩ := child0
            cases cc with
            | nil => simp at hok
            | cons c1 r1 =>
              obtain ⟨t2, k2, cc2⟩ := c1
              cases cc2 with
              | nil => simp at hok
              | cons inner r2 =>
                simp only at hok
                have hlt : sizeOf inner < k := by
                  rw [← hsize]
                  simp only [Node.mk.sizeOf_spec, List.cons.sizeOf_spec]
                  omega
                obtain ⟨hid, es, h1, h2⟩ := ih _ hlt inner rfl _ _ _ _ _ _ hok
                refine ⟨hid, es, h1, ?_⟩
                intro e he hbr
                rcases h2 e he hbr with h | h | h
                · exact Or.inr (Or.inl h)
                · exact Or.inl h
                · exact Or.inr (Or.inr h)
    · rw [if_neg htype] at hok
      cases children with
      | nil => simp at hok
      | cons first rest1 =>
        cases rest1 with
        | nil =>
          simp only at hok
          exact hchild first (List.mem_cons_self _ _) _ _ _ _ _ _ hok
        | cons operatorNode rest =>
          have hfirst := hchild first (List.mem_cons_self _ _)
          simp only at hok
          have hg0 : ((g.gen_label operatorNode.tok true "").2.gen_label operatorNode.tok
              false "").2.entries = g.entries := by
            rw [gen_label_entries, gen_label_entries]
          have hc0 : ((g.gen_label operatorNode.tok true "").2.gen_label operatorNode.tok
              false "").2.id_counter = g.id_counter + 2 := by
            rw [(gen_label_id _ _ _ _).2, (gen_label_id _ _ _ _).2]
          have hnt : (g.gen_label operatorNode.tok true "").1.operandId = g.id_counter :=
            (gen_label_id _ _ _ _).1
          have hnf : ((g.gen_label operatorNode.tok true "").2.gen_label operatorNode.tok
              false "").1.operandId = g.id_counter + 1 := by
            rw [(gen_label_id _ _ _ _).1, (gen_label_id _ _ _ _).2]
          by_cases hand : operatorNode.tok.type = .CONDN_AND
          · rw [if_pos hand] at hok
            rcases hf : condn_expression l first (g.gen_label operatorNode.tok true "").1
                (if f_fall then ((g.gen_label operatorNode.tok true "").2.gen_label
                  operatorNode.tok false "").1 else f_label) true false
                ((g.gen_label operatorNode.tok true "").2.gen_label operatorNode.tok
                  false "").2 with ⟨_ | u, ga⟩
            · cases f_fall <;> simp [hf] at hf hok <;> simp [hf] at hok
            · have hok2 : (match rest with
                  | [] => ((.error .undefinedBehaviour, ga) : Lowered PUnit.{1})
                  | second :: _ =>
                    match condn_expression l second t_label f_label t_fall f_fall ga with
                    | (.error e, g2) => (.error e, g2)
                    | (.ok _, g2) =>
                      if f_fall then g2.builder_label
                        ((g.gen_label operatorNode.tok true "").2.gen_label operatorNode.tok
                          false "").1
                      else (.ok ⟨⟩, g2)) = (.ok ⟨⟩, g1) := by
                cases f_fall <;> simp [hf] at hf hok <;> simpa [hf] using hok
              obtain ⟨hid1, es1, he1, hb1⟩ := hfirst _ _ _ _ _ _ hf
              rw [hc0] at hid1 hb1
              cases rest with
              | nil => simp at hok2
              | cons second rest3 =>
                simp only at hok2
                rcases hs : condn_expression l second t_label f_label t_fall f_fall ga
                  with ⟨_ | u2, gb⟩
                · simp [hs] at hok2
                · simp only [hs] at hok2
                  obtain ⟨hid2, es2, he2, hb2⟩ := hchild second (by simp) _ _ _ _ _ _ hs
                  have h1 : BranchesTo t_label f_label t_fall f_fall g.id_counter es1 := by
                    intro e he hbr
                    rcases hb1 e he hbr with ⟨_, h0⟩ | ⟨hx, _⟩ | h
                    · exact absurd h0 (by decide)
                    · cases f_fall
                      · exact Or.inr (Or.inl ⟨hx, rfl⟩)
                      · right; right
                        simp only [if_true] at hx
                        rw [hx, hnf]
                        omega
                    · right; right; omega
                  have h2 : BranchesTo t_label f_label t_fall f_fall g.id_counter es2 := by
                    intro e he hbr
                    rcases hb2 e he hbr with h | h | h
                    · exact Or.inl h
                    · exact Or.inr (Or.inl h)
                    · right; right; omega
                  have hall := (h1.concat h2).concat
                    (BranchesTo.of_label t_label f_label t_fall f_fall f_fall g.id_counter
                      ((g.gen_label operatorNode.tok true "").2.gen_label operatorNode.tok
                        false "").1)
                  refine ⟨?_, _, ?_, hall⟩
                  · cases f_fall
                    · simp only [Bool.false_eq_true, if_false, Prod.mk.injEq] at hok2
                      rw [← hok2.2]
                      omega
                    · simp only [if_true] at hok2
                      rw [(builder_label_ok hok2).2]
                      omega
                  · cases f_fall
                    · simp only [Bool.false_eq_true, if_false, Prod.mk.injEq] at hok2
                      rw [← hok2.2, he2, he1, hg0]
                      simp
                    · simp only [if_true] at hok2
                      rw [(builder_label_ok hok2).1, he2, he1, hg0]
                      simp
          · rw [if_neg hand] at hok
            by_cases hor : operatorNode.tok.type = .CONDN_OR
            · rw [if_pos hor] at hok
              rcases hf : condn_expression l first
                  (if t_fall then (g.gen_label operatorNode.tok true "").1 else t_label)
                  ((g.gen_label operatorNode.tok true "").2.gen_label operatorNode.tok
                    false "").1 false true
                  ((g.gen_label operatorNode.tok true "").2.gen_label operatorNode.tok
                    false "").2 with ⟨_ | u, ga⟩
              · cases t_fall <;> simp [hf] at hf hok <;> simp [hf] at hok
              · have hok2 : (match rest with
                    | [] => ((.error .undefinedBehaviour, ga) : Lowered PUnit.{1})
                    | second :: _ =>
                      match condn_expression l second t_label f_label t_fall f_fall ga with
                      | (.error e, g2) => (.error e, g2)
                      | (.ok _, g2) =>
                        if t_fall then g2.builder_label (g.gen_label operatorNode.tok true "").1
                        else (.ok ⟨⟩, g2)) = (.ok ⟨⟩, g1) := by
                  cases t_fall <;> simp [hf] at hf hok <;> simpa [hf] using hok
                obtain ⟨hid1, es1, he1, hb1⟩ := hfirst _ _ _ _ _ _ hf
                rw [hc0] at hid1 hb1
                cases rest with
                | nil => simp at hok2
                | cons second rest3 =>
                  simp only at hok2
                  rcases hs : condn_expression l second t_label f_label t_fall f_fall ga
                    with ⟨_ | u2, gb⟩
                  · simp [hs] at hok2
                  · simp only [hs] at hok2
                    obtain ⟨hid2, es2, he2, hb2⟩ := hchild second (by simp) _ _ _ _ _ _ hs
                    have h1 : BranchesTo t_label f_label t_fall f_fall g.id_counter es1 := by
                      intro e he hbr
                      rcases hb1 e he hbr with ⟨hx, _⟩ | ⟨_, h0⟩ | h
                      · cases t_fall
                        · exact Or.inl ⟨hx, rfl⟩
                        · right; right
                          simp only [if_true] at hx
                          rw [hx, hnt]
                      · exact absurd h0 (by decide)
                      · right; right; omega
                    have h2 : BranchesTo t_label f_label t_fall f_fall g.id_counter es2 := by
                      intro e he hbr
                      rcases hb2 e he hbr with h | h | h
                      · exact Or.inl h
                      · exact Or.inr (Or.inl h)
                      · right; right; omega
                    have hall := (h1.concat h2).concat
                      (BranchesTo.of_label t_label f_label t_fall f_fall t_fall g.id_counter
                        (g.gen_label operatorNode.tok true "").1)
                    refine ⟨?_, _, ?_, hall⟩
                    · cases t_fall
                      · simp only [Bool.false_eq_true, if_false, Prod.mk.injEq] at hok2
                        rw [← hok2.2]
                        omega
                      · simp only [if_true] at hok2
                        rw [(builder_label_ok hok2).2]
                        omega
                    · cases t_fall
                      · simp only [Bool.false_eq_true, if_false, Prod.mk.injEq] at hok2
                        rw [← hok2.2, he2, he1, hg0]
                        simp
                      · simp only [if_true] at hok2
                        rw [(builder_label_ok hok2).1, he2, he1, hg0]
                        simp
            · rw [if_neg hor] at hok
              exact compareExpression_fresh l hplain hmono g g1 first rest.head?
                operatorNode.tok t_label f_label t_fall f_fall hok

end ir_generator
namespace ir_generator

theorem exampleLowering_monotone : exampleLowering.MonotoneIds := by
  intro node g g1 a h
  have h2 : g1 = (exampleLowering.expression node g).2 := by rw [h]
  rw [h2]
  show g.id_counter ≤ (exampleExpression node g).2.id_counter
  unfold exampleExpression
  split <;> exact Nat.le_succ _

/-- C36: when expressions append neither comparisons nor conditional
branches, every conditional branch entry (IF_TRUE_GOTO or IF_FALSE_GOTO)
appended by a call of `condn_expression` that returns, whatever the fall
flags, targets the true target of the call and `t_fall` is false, or the
false target of the call and `f_fall` is false, or a label for which a
CREATE_LABEL entry comes later among the appended entries.  And a target
passed with its fall flag set is never branched to: when moreover expressions
do not set the id counter back, the two targets are different operands and the
target was minted before the call (its id is below the id counter, so it is
none of the labels the call generates), no conditional branch appended by the
call targets it. -/
theorem condn_expression_branch_targets (l : Lowering) (hplain : l.PlainExpressions)
    (root : Node) (t_label f_label : Operand) (t_fall f_fall : Bool) (g g1 : ir_generator)
    (hok : condn_expression l root t_label f_label t_fall f_fall g = (.ok ⟨⟩, g1)) :
    ∃ es : List Entry, g1.entries = g.entries ++ es ∧
      (∀ (before after : List Entry) (e : Entry), es = before ++ e :: after →
        isConditionalBranch e = true →
        (e.op1 = t_label ∧ t_fall = false) ∨ (e.op1 = f_label ∧ f_fall = false) ∨
        ∃ c ∈ after, c.opcode = .CREATE_LABEL ∧ c.op1 = e.op1) ∧
      (l.MonotoneIds → t_label ≠ f_label →
        (t_fall = true → t_label.operandId < g.id_counter →
          ∀ e ∈ es, isConditionalBranch e = true → e.op1 ≠ t_label) ∧
        (f_fall = true → f_label.operandId < g.id_counter →
          ∀ e ∈ es, isConditionalBranch e = true → e.op1 ≠ f_label)) := by
  obtain ⟨es, hes, hshape⟩ := condn_expression_shape l hplain root t_label f_label t_fall
    f_fall g g1 hok
  refine ⟨es, hes, ?_, ?_⟩
  · intro before after e he hb
    rcases hshape.targets.at before after e he hb with (h | h) | h
    · exact Or.inl h
    · exact Or.inr (Or.inl h)
    · exact Or.inr (Or.inr h)
  · intro hmono hne
    obtain ⟨-, es2, hes2, hto⟩ := condn_expression_fresh l hplain hmono root t_label f_label
      t_fall f_fall g g1 hok
    have hsame : es2 = es := List.append_cancel_left (hes2.symm.trans hes)
    subst hsame
    constructor
    · intro htf hfresh e he hbr heq
      rcases hto e he hbr with ⟨_, h0⟩ | ⟨hf, _⟩ | h
      · rw [htf] at h0
        exact absurd h0 (by decide)
      · exact hne (heq.symm.trans hf)
      · rw [heq] at h
        omega
    · intro hff hfresh e he hbr heq
      rcases hto e he hbr with ⟨ht, _⟩ | ⟨_, h0⟩ | h
      · exact hne (ht.symm.trans heq)
      · rw [hff] at h0
        exact absurd h0 (by decide)
      · rw [heq] at h
        omega

/-- C36 at a concrete input: in `i < 3 || j < 4` lowered as the condition of a
loop, the first comparison branches to the new true label, which is created
at the end, and the second to the false target of the call; lowered after the
two targets were minted, no branch targets the true target, whose side falls
through. -/
theorem condn_expression_branch_targets_witness :
    condn_expression exampleLowering exampleDisjunction exampleTrueLabel exampleFalseLabel
      true false exampleGenerator
      = (.ok ⟨⟩, (condn_expression exampleLowering exampleDisjunction exampleTrueLabel
          exampleFalseLabel true false exampleGenerator).2) ∧
    (condn_expression exampleLowering exampleDisjunction exampleTrueLabel exampleFalseLabel
        true false exampleGenerator).2.entries
      = [{ opcode := .LT,
           op1 := { dtype := .I32, operandType := .VAR, name := "i", operandId := 2 },
           op2 := createLiteralOperand .I32 3 3 },
         { opcode := .IF_TRUE_GOTO, op1 := createLabelOperand "__true_l5_c7" 0 },
         { opcode := .LT,
           op1 := { dtype := .I32, operandType := .VAR, name := "j", operandId := 4 },
           op2 := createLiteralOperand .I32 4 5 },
         { opcode := .IF_FALSE_GOTO, op1 := exampleFalseLabel },
         { opcode := .CREATE_LABEL, op1 := createLabelOperand "__true_l5_c7" 0 }] ∧
    (∃ es : List Entry,
      (condn_expression exampleLowering exampleDisjunction exampleTrueLabel exampleFalseLabel
        true false exampleGenerator).2.entries = exampleGenerator.entries ++ es ∧
      ∀ (before after : List Entry) (e : Entry), es = before ++ e :: after →
        isConditionalBranch e = true →
        (e.op1 = exampleTrueLabel ∧ true = false) ∨ (e.op1 = exampleFalseLabel ∧ false = false) ∨
        ∃ c ∈ after, c.opcode = .CREATE_LABEL ∧ c.op1 = e.op1) ∧
    exampleTrueLabel ≠ exampleFalseLabel ∧
    exampleTrueLabel.operandId < exampleLateGenerator.id_counter ∧
    (condn_expression exampleLowering exampleDisjunction exampleTrueLabel exampleFalseLabel
        true false exampleLateGenerator).2.entries
      = [{ opcode := .LT,
           op1 := { dtype := .I32, operandType := .VAR, name := "i", operandId := 104 },
           op2 := createLiteralOperand .I32 3 105 },
         { opcode := .IF_TRUE_GOTO, op1 := createLabelOperand "__true_l5_c7" 102 },
         { opcode := .LT,
           op1 := { dtype := .I32, operandType := .VAR, name := "j", operandId := 106 },
           op2 := createLiteralOperand .I32 4 107 },
         { opcode := .IF_FALSE_GOTO, op1 := exampleFalseLabel },
         { opcode := .CREATE_LABEL, op1 := createLabelOperand "__true_l5_c7" 102 }] ∧
    (∃ es : List Entry,
      (condn_expression exampleLowering exampleDisjunction exampleTrueLabel exampleFalseLabel
        true false exampleLateGenerator).2.entries = exampleLateGenerator.entries ++ es ∧
      ∀ e ∈ es, isConditionalBranch e = true → e.op1 ≠ exampleTrueLabel) := by
  obtain ⟨es, hes, hdisj, -⟩ := condn_expression_branch_targets exampleLowering
    exampleLowering_plain exampleDisjunction exampleTrueLabel exampleFalseLabel true false
    exampleGenerator _ rfl
  obtain ⟨es2, hes2, -, hnever⟩ := condn_expression_branch_targets exampleLowering
    exampleLowering_plain exampleDisjunction exampleTrueLabel exampleFalseLabel true false
    exampleLateGenerator _ rfl
  exact ⟨rfl, rfl, ⟨es, hes, hdisj⟩, by decide, by decide, rfl,
    ⟨es2, hes2, (hnever exampleLowering_monotone (by decide)).1 rfl (by decide)⟩⟩

theorem useModule_ext_modules_map {parts : DriverParts} {child : Node} {g g1 : ir_generator}
    (h : useModule parts child g = .ok g1) : g1.ext_modules_map = g.ext_modules_map := by
  unfold useModule at h
  dsimp only at h
  split_ifs at h
  simp only [Except.ok.injEq] at h
  rw [← h]

theorem use_ext_modules_map (parts : DriverParts) :
    ∀ (children : List Node) (g g1 : ir_generator),
      forEachChild (useModule parts) children g = .ok g1 →
      g1.ext_modules_map = g.ext_modules_map := by
  intro children
  induction children with
  | nil =>
    intro g g1 h
    simp only [forEachChild, Except.ok.injEq] at h
    rw [h]
  | cons child rest ih =>
    intro g g1 h
    simp only [forEachChild] at h
    cases hc : useModule parts child g with
    | error e => simp [hc] at h
    | ok g2 =>
      simp only [hc] at h
      rw [ih g2 g1 h, useModule_ext_modules_map hc]

/-- The imports recorded by `initgen` leave the modules map as it was: `use`
writes to the uses of the module only. -/
theorem initgen_ext_modules_map (parts : DriverParts) (root : Node) (g g1 : ir_generator)
    (h : initgen parts root g = .ok g1) : g1.ext_modules_map = g.ext_modules_map := by
  unfold initgen at h
  generalize root.children = children at h
  induction children generalizing g with
  | nil =>
    simp only [initgenChildren, Except.ok.injEq] at h
    rw [h]
  | cons child rest ih =>
    simp only [initgenChildren] at h
    split_ifs at h with hu
    · cases hc : use parts child g with
      | error e => simp [hc] at h
      | ok g2 =>
        simp only [hc] at h
        rw [ih g2 h]
        exact use_ext_modules_map parts _ _ _ hc
    · simp only [Except.ok.injEq] at h
      rw [h]

/-- The constructor puts the module under its name into the modules map and
leaves the other modules as they were. -/
theorem construct_find (parts : DriverParts) (modules : StringModulesMap)
    (file_name other : String) (hne : other ≠ file_name) :
    (construct parts modules file_name).ext_modules_map.find? other = modules.find? other := by
  unfold construct
  simp only []
  rw [StdMap_find_assign_of_ne _ _ _ _ hne, StdMap_find_index_of_ne _ _ _ _ hne]

end ir_generator

/-- A call of `ir_gen` on a module whose only import is already in the modules
map does not call `ir_gen` again. -/
theorem compileUses_present (compile : String → StringModulesMap →
      Option (Except DriverFailure StringModulesMap)) (use : String)
    (modules : StringModulesMap) (m : ModuleDescription) (h : modules.find? use = some m) :
    compileUses compile [use] modules = some (.ok modules) := by
  simp only [compileUses, h, Option.isNone_some, Bool.false_eq_true, if_false]

/-- C32, amended: `ir_gen` does not detect cyclic imports.  Let the imports
that `initgen` records for `a` be `use b` and, in the modules map as it is
then, those it records for `b` be `use a`, with `a` and `b` different modules
and `b` not in the modules map when `ir_gen` is called on `a`.  Then, for
every bound of at least 2 on the depth of the recursion, the call compiles `b`
from inside the call on `a`; in `b` the import `a` is found in the modules
map, where the constructor for `a` put it, and is not compiled again; `program`
runs for `b`, then for `a`; the call ends with an error exactly when one of
the two raises one, and otherwise returns the modules map with `a` brought up
to date. -/
theorem ir_gen_mutual_imports (parts : DriverParts) (a b : String) (astA astB : Node)
    (modules : StringModulesMap) (genA genB : ir_generator) (depth : Nat)
    (hab : a ≠ b)
    (hparseA : parts.parse a = some astA) (hparseB : parts.parse b = some astB)
    (habsent : modules.find? b = none)
    (hinitA : ir_generator.initgen parts astA (ir_generator.construct parts modules a)
      = .ok genA)
    (husesA : genA.module.uses = [b])
    (hinitB : ir_generator.initgen parts astB
      (ir_generator.construct parts (genA.ext_modules_map.assign a genA.module) b) = .ok genB)
    (husesB : genB.module.uses = [a]) :
    (genB.ext_modules_map.assign b genB.module).find? a = some genA.module ∧
    (∀ e : Failure,
      ir_generator.program parts.handlers astB
          (programState genB b (genB.ext_modules_map.assign b genB.module)) = .error e →
      ir_gen parts (depth + 2) a modules = some (.error (.generator e))) ∧
    (∀ genB2 : ir_generator,
      ir_generator.program parts.handlers astB
          (programState genB b (genB.ext_modules_map.assign b genB.module)) = .ok genB2 →
      (∀ e : Failure,
        ir_generator.program parts.handlers astA
            (programState genA a (genB2.ext_modules_map.assign b genB2.module)) = .error e →
        ir_gen parts (depth + 2) a modules = some (.error (.generator e))) ∧
      (∀ genA2 : ir_generator,
        ir_generator.program parts.handlers astA
            (programState genA a (genB2.ext_modules_map.assign b genB2.module)) = .ok genA2 →
        ir_gen parts (depth + 2) a modules
          = some (.ok (genA2.ext_modules_map.assign a genA2.module)))) := by
  have hba : b ≠ a := fun h => hab h.symm
  have hfindb : (genA.ext_modules_map.assign a genA.module).find? b = none := by
    rw [StdMap_find_assign_of_ne _ _ _ _ hba,
      ir_generator.initgen_ext_modules_map parts astA _ genA hinitA,
      ir_generator.construct_find parts modules a b hba, habsent]
  have hfinda : (genB.ext_modules_map.assign b genB.module).find? a = some genA.module := by
    rw [StdMap_find_assign_of_ne _ _ _ _ hab,
      ir_generator.initgen_ext_modules_map parts astB _ genB hinitB,
      ir_generator.construct_find parts _ b a hab, StdMap_find_assign_self]
  have hstateB : programState genB b (genB.ext_modules_map.assign b genB.module)
      = { genB with
            ext_modules_map := genB.ext_modules_map.assign b genB.module,
            module := ((genB.ext_modules_map.assign b genB.module).find? b).getD genB.module } :=
    rfl
  have hstateA : ∀ modules1 : StringModulesMap, programState genA a modules1
      = { genA with
            ext_modules_map := modules1,
            module := (modules1.find? a).getD genA.module } := fun _ => rfl
  have hinnerE : ∀ e : Failure,
      ir_generator.program parts.handlers astB
          (programState genB b (genB.ext_modules_map.assign b genB.module)) = .error e →
      ir_gen parts (depth + 1) b (genA.ext_modules_map.assign a genA.module)
        = some (.error (.generator e)) := by
    intro e he
    rw [hstateB] at he
    simp only [ir_gen, hparseB, hinitB, husesB, compileUses_present _ a _ _ hfinda, he]
  have hinnerO : ∀ genB2 : ir_generator,
      ir_generator.program parts.handlers astB
          (programState genB b (genB.ext_modules_map.assign b genB.module)) = .ok genB2 →
      ir_gen parts (depth + 1) b (genA.ext_modules_map.assign a genA.module)
        = some (.ok (genB2.ext_modules_map.assign b genB2.module)) := by
    intro genB2 he
    rw [hstateB] at he
    simp only [ir_gen, hparseB, hinitB, husesB, compileUses_present _ a _ _ hfinda, he]
  have houter : ∀ r : Option (Except DriverFailure StringModulesMap),
      ir_gen parts (depth + 1) b (genA.ext_modules_map.assign a genA.module) = r →
      ir_gen parts (depth + 2) a modules
        = (match r with
          | none => none
          | some (.error e) => some (.error e)
          | some (.ok modules1) =>
            match ir_generator.program parts.handlers astA (programState genA a modules1) with
            | .error e => some (.error (.generator e))
            | .ok gen2 => some (.ok (gen2.ext_modules_map.assign a gen2.module))) := by
    intro r hr
    rcases r with _ | e | modules1
    · rw [ir_gen]
      simp only [hparseA, hinitA, husesA, compileUses, hfindb, Option.isNone_none, if_true, hr]
    · rw [ir_gen]
      simp only [hparseA, hinitA, husesA, compileUses, hfindb, Option.isNone_none, if_true, hr]
    · rcases hp : ir_generator.program parts.handlers astA (programState genA a modules1)
        with e | gen2
      · have hp2 := hp
        rw [hstateA] at hp2
        rw [ir_gen]
        simp only [hparseA, hinitA, husesA, compileUses, hfindb, Option.isNone_none, if_true,
          hr, hp2, hp]
      · have hp2 := hp
        rw [hstateA] at hp2
        rw [ir_gen]
        simp only [hparseA, hinitA, husesA, compileUses, hfindb, Option.isNone_none, if_true,
          hr, hp2, hp]
  refine ⟨hfinda, ?_, ?_⟩
  · intro e he
    rw [houter _ (hinnerE e he)]
  · intro genB2 hB
    constructor
    · intro e he
      rw [houter _ (hinnerO genB2 hB)]
      simp only [he]
    · intro genA2 hA
      rw [houter _ (hinnerO genB2 hB)]
      simp only [hA]

/-- C32, amended, at a concrete input: for `A.uhll` being `use B` and `B.uhll`
being `use A`, the call on `A` returns the modules map with both modules. -/
theorem ir_gen_mutual_imports_witness :
    "A" ≠ "B" ∧
    exampleCyclicSources.parse "A" = some (exampleUseProgram "B") ∧
    exampleCyclicSources.parse "B" = some (exampleUseProgram "A") ∧
    (({} : StringModulesMap).find? "B" = none) ∧
    ir_gen exampleCyclicSources (0 + 2) "A" {}
      = some (.ok (StdMap.assign
          { entries := [("A", { name := "A", uses := ["B"] }),
                        ("B", { name := "B", uses := ["A"] })] }
          "A" { name := "A", uses := ["B"] })) :=
  ⟨by decide, rfl, rfl, rfl,
   ((ir_gen_mutual_imports exampleCyclicSources "A" "B" (exampleUseProgram "B")
      (exampleUseProgram "A") {} _ _ 0 (by decide) rfl rfl rfl rfl rfl rfl rfl).2.2
      _ rfl).2 _ rfl⟩

end icode
